import Mathlib

/-! # OmniVM interpreter core: delegation engine and bytecode handlers

A shallow embedding of `vm/src/interpreter/interpreter_bytecodes.cpp`.

* The handlers are state transformers on `Squeak_Interpreter`.
* The operand stack is the slot array the C++ code addresses through `localSP()`;
  the method's bytes are the array it addresses through `localIP()`.
* Every call that leaves the file under study (sends, primitives, heap accessors the
  properties speak about) is appended to `log`, in program order, so that statements
  such as "no send is performed" are statements about the state.
* Assertions are those of a build with `check_assertions` off: they do nothing.
-/

namespace OmniVM

/-! ## Tagged value layer -/

/-- Modelled from the spec: the `Oop` class (its header is not part of the sources). A tagged
32-bit machine word; equality is bit identity. -/
structure Oop where
  bits : Nat
deriving DecidableEq, Repr

/-- Modelled from the spec: the two's-complement reading of a 32-bit word (`oop_int_t`). -/
def toSigned32 (n : Int) : Int :=
  if n % 4294967296 < 2147483648 then n % 4294967296 else n % 4294967296 - 4294967296

namespace Oop

/-- Modelled from the spec: `Oop::from_bits`. -/
def from_bits (b : Nat) : Oop := ⟨b⟩

/-- Modelled from the spec: `Oop::is_int`, "small integer (low tag bit set)". -/
def is_int (o : Oop) : Bool := o.bits % 2 == 1

/-- Modelled from the spec: `Oop::is_mem`, a reference to a heap object. -/
def is_mem (o : Oop) : Bool := !o.is_int

/-- Modelled from the spec: `Oop::integerValue`, "value sign-extended from remaining bits",
that is the arithmetic right shift by one of the signed word. -/
def integerValue (o : Oop) : Int := toSigned32 o.bits / 2

/-- Modelled from the spec: `Oop::isIntegerValue`, the Blue-Book-compatible range test: the
value fits the 31 signed bits left beside the tag. -/
def isIntegerValue (v : Int) : Bool := decide (-1073741824 ≤ v) && decide (v < 1073741824)

/-- Modelled from the spec: `Oop::from_int`, shift left by one and set the tag bit, kept in
32 bits. -/
def from_int (v : Int) : Oop := ⟨((2 * v + 1) % 4294967296).toNat⟩

end Oop

/-- Modelled from the spec: `areIntegers`, both operands are small integers. -/
def areIntegers (a b : Oop) : Bool := a.is_int && b.is_int

/-! ## Object memory view -/

/-- Modelled from the spec: an `Object`, "header (class ...) + indexable fields + one reserved
slot: the domain reference". -/
structure Object where
  domain : Oop
  klass : Oop
  fields : Int → Oop

/-- Modelled from the spec: the execution level, base-level or meta-level. -/
inductive ExecutionLevel where
  | baseLevel
  | metaLevel
deriving DecidableEq, Repr

/-- Calls leaving the translated file and the heap accesses the properties speak about. A send
carries the message it was prepared with: selector, argument count, and the operand-stack
slots from the receiver up to the stack pointer. -/
inductive Event where
  | domain_oop (obj : Oop)
  | set_domain (obj : Oop) (value : Oop)
  | get_domain_customization_encoding (domain : Oop)
  | fetchPointer (obj : Oop) (index : Int)
  | storePointer (obj : Oop) (index : Int) (value : Oop)
  | storePointerUnchecked (obj : Oop) (index : Int) (value : Oop)
  | storePointerIntoContext (index : Int) (value : Oop)
  | omni_requires_delegation (rcvr : Oop) (mask : Int)
  | omni_requires_delegation_for_literals (mask : Int)
  | fetchNextBytecode
  | normalSend (selector : Oop) (argumentCount : Int) (frame : List Oop)
  | superclassSend (selector : Oop) (argumentCount : Int) (frame : List Oop)
  | internalFindNewMethod (selector : Oop) (lkupClass : Oop)
  | internalExecuteNewMethod (argumentCount : Int) (frame : List Oop)
  | primitiveFloatAdd (rcvr : Oop) (arg : Oop)
  | primitiveFloatSubtract (rcvr : Oop) (arg : Oop)
  | primitiveFloatMultiply (rcvr : Oop) (arg : Oop)
  | primitiveFloatDivide (rcvr : Oop) (arg : Oop)
  | primitiveFloatLess (rcvr : Oop) (arg : Oop)
  | primitiveFloatGreater (rcvr : Oop) (arg : Oop)
  | primitiveFloatEqual (rcvr : Oop) (arg : Oop)
  | doPrimitiveMod (rcvr : Oop) (arg : Oop)
  | doPrimitiveDiv (rcvr : Oop) (arg : Oop)
  | primitiveMakePoint
  | primitiveBitShift
  | primitiveBitAnd
  | primitiveBitOr
  | booleanCheat (answer : Bool)
  | atCache_get_entry (rcvr : Oop) (isPut : Bool)
  | commonVariableAt (rcvr : Oop) (index : Int)
  | commonVariableAtPut (rcvr : Oop) (index : Int) (value : Oop)
  | instantiateSmallClass (klass : Oop) (byteSize : Int)
  | omni_set_domain_for_new_object (obj : Oop)
  | internalQuickCheckForInterrupts
  | fatal (msg : String)
  | findNewMethodInClass (selector : Oop) (lookupClass : Oop)
  | executeNewMethodFromCache (method : Oop) (argumentCount : Int) (frame : List Oop)
  | untested
  | instantiateClass (klass : Oop) (size : Int)
deriving DecidableEq, Repr

/-- The `roots` of the interpreter that the handlers use. -/
structure Roots where
  receiver : Oop
  nilObj : Oop
  trueObj : Oop
  falseObj : Oop
  messageSelector : Oop
  lkupClass : Oop
  receiverClass : Oop
  /-- The method the last lookup resolved to, `newMethod_obj()`. -/
  newMethod : Oop

/-- The interpreter state the handlers read and write. -/
structure Squeak_Interpreter where
  roots : Roots
  /-- The domain of the executing method, `_localDomain->as_oop()`. -/
  localDomain : Oop
  executionLevel : ExecutionLevel
  argumentCount : Int
  currentBytecode : Nat
  prevBytecode : Nat
  localIP : Int
  localSP : Int
  instructionPointer : Int
  stackPointer : Int
  successFlag : Bool
  reclaimableContextCount : Int
  image_version : Int
  /-- The reference `activeContext()` answers. -/
  activeContext : Oop
  /-- The reference of `localHomeContext()`. -/
  localHomeContext : Oop
  /-- Whether `process_is_scheduled_and_executing()` holds when a send returns. -/
  process_is_scheduled_and_executing : Bool
  /-- The bytes `localIP()` points into. -/
  code : Int → Nat
  /-- The slots `localSP()` points into. -/
  stack : Int → Oop
  /-- The object `Oop::as_object` answers for each reference. -/
  memory : Oop → Object
  /-- The literal frame of the executing method, `literal(i)`. -/
  literals : Int → Oop
  log : List Event

/-- The fixed masks of `OstDomainSelector_Indices` (declared outside the sources). -/
structure OstDomainSelector_Indices where
  ReadField_Of__Mask : Int
  WriteToFieldMask : Int
  ReadLiteral__Mask : Int
  Write_ToLiteral__Mask : Int
  RequestExecutionMask : Int
  PrimAt_On__Mask : Int
  PrimAt_On_Put__Mask : Int

/-- The interface of `The_OstDomain` (declared outside the sources): the encoding lookup,
the mask test, and the reserved selectors of the domain protocol. -/
structure OstDomain where
  get_domain_customization_encoding : (Oop → Object) → Oop → Oop
  domain_customizes_selectors : Oop → Int → Bool
  request_exec : Int → Oop
  read_field : Oop
  write_field : Oop
  write_field_with_return : Oop
  read_literal : Oop
  write_literal : Oop
  prim_at_on : Oop
  prim_at_put_on : Oop

/-- Result of a primitive that runs on the externalized state. -/
structure PrimitiveOutcome where
  successFlag : Bool
  stackPointer : Int
  stack : Int → Oop
  memory : Oop → Object

/-- Constants and collaborators declared outside the sources, taken as parameters. -/
structure Config where
  The_OstDomain : OstDomain
  masks : OstDomainSelector_Indices
  /-- The bits of `Oop::Illegals::allocated`. -/
  Illegals_allocated : Nat
  /-- The bits of `Oop::Illegals::free_extra_preheader_words`. -/
  Illegals_free_extra_preheader_words : Nat
  specialSelector : Nat → Oop
  fetchClass : (Oop → Object) → Oop → Oop
  ValueIndex : Int
  TempFrameStart : Int
  ClosureOuterContextIndex : Int
  ClosureStartPCIndex : Int
  ClosureNumArgsIndex : Int
  ClosureFirstCopiedValueIndex : Int
  /-- Address `method_obj()->as_u_char_p()` of the executing method. -/
  method_as_u_char_p : Int
  BaseHeaderSize : Int
  sizeof_Oop : Int
  ClassBlockClosure : Oop
  Post_Closure_32_Bit_Image_Version : Int
  /-- The new reference and the heap that `instantiateSmallClass` leaves. -/
  instantiateSmallClass : (Oop → Object) → Oop → Int → Oop × (Oop → Object)
  /-- The domain `omni_set_domain_for_new_object` installs in a new object. -/
  domain_for_new_object : Squeak_Interpreter → Oop
  primitiveFloatAdd : Squeak_Interpreter → Oop → Oop → PrimitiveOutcome
  primitiveFloatSubtract : Squeak_Interpreter → Oop → Oop → PrimitiveOutcome
  primitiveFloatMultiply : Squeak_Interpreter → Oop → Oop → PrimitiveOutcome
  primitiveFloatDivide : Squeak_Interpreter → Oop → Oop → PrimitiveOutcome
  /-- The answer of `primitiveFloatLess` and the success flag it leaves. -/
  primitiveFloatLess : Squeak_Interpreter → Oop → Oop → Bool × Bool
  /-- The answer of `primitiveFloatGreater` and the success flag it leaves. -/
  primitiveFloatGreater : Squeak_Interpreter → Oop → Oop → Bool × Bool
  /-- The answer of `primitiveFloatEqual` and the success flag it leaves. -/
  primitiveFloatEqual : Squeak_Interpreter → Oop → Oop → Bool × Bool
  /-- The answer of `doPrimitiveMod` and the success flag it leaves. -/
  doPrimitiveMod : Squeak_Interpreter → Oop → Oop → Int × Bool
  /-- The answer of `doPrimitiveDiv` and the success flag it leaves. -/
  doPrimitiveDiv : Squeak_Interpreter → Oop → Oop → Int × Bool
  primitiveMakePoint : Squeak_Interpreter → PrimitiveOutcome
  primitiveBitShift : Squeak_Interpreter → PrimitiveOutcome
  primitiveBitAnd : Squeak_Interpreter → PrimitiveOutcome
  primitiveBitOr : Squeak_Interpreter → PrimitiveOutcome
  /-- The state `booleanCheat` leaves for an answer (its log is not used). -/
  booleanCheat : Squeak_Interpreter → Bool → Squeak_Interpreter
  /-- Whether the entry `atCache.get_entry(rcvr, isPut)` matches the receiver. -/
  atCache_matches : Squeak_Interpreter → Oop → Bool → Bool
  /-- The answer of `commonVariableAt` and the success flag it leaves. -/
  commonVariableAt : Squeak_Interpreter → Oop → Int → Oop × Bool
  /-- The heap and the success flag `commonVariableAtPut` leaves. -/
  commonVariableAtPut : Squeak_Interpreter → Oop → Int → Oop → (Oop → Object) × Bool
  /-- The method that the lookup of a selector resolves to, starting at a class. -/
  lookupMethod : (Oop → Object) → Oop → Oop → Oop
  /-- Whether an object is a compiled method, `Object::isCompiledMethod`. -/
  isCompiledMethod : (Oop → Object) → Oop → Bool
  /-- The argument count a method declares, `Object::argumentCount`. -/
  methodArgumentCount : (Oop → Object) → Oop → Int
  /-- The offset that `long_jump_offset` decodes from the bytecode and its extension byte. -/
  long_jump_offset : Nat → Nat → Int
  /-- The state `jumpIfFalseBy(offset)` leaves. -/
  jumpIfFalseBy : Squeak_Interpreter → Int → Squeak_Interpreter
  /-- The reference `splObj(Special_Indices::ClassPoint)`. -/
  ClassPoint : Oop
  XIndex : Int
  YIndex : Int
  /-- The reference `splObj(Special_Indices::ClassArray)`. -/
  ClassArray : Oop
  /-- The new reference and the heap that `instantiateClass` leaves. -/
  instantiateClass : (Oop → Object) → Oop → Int → Oop × (Oop → Object)

/-! ## Stack and instruction stream accessors -/

/-- Appends one event to the log. -/
def record (s : Squeak_Interpreter) (e : Event) : Squeak_Interpreter :=
  { s with log := s.log ++ [e] }

/-- Modelled from the spec: `executes_on_metalevel`, the execution-level flag. -/
def executes_on_metalevel (s : Squeak_Interpreter) : Bool :=
  s.executionLevel == ExecutionLevel.metaLevel

/-- Modelled from the spec: `internalStackValue(n)`, peek at depth `n` (`localSP()[-n]`). -/
def internalStackValue (s : Squeak_Interpreter) (n : Int) : Oop := s.stack (s.localSP - n)

/-- Modelled from the spec: `internalStackTop`. -/
def internalStackTop (s : Squeak_Interpreter) : Oop := s.stack s.localSP

/-- Modelled from the spec: `internalPush`, advance the stack pointer and store. -/
def internalPush (s : Squeak_Interpreter) (v : Oop) : Squeak_Interpreter :=
  { s with localSP := s.localSP + 1, stack := Function.update s.stack (s.localSP + 1) v }

/-- Modelled from the spec: `internalPop(n)`, move the stack pointer down by `n`. -/
def internalPop (s : Squeak_Interpreter) (n : Int) : Squeak_Interpreter :=
  { s with localSP := s.localSP - n }

/-- Modelled from the spec: `internalPopThenPush(n, v)`. -/
def internalPopThenPush (s : Squeak_Interpreter) (n : Int) (v : Oop) : Squeak_Interpreter :=
  { s with localSP := s.localSP - (n - 1),
           stack := Function.update s.stack (s.localSP - (n - 1)) v }

/-- Modelled from the spec: `fetchByte`, advance the instruction pointer and read. -/
def fetchByte (s : Squeak_Interpreter) : Nat × Squeak_Interpreter :=
  (s.code (s.localIP + 1) % 256, { s with localIP := s.localIP + 1 })

/-- Modelled from the spec: `fetchNextBytecode`, read one bytecode and advance. -/
def fetchNextBytecode (s : Squeak_Interpreter) : Squeak_Interpreter :=
  record { s with prevBytecode := s.currentBytecode,
                  currentBytecode := s.code (s.localIP + 1) % 256,
                  localIP := s.localIP + 1 } Event.fetchNextBytecode

/-- The slots from depth `n` up to the stack top, deepest first. -/
def frame (s : Squeak_Interpreter) (n : Int) : List Oop :=
  (List.range (n.toNat + 1)).map (fun k => s.stack (s.localSP - n + k))

/-- Modelled from the spec: `Object::domain_oop`, read of the domain slot. -/
def domain_oop (s : Squeak_Interpreter) (obj : Oop) : Oop × Squeak_Interpreter :=
  ((s.memory obj).domain, record s (Event.domain_oop obj))

/-- Modelled from the spec: `Object::set_domain`, write of the domain slot. -/
def set_domain (s : Squeak_Interpreter) (obj : Oop) (v : Oop) : Squeak_Interpreter :=
  let o := s.memory obj
  record { s with memory := Function.update s.memory obj ({ o with domain := v }) }
    (Event.set_domain obj v)

/-- Modelled from the spec: `Object::storePointer`, write of an indexable field. -/
def storePointer (s : Squeak_Interpreter) (obj : Oop) (i : Int) (v : Oop) :
    Squeak_Interpreter :=
  let o := s.memory obj
  record { s with memory := Function.update s.memory obj
                    ({ o with fields := Function.update o.fields i v }) }
    (Event.storePointer obj i v)

/-- Modelled from the spec: `Object::fetchPointer`, read of an indexable field. -/
def fetchPointer (s : Squeak_Interpreter) (obj : Oop) (i : Int) : Oop × Squeak_Interpreter :=
  ((s.memory obj).fields i, record s (Event.fetchPointer obj i))

/-! ## Delegation decision engine -/

/-- Translation of `Squeak_Interpreter::omni_requires_delegation_for_literals`; its `assert`
is not translated. -/
def omni_requires_delegation_for_literals (c : Config) (s : Squeak_Interpreter)
    (selector_mask : Int) : Bool × Squeak_Interpreter :=
  let s := record s (Event.omni_requires_delegation_for_literals selector_mask)
  if executes_on_metalevel s then (false, s)
  else if s.localDomain = s.roots.nilObj then (false, s)
  else
    let customization :=
      c.The_OstDomain.get_domain_customization_encoding s.memory s.localDomain
    let s := record s (Event.get_domain_customization_encoding s.localDomain)
    (c.The_OstDomain.domain_customizes_selectors customization selector_mask, s)

/-- Translation of `Squeak_Interpreter::omni_requires_delegation`. The locals `exec_domain`
and `exec_oop` are never used and the `check_assertions` block is an assertion; neither is
translated. -/
def omni_requires_delegation (c : Config) (s : Squeak_Interpreter) (rcvr : Oop)
    (selector_mask : Int) : Bool × Squeak_Interpreter :=
  let s := record s (Event.omni_requires_delegation rcvr selector_mask)
  if executes_on_metalevel s then (false, s)
  else if rcvr.is_int || rcvr = Oop.from_bits c.Illegals_allocated then (false, s)
  else
    let (rcvr_domain, s) := domain_oop s rcvr
    if rcvr_domain.bits = 0 || rcvr_domain = s.roots.nilObj then (false, s)
    else if rcvr_domain = Oop.from_bits c.Illegals_free_extra_preheader_words then
      (false, set_domain s rcvr s.roots.nilObj)
    else
      let customization :=
        c.The_OstDomain.get_domain_customization_encoding s.memory rcvr_domain
      let s := record s (Event.get_domain_customization_encoding rcvr_domain)
      (c.The_OstDomain.domain_customizes_selectors customization selector_mask, s)

/-! ## Sends -/

/-- Modelled from the spec: `literal(i)`, the i-th literal of the executing method. -/
def literal (s : Squeak_Interpreter) (i : Int) : Oop := s.literals i

/-- Modelled from the spec: `normalSend`, the transfer to Message Send. The send is recorded
with the selector, argument count and operands it was prepared with; the activation of the
resolved method is not part of the model. -/
def normalSend (s : Squeak_Interpreter) : Squeak_Interpreter :=
  record s (Event.normalSend s.roots.messageSelector s.argumentCount (frame s s.argumentCount))

/-- Modelled from the spec: `superclassSend`, a send whose lookup starts above the defining
class; recorded like `normalSend`. -/
def superclassSend (s : Squeak_Interpreter) : Squeak_Interpreter :=
  record s
    (Event.superclassSend s.roots.messageSelector s.argumentCount (frame s s.argumentCount))

/-- Modelled from the spec: `internalFindNewMethod`, the lookup of the prepared selector
starting at the prepared lookup class (recorded only). -/
def internalFindNewMethod (s : Squeak_Interpreter) : Squeak_Interpreter :=
  record s (Event.internalFindNewMethod s.roots.messageSelector s.roots.lkupClass)

/-- Modelled from the spec: `internalExecuteNewMethod`, the transfer of control into the
resolved method (recorded only, with the receiver and arguments it is handed). -/
def internalExecuteNewMethod (s : Squeak_Interpreter) : Squeak_Interpreter :=
  record s (Event.internalExecuteNewMethod s.argumentCount (frame s s.argumentCount))

/-- Translation of `Squeak_Interpreter::omni_commonInternalSend`. -/
def omni_commonInternalSend (s : Squeak_Interpreter) : Squeak_Interpreter :=
  let s := internalFindNewMethod s
  let s := internalExecuteNewMethod s
  if s.process_is_scheduled_and_executing then fetchNextBytecode s else s

/-- Translation of `Squeak_Interpreter::omni_request_execution`. -/
def omni_request_execution (c : Config) (s : Squeak_Interpreter) : Squeak_Interpreter :=
  let rcvr := internalStackValue s s.argumentCount
  let (rcvr_domain, s) := domain_oop s rcvr
  let argCnt := s.argumentCount
  let s := { s with stack := Function.update s.stack (s.localSP - argCnt) rcvr_domain }
  let s := internalPush s s.roots.messageSelector
  let s := internalPush s rcvr
  let s := { s with argumentCount := argCnt + 2 }
  { s with roots.messageSelector := c.The_OstDomain.request_exec argCnt }

/-- Translation of `Squeak_Interpreter::omni_internal_read_field`. -/
def omni_internal_read_field (c : Config) (s : Squeak_Interpreter) (obj_oop : Oop)
    (idx : Int) : Squeak_Interpreter :=
  let (domain, s) := domain_oop s obj_oop
  let s := internalPush s domain
  let s := internalPush s (Oop.from_int (idx + 1))
  let s := internalPush s obj_oop
  let s := { s with argumentCount := 2 }
  let s := { s with roots.lkupClass := c.fetchClass s.memory domain }
  let s := { s with roots.messageSelector := c.The_OstDomain.read_field }
  omni_commonInternalSend s

/-- Translation of `Squeak_Interpreter::omni_internal_write_field(Oop, int, Oop)`. -/
def omni_internal_write_field (c : Config) (s : Squeak_Interpreter) (obj_oop : Oop)
    (idx : Int) (value : Oop) : Squeak_Interpreter :=
  let (domain, s) := domain_oop s obj_oop
  let s := internalPush s domain
  let s := internalPush s value
  let s := internalPush s (Oop.from_int (idx + 1))
  let s := internalPush s obj_oop
  let s := { s with argumentCount := 3 }
  let s := { s with roots.lkupClass := c.fetchClass s.memory domain }
  let s := { s with roots.messageSelector := c.The_OstDomain.write_field }
  omni_commonInternalSend s

/-- Translation of `Squeak_Interpreter::omni_internal_write_field(Oop, int, Oop, Oop)`, the
overload that also takes the slot beneath the stored value. -/
def omni_internal_write_field_newTop (c : Config) (s : Squeak_Interpreter) (obj_oop : Oop)
    (idx : Int) (value : Oop) (newTop : Oop) : Squeak_Interpreter :=
  let (domain, s) := domain_oop s obj_oop
  let currentStackPtr := s.localSP + 1
  let s := internalPush s domain
  let s := internalPush s value
  let s := internalPush s (Oop.from_int (idx + 1))
  let s := internalPush s obj_oop
  let s := internalPush s newTop
  let s := { s with argumentCount := 4 }
  let s := { s with roots.lkupClass := c.fetchClass s.memory domain }
  let s := { s with roots.messageSelector := c.The_OstDomain.write_field_with_return }
  let s := omni_commonInternalSend s
  { s with stack := Function.update s.stack currentStackPtr newTop }

/-- Translation of `Squeak_Interpreter::omni_internal_read_literal`. -/
def omni_internal_read_literal (c : Config) (s : Squeak_Interpreter) (idx : Int) :
    Squeak_Interpreter :=
  let lit := literal s idx
  let domain := s.localDomain
  let s := internalPush s domain
  let s := internalPush s lit
  let s := { s with argumentCount := 1 }
  let s := { s with roots.lkupClass := c.fetchClass s.memory domain }
  let s := { s with roots.messageSelector := c.The_OstDomain.read_literal }
  omni_commonInternalSend s

/-- Translation of `Squeak_Interpreter::omni_internal_write_literal`. -/
def omni_internal_write_literal (c : Config) (s : Squeak_Interpreter) (lit : Oop)
    (value : Oop) : Squeak_Interpreter :=
  let domain := s.localDomain
  let s := internalPush s domain
  let s := internalPush s value
  let s := internalPush s lit
  let s := { s with argumentCount := 2 }
  let s := { s with roots.lkupClass := c.fetchClass s.memory domain }
  let s := { s with roots.messageSelector := c.The_OstDomain.write_literal }
  omni_commonInternalSend s

/-! ## Helpers of the handlers -/

/-- Modelled from the spec: `fatal`, abort of interpretation with a diagnostic. -/
def fatal (s : Squeak_Interpreter) (msg : String) : Squeak_Interpreter :=
  record s (Event.fatal msg)

/-- Modelled from the spec: `Object::storePointerUnchecked`, a field write without store
check. -/
def storePointerUnchecked (s : Squeak_Interpreter) (obj : Oop) (i : Int) (v : Oop) :
    Squeak_Interpreter :=
  let o := s.memory obj
  record { s with memory := Function.update s.memory obj
                    ({ o with fields := Function.update o.fields i v }) }
    (Event.storePointerUnchecked obj i v)

/-- Modelled from the spec: `localHomeContext()->storePointerIntoContext`. -/
def storePointerIntoContext (s : Squeak_Interpreter) (i : Int) (v : Oop) :
    Squeak_Interpreter :=
  let o := s.memory s.localHomeContext
  record { s with memory := Function.update s.memory s.localHomeContext
                    ({ o with fields := Function.update o.fields i v }) }
    (Event.storePointerIntoContext i v)

/-- Modelled from the spec: `pushReceiverVariable`, push of a receiver field. -/
def pushReceiverVariable (s : Squeak_Interpreter) (i : Int) : Squeak_Interpreter :=
  let (v, s) := fetchPointer s s.roots.receiver i
  internalPush s v

/-- Modelled from the spec: `pushTemporaryVariable`, push of a temporary of the home context. -/
def pushTemporaryVariable (c : Config) (s : Squeak_Interpreter) (i : Int) :
    Squeak_Interpreter :=
  let (v, s) := fetchPointer s s.localHomeContext (i + c.TempFrameStart)
  internalPush s v

/-- Modelled from the spec: `pushLiteralConstant`, push of a literal. -/
def pushLiteralConstant (s : Squeak_Interpreter) (i : Int) : Squeak_Interpreter :=
  internalPush s (literal s i)

/-- Modelled from the spec: `pushLiteralVariable`, push of the value of a literal
association. -/
def pushLiteralVariable (c : Config) (s : Squeak_Interpreter) (i : Int) : Squeak_Interpreter :=
  let (v, s) := fetchPointer s (literal s i) c.ValueIndex
  internalPush s v

/-- Modelled from the spec: `externalizeExecutionState`, spill of the cached registers. -/
def externalizeExecutionState (s : Squeak_Interpreter) : Squeak_Interpreter :=
  { s with instructionPointer := s.localIP, stackPointer := s.localSP }

/-- Modelled from the spec: `internalizeExecutionState`, reload of the cached registers. -/
def internalizeExecutionState (s : Squeak_Interpreter) : Squeak_Interpreter :=
  { s with localIP := s.instructionPointer, localSP := s.stackPointer }

/-- Call of `primitiveFloatAdd` on the externalized state. -/
def primitiveFloatAdd (c : Config) (s : Squeak_Interpreter) (rcvr arg : Oop) :
    Squeak_Interpreter :=
  let r := c.primitiveFloatAdd s rcvr arg
  record { s with successFlag := r.successFlag, stackPointer := r.stackPointer,
                  stack := r.stack, memory := r.memory }
    (Event.primitiveFloatAdd rcvr arg)

/-- Call of a primitive that runs on the externalized state: it leaves a success flag, an
external stack pointer, stack contents and a heap, and the call is recorded. -/
def callPrimitive (s : Squeak_Interpreter) (r : PrimitiveOutcome) (e : Event) :
    Squeak_Interpreter :=
  record { s with successFlag := r.successFlag, stackPointer := r.stackPointer,
                  stack := r.stack, memory := r.memory } e

/-- Call of `primitiveFloatSubtract` on the externalized state. -/
def primitiveFloatSubtract (c : Config) (s : Squeak_Interpreter) (rcvr arg : Oop) :
    Squeak_Interpreter :=
  callPrimitive s (c.primitiveFloatSubtract s rcvr arg) (Event.primitiveFloatSubtract rcvr arg)

/-- Call of `primitiveFloatMultiply` on the externalized state. -/
def primitiveFloatMultiply (c : Config) (s : Squeak_Interpreter) (rcvr arg : Oop) :
    Squeak_Interpreter :=
  callPrimitive s (c.primitiveFloatMultiply s rcvr arg) (Event.primitiveFloatMultiply rcvr arg)

/-- Call of `primitiveFloatDivide` on the externalized state. -/
def primitiveFloatDivide (c : Config) (s : Squeak_Interpreter) (rcvr arg : Oop) :
    Squeak_Interpreter :=
  callPrimitive s (c.primitiveFloatDivide s rcvr arg) (Event.primitiveFloatDivide rcvr arg)

/-- Call of `primitiveMakePoint` on the externalized state. -/
def primitiveMakePoint (c : Config) (s : Squeak_Interpreter) : Squeak_Interpreter :=
  callPrimitive s (c.primitiveMakePoint s) Event.primitiveMakePoint

/-- Call of `primitiveBitShift` on the externalized state. -/
def primitiveBitShift (c : Config) (s : Squeak_Interpreter) : Squeak_Interpreter :=
  callPrimitive s (c.primitiveBitShift s) Event.primitiveBitShift

/-- Call of `primitiveBitAnd` on the externalized state. -/
def primitiveBitAnd (c : Config) (s : Squeak_Interpreter) : Squeak_Interpreter :=
  callPrimitive s (c.primitiveBitAnd s) Event.primitiveBitAnd

/-- Call of `primitiveBitOr` on the externalized state. -/
def primitiveBitOr (c : Config) (s : Squeak_Interpreter) : Squeak_Interpreter :=
  callPrimitive s (c.primitiveBitOr s) Event.primitiveBitOr

/-- Call of `primitiveFloatLess`: its answer, and the state with the success flag it leaves. -/
def primitiveFloatLess (c : Config) (s : Squeak_Interpreter) (rcvr arg : Oop) :
    Bool × Squeak_Interpreter :=
  ((c.primitiveFloatLess s rcvr arg).1,
    record { s with successFlag := (c.primitiveFloatLess s rcvr arg).2 }
      (Event.primitiveFloatLess rcvr arg))

/-- Call of `primitiveFloatGreater`: its answer, and the state with the success flag it
leaves. -/
def primitiveFloatGreater (c : Config) (s : Squeak_Interpreter) (rcvr arg : Oop) :
    Bool × Squeak_Interpreter :=
  ((c.primitiveFloatGreater s rcvr arg).1,
    record { s with successFlag := (c.primitiveFloatGreater s rcvr arg).2 }
      (Event.primitiveFloatGreater rcvr arg))

/-- Call of `primitiveFloatEqual`: its answer, and the state with the success flag it
leaves. -/
def primitiveFloatEqual (c : Config) (s : Squeak_Interpreter) (rcvr arg : Oop) :
    Bool × Squeak_Interpreter :=
  ((c.primitiveFloatEqual s rcvr arg).1,
    record { s with successFlag := (c.primitiveFloatEqual s rcvr arg).2 }
      (Event.primitiveFloatEqual rcvr arg))

/-- Call of `doPrimitiveMod`: its answer, and the state with the success flag it leaves. -/
def doPrimitiveMod (c : Config) (s : Squeak_Interpreter) (rcvr arg : Oop) :
    Int × Squeak_Interpreter :=
  ((c.doPrimitiveMod s rcvr arg).1,
    record { s with successFlag := (c.doPrimitiveMod s rcvr arg).2 }
      (Event.doPrimitiveMod rcvr arg))

/-- Call of `doPrimitiveDiv`: its answer, and the state with the success flag it leaves. -/
def doPrimitiveDiv (c : Config) (s : Squeak_Interpreter) (rcvr arg : Oop) :
    Int × Squeak_Interpreter :=
  ((c.doPrimitiveDiv s rcvr arg).1,
    record { s with successFlag := (c.doPrimitiveDiv s rcvr arg).2 }
      (Event.doPrimitiveDiv rcvr arg))

/-- Call of `booleanCheat`: the state it leaves for the answer, with the call recorded. -/
def booleanCheat (c : Config) (s : Squeak_Interpreter) (answer : Bool) : Squeak_Interpreter :=
  record { c.booleanCheat s answer with log := s.log } (Event.booleanCheat answer)

/-- Call of `atCache.get_entry(rcvr, isPut)` followed by `e->matches(rcvr)`. -/
def atCache_get_entry_matches (c : Config) (s : Squeak_Interpreter) (rcvr : Oop)
    (isPut : Bool) : Bool × Squeak_Interpreter :=
  (c.atCache_matches s rcvr isPut, record s (Event.atCache_get_entry rcvr isPut))

/-- Call of `commonVariableAt`: its answer, and the state with the success flag it leaves. -/
def commonVariableAt (c : Config) (s : Squeak_Interpreter) (rcvr : Oop) (index : Int) :
    Oop × Squeak_Interpreter :=
  ((c.commonVariableAt s rcvr index).1,
    record { s with successFlag := (c.commonVariableAt s rcvr index).2 }
      (Event.commonVariableAt rcvr index))

/-- Call of `commonVariableAtPut`: the state with the heap and the success flag it leaves. -/
def commonVariableAtPut (c : Config) (s : Squeak_Interpreter) (rcvr : Oop) (index : Int)
    (value : Oop) : Squeak_Interpreter :=
  record { s with memory := (c.commonVariableAtPut s rcvr index value).1,
                  successFlag := (c.commonVariableAtPut s rcvr index value).2 }
    (Event.commonVariableAtPut rcvr index value)

/-- Modelled from the spec: `omni_set_domain_for_new_object`, the installation of a domain
in a freshly created object. -/
def omni_set_domain_for_new_object (c : Config) (s : Squeak_Interpreter) (obj : Oop) :
    Squeak_Interpreter :=
  let o := s.memory obj
  record { s with memory := Function.update s.memory obj
                    ({ o with domain := c.domain_for_new_object s }) }
    (Event.omni_set_domain_for_new_object obj)

/-! ## Bytecode handlers -/

/-- Translation of `Squeak_Interpreter::storeAndPopReceiverVariableBytecode`. -/
def storeAndPopReceiverVariableBytecode (c : Config) (s : Squeak_Interpreter) :
    Squeak_Interpreter :=
  let (delegate, s) := omni_requires_delegation c s s.roots.receiver c.masks.WriteToFieldMask
  if delegate then
    let value := internalStackTop s
    let newTop := internalStackValue s 1
    let s := internalPop s 2
    omni_internal_write_field_newTop c s s.roots.receiver
      ((s.currentBytecode &&& 7 : Nat) : Int) value newTop
  else
    let s := fetchNextBytecode s
    let s := storePointer s s.roots.receiver ((s.prevBytecode &&& 7 : Nat) : Int)
      (internalStackTop s)
    internalPop s 1

/-- Translation of `Squeak_Interpreter::extendedStoreBytecode`. -/
def extendedStoreBytecode (c : Config) (s : Squeak_Interpreter) : Squeak_Interpreter :=
  let (d, s) := fetchByte s
  let vi : Int := ((d &&& 63 : Nat) : Int)
  match (d >>> 6) &&& 3 with
  | 0 =>
    let (delegate, s) :=
      omni_requires_delegation c s s.roots.receiver c.masks.WriteToFieldMask
    if delegate then
      let value := internalStackTop s
      let s := internalPop s 1
      omni_internal_write_field c s s.roots.receiver vi value
    else
      let s := fetchNextBytecode s
      storePointer s s.roots.receiver vi (internalStackTop s)
  | 1 =>
    let s := fetchNextBytecode s
    storePointerIntoContext s (vi + c.TempFrameStart) (internalStackTop s)
  | 2 =>
    let s := fetchNextBytecode s
    fatal s "illegal store"
  | _ =>
    let (delegate, s) :=
      omni_requires_delegation_for_literals c s c.masks.Write_ToLiteral__Mask
    if delegate then
      let val := internalStackTop s
      let s := internalPop s 1
      omni_internal_write_literal c s (literal s vi) val
    else
      let s := fetchNextBytecode s
      storePointer s (literal s vi) c.ValueIndex (internalStackTop s)

/-- Translation of `Squeak_Interpreter::extendedStoreAndPopBytecode`. -/
def extendedStoreAndPopBytecode (c : Config) (s : Squeak_Interpreter) : Squeak_Interpreter :=
  let (d, s) := fetchByte s
  let vi : Int := ((d &&& 63 : Nat) : Int)
  match (d >>> 6) &&& 3 with
  | 0 =>
    let (delegate, s) :=
      omni_requires_delegation c s s.roots.receiver c.masks.WriteToFieldMask
    if delegate then
      let value := internalStackTop s
      let newTop := internalStackValue s 1
      let s := internalPop s 2
      omni_internal_write_field_newTop c s s.roots.receiver vi value newTop
    else
      let s := fetchNextBytecode s
      let s := storePointer s s.roots.receiver vi (internalStackTop s)
      internalPop s 1
  | 1 =>
    let s := fetchNextBytecode s
    let s := storePointerIntoContext s (vi + c.TempFrameStart) (internalStackTop s)
    internalPop s 1
  | 2 =>
    let s := fetchNextBytecode s
    fatal s "illegal store"
  | _ =>
    let (delegate, s) :=
      omni_requires_delegation_for_literals c s c.masks.Write_ToLiteral__Mask
    if delegate then
      let val := internalStackTop s
      let s := internalPop s 1
      omni_internal_write_literal c s (literal s vi) val
    else
      let s := fetchNextBytecode s
      let s := storePointer s (literal s vi) c.ValueIndex (internalStackTop s)
      internalPop s 1

/-- Translation of `Squeak_Interpreter::doubleExtendedDoAnythingBytecode`. -/
def doubleExtendedDoAnythingBytecode (c : Config) (s : Squeak_Interpreter) :
    Squeak_Interpreter :=
  let (b2, s) := fetchByte s
  let (b3n, s) := fetchByte s
  let b3 : Int := (b3n : Int)
  match b2 >>> 5 with
  | 0 =>
    let s := { s with roots.messageSelector := literal s b3 }
    let s := { s with argumentCount := ((b2 &&& 31 : Nat) : Int) }
    let rcvr := internalStackValue s s.argumentCount
    let (delegate, s) := omni_requires_delegation c s rcvr c.masks.RequestExecutionMask
    let s := if delegate then omni_request_execution c s else s
    normalSend s
  | 1 =>
    let s := { s with roots.messageSelector := literal s b3 }
    let s := { s with argumentCount := ((b2 &&& 31 : Nat) : Int) }
    superclassSend s
  | 2 =>
    let s := fetchNextBytecode s
    let (delegate, s) :=
      omni_requires_delegation c s s.roots.receiver c.masks.ReadField_Of__Mask
    if delegate then omni_internal_read_field c s s.roots.receiver b3
    else pushReceiverVariable s b3
  | 3 =>
    let s := fetchNextBytecode s
    pushLiteralConstant s b3
  | 4 =>
    let (delegate, s) :=
      omni_requires_delegation_for_literals c s c.masks.ReadLiteral__Mask
    if delegate then omni_internal_read_literal c s b3
    else
      let s := fetchNextBytecode s
      pushLiteralVariable c s b3
  | 5 =>
    let (delegate, s) :=
      omni_requires_delegation c s s.roots.receiver c.masks.WriteToFieldMask
    if delegate then
      let top := internalStackTop s
      let s := internalPop s 1
      omni_internal_write_field c s s.roots.receiver b3 top
    else
      let s := fetchNextBytecode s
      storePointer s s.roots.receiver b3 (internalStackTop s)
  | 6 =>
    let (delegate, s) :=
      omni_requires_delegation c s s.roots.receiver c.masks.WriteToFieldMask
    if delegate then
      let top := internalStackTop s
      let newTop := internalStackValue s 1
      let s := internalPop s 2
      omni_internal_write_field_newTop c s s.roots.receiver b3 top newTop
    else
      let s := fetchNextBytecode s
      let top := internalStackTop s
      let s := internalPop s 1
      storePointer s s.roots.receiver b3 top
  | _ =>
    let (delegate, s) :=
      omni_requires_delegation_for_literals c s c.masks.Write_ToLiteral__Mask
    if delegate then
      let val := internalStackTop s
      let s := internalPop s 1
      omni_internal_write_literal c s (literal s b3) val
    else
      let s := fetchNextBytecode s
      storePointer s (literal s b3) c.ValueIndex (internalStackTop s)

/-- Translation of `Squeak_Interpreter::pushReceiverVariableBytecode`. -/
def pushReceiverVariableBytecode (c : Config) (s : Squeak_Interpreter) : Squeak_Interpreter :=
  let (delegate, s) :=
    omni_requires_delegation c s s.roots.receiver c.masks.ReadField_Of__Mask
  if delegate then
    omni_internal_read_field c s s.roots.receiver ((s.currentBytecode &&& 15 : Nat) : Int)
  else
    let s := fetchNextBytecode s
    pushReceiverVariable s ((s.prevBytecode &&& 15 : Nat) : Int)

/-- Translation of `Squeak_Interpreter::pushLiteralVariableBytecode`. -/
def pushLiteralVariableBytecode (c : Config) (s : Squeak_Interpreter) : Squeak_Interpreter :=
  let (delegate, s) := omni_requires_delegation_for_literals c s c.masks.ReadLiteral__Mask
  if delegate then
    omni_internal_read_literal c s ((s.currentBytecode &&& 31 : Nat) : Int)
  else
    let s := fetchNextBytecode s
    pushLiteralVariable c s ((s.prevBytecode &&& 31 : Nat) : Int)

/-- Translation of `Squeak_Interpreter::extendedPushBytecode`. -/
def extendedPushBytecode (c : Config) (s : Squeak_Interpreter) : Squeak_Interpreter :=
  let (descriptor, s) := fetchByte s
  let s := fetchNextBytecode s
  let i : Int := ((descriptor &&& 63 : Nat) : Int)
  match (descriptor >>> 6) &&& 3 with
  | 0 =>
    let (delegate, s) :=
      omni_requires_delegation c s s.roots.receiver c.masks.ReadField_Of__Mask
    if delegate then omni_internal_read_field c s s.roots.receiver i
    else pushReceiverVariable s i
  | 1 => pushTemporaryVariable c s i
  | 2 => pushLiteralConstant s i
  | _ =>
    let (delegate, s) := omni_requires_delegation_for_literals c s c.masks.ReadLiteral__Mask
    if delegate then omni_internal_read_literal c s i
    else pushLiteralVariable c s i

/-- Translation of `Squeak_Interpreter::bytecodePrimAdd`. -/
def bytecodePrimAdd (c : Config) (s : Squeak_Interpreter) : Squeak_Interpreter :=
  let rcvr := internalStackValue s 1
  let arg := internalStackValue s 0
  let genericSend := fun (delegate : Bool) (s : Squeak_Interpreter) =>
    let s := { s with roots.messageSelector := c.specialSelector 0 }
    let s := { s with argumentCount := 1 }
    let s := if delegate then omni_request_execution c s else s
    normalSend s
  if areIntegers rcvr arg then
    let r := toSigned32 (rcvr.integerValue + arg.integerValue)
    if Oop.isIntegerValue r then
      let s := internalPopThenPush s 2 (Oop.from_int r)
      fetchNextBytecode s
    else genericSend false s
  else
    let (delegate, s) := omni_requires_delegation c s rcvr c.masks.RequestExecutionMask
    if !delegate then
      let s := { s with successFlag := true }
      let s := externalizeExecutionState s
      let s := primitiveFloatAdd c s rcvr arg
      let s := internalizeExecutionState s
      if s.successFlag then fetchNextBytecode s
      else genericSend delegate s
    else genericSend delegate s

/-- Translation of `Squeak_Interpreter::omni_internal_request_primitive_at`. -/
def omni_internal_request_primitive_at (c : Config) (s : Squeak_Interpreter)
    (primSelector : Oop) : Squeak_Interpreter :=
  let index := internalStackTop s
  let rcvr := internalStackValue s 1
  let (rcvr_domain, s) := domain_oop s rcvr
  let s := internalPopThenPush s 2 rcvr_domain
  let s := internalPush s index
  let s := internalPush s rcvr
  let s := { s with argumentCount := 2 }
  let s := { s with roots.messageSelector := primSelector }
  let s := { s with roots.lkupClass := c.fetchClass s.memory rcvr_domain }
  omni_commonInternalSend s

/-- Translation of `Squeak_Interpreter::omni_internal_request_primitive_atPut`. -/
def omni_internal_request_primitive_atPut (c : Config) (s : Squeak_Interpreter)
    (primSelector : Oop) : Squeak_Interpreter :=
  let value := internalStackTop s
  let index := internalStackValue s 1
  let rcvr := internalStackValue s 2
  let (rcvr_domain, s) := domain_oop s rcvr
  let s := internalPopThenPush s 3 rcvr_domain
  let s := internalPush s index
  let s := internalPush s rcvr
  let s := internalPush s value
  let s := { s with argumentCount := 3 }
  let s := { s with roots.messageSelector := primSelector }
  let s := { s with roots.lkupClass := c.fetchClass s.memory rcvr_domain }
  omni_commonInternalSend s

/-- Translation of `Squeak_Interpreter::bytecodePrimSubtract`. -/
def bytecodePrimSubtract (c : Config) (s : Squeak_Interpreter) : Squeak_Interpreter :=
  let rcvr := internalStackValue s 1
  let arg := internalStackValue s 0
  let genericSend := fun (delegate : Bool) (s : Squeak_Interpreter) =>
    let s := { s with roots.messageSelector := c.specialSelector 1 }
    let s := { s with argumentCount := 1 }
    let s := if delegate then omni_request_execution c s else s
    normalSend s
  if areIntegers rcvr arg then
    let r := toSigned32 (rcvr.integerValue - arg.integerValue)
    if Oop.isIntegerValue r then
      let s := internalPopThenPush s 2 (Oop.from_int r)
      fetchNextBytecode s
    else genericSend false s
  else
    let (delegate, s) := omni_requires_delegation c s rcvr c.masks.RequestExecutionMask
    if !delegate then
      let s := { s with successFlag := true }
      let s := externalizeExecutionState s
      let s := primitiveFloatSubtract c s rcvr arg
      let s := internalizeExecutionState s
      if s.successFlag then fetchNextBytecode s
      else genericSend delegate s
    else genericSend delegate s

/-- Translation of `Squeak_Interpreter::bytecodePrimMultiply`. The product of two 31-bit
values fits the `long long` it is computed in. -/
def bytecodePrimMultiply (c : Config) (s : Squeak_Interpreter) : Squeak_Interpreter :=
  let rcvr := internalStackValue s 1
  let arg := internalStackValue s 0
  let genericSend := fun (delegate : Bool) (s : Squeak_Interpreter) =>
    let s := { s with roots.messageSelector := c.specialSelector 8 }
    let s := { s with argumentCount := 1 }
    let s := if delegate then omni_request_execution c s else s
    normalSend s
  if areIntegers rcvr arg then
    let ri := rcvr.integerValue
    let ai := arg.integerValue
    let result_with_overflow := ri * ai
    if ai == 0 || Oop.isIntegerValue result_with_overflow then
      let s := internalPopThenPush s 2 (Oop.from_int result_with_overflow)
      fetchNextBytecode s
    else genericSend false s
  else
    let (delegate, s) := omni_requires_delegation c s rcvr c.masks.RequestExecutionMask
    if !delegate then
      let s := { s with successFlag := true }
      let s := externalizeExecutionState s
      let s := primitiveFloatMultiply c s rcvr arg
      let s := internalizeExecutionState s
      if s.successFlag then fetchNextBytecode s
      else genericSend delegate s
    else genericSend delegate s

/-- Translation of `Squeak_Interpreter::bytecodePrimDivide`; `%` and `/` of C truncate
toward zero. -/
def bytecodePrimDivide (c : Config) (s : Squeak_Interpreter) : Squeak_Interpreter :=
  let rcvr := internalStackValue s 1
  let arg := internalStackValue s 0
  let genericSend := fun (delegate : Bool) (s : Squeak_Interpreter) =>
    let s := { s with roots.messageSelector := c.specialSelector 9 }
    let s := { s with argumentCount := 1 }
    let s := if delegate then omni_request_execution c s else s
    normalSend s
  if areIntegers rcvr arg then
    let ri := rcvr.integerValue
    let ai := arg.integerValue
    if ai != 0 && Int.tmod ri ai == 0 then
      let r := toSigned32 (Int.tdiv ri ai)
      if Oop.isIntegerValue r then
        let s := internalPopThenPush s 2 (Oop.from_int r)
        fetchNextBytecode s
      else genericSend false s
    else genericSend false s
  else
    let (delegate, s) := omni_requires_delegation c s rcvr c.masks.RequestExecutionMask
    if !delegate then
      let s := { s with successFlag := true }
      let s := externalizeExecutionState s
      let s := primitiveFloatDivide c s rcvr arg
      let s := internalizeExecutionState s
      if s.successFlag then fetchNextBytecode s
      else genericSend delegate s
    else genericSend delegate s

/-- Translation of `Squeak_Interpreter::bytecodePrimMod`. -/
def bytecodePrimMod (c : Config) (s : Squeak_Interpreter) : Squeak_Interpreter :=
  let rcvr := internalStackValue s 1
  let s := { s with successFlag := true }
  let (mod, s) := doPrimitiveMod c s rcvr (internalStackValue s 0)
  if s.successFlag then
    let s := internalPopThenPush s 2 (Oop.from_int mod)
    fetchNextBytecode s
  else
    let s := { s with roots.messageSelector := c.specialSelector 10 }
    let s := { s with argumentCount := 1 }
    let (delegate, s) := omni_requires_delegation c s rcvr c.masks.RequestExecutionMask
    let s := if delegate then omni_request_execution c s else s
    normalSend s

/-- Translation of `Squeak_Interpreter::bytecodePrimLessThan`. -/
def bytecodePrimLessThan (c : Config) (s : Squeak_Interpreter) : Squeak_Interpreter :=
  let rcvr := internalStackValue s 1
  let arg := internalStackValue s 0
  if areIntegers rcvr arg then
    booleanCheat c s (decide (rcvr.integerValue < arg.integerValue))
  else
    let s := { s with successFlag := true }
    let (delegate, s) := omni_requires_delegation c s rcvr c.masks.RequestExecutionMask
    let genericSend := fun (s : Squeak_Interpreter) =>
      let s := { s with roots.messageSelector := c.specialSelector 2 }
      let s := { s with argumentCount := 1 }
      let s := if delegate then omni_request_execution c s else s
      normalSend s
    if !delegate then
      let (aBool, s) := primitiveFloatLess c s rcvr arg
      if s.successFlag then booleanCheat c s aBool
      else genericSend s
    else genericSend s

/-- Translation of `Squeak_Interpreter::bytecodePrimGreaterThan`. -/
def bytecodePrimGreaterThan (c : Config) (s : Squeak_Interpreter) : Squeak_Interpreter :=
  let rcvr := internalStackValue s 1
  let arg := internalStackValue s 0
  if areIntegers rcvr arg then
    booleanCheat c s (decide (rcvr.integerValue > arg.integerValue))
  else
    let s := { s with successFlag := true }
    let (delegate, s) := omni_requires_delegation c s rcvr c.masks.RequestExecutionMask
    let genericSend := fun (s : Squeak_Interpreter) =>
      let s := { s with roots.messageSelector := c.specialSelector 3 }
      let s := { s with argumentCount := 1 }
      let s := if delegate then omni_request_execution c s else s
      normalSend s
    if !delegate then
      let (aBool, s) := primitiveFloatGreater c s rcvr arg
      if s.successFlag then booleanCheat c s aBool
      else genericSend s
    else genericSend s

/-- Translation of `Squeak_Interpreter::bytecodePrimLessOrEqual`. -/
def bytecodePrimLessOrEqual (c : Config) (s : Squeak_Interpreter) : Squeak_Interpreter :=
  let rcvr := internalStackValue s 1
  let arg := internalStackValue s 0
  if areIntegers rcvr arg then
    booleanCheat c s (decide (rcvr.integerValue ≤ arg.integerValue))
  else
    let s := { s with successFlag := true }
    let (delegate, s) := omni_requires_delegation c s rcvr c.masks.RequestExecutionMask
    let genericSend := fun (s : Squeak_Interpreter) =>
      let s := { s with roots.messageSelector := c.specialSelector 4 }
      let s := { s with argumentCount := 1 }
      let s := if delegate then omni_request_execution c s else s
      normalSend s
    if !delegate then
      let (greater, s) := primitiveFloatGreater c s rcvr arg
      let aBool := !greater
      if s.successFlag then booleanCheat c s aBool
      else genericSend s
    else genericSend s

/-- Translation of `Squeak_Interpreter::bytecodePrimGreaterOrEqual`. -/
def bytecodePrimGreaterOrEqual (c : Config) (s : Squeak_Interpreter) : Squeak_Interpreter :=
  let rcvr := internalStackValue s 1
  let arg := internalStackValue s 0
  if areIntegers rcvr arg then
    booleanCheat c s (decide (rcvr.integerValue ≥ arg.integerValue))
  else
    let (delegate, s) := omni_requires_delegation c s rcvr c.masks.RequestExecutionMask
    let genericSend := fun (s : Squeak_Interpreter) =>
      let s := { s with roots.messageSelector := c.specialSelector 5 }
      let s := { s with argumentCount := 1 }
      let s := if delegate then omni_request_execution c s else s
      normalSend s
    if !delegate then
      let s := { s with successFlag := true }
      let (less, s) := primitiveFloatLess c s rcvr arg
      let aBool := !less
      if s.successFlag then booleanCheat c s aBool
      else genericSend s
    else genericSend s

/-- Translation of `Squeak_Interpreter::bytecodePrimEqual`. -/
def bytecodePrimEqual (c : Config) (s : Squeak_Interpreter) : Squeak_Interpreter :=
  let rcvr := internalStackValue s 1
  let arg := internalStackValue s 0
  if areIntegers rcvr arg then
    booleanCheat c s (decide (rcvr = arg))
  else
    let (delegate, s) := omni_requires_delegation c s rcvr c.masks.RequestExecutionMask
    let genericSend := fun (s : Squeak_Interpreter) =>
      let s := { s with roots.messageSelector := c.specialSelector 6 }
      let s := { s with argumentCount := 1 }
      let s := if delegate then omni_request_execution c s else s
      normalSend s
    if !delegate then
      let s := { s with successFlag := true }
      let (aBool, s) := primitiveFloatEqual c s rcvr arg
      if s.successFlag then booleanCheat c s aBool
      else genericSend s
    else genericSend s

/-- Translation of `Squeak_Interpreter::bytecodePrimNotEqual`. -/
def bytecodePrimNotEqual (c : Config) (s : Squeak_Interpreter) : Squeak_Interpreter :=
  let rcvr := internalStackValue s 1
  let arg := internalStackValue s 0
  if areIntegers rcvr arg then
    booleanCheat c s (decide (rcvr ≠ arg))
  else
    let (delegate, s) := omni_requires_delegation c s rcvr c.masks.RequestExecutionMask
    let genericSend := fun (s : Squeak_Interpreter) =>
      let s := { s with roots.messageSelector := c.specialSelector 7 }
      let s := { s with argumentCount := 1 }
      let s := if delegate then omni_request_execution c s else s
      normalSend s
    if !delegate then
      let s := { s with successFlag := true }
      let (equal, s) := primitiveFloatEqual c s rcvr arg
      let aBool := !equal
      if s.successFlag then booleanCheat c s aBool
      else genericSend s
    else genericSend s

/-- Translation of `Squeak_Interpreter::bytecodePrimMakePoint`. -/
def bytecodePrimMakePoint (c : Config) (s : Squeak_Interpreter) : Squeak_Interpreter :=
  let s := { s with successFlag := true }
  let s := externalizeExecutionState s
  let s := primitiveMakePoint c s
  let s := internalizeExecutionState s
  if s.successFlag then fetchNextBytecode s
  else
    let rcvr := internalStackValue s 1
    let (delegate, s) := omni_requires_delegation c s rcvr c.masks.RequestExecutionMask
    let s := { s with roots.messageSelector := c.specialSelector 11 }
    let s := { s with argumentCount := 1 }
    let s := if delegate then omni_request_execution c s else s
    normalSend s

/-- Translation of `Squeak_Interpreter::bytecodePrimBitShift`. -/
def bytecodePrimBitShift (c : Config) (s : Squeak_Interpreter) : Squeak_Interpreter :=
  let s := { s with successFlag := true }
  let s := externalizeExecutionState s
  let s := primitiveBitShift c s
  let s := internalizeExecutionState s
  if s.successFlag then fetchNextBytecode s
  else
    let s := { s with roots.messageSelector := c.specialSelector 12 }
    let s := { s with argumentCount := 1 }
    let rcvr := internalStackValue s 1
    let (delegate, s) := omni_requires_delegation c s rcvr c.masks.RequestExecutionMask
    let s := if delegate then omni_request_execution c s else s
    normalSend s

/-- Translation of `Squeak_Interpreter::bytecodePrimDiv`. -/
def bytecodePrimDiv (c : Config) (s : Squeak_Interpreter) : Squeak_Interpreter :=
  let s := { s with successFlag := true }
  let (quotient, s) := doPrimitiveDiv c s (internalStackValue s 1) (internalStackValue s 0)
  if s.successFlag then
    let s := internalPopThenPush s 2 (Oop.from_int quotient)
    fetchNextBytecode s
  else
    let s := { s with roots.messageSelector := c.specialSelector 13 }
    let s := { s with argumentCount := 1 }
    let rcvr := internalStackValue s 1
    let (delegate, s) := omni_requires_delegation c s rcvr c.masks.RequestExecutionMask
    let s := if delegate then omni_request_execution c s else s
    normalSend s

/-- Translation of `Squeak_Interpreter::bytecodePrimBitAnd`. -/
def bytecodePrimBitAnd (c : Config) (s : Squeak_Interpreter) : Squeak_Interpreter :=
  let s := { s with successFlag := true }
  let s := externalizeExecutionState s
  let s := primitiveBitAnd c s
  let s := internalizeExecutionState s
  if s.successFlag then fetchNextBytecode s
  else
    let s := { s with roots.messageSelector := c.specialSelector 14 }
    let s := { s with argumentCount := 1 }
    let rcvr := internalStackValue s 1
    let (delegate, s) := omni_requires_delegation c s rcvr c.masks.RequestExecutionMask
    let s := if delegate then omni_request_execution c s else s
    normalSend s

/-- Translation of `Squeak_Interpreter::bytecodePrimBitOr`. -/
def bytecodePrimBitOr (c : Config) (s : Squeak_Interpreter) : Squeak_Interpreter :=
  let s := { s with successFlag := true }
  let s := externalizeExecutionState s
  let s := primitiveBitOr c s
  let s := internalizeExecutionState s
  if s.successFlag then fetchNextBytecode s
  else
    let s := { s with roots.messageSelector := c.specialSelector 15 }
    let s := { s with argumentCount := 1 }
    let rcvr := internalStackValue s 1
    let (delegate, s) := omni_requires_delegation c s rcvr c.masks.RequestExecutionMask
    let s := if delegate then omni_request_execution c s else s
    normalSend s

/-- Translation of `Squeak_Interpreter::bytecodePrimAt`. -/
def bytecodePrimAt (c : Config) (s : Squeak_Interpreter) : Squeak_Interpreter :=
  let index := internalStackTop s
  let rcvr := internalStackValue s 1
  let (delegateExec, s) := omni_requires_delegation c s rcvr c.masks.RequestExecutionMask
  let s := { s with successFlag := rcvr.is_mem && index.is_int }
  let genericSend := fun (s : Squeak_Interpreter) =>
    let s := { s with roots.messageSelector := c.specialSelector 16 }
    let s := { s with argumentCount := 1 }
    let s := if delegateExec then omni_request_execution c s else s
    normalSend s
  if !delegateExec && s.successFlag then
    let (delegatePrim, s) := omni_requires_delegation c s rcvr c.masks.PrimAt_On__Mask
    if delegatePrim then
      omni_internal_request_primitive_at c s c.The_OstDomain.prim_at_on
    else
      let (isMatch, s) := atCache_get_entry_matches c s rcvr false
      if isMatch then
        let (result, s) := commonVariableAt c s rcvr index.integerValue
        if s.successFlag then
          let s := fetchNextBytecode s
          internalPopThenPush s 2 result
        else genericSend s
      else genericSend s
  else genericSend s

/-- Translation of `Squeak_Interpreter::bytecodePrimAtPut`. -/
def bytecodePrimAtPut (c : Config) (s : Squeak_Interpreter) : Squeak_Interpreter :=
  let value := internalStackTop s
  let index := internalStackValue s 1
  let rcvr := internalStackValue s 2
  let (delegateExec, s) := omni_requires_delegation c s rcvr c.masks.RequestExecutionMask
  let s := { s with successFlag := rcvr.is_mem && index.is_int }
  let genericSend := fun (s : Squeak_Interpreter) =>
    let s := { s with roots.messageSelector := c.specialSelector 17 }
    let s := { s with argumentCount := 2 }
    let s := if delegateExec then omni_request_execution c s else s
    normalSend s
  if !delegateExec && s.successFlag then
    let (delegatePrim, s) := omni_requires_delegation c s rcvr c.masks.PrimAt_On_Put__Mask
    if delegatePrim then
      omni_internal_request_primitive_atPut c s c.The_OstDomain.prim_at_put_on
    else
      let (isMatch, s) := atCache_get_entry_matches c s rcvr true
      if isMatch then
        let s := commonVariableAtPut c s rcvr index.integerValue value
        if s.successFlag then
          let s := fetchNextBytecode s
          internalPopThenPush s 3 value
        else genericSend s
      else genericSend s
  else genericSend s

/-- Translation of `Squeak_Interpreter::closureCopy`. -/
def closureCopy (c : Config) (s : Squeak_Interpreter) (numArgs : Int) (initialIP : Int)
    (numCopied : Int) : Oop × Squeak_Interpreter :=
  let byteSize := (c.ClosureFirstCopiedValueIndex + numCopied) * c.sizeof_Oop + c.BaseHeaderSize
  let r := c.instantiateSmallClass s.memory c.ClassBlockClosure byteSize
  let newClosure := r.1
  let s := record { s with memory := r.2 }
    (Event.instantiateSmallClass c.ClassBlockClosure byteSize)
  let s := storePointerUnchecked s newClosure c.ClosureStartPCIndex (Oop.from_int initialIP)
  let s := storePointerUnchecked s newClosure c.ClosureNumArgsIndex (Oop.from_int numArgs)
  let s := omni_set_domain_for_new_object c s newClosure
  (newClosure, s)

/-- The copying loop of `pushClosureCopyCopiedValuesBytecode`: for `i` from 0 below
`numCopied`, the slot `i + ClosureFirstCopiedValueIndex` of the closure receives
`internalStackValue(numCopied - i - 1)`. -/
def copyCopiedValues (c : Config) (newClosure : Oop) (numCopied : Nat)
    (s : Squeak_Interpreter) : Squeak_Interpreter :=
  List.foldl
    (fun (s : Squeak_Interpreter) (i : Nat) =>
      storePointerUnchecked s newClosure ((i : Int) + c.ClosureFirstCopiedValueIndex)
        (internalStackValue s ((numCopied : Int) - (i : Int) - 1)))
    s (List.range numCopied)

/-- Translation of `Squeak_Interpreter::pushClosureCopyCopiedValuesBytecode`. -/
def pushClosureCopyCopiedValuesBytecode (c : Config) (s : Squeak_Interpreter) :
    Squeak_Interpreter :=
  let s := { s with image_version := c.Post_Closure_32_Bit_Image_Version }
  let (numArgsNumCopied, s) := fetchByte s
  let numArgs := numArgsNumCopied &&& 15
  let numCopied := numArgsNumCopied >>> 4
  let (hi, s) := fetchByte s
  let (lo, s) := fetchByte s
  let blockSize := (hi <<< 8) + lo
  let s := externalizeExecutionState s
  let (newClosure, s) := closureCopy c s (numArgs : Int)
    (s.instructionPointer + 2 - (c.method_as_u_char_p + c.BaseHeaderSize)) (numCopied : Int)
  let s := internalizeExecutionState s
  let s := storePointerUnchecked s newClosure c.ClosureOuterContextIndex s.activeContext
  let s := { s with reclaimableContextCount := 0 }
  let s :=
    if numCopied > 0 then
      let s := copyCopiedValues c newClosure numCopied s
      internalPop s (numCopied : Int)
    else s
  let s := { s with localIP := s.localIP + (blockSize : Int) }
  let s := fetchNextBytecode s
  internalPush s newClosure

/-! ## External sends -/

/-- Modelled from the spec: `stackTop`, the top of the operand stack of the externalized
state. -/
def stackTop (s : Squeak_Interpreter) : Oop := s.stack s.stackPointer

/-- Modelled from the spec: `stackValue(n)`, peek at depth `n` in the externalized state. -/
def stackValue (s : Squeak_Interpreter) (n : Int) : Oop := s.stack (s.stackPointer - n)

/-- Modelled from the spec: `push`, advance the external stack pointer and store. -/
def push (s : Squeak_Interpreter) (v : Oop) : Squeak_Interpreter :=
  { s with stackPointer := s.stackPointer + 1,
           stack := Function.update s.stack (s.stackPointer + 1) v }

/-- Modelled from the spec: `pushInteger`, push of a value as a small integer. -/
def pushInteger (s : Squeak_Interpreter) (v : Int) : Squeak_Interpreter :=
  push s (Oop.from_int v)

/-- Modelled from the spec: `popThenPush(n, v)`, replace the top `n` slots by `v` in the
externalized state. -/
def popThenPush (s : Squeak_Interpreter) (n : Int) (v : Oop) : Squeak_Interpreter :=
  { s with stackPointer := s.stackPointer - (n - 1),
           stack := Function.update s.stack (s.stackPointer - (n - 1)) v }

/-- The slots from depth `n` up to the external stack top, deepest first. -/
def externalFrame (s : Squeak_Interpreter) (n : Int) : List Oop :=
  (List.range (n.toNat + 1)).map (fun k => s.stack (s.stackPointer - n + k))

/-- Modelled from the spec: `success(b)`, the accumulation of an outcome in the process-wide
success flag: the flag stays false once a step has failed. -/
def success (s : Squeak_Interpreter) (b : Bool) : Squeak_Interpreter :=
  { s with successFlag := s.successFlag && b }

/-- Modelled from the spec: `findNewMethodInClass`, "resolve the method by walking the
receiver-class's method dictionary chain starting at a given lookup class"; the resolved
method is left in `roots.newMethod` and the lookup is recorded. -/
def findNewMethodInClass (c : Config) (s : Squeak_Interpreter) (lookupClass : Oop) :
    Squeak_Interpreter :=
  record { s with roots.newMethod := c.lookupMethod s.memory s.roots.messageSelector lookupClass }
    (Event.findNewMethodInClass s.roots.messageSelector lookupClass)

/-- Modelled from the spec: `executeNewMethodFromCache`, the transfer of control into the
resolved method (recorded only, with the method, the argument count and the operands it is
handed). -/
def executeNewMethodFromCache (s : Squeak_Interpreter) : Squeak_Interpreter :=
  record s (Event.executeNewMethodFromCache s.roots.newMethod s.argumentCount
    (externalFrame s s.argumentCount))

/-- Translation of `Squeak_Interpreter::omni_commonSend`. -/
def omni_commonSend (c : Config) (s : Squeak_Interpreter) (lookupClass : Oop) :
    Squeak_Interpreter :=
  let s := findNewMethodInClass c s lookupClass
  let nmo := s.roots.newMethod
  let s :=
    if c.isCompiledMethod s.memory nmo then
      success s (c.methodArgumentCount s.memory nmo == s.argumentCount)
    else s
  if s.successFlag then
    let s := executeNewMethodFromCache s
    { s with successFlag := true }
  else fatal s "not yet implemented"

/-- Translation of `Squeak_Interpreter::omni_read_field`; its `assert`s are not
translated. -/
def omni_read_field (c : Config) (s : Squeak_Interpreter) (obj_oop : Oop) (idx : Int) :
    Squeak_Interpreter :=
  let (domain, s) := domain_oop s obj_oop
  let lookupClass := c.fetchClass s.memory domain
  let s := push s domain
  let s := pushInteger s (idx + 1)
  let s := push s obj_oop
  let s := { s with argumentCount := 2 }
  let s := { s with roots.messageSelector := c.The_OstDomain.read_field }
  omni_commonSend c s lookupClass

/-- Translation of `Squeak_Interpreter::omni_write_field`. -/
def omni_write_field (c : Config) (s : Squeak_Interpreter) (obj_oop : Oop) (idx : Int)
    (value : Oop) : Squeak_Interpreter :=
  let (domain, s) := domain_oop s obj_oop
  let lookupClass := c.fetchClass s.memory domain
  let s := push s domain
  let s := push s value
  let s := pushInteger s (idx + 1)
  let s := push s obj_oop
  let s := { s with argumentCount := 3 }
  let s := { s with roots.messageSelector := c.The_OstDomain.write_field }
  omni_commonSend c s lookupClass

/-- Translation of `Squeak_Interpreter::omni_request_primitive_at`. -/
def omni_request_primitive_at (c : Config) (s : Squeak_Interpreter) (primSelector : Oop) :
    Squeak_Interpreter :=
  let index := stackTop s
  let rcvr := stackValue s 1
  let (rcvr_domain, s) := domain_oop s rcvr
  let s := popThenPush s 2 rcvr_domain
  let s := push s index
  let s := push s rcvr
  let s := { s with argumentCount := 2 }
  let s := { s with roots.messageSelector := primSelector }
  let s := { s with roots.lkupClass := c.fetchClass s.memory rcvr_domain }
  omni_commonSend c s s.roots.lkupClass

/-- Translation of `Squeak_Interpreter::omni_request_primitive_atPut`. -/
def omni_request_primitive_atPut (c : Config) (s : Squeak_Interpreter) (primSelector : Oop) :
    Squeak_Interpreter :=
  let value := stackTop s
  let index := stackValue s 1
  let rcvr := stackValue s 2
  let (rcvr_domain, s) := domain_oop s rcvr
  let s := popThenPush s 3 rcvr_domain
  let s := push s index
  let s := push s rcvr
  let s := push s value
  let s := { s with argumentCount := 3 }
  let s := { s with roots.messageSelector := primSelector }
  let s := { s with roots.lkupClass := c.fetchClass s.memory rcvr_domain }
  omni_commonSend c s s.roots.lkupClass

/-! ## Fatal bytecodes, context push and jumps -/

/-- Modelled from the spec: `untested`, the marker of a path that was never exercised
(recorded only). -/
def untested (s : Squeak_Interpreter) : Squeak_Interpreter := record s Event.untested

/-- Translation of `Squeak_Interpreter::unknownBytecode`. -/
def unknownBytecode (s : Squeak_Interpreter) : Squeak_Interpreter :=
  let s := untested s
  fatal s "unknown bytecode"

/-- Translation of `Squeak_Interpreter::pushActiveContextBytecode`. -/
def pushActiveContextBytecode (s : Squeak_Interpreter) : Squeak_Interpreter :=
  let s := fetchNextBytecode s
  let s := { s with reclaimableContextCount := 0 }
  internalPush s s.activeContext

/-- Modelled from the spec: `jump(offset)`, the control transfer of the short and conditional
jumps: the instruction pointer moves by `offset` and the next bytecode is fetched. -/
def jump (s : Squeak_Interpreter) (offset : Int) : Squeak_Interpreter :=
  fetchNextBytecode { s with localIP := s.localIP + offset }

/-- Translation of `Squeak_Interpreter::shortUnconditionalJump`. -/
def shortUnconditionalJump (s : Squeak_Interpreter) : Squeak_Interpreter :=
  jump s (((s.currentBytecode &&& 7 : Nat) : Int) + 1)

/-- Translation of `Squeak_Interpreter::shortConditionalJump`; `jumpIfFalseBy` is a
parameter. -/
def shortConditionalJump (c : Config) (s : Squeak_Interpreter) : Squeak_Interpreter :=
  c.jumpIfFalseBy s (((s.currentBytecode &&& 7 : Nat) : Int) + 1)

/-- Modelled from the spec: `long_jump_offset`, the offset of a long jump, decoded from the
current bytecode and the extension byte it fetches. -/
def long_jump_offset (c : Config) (s : Squeak_Interpreter) : Int × Squeak_Interpreter :=
  let (byte, s) := fetchByte s
  (c.long_jump_offset s.currentBytecode byte, s)

/-- Modelled from the spec: `internalQuickCheckForInterrupts`, the interrupt check of
backward control transfers (recorded only). -/
def internalQuickCheckForInterrupts (s : Squeak_Interpreter) : Squeak_Interpreter :=
  record s Event.internalQuickCheckForInterrupts

/-- Translation of `Squeak_Interpreter::longUnconditionalJump`. -/
def longUnconditionalJump (c : Config) (s : Squeak_Interpreter) : Squeak_Interpreter :=
  let (offset, s) := long_jump_offset c s
  let s := { s with localIP := s.localIP + offset }
  let s := if offset < 0 then internalQuickCheckForInterrupts s else s
  fetchNextBytecode s

/-! ## Point accessors -/

/-- Modelled from the spec: `assertClass(oop, klass)`, the primitive-failure test that the
class of `oop` is `klass`, accumulated in the success flag. -/
def assertClass (c : Config) (s : Squeak_Interpreter) (oop klass : Oop) : Squeak_Interpreter :=
  success s (c.fetchClass s.memory oop == klass)

/-- Translation of `Squeak_Interpreter::bytecodePrimPointX`. -/
def bytecodePrimPointX (c : Config) (s : Squeak_Interpreter) : Squeak_Interpreter :=
  let s := { s with successFlag := true }
  let rcvr := internalStackTop s
  let (delegate, s) := omni_requires_delegation c s rcvr c.masks.RequestExecutionMask
  let genericSend := fun (s : Squeak_Interpreter) =>
    let s := { s with roots.messageSelector := c.specialSelector 30 }
    let s := { s with argumentCount := 0 }
    let s := if delegate then omni_request_execution c s else s
    normalSend s
  if !delegate then
    let s := assertClass c s rcvr c.ClassPoint
    if s.successFlag then
      let (x, s) := fetchPointer s rcvr c.XIndex
      let s := internalPopThenPush s 1 x
      fetchNextBytecode s
    else genericSend s
  else genericSend s

/-- Translation of `Squeak_Interpreter::bytecodePrimPointY`. -/
def bytecodePrimPointY (c : Config) (s : Squeak_Interpreter) : Squeak_Interpreter :=
  let s := { s with successFlag := true }
  let rcvr := internalStackTop s
  let (delegate, s) := omni_requires_delegation c s rcvr c.masks.RequestExecutionMask
  let s := assertClass c s rcvr c.ClassPoint
  if s.successFlag then
    let (y, s) := fetchPointer s rcvr c.YIndex
    let s := internalPopThenPush s 1 y
    fetchNextBytecode s
  else
    let s := { s with roots.messageSelector := c.specialSelector 31 }
    let s := { s with argumentCount := 0 }
    let s := if delegate then omni_request_execution c s else s
    normalSend s

/-! ## Send handlers and array creation -/

/-- Translation of `Squeak_Interpreter::singleExtendedSendBytecode`. -/
def singleExtendedSendBytecode (c : Config) (s : Squeak_Interpreter) : Squeak_Interpreter :=
  let (d, s) := fetchByte s
  let s := { s with roots.messageSelector := literal s ((d &&& 31 : Nat) : Int) }
  let s := { s with argumentCount := ((d >>> 5 : Nat) : Int) }
  let rcvr := internalStackValue s s.argumentCount
  let (delegate, s) := omni_requires_delegation c s rcvr c.masks.RequestExecutionMask
  let s := if delegate then omni_request_execution c s else s
  normalSend s

/-- Translation of `Squeak_Interpreter::singleExtendedSuperBytecode`. -/
def singleExtendedSuperBytecode (s : Squeak_Interpreter) : Squeak_Interpreter :=
  let (d, s) := fetchByte s
  let s := { s with roots.messageSelector := literal s ((d &&& 31 : Nat) : Int) }
  let s := { s with argumentCount := ((d >>> 5 : Nat) : Int) }
  superclassSend s

/-- Translation of `Squeak_Interpreter::secondExtendedSendBytecode`; its `assert` is not
translated. -/
def secondExtendedSendBytecode (c : Config) (s : Squeak_Interpreter) : Squeak_Interpreter :=
  let (descriptor, s) := fetchByte s
  let s := { s with roots.messageSelector := literal s ((descriptor &&& 63 : Nat) : Int) }
  let s := { s with argumentCount := ((descriptor >>> 6 : Nat) : Int) }
  let rcvr := internalStackValue s s.argumentCount
  let (delegate, s) := omni_requires_delegation c s rcvr c.masks.RequestExecutionMask
  let s := if delegate then omni_request_execution c s else s
  normalSend s

/-- Translation of `Squeak_Interpreter::sendLiteralSelectorBytecode`; its `assert`s and the
`check_assertions` block are not translated. -/
def sendLiteralSelectorBytecode (c : Config) (s : Squeak_Interpreter) : Squeak_Interpreter :=
  let s := { s with roots.messageSelector := literal s ((s.currentBytecode &&& 15 : Nat) : Int) }
  let arg_count : Int := (((s.currentBytecode >>> 4) &&& 3 : Nat) : Int) - 1
  let s := { s with argumentCount := arg_count }
  let rcvr := internalStackValue s arg_count
  let (delegate, s) := omni_requires_delegation c s rcvr c.masks.RequestExecutionMask
  let s := if delegate then omni_request_execution c s else s
  normalSend s

/-- The storing loop of `pushNewArrayBytecode`: for `i` from 0 below `size`, the element `i`
of the array receives `internalStackValue(size - i - 1)`. -/
def storeArrayValues (array_obj : Oop) (size : Nat) (s : Squeak_Interpreter) :
    Squeak_Interpreter :=
  List.foldl
    (fun (s : Squeak_Interpreter) (i : Nat) =>
      storePointerUnchecked s array_obj (i : Int)
        (internalStackValue s ((size : Int) - (i : Int) - 1)))
    s (List.range size)

/-- Translation of `Squeak_Interpreter::pushNewArrayBytecode`. -/
def pushNewArrayBytecode (c : Config) (s : Squeak_Interpreter) : Squeak_Interpreter :=
  let (b, s) := fetchByte s
  let popValues := decide (b > 127)
  let size := b &&& 127
  let s := fetchNextBytecode s
  let s := externalizeExecutionState s
  let r := c.instantiateClass s.memory c.ClassArray (size : Int)
  let array_obj := r.1
  let s := record { s with memory := r.2 } (Event.instantiateClass c.ClassArray (size : Int))
  let s := internalizeExecutionState s
  let s :=
    if popValues then
      let s := storeArrayValues array_obj size s
      internalPop s (size : Int)
    else s
  let newArray := array_obj
  let s := omni_set_domain_for_new_object c s array_obj
  internalPush s newArray

/-! ## Literal indices of the send and store bytecodes -/

/-- Translation of `Squeak_Interpreter::extendedStoreBytecode_literal_index`; `bcp` answers
the bytes from the bytecode on. -/
def extendedStoreBytecode_literal_index (bcp : Nat → Nat) : Int :=
  let d := bcp 1 % 256
  let vi := d &&& 63
  if (d >>> 6) &&& 3 = 3 then (vi : Int) else -1

/-- Translation of `Squeak_Interpreter::singleExtendedSendBytecode_literal_index`. -/
def singleExtendedSendBytecode_literal_index (bcp : Nat → Nat) : Int :=
  let d := bcp 1 % 256
  ((d &&& 31 : Nat) : Int)

/-- Translation of `Squeak_Interpreter::singleExtendedSuperBytecode_literal_index`. -/
def singleExtendedSuperBytecode_literal_index (bcp : Nat → Nat) : Int :=
  ((bcp 1 % 256 &&& 31 : Nat) : Int)

/-- Translation of `Squeak_Interpreter::secondExtendedSendBytecode_literal_index`. -/
def secondExtendedSendBytecode_literal_index (bcp : Nat → Nat) : Int :=
  let descriptor := bcp 1 % 256
  ((descriptor &&& 63 : Nat) : Int)

/-- Translation of `Squeak_Interpreter::sendLiteralSelectorBytecode_literal_index`. -/
def sendLiteralSelectorBytecode_literal_index (bcp : Nat → Nat) : Int :=
  ((bcp 0 % 256 &&& 15 : Nat) : Int)

/-! ## UUID plugin -/

/-- Calls of the UUID plugin that the properties speak about. -/
inductive PluginEvent where
  | primitiveFail
  | MakeUUID (location : Int)
deriving DecidableEq, Repr

/-- The part of the virtual machine the plugin sees through `interpreterProxy`: the
primitive-failure flag and the calls recorded so far. -/
structure PluginState where
  failed : Bool
  log : List PluginEvent

/-- Modelled from the spec: the `interpreterProxy` functions the plugin calls and the
platform function `MakeUUID`, all declared outside the sources. -/
structure VirtualMachine where
  methodArgumentCount : Int
  /-- The object at a stack offset, or nothing when the fetch fails. -/
  stackObjectValue : Int → Option Int
  isBytes : Int → Bool
  byteSizeOf : Int → Int
  firstIndexableField : Int → Int
  /-- The value `primitiveFail` returns. -/
  primitiveFailResult : Int
  /-- The value `MakeUUID` returns for a location. -/
  MakeUUID : Int → Int

/-- Modelled from the spec: `interpreterProxy->primitiveFail()`, "returns success/failure via
a process-wide boolean flag". -/
def primitiveFail (vm : VirtualMachine) (st : PluginState) : Int × PluginState :=
  (vm.primitiveFailResult, { st with failed := true, log := st.log ++ [PluginEvent.primitiveFail] })

/-- Modelled from the spec: `interpreterProxy->stackObjectValue(offset)`; a failed fetch sets
the failure flag and answers null. -/
def stackObjectValue (vm : VirtualMachine) (st : PluginState) (offset : Int) :
    Int × PluginState :=
  match vm.stackObjectValue offset with
  | some oop => (oop, st)
  | none => (0, { st with failed := true })

/-- Modelled from the spec: the platform function `MakeUUID`, recorded with the location it
is handed. -/
def MakeUUID (vm : VirtualMachine) (st : PluginState) (location : Int) : Int × PluginState :=
  (vm.MakeUUID location, { st with log := st.log ++ [PluginEvent.MakeUUID location] })

/-- Translation of `primitiveMakeUUID`; `null` is 0. -/
def primitiveMakeUUID (vm : VirtualMachine) (st : PluginState) : Int × PluginState :=
  if ¬ (vm.methodArgumentCount = 0) then primitiveFail vm st
  else
    let (oop, st) := stackObjectValue vm st 0
    if st.failed then (0, st)
    else if ¬ vm.isBytes oop then primitiveFail vm st
    else if ¬ (vm.byteSizeOf oop = 16) then primitiveFail vm st
    else
      let location := vm.firstIndexableField oop
      MakeUUID vm st location

/-! ## Conditions of the delegation query -/

/-- The receiver is a heap object: neither a small integer nor the reserved pattern
`Illegals::allocated`. -/
def isHeapObject (c : Config) (rcvr : Oop) : Prop :=
  rcvr.is_int = false ∧ rcvr ≠ Oop.from_bits c.Illegals_allocated

instance (c : Config) (rcvr : Oop) : Decidable (isHeapObject c rcvr) := by
  unfold isHeapObject; infer_instance

/-- The domain slot of `rcvr` holds a domain: not the zero word, not nil, and not the
reserved pattern `Illegals::free_extra_preheader_words`. -/
def hasDomain (c : Config) (s : Squeak_Interpreter) (rcvr : Oop) : Prop :=
  (s.memory rcvr).domain.bits ≠ 0 ∧ (s.memory rcvr).domain ≠ s.roots.nilObj ∧
    (s.memory rcvr).domain ≠ Oop.from_bits c.Illegals_free_extra_preheader_words

instance (c : Config) (s : Squeak_Interpreter) (rcvr : Oop) : Decidable (hasDomain c s rcvr) := by
  unfold hasDomain; infer_instance

/-- The mask test of `mask` against the encoding of the domain of `rcvr`. -/
def domainCustomizes (c : Config) (s : Squeak_Interpreter) (rcvr : Oop) (mask : Int) : Bool :=
  c.The_OstDomain.domain_customizes_selectors
    (c.The_OstDomain.get_domain_customization_encoding s.memory (s.memory rcvr).domain) mask

/-! ## A concrete machine -/

/-- A domain protocol with distinct selectors; the encoding of a domain is its field 0 and
the mask test is a bitwise and. -/
def demoOstDomain : OstDomain where
  get_domain_customization_encoding := fun m d => (m d).fields 0
  domain_customizes_selectors := fun enc mask => enc.integerValue.toNat &&& mask.toNat != 0
  request_exec := fun n => ⟨1000 + 4 * n.toNat⟩
  read_field := ⟨2000⟩
  write_field := ⟨2004⟩
  write_field_with_return := ⟨2008⟩
  read_literal := ⟨2012⟩
  write_literal := ⟨2016⟩
  prim_at_on := ⟨2020⟩
  prim_at_put_on := ⟨2024⟩

/-- One bit per operation category. -/
def demoMasks : OstDomainSelector_Indices where
  ReadField_Of__Mask := 1
  WriteToFieldMask := 2
  ReadLiteral__Mask := 4
  Write_ToLiteral__Mask := 8
  RequestExecutionMask := 16
  PrimAt_On__Mask := 32
  PrimAt_On_Put__Mask := 64

/-- The nil object of the concrete machine. -/
def demoNil : Oop := ⟨8⟩

/-- A heap with a receiver at 100 whose domain is the object at 200; that domain customizes
every operation (encoding 255). The object at 104 carries the reserved pattern in its
domain slot, every other object has no domain. -/
def demoMemory : Oop → Object := fun o =>
  if o.bits = 100 then { domain := ⟨200⟩, klass := ⟨300⟩, fields := fun _ => demoNil }
  else if o.bits = 104 then { domain := ⟨4042322160⟩, klass := ⟨300⟩, fields := fun _ => demoNil }
  else if o.bits = 200 then
    { domain := demoNil, klass := ⟨400⟩,
      fields := fun i => if i = 0 then Oop.from_int 255 else demoNil }
  else { domain := demoNil, klass := ⟨300⟩, fields := fun _ => demoNil }

/-- Concrete constants and collaborators. -/
def demoConfig : Config where
  The_OstDomain := demoOstDomain
  masks := demoMasks
  Illegals_allocated := 3772834016
  Illegals_free_extra_preheader_words := 4042322160
  specialSelector := fun i => ⟨3000 + 4 * i⟩
  fetchClass := fun m o => (m o).klass
  ValueIndex := 1
  TempFrameStart := 6
  ClosureOuterContextIndex := 0
  ClosureStartPCIndex := 1
  ClosureNumArgsIndex := 2
  ClosureFirstCopiedValueIndex := 3
  method_as_u_char_p := 0
  BaseHeaderSize := 4
  sizeof_Oop := 4
  ClassBlockClosure := ⟨500⟩
  Post_Closure_32_Bit_Image_Version := 6504
  instantiateSmallClass := fun m _ _ => (⟨600⟩, m)
  domain_for_new_object := fun s => s.localDomain
  primitiveFloatAdd := fun s _ _ =>
    { successFlag := false, stackPointer := s.stackPointer, stack := s.stack,
      memory := s.memory }
  primitiveFloatSubtract := fun s _ _ =>
    { successFlag := false, stackPointer := s.stackPointer, stack := s.stack,
      memory := s.memory }
  primitiveFloatMultiply := fun s _ _ =>
    { successFlag := false, stackPointer := s.stackPointer, stack := s.stack,
      memory := s.memory }
  primitiveFloatDivide := fun s _ _ =>
    { successFlag := false, stackPointer := s.stackPointer, stack := s.stack,
      memory := s.memory }
  primitiveFloatLess := fun _ _ _ => (false, false)
  primitiveFloatGreater := fun _ _ _ => (false, false)
  primitiveFloatEqual := fun _ _ _ => (false, false)
  doPrimitiveMod := fun _ r a =>
    if r.is_int && a.is_int && a.integerValue != 0 then
      (r.integerValue % a.integerValue, true)
    else (0, false)
  doPrimitiveDiv := fun _ r a =>
    if r.is_int && a.is_int && a.integerValue != 0 then
      (r.integerValue / a.integerValue, true)
    else (0, false)
  primitiveMakePoint := fun s =>
    { successFlag := true, stackPointer := s.stackPointer - 1,
      stack := Function.update s.stack (s.stackPointer - 1) ⟨1000⟩, memory := s.memory }
  primitiveBitShift := fun s =>
    { successFlag := false, stackPointer := s.stackPointer, stack := s.stack,
      memory := s.memory }
  primitiveBitAnd := fun s =>
    { successFlag := false, stackPointer := s.stackPointer, stack := s.stack,
      memory := s.memory }
  primitiveBitOr := fun s =>
    { successFlag := false, stackPointer := s.stackPointer, stack := s.stack,
      memory := s.memory }
  booleanCheat := fun s b =>
    { s with localSP := s.localSP - 1,
             stack := Function.update s.stack (s.localSP - 1)
               (if b then s.roots.trueObj else s.roots.falseObj) }
  atCache_matches := fun _ _ _ => true
  commonVariableAt := fun s r i => ((s.memory r).fields (i - 1), true)
  commonVariableAtPut := fun s _ _ _ => (s.memory, false)
  lookupMethod := fun _ selector _ => ⟨selector.bits + 10000⟩
  isCompiledMethod := fun _ _ => true
  methodArgumentCount := fun _ m =>
    if m.bits = 12000 then 2 else if m.bits = 12004 then 3 else if m.bits = 12008 then 4
    else if m.bits = 12012 then 1 else if m.bits = 12016 then 2 else if m.bits = 12020 then 2
    else if m.bits = 12024 then 3 else 0
  long_jump_offset := fun bytecode byte => (((bytecode &&& 7 : Nat) : Int) - 4) * 256 + byte
  jumpIfFalseBy := fun s offset =>
    if internalStackTop s = s.roots.falseObj then jump (internalPop s 1) offset
    else fetchNextBytecode (internalPop s 1)
  ClassPoint := ⟨300⟩
  XIndex := 0
  YIndex := 1
  ClassArray := ⟨504⟩
  instantiateClass := fun m _ _ => (⟨604⟩, m)

/-- A base-level state: receiver 100, operand stack `3 4` (4 on top) above the slot holding
the object 104, and `code` answering the given bytes after the instruction pointer. -/
def demoInterpreter (bytes : List Nat) (stack : List Oop) : Squeak_Interpreter where
  roots := { receiver := ⟨100⟩, nilObj := demoNil, trueObj := ⟨12⟩, falseObj := ⟨16⟩,
             messageSelector := demoNil, lkupClass := demoNil, receiverClass := demoNil,
             newMethod := demoNil }
  localDomain := ⟨200⟩
  executionLevel := ExecutionLevel.baseLevel
  argumentCount := 0
  currentBytecode := 0
  prevBytecode := 0
  localIP := 0
  localSP := stack.length
  instructionPointer := 0
  stackPointer := 0
  successFlag := true
  reclaimableContextCount := 5
  image_version := 0
  activeContext := ⟨700⟩
  localHomeContext := ⟨700⟩
  process_is_scheduled_and_executing := true
  code := fun i => bytes.getD (i - 1).toNat 0
  stack := fun i => if 1 ≤ i then stack.getD (i - 1).toNat demoNil else demoNil
  memory := demoMemory
  literals := fun i => ⟨800 + 4 * i.toNat⟩
  log := []

/-- The concrete machine at meta level. -/
def demoMetaInterpreter : Squeak_Interpreter :=
  { demoInterpreter [] [] with executionLevel := ExecutionLevel.metaLevel }

/-- The concrete machine about to run `storeAndPopReceiverVariableBytecode` for field 1,
with the small integer 7 on top of the slot holding the object 900. -/
def demoStoreInterpreter : Squeak_Interpreter :=
  { demoInterpreter [] [⟨900⟩, Oop.from_int 7] with currentBytecode := 97 }

/-- The concrete machine about to run `extendedStoreBytecode` with descriptor 1 (receiver
field 1), same operand stack. -/
def demoExtendedStoreInterpreter : Squeak_Interpreter :=
  { demoInterpreter [1] [⟨900⟩, Oop.from_int 7] with currentBytecode := 129 }

/-- The concrete machine about to add 4 to 3. -/
def demoAddInterpreter : Squeak_Interpreter :=
  { demoInterpreter [] [Oop.from_int 3, Oop.from_int 4] with currentBytecode := 176 }

/-- The concrete machine about to add 1 to the largest small integer. -/
def demoOverflowInterpreter : Squeak_Interpreter :=
  { demoInterpreter [] [Oop.from_int 1073741823, Oop.from_int 1] with currentBytecode := 176 }

/-- The same machine as `demoExtendedStoreInterpreter`, at meta level. -/
def demoMetaExtendedStoreInterpreter : Squeak_Interpreter :=
  { demoExtendedStoreInterpreter with executionLevel := ExecutionLevel.metaLevel }

/-! ## Delegated field writes -/

/-- Delegation of a write to a field of `roots.receiver` applies: base level, the receiver is
a heap object, its domain slot holds a domain, and that domain customizes write-field. -/
def delegatesWriteField (c : Config) (s : Squeak_Interpreter) : Prop :=
  s.executionLevel = ExecutionLevel.baseLevel ∧ isHeapObject c s.roots.receiver ∧
    hasDomain c s s.roots.receiver ∧
    domainCustomizes c s s.roots.receiver c.masks.WriteToFieldMask = true

instance (c : Config) (s : Squeak_Interpreter) : Decidable (delegatesWriteField c s) := by
  unfold delegatesWriteField; infer_instance

/-- What a handler records when it delegates a field write: the query with its reads of the
domain slot and of the encoding, the read of the domain slot by the rewrite, the lookup of
`selector` in the class of the domain, the execution of the found method on `operands` (the
receiver of the send first), and the advance to the next bytecode made by the send mechanism
when the process is still scheduled. -/
def delegatedWriteEvents (c : Config) (s : Squeak_Interpreter) (selector : Oop)
    (operands : List Oop) : List Event :=
  [Event.omni_requires_delegation s.roots.receiver c.masks.WriteToFieldMask,
   Event.domain_oop s.roots.receiver,
   Event.get_domain_customization_encoding (s.memory s.roots.receiver).domain,
   Event.domain_oop s.roots.receiver,
   Event.internalFindNewMethod selector
     (c.fetchClass s.memory (s.memory s.roots.receiver).domain),
   Event.internalExecuteNewMethod ((operands.length : Int) - 1) operands] ++
  (if s.process_is_scheduled_and_executing then [Event.fetchNextBytecode] else [])

/-- The handler result `s'` is a delegated field write from `s`: the send registers hold
`selector` and the argument count of `operands`, the heap is untouched, and the log grew by
exactly `delegatedWriteEvents`. -/
def DelegatedWrite (c : Config) (s s' : Squeak_Interpreter) (selector : Oop)
    (operands : List Oop) : Prop :=
  s'.roots.messageSelector = selector ∧
    s'.argumentCount = (operands.length : Int) - 1 ∧
    s'.memory = s.memory ∧
    s'.log = s.log ++ delegatedWriteEvents c s selector operands

/-! ## Stack effects -/

/-- The operand-stack depth once the send prepared in `s` has replaced the receiver and its
`argumentCount` arguments by one result. -/
def depthAfterSend (s : Squeak_Interpreter) : Int := s.localSP - (s.argumentCount + 1) + 1

/-- The handler result `s'` has net operand-stack effect `effect` from `s`: on the delegated
arm (the query answered true) the effect is measured once the prepared send has returned its
result, on the native arm on the state the handler leaves. -/
def StackEffect (delegate : Bool) (s s' : Squeak_Interpreter) (effect : Int) : Prop :=
  if delegate then depthAfterSend s' = s.localSP + effect else s'.localSP = s.localSP + effect

/-- The concrete machine about to run `extendedStoreAndPopBytecode` with descriptor 193
(literal variable 1), with the small integer 7 on top of the slot holding the object 900. The
executing method's domain (the object at 200) customizes write-literal. -/
def demoStoreLiteralInterpreter : Squeak_Interpreter :=
  { demoInterpreter [193] [⟨900⟩, Oop.from_int 7] with currentBytecode := 130 }

/-- The same machine at meta level, where the native arm is taken. -/
def demoMetaStoreLiteralInterpreter : Squeak_Interpreter :=
  { demoStoreLiteralInterpreter with executionLevel := ExecutionLevel.metaLevel }

/-- The concrete machine about to run `extendedPushBytecode` with descriptor 1 (receiver
field 1), followed by the bytes 50 and 51. -/
def demoExtendedPushInterpreter : Squeak_Interpreter :=
  { demoInterpreter [1, 50, 51] [⟨900⟩] with currentBytecode := 128 }

/-- The concrete machine about to run `doubleExtendedDoAnythingBytecode` with operation 2 on
receiver field 1 (bytes 64, 1), followed by the bytes 50 and 51. -/
def demoDoubleExtendedPushInterpreter : Squeak_Interpreter :=
  { demoInterpreter [64, 1, 50, 51] [⟨900⟩] with currentBytecode := 132 }

/-- The concrete machine about to run `pushReceiverVariableBytecode` for field 1, followed by
the bytes 50 and 51. -/
def demoPushInterpreter : Squeak_Interpreter :=
  { demoInterpreter [50, 51] [⟨900⟩] with currentBytecode := 1 }

/-- The concrete machine with a prepared send of two arguments: receiver 100 beneath the
arguments 3 and 4, selector 1234. -/
def demoSendInterpreter : Squeak_Interpreter :=
  { demoInterpreter [] [⟨900⟩, ⟨100⟩, Oop.from_int 3, Oop.from_int 4] with
    argumentCount := 2,
    roots := { (demoInterpreter [] []).roots with messageSelector := ⟨1234⟩ } }

/-! ## Delegated special sends -/

/-- The concrete machine about to run an arithmetic special-selector bytecode on the receiver
100, whose domain customizes every operation, with the argument 4. -/
def demoDelegatedAddInterpreter : Squeak_Interpreter :=
  { demoInterpreter [] [⟨900⟩, ⟨100⟩, Oop.from_int 4] with currentBytecode := 176 }

/-- The heap of the concrete machine with one more object at 108, whose domain at 204
customizes the two indexing primitives only (encoding 96). -/
def demoIndexMemory : Oop → Object := fun o =>
  if o.bits = 108 then { domain := ⟨204⟩, klass := ⟨300⟩, fields := fun _ => demoNil }
  else if o.bits = 204 then
    { domain := demoNil, klass := ⟨404⟩,
      fields := fun i => if i = 0 then Oop.from_int 96 else demoNil }
  else demoMemory o

/-- The concrete machine about to run `bytecodePrimAt` on the object 108 with index 1. -/
def demoAtInterpreter : Squeak_Interpreter :=
  { demoInterpreter [] [⟨900⟩, ⟨108⟩, Oop.from_int 1] with
    memory := demoIndexMemory, currentBytecode := 192 }

/-- The concrete machine about to run `bytecodePrimAtPut` on the object 108 with index 1 and
value 7. -/
def demoAtPutInterpreter : Squeak_Interpreter :=
  { demoInterpreter [] [⟨900⟩, ⟨108⟩, Oop.from_int 1, Oop.from_int 7] with
    memory := demoIndexMemory, currentBytecode := 193 }

/-- The events that are calls of a floating-point primitive. -/
def isFloatPrimitive : Event → Bool
  | Event.primitiveFloatAdd _ _ => true
  | Event.primitiveFloatSubtract _ _ => true
  | Event.primitiveFloatMultiply _ _ => true
  | Event.primitiveFloatDivide _ _ => true
  | Event.primitiveFloatLess _ _ => true
  | Event.primitiveFloatGreater _ _ => true
  | Event.primitiveFloatEqual _ _ => true
  | _ => false

/-- What a special-selector handler records when it delegates a binary operation: the query
with its reads of the domain slot and of the encoding, the read of the domain slot by the
request-execution rewrite, and the send of `request_exec(1)` with operands (domain, argument,
special selector `k`, receiver). -/
def delegatedSpecialSendEvents (c : Config) (s : Squeak_Interpreter) (k : Nat) : List Event :=
  [Event.omni_requires_delegation (internalStackValue s 1) c.masks.RequestExecutionMask,
   Event.domain_oop (internalStackValue s 1),
   Event.get_domain_customization_encoding (s.memory (internalStackValue s 1)).domain,
   Event.domain_oop (internalStackValue s 1),
   Event.normalSend (c.The_OstDomain.request_exec 1) 3
     [(s.memory (internalStackValue s 1)).domain, internalStackValue s 0,
      c.specialSelector k, internalStackValue s 1]]

/-- The handler result `s'` is the delegated send of the special selector `k` from `s`: the
selector is `request_exec(1)`, the argument count 3, two slots were pushed, the heap is
untouched, and the log grew by exactly `delegatedSpecialSendEvents`. -/
def DelegatedSpecialSend (c : Config) (s s' : Squeak_Interpreter) (k : Nat) : Prop :=
  s'.roots.messageSelector = c.The_OstDomain.request_exec 1 ∧
    s'.argumentCount = 3 ∧
    s'.localSP = s.localSP + 2 ∧
    s'.memory = s.memory ∧
    s'.log = s.log ++ delegatedSpecialSendEvents c s k

/-- The handler result `s'` shows the order "primitive first, delegation query after its
failure". The primitive, recorded as `e`, left the state `s1` and the success flag `ok`. If it
succeeded, only `e` and the fetch of the next bytecode are recorded. If it failed, the query
on the receiver (depth 1 of `s1`) is recorded right after `e`; and if that query answers true,
the handler ends in the send of `request_exec(1)` with operands (domain, argument, special
selector `k`, receiver). -/
def PrimitiveFirst (c : Config) (s s' : Squeak_Interpreter) (e : Event) (ok : Bool)
    (s1 : Squeak_Interpreter) (k : Nat) : Prop :=
  (ok = true → s'.log = s.log ++ [e, Event.fetchNextBytecode]) ∧
    (ok = false → ∃ rest, s'.log = s.log ++ e ::
      Event.omni_requires_delegation (internalStackValue s1 1) c.masks.RequestExecutionMask ::
        rest) ∧
    (ok = false →
      (omni_requires_delegation c s1 (internalStackValue s1 1)
        c.masks.RequestExecutionMask).1 = true →
      s'.roots.messageSelector = c.The_OstDomain.request_exec 1 ∧
        s'.argumentCount = 3 ∧
        s'.log = s.log ++ e :: delegatedSpecialSendEvents c s1 k)

/-! ## Delegated indexing -/

/-- What `s'` recorded beyond `s`. -/
def eventsSince (s s' : Squeak_Interpreter) : List Event := s'.log.drop s.log.length

/-- The events that are a consultation of the at-cache or an access to the elements of the
receiver. -/
def consultsElements : Event → Bool
  | Event.atCache_get_entry _ _ => true
  | Event.commonVariableAt _ _ => true
  | Event.commonVariableAtPut _ _ _ => true
  | _ => false

/-- The handler result `s'` is the delegated send of an indexing primitive from `s`: the
selector is `sel`, the argument count `n`, the lookup class the class of the domain of `rcvr`,
the stack is one slot deeper and its top `n + 1` slots hold `operands` above an untouched
rest, the heap is untouched, and `s'` recorded exactly the two queries with their reads, the
read of the domain slot by the rewrite, the lookup and execution of `sel` with `operands`, and
the advance to the next bytecode when the process is still scheduled; none of these events
consults the at-cache or the elements of the receiver. -/
def IndexSendDelegated (c : Config) (s s' : Squeak_Interpreter) (rcvr : Oop) (mask : Int)
    (sel : Oop) (n : Int) (operands : List Oop) : Prop :=
  s'.roots.messageSelector = sel ∧
    s'.argumentCount = n ∧
    s'.roots.lkupClass = c.fetchClass s.memory (s.memory rcvr).domain ∧
    s'.localSP = s.localSP + 1 ∧
    frame s' n = operands ∧
    (∀ i, i < s'.localSP - n → s'.stack i = s.stack i) ∧
    s'.memory = s.memory ∧
    s'.log = s.log ++ ([Event.omni_requires_delegation rcvr c.masks.RequestExecutionMask,
        Event.domain_oop rcvr,
        Event.get_domain_customization_encoding (s.memory rcvr).domain,
        Event.omni_requires_delegation rcvr mask,
        Event.domain_oop rcvr,
        Event.get_domain_customization_encoding (s.memory rcvr).domain,
        Event.domain_oop rcvr,
        Event.internalFindNewMethod sel (c.fetchClass s.memory (s.memory rcvr).domain),
        Event.internalExecuteNewMethod n operands] ++
      (if s.process_is_scheduled_and_executing then [Event.fetchNextBytecode] else [])) ∧
    (eventsSince s s').any consultsElements = false

/-! ## Heap map -/

/-- Translation of the macro `NUMPAGES`. -/
def NUMPAGES : Nat := 256

/-- Translation of the macro `PAGESIZE`. -/
def PAGESIZE : Nat := 512 * 1024

/-- Translation of the macro `PAGESHIFT`. -/
def PAGESHIFT : Nat := 24

/-- Translation of the macro `PAGEMASK`. -/
def PAGEMASK : Nat := 0xFFFFFF

/-- Translation of the macro `LOGWORDSIZE`. -/
def LOGWORDSIZE : Nat := 2

/-- Translation of the macro `LOGBITSPERBYTE`. -/
def LOGBITSPERBYTE : Nat := 3

/-- Translation of the macro `PAGEINDEX`. -/
def PAGEINDEX (a : Nat) : Nat := a >>> PAGESHIFT

/-- Translation of the macro `BYTEINDEX`. -/
def BYTEINDEX (a : Nat) : Nat := (a &&& PAGEMASK) >>> (LOGWORDSIZE + LOGBITSPERBYTE)

/-- Translation of the macro `BITINDEX`. -/
def BITINDEX (a : Nat) : Nat := (a >>> LOGWORDSIZE) &&& ((1 <<< LOGBITSPERBYTE) - 1)

/-- The static array `mapPages`: for each page index the bytes of the page, or nothing for a
null pointer. -/
structure HeapMap where
  mapPages : Nat → Option (Nat → Nat)

/-- The initial value of `mapPages`, all null. -/
def initialHeapMap : HeapMap := ⟨fun _ => none⟩

/-- The C library `memset` on the first `n` bytes of a page. -/
def memset (page : Nat → Nat) (value : Nat) (n : Nat) : Nat → Nat :=
  fun i => if i < n then value else page i

/-- Translation of `heapMapAtWord`; `error` does not return. -/
def heapMapAtWord (m : HeapMap) (address : Nat) : Except String Nat :=
  let page := m.mapPages (PAGEINDEX address)
  if address &&& ((1 <<< LOGWORDSIZE) - 1) ≠ 0 then Except.error "misaligned word"
  else
    match page with
    | some page => Except.ok (page (BYTEINDEX address) &&& (1 <<< BITINDEX address))
    | none => Except.ok 0

/-- Translation of `heapMapAtWordPut`. The allocator `malloc` is a parameter: it answers a
page of arbitrary contents, or nothing, and then the program exits. The bytes of a page are
`uchar`, so a stored value is reduced modulo 256. -/
def heapMapAtWordPut (malloc : Nat → Option (Nat → Nat)) (m : HeapMap) (address : Nat)
    (bit : Int) : Except String HeapMap :=
  let page := m.mapPages (PAGEINDEX address)
  if address &&& ((1 <<< LOGWORDSIZE) - 1) ≠ 0 then Except.error "misaligned word"
  else
    let allocated : Except String ((Nat → Nat) × HeapMap) :=
      match page with
      | some page => Except.ok (page, m)
      | none =>
        match malloc PAGESIZE with
        | none => Except.error "malloc"
        | some page =>
          let page := memset page 0 PAGESIZE
          let mapPages := Function.update m.mapPages (PAGEINDEX address) (some page)
          Except.ok (page, { m with mapPages := mapPages })
    match allocated with
    | Except.error e => Except.error e
    | Except.ok (page, m) =>
      let byte :=
        if bit ≠ 0 then (page (BYTEINDEX address) ||| (1 <<< BITINDEX address)) % 256
        else (page (BYTEINDEX address) &&& (255 ^^^ (1 <<< BITINDEX address))) % 256
      let page := Function.update page (BYTEINDEX address) byte
      Except.ok { m with mapPages := Function.update m.mapPages (PAGEINDEX address) (some page) }

/-- Translation of `clearHeapMap`. -/
def clearHeapMap (m : HeapMap) : HeapMap :=
  List.foldl
    (fun (m : HeapMap) (i : Nat) =>
      match m.mapPages i with
      | some page =>
        let page := memset page 0 PAGESIZE
        { m with mapPages := Function.update m.mapPages i (some page) }
      | none => m)
    m (List.range NUMPAGES)

/-- A run of `heapMapAtWordPut` calls, in order; it stops at the first call that does not
return. -/
def heapMapPuts (malloc : Nat → Option (Nat → Nat)) (m : HeapMap) :
    List (Nat × Int) → Except String HeapMap
  | [] => Except.ok m
  | (address, bit) :: rest =>
    match heapMapAtWordPut malloc m address bit with
    | Except.error e => Except.error e
    | Except.ok m => heapMapPuts malloc m rest

/-- An allocator that always succeeds, with pages of arbitrary (here all-ones) contents. -/
def demoMalloc : Nat → Option (Nat → Nat) := fun _ => some (fun _ => 255)

/-! ## Prepared sends -/

/-- The lookups a run recorded: selector and class of each `findNewMethodInClass` and
`internalFindNewMethod`, in order. -/
def lookupsOf : List Event → List (Oop × Oop)
  | [] => []
  | Event.findNewMethodInClass selector lookupClass :: rest =>
    (selector, lookupClass) :: lookupsOf rest
  | Event.internalFindNewMethod selector lkupClass :: rest =>
    (selector, lkupClass) :: lookupsOf rest
  | _ :: rest => lookupsOf rest

/-- The external variant left `ext` and the internal variant left `int`, both started in
`s`: they agree on the send they prepare. The operand stack has the same contents and the
same top (external stack pointer resp. internal stack pointer), the argument count is `n` and
the selector `selector` in both, and each made exactly one lookup, of `selector` in the
class `lookupClass`. -/
def SamePreparedSend (s ext int : Squeak_Interpreter) (n : Int) (selector lookupClass : Oop) :
    Prop :=
  ext.stack = int.stack ∧ ext.stackPointer = int.localSP ∧
    ext.argumentCount = n ∧ int.argumentCount = n ∧
    ext.roots.messageSelector = selector ∧ int.roots.messageSelector = selector ∧
    lookupsOf (eventsSince s ext) = [(selector, lookupClass)] ∧
    lookupsOf (eventsSince s int) = [(selector, lookupClass)]

/-- The concrete machine with the pair (object 100, small integer 1) on the stack and its
registers externalized. -/
def demoExternalInterpreter : Squeak_Interpreter :=
  externalizeExecutionState (demoInterpreter [] [⟨900⟩, ⟨100⟩, Oop.from_int 1])

/-- The concrete machine about to resolve the read-field selector, whose method declares two
arguments, with two arguments prepared and the success flag already false. -/
def demoFailedSendInterpreter : Squeak_Interpreter :=
  { demoExternalInterpreter with
    roots.messageSelector := ⟨2000⟩, argumentCount := 2, successFlag := false }

/-- The concrete machine about to run an extended store whose descriptor 128 has target
type 2, with the small integer 7 on top of a stack of depth 2. -/
def demoIllegalStoreInterpreter : Squeak_Interpreter :=
  { demoInterpreter [128] [⟨900⟩, Oop.from_int 7] with currentBytecode := 129 }

/-- The concrete machine about to run a point accessor on the object 100, an instance of the
point class 300 whose domain customizes request-execution. -/
def demoPointInterpreter : Squeak_Interpreter :=
  { demoInterpreter [] [⟨900⟩, ⟨100⟩] with currentBytecode := 206 }

/-! ## Integer fast paths -/

/-- The handler result `s'` committed the integer fast path from `s` with the value `v`: the
two operands are replaced by one small integer whose value is `v`, and the only thing
recorded is the fetch of the next bytecode. -/
def FastPathCommitted (s s' : Squeak_Interpreter) (v : Int) : Prop :=
  s'.localSP = s.localSP - 1 ∧
    s'.stack = Function.update s.stack (s.localSP - 1) (Oop.from_int v) ∧
    (internalStackTop s').is_int = true ∧
    (internalStackTop s').integerValue = v ∧
    s'.log = s.log ++ [Event.fetchNextBytecode]

/-- The handler result `s'` abandoned the fast path of `s` for the generic send of the
special selector `k`: stack and stack pointer are unchanged, the argument count is 1, and the
only thing recorded is the send of the two operands as they were (no delegation query and no
rewrite). -/
def FallsBackToSend (c : Config) (s s' : Squeak_Interpreter) (k : Nat) : Prop :=
  s'.stack = s.stack ∧ s'.localSP = s.localSP ∧
    s'.roots.messageSelector = c.specialSelector k ∧ s'.argumentCount = 1 ∧
    s'.log = s.log ++ [Event.normalSend (c.specialSelector k) 1
      [internalStackValue s 1, internalStackValue s 0]]

/-- The concrete machine about to multiply 65536 by 65536. -/
def demoMultiplyOverflowInterpreter : Squeak_Interpreter :=
  { demoInterpreter [] [Oop.from_int 65536, Oop.from_int 65536] with currentBytecode := 184 }

/-- The concrete machine about to divide the most negative small integer by -1. -/
def demoDivideOverflowInterpreter : Squeak_Interpreter :=
  { demoInterpreter [] [Oop.from_int (-1073741824), Oop.from_int (-1)] with
    currentBytecode := 185 }

/-! ## Sends, stores and allocation: conditions and concrete machines -/

/-- The one case in which the receiver query writes to the heap: at base level, on a heap
object whose domain slot holds the reserved pattern `Illegals::free_extra_preheader_words`,
that pattern being neither the zero word nor nil. -/
def holdsSentinel (c : Config) (s : Squeak_Interpreter) (rcvr : Oop) : Prop :=
  s.executionLevel = ExecutionLevel.baseLevel ∧ isHeapObject c rcvr ∧
    (s.memory rcvr).domain.bits ≠ 0 ∧ (s.memory rcvr).domain ≠ s.roots.nilObj ∧
    (s.memory rcvr).domain = Oop.from_bits c.Illegals_free_extra_preheader_words

instance (c : Config) (s : Squeak_Interpreter) (rcvr : Oop) :
    Decidable (holdsSentinel c s rcvr) := by
  unfold holdsSentinel; infer_instance

/-- The part shared by the sending bytecodes once selector and argument count are in their
registers: the request-execution query on the receiver at the depth of the argument count,
the rewrite if the query answers true, and the send. -/
def sendPrepared (c : Config) (x : Squeak_Interpreter) : Squeak_Interpreter :=
  let rcvr := internalStackValue x x.argumentCount
  let (delegate, s) := omni_requires_delegation c x rcvr c.masks.RequestExecutionMask
  let s := if delegate then omni_request_execution c s else s
  normalSend s

/-- The concrete machine about to run `sendLiteralSelectorBytecode` for literal 1 with one
argument: the small integer 4 on top of the receiver 100. -/
def demoLiteralSendInterpreter : Squeak_Interpreter :=
  { demoInterpreter [] [⟨900⟩, ⟨100⟩, Oop.from_int 4] with currentBytecode := 225 }

/-- The concrete machine about to run an extended send whose operand byte 33 names literal 1
and one argument, on the same operand stack. -/
def demoExtendedSendInterpreter : Squeak_Interpreter :=
  { demoInterpreter [33] [⟨900⟩, ⟨100⟩, Oop.from_int 4] with currentBytecode := 131 }

/-- The bytes of the method of `demoExtendedSendInterpreter` from its current bytecode on. -/
def demoExtendedSendBytes : Nat → Nat := fun i => [131, 33].getD i 0

/-- The operand stack of `s'` after a delegated store-and-pop from `s`: the two entry slots
were popped and five operands pushed, the slot that held the element beneath the stored
value holds that element again, and every slot below it is untouched. -/
def RestoredBeneath (s s' : Squeak_Interpreter) : Prop :=
  s'.localSP = s.localSP - 2 + 5 ∧
    s'.stack (s.localSP - 1) = s.stack (s.localSP - 1) ∧
    ∀ k, k < s.localSP - 1 → s'.stack k = s.stack k

/-- The receiver queries a run recorded: receiver and mask of each `omni_requires_delegation`,
in order. -/
def queriesOf : List Event → List (Oop × Int)
  | [] => []
  | Event.omni_requires_delegation rcvr mask :: rest => (rcvr, mask) :: queriesOf rest
  | _ :: rest => queriesOf rest

/-- What `bytecodePrimAtPut` records when the receiver requires request-execution
delegation: the query with its reads of the domain slot and of the encoding, the read of the
domain slot by the rewrite, and the send of `request_exec(2)` with operands (domain, index,
value, special selector 17, receiver). -/
def delegatedAtPutEvents (c : Config) (s : Squeak_Interpreter) : List Event :=
  [Event.omni_requires_delegation (internalStackValue s 2) c.masks.RequestExecutionMask,
   Event.domain_oop (internalStackValue s 2),
   Event.get_domain_customization_encoding (s.memory (internalStackValue s 2)).domain,
   Event.domain_oop (internalStackValue s 2),
   Event.normalSend (c.The_OstDomain.request_exec 2) 4
     [(s.memory (internalStackValue s 2)).domain, internalStackValue s 1,
      internalStackValue s 0, c.specialSelector 17, internalStackValue s 2]]

/-- The concrete machine about to run `bytecodePrimAt` on the object 100, whose domain
customizes every operation, with index 1. -/
def demoDelegatedAtInterpreter : Squeak_Interpreter :=
  { demoInterpreter [] [⟨900⟩, ⟨100⟩, Oop.from_int 1] with currentBytecode := 192 }

/-- The concrete machine about to run `bytecodePrimAtPut` on the object 100 with index 1 and
value 7. -/
def demoDelegatedAtPutInterpreter : Squeak_Interpreter :=
  { demoInterpreter [] [⟨900⟩, ⟨100⟩, Oop.from_int 1, Oop.from_int 7] with
    currentBytecode := 193 }

/-- The concrete machine about to run `pushNewArrayBytecode` with operand byte 130 (two
elements, taken from the stack) above the slot holding the object 900. -/
def demoArrayInterpreter : Squeak_Interpreter :=
  { demoInterpreter [130] [⟨900⟩, Oop.from_int 3, Oop.from_int 4] with currentBytecode := 138 }

/-- The same machine with operand byte 2: two elements, none taken from the stack. -/
def demoEmptyArrayInterpreter : Squeak_Interpreter :=
  { demoInterpreter [2] [⟨900⟩, Oop.from_int 3, Oop.from_int 4] with currentBytecode := 138 }

/-- A virtual machine whose stack top is the object 64, a byte object of 16 bytes at
location 4096, and whose primitive was called with no argument. -/
def demoVirtualMachine : VirtualMachine where
  methodArgumentCount := 0
  stackObjectValue := fun offset => if offset = 0 then some 64 else none
  isBytes := fun oop => oop = 64
  byteSizeOf := fun oop => if oop = 64 then 16 else 0
  firstIndexableField := fun oop => oop * 64
  primitiveFailResult := 0
  MakeUUID := fun location => location

/-! # Properties -/

/-! ## The delegation decision engine -/

/-- C1. At meta level neither query asks for delegation, whatever the receiver, its domain,
the mask and the domain of the executing method are. -/
theorem metaLevel_never_delegates (c : Config) (s : Squeak_Interpreter)
    (hlevel : s.executionLevel = ExecutionLevel.metaLevel) (rcvr : Oop) (mask : Int) :
    (omni_requires_delegation c s rcvr mask).1 = false ∧
      (omni_requires_delegation_for_literals c s mask).1 = false := by
  simp [omni_requires_delegation, omni_requires_delegation_for_literals,
    executes_on_metalevel, record, hlevel]

/-- Witness of C1: the receiver 100 and the executing method both have a domain that
customizes every operation, and still nothing is delegated at meta level. -/
theorem metaLevel_never_delegates_witness :
    ({ demoInterpreter [] [] with executionLevel := ExecutionLevel.metaLevel }).executionLevel
        = ExecutionLevel.metaLevel ∧
      (omni_requires_delegation demoConfig
        { demoInterpreter [] [] with executionLevel := ExecutionLevel.metaLevel } ⟨100⟩ 2).1
          = false ∧
      (omni_requires_delegation_for_literals demoConfig
        { demoInterpreter [] [] with executionLevel := ExecutionLevel.metaLevel } 2).1
          = false :=
  ⟨rfl, metaLevel_never_delegates demoConfig _ rfl ⟨100⟩ 2⟩

/-- The query at meta level: only the query itself is recorded. -/
theorem omni_requires_delegation_metaLevel (c : Config) (s : Squeak_Interpreter) (rcvr : Oop)
    (mask : Int) (hlevel : s.executionLevel = ExecutionLevel.metaLevel) :
    omni_requires_delegation c s rcvr mask
      = (false, record s (Event.omni_requires_delegation rcvr mask)) := by
  simp [omni_requires_delegation, executes_on_metalevel, record, hlevel]

/-- The query on a small integer or on `Illegals::allocated`. -/
theorem omni_requires_delegation_immediate (c : Config) (s : Squeak_Interpreter) (rcvr : Oop)
    (mask : Int) (h : rcvr.is_int = true ∨ rcvr = Oop.from_bits c.Illegals_allocated) :
    omni_requires_delegation c s rcvr mask
      = (false, record s (Event.omni_requires_delegation rcvr mask)) := by
  unfold omni_requires_delegation
  by_cases hm : executes_on_metalevel (record s (Event.omni_requires_delegation rcvr mask))
  · simp [hm]
  · rcases h with h | h <;> simp [hm, h]

/-- The query at base level on a heap object whose domain slot is nil or zero. -/
theorem omni_requires_delegation_noDomain (c : Config) (s : Squeak_Interpreter) (rcvr : Oop)
    (mask : Int) (hlevel : s.executionLevel = ExecutionLevel.baseLevel)
    (hobj : isHeapObject c rcvr)
    (hnil : (s.memory rcvr).domain = s.roots.nilObj ∨ (s.memory rcvr).domain.bits = 0) :
    omni_requires_delegation c s rcvr mask
      = (false, record (record s (Event.omni_requires_delegation rcvr mask))
          (Event.domain_oop rcvr)) := by
  obtain ⟨h1, h2⟩ := hobj
  unfold omni_requires_delegation
  rcases hnil with h | h <;>
    simp [executes_on_metalevel, record, hlevel, h1, h2, domain_oop, h]

/-- The query at base level on a heap object whose domain slot holds the reserved pattern:
the slot is set to nil. -/
theorem omni_requires_delegation_sentinel (c : Config) (s : Squeak_Interpreter) (rcvr : Oop)
    (mask : Int) (hlevel : s.executionLevel = ExecutionLevel.baseLevel)
    (hobj : isHeapObject c rcvr)
    (hdom : (s.memory rcvr).domain = Oop.from_bits c.Illegals_free_extra_preheader_words)
    (hzero : c.Illegals_free_extra_preheader_words ≠ 0)
    (hne : s.roots.nilObj ≠ Oop.from_bits c.Illegals_free_extra_preheader_words) :
    omni_requires_delegation c s rcvr mask
      = (false, set_domain (record (record s (Event.omni_requires_delegation rcvr mask))
          (Event.domain_oop rcvr)) rcvr s.roots.nilObj) := by
  obtain ⟨h1, h2⟩ := hobj
  have hne2 : ¬ Oop.from_bits c.Illegals_free_extra_preheader_words = s.roots.nilObj :=
    fun h => hne h.symm
  have hb : (Oop.from_bits c.Illegals_free_extra_preheader_words).bits ≠ 0 := hzero
  unfold omni_requires_delegation
  simp [executes_on_metalevel, record, hlevel, h1, h2, domain_oop, hdom, hne2, hb]

/-- The query at base level on a heap object that has a domain: the mask test decides. -/
theorem omni_requires_delegation_domain (c : Config) (s : Squeak_Interpreter) (rcvr : Oop)
    (mask : Int) (hlevel : s.executionLevel = ExecutionLevel.baseLevel)
    (hobj : isHeapObject c rcvr) (hdom : hasDomain c s rcvr) :
    omni_requires_delegation c s rcvr mask
      = (domainCustomizes c s rcvr mask,
          record (record (record s (Event.omni_requires_delegation rcvr mask))
            (Event.domain_oop rcvr))
            (Event.get_domain_customization_encoding (s.memory rcvr).domain)) := by
  obtain ⟨h1, h2⟩ := hobj
  obtain ⟨d1, d2, d3⟩ := hdom
  unfold omni_requires_delegation
  simp [executes_on_metalevel, record, hlevel, h1, h2, domain_oop, d1, d2, d3,
    domainCustomizes]

/-- The execution level is one of the two. -/
theorem executionLevel_cases (l : ExecutionLevel) :
    l = ExecutionLevel.baseLevel ∨ l = ExecutionLevel.metaLevel := by
  cases l <;> simp

/-- C2. For a heap object whose domain slot holds nil (or the zero word) the query answers
false at every execution level and for every mask, leaves the heap as it is, and records no
fetch of a customization encoding. -/
theorem no_domain_never_delegates (c : Config) (s : Squeak_Interpreter) (rcvr : Oop)
    (mask : Int) (hobj : isHeapObject c rcvr)
    (hnil : (s.memory rcvr).domain = s.roots.nilObj ∨ (s.memory rcvr).domain.bits = 0) :
    (omni_requires_delegation c s rcvr mask).1 = false ∧
      (omni_requires_delegation c s rcvr mask).2.memory = s.memory ∧
      ∃ evs, (omni_requires_delegation c s rcvr mask).2.log = s.log ++ evs ∧
        ∀ d, Event.get_domain_customization_encoding d ∉ evs := by
  rcases executionLevel_cases s.executionLevel with hl | hl
  · rw [omni_requires_delegation_noDomain c s rcvr mask hl hobj hnil]
    refine ⟨rfl, rfl, [Event.omni_requires_delegation rcvr mask, Event.domain_oop rcvr], ?_, ?_⟩
    · simp [record]
    · intro d; simp
  · rw [omni_requires_delegation_metaLevel c s rcvr mask hl]
    refine ⟨rfl, rfl, [Event.omni_requires_delegation rcvr mask], ?_, ?_⟩
    · simp [record]
    · intro d; simp

/-- Witness of C2: the object at 300 has nil in its domain slot. -/
theorem no_domain_never_delegates_witness :
    isHeapObject demoConfig ⟨300⟩ ∧
      (omni_requires_delegation demoConfig (demoInterpreter [] []) ⟨300⟩ 2).1 = false ∧
      (omni_requires_delegation demoConfig (demoInterpreter [] []) ⟨300⟩ 2).2.memory
        = (demoInterpreter [] []).memory ∧
      ∃ evs, (omni_requires_delegation demoConfig (demoInterpreter [] []) ⟨300⟩ 2).2.log
          = (demoInterpreter [] []).log ++ evs ∧
        ∀ d, Event.get_domain_customization_encoding d ∉ evs :=
  ⟨by decide,
    no_domain_never_delegates demoConfig (demoInterpreter [] []) ⟨300⟩ 2 (by decide)
      (Or.inl (by decide))⟩

/-- C3. On a small integer and on the reserved pattern `Illegals::allocated` the query
answers false for every mask; the only thing recorded is the query itself, so the domain
slot of the receiver is neither read nor written, and the heap is unchanged. -/
theorem immediate_receiver_never_delegates (c : Config) (s : Squeak_Interpreter) (rcvr : Oop)
    (mask : Int) (h : rcvr.is_int = true ∨ rcvr = Oop.from_bits c.Illegals_allocated) :
    (omni_requires_delegation c s rcvr mask).1 = false ∧
      (omni_requires_delegation c s rcvr mask).2.memory = s.memory ∧
      (omni_requires_delegation c s rcvr mask).2.log
        = s.log ++ [Event.omni_requires_delegation rcvr mask] ∧
      Event.domain_oop rcvr ∉ (omni_requires_delegation c s rcvr mask).2.log.drop s.log.length ∧
      ∀ v, Event.set_domain rcvr v ∉
        (omni_requires_delegation c s rcvr mask).2.log.drop s.log.length := by
  rw [omni_requires_delegation_immediate c s rcvr mask h]
  simp [record]

/-- Witness of C3: the small integer 3. -/
theorem immediate_receiver_never_delegates_witness :
    ((Oop.from_int 3).is_int = true ∨ Oop.from_int 3 = Oop.from_bits 3772834016) ∧
      (omni_requires_delegation demoConfig (demoInterpreter [] []) (Oop.from_int 3) 16).1
        = false ∧
      (omni_requires_delegation demoConfig (demoInterpreter [] []) (Oop.from_int 3) 16).2.log
        = [Event.omni_requires_delegation (Oop.from_int 3) 16] :=
  ⟨Or.inl (by decide),
    (immediate_receiver_never_delegates demoConfig (demoInterpreter [] []) (Oop.from_int 3) 16
      (Or.inl (by decide))).1,
    (immediate_receiver_never_delegates demoConfig (demoInterpreter [] []) (Oop.from_int 3) 16
      (Or.inl (by decide))).2.2.1⟩

/-- C4 as stated fails at meta level: the object at 104 is a heap object whose domain slot
holds the reserved pattern; the query answers false but the slot still holds the pattern,
not nil. -/
theorem sentinel_kept_at_metaLevel :
    isHeapObject demoConfig ⟨104⟩ ∧
      (demoMetaInterpreter.memory ⟨104⟩).domain
        = Oop.from_bits demoConfig.Illegals_free_extra_preheader_words ∧
      (omni_requires_delegation demoConfig demoMetaInterpreter ⟨104⟩ 2).1 = false ∧
      ¬ ((omni_requires_delegation demoConfig demoMetaInterpreter ⟨104⟩ 2).2.memory ⟨104⟩).domain
          = demoMetaInterpreter.roots.nilObj := by
  decide

/-- C4, amended. At base level, for a heap object whose domain slot holds the reserved
pattern `Illegals::free_extra_preheader_words` (a non-zero word) and for all masks: the query
answers false, afterwards the domain slot of that object holds nil and every other object is
as before; a second query on the resulting state answers false again and changes nothing but
the log. -/
theorem sentinel_self_heals_at_baseLevel (c : Config) (s : Squeak_Interpreter) (rcvr : Oop)
    (mask mask2 : Int) (hlevel : s.executionLevel = ExecutionLevel.baseLevel)
    (hobj : isHeapObject c rcvr)
    (hdom : (s.memory rcvr).domain = Oop.from_bits c.Illegals_free_extra_preheader_words)
    (hzero : c.Illegals_free_extra_preheader_words ≠ 0) :
    (omni_requires_delegation c s rcvr mask).1 = false ∧
      ((omni_requires_delegation c s rcvr mask).2.memory rcvr).domain = s.roots.nilObj ∧
      (∀ o, o ≠ rcvr → (omni_requires_delegation c s rcvr mask).2.memory o = s.memory o) ∧
      (omni_requires_delegation c (omni_requires_delegation c s rcvr mask).2 rcvr mask2).1
        = false ∧
      (omni_requires_delegation c (omni_requires_delegation c s rcvr mask).2 rcvr mask2).2
        = { (omni_requires_delegation c s rcvr mask).2 with
            log := (omni_requires_delegation c s rcvr mask).2.log ++
              [Event.omni_requires_delegation rcvr mask2, Event.domain_oop rcvr] } := by
  by_cases hne : s.roots.nilObj = Oop.from_bits c.Illegals_free_extra_preheader_words
  · have hnil : (s.memory rcvr).domain = s.roots.nilObj := by rw [hdom, hne]
    rw [omni_requires_delegation_noDomain c s rcvr mask hlevel hobj (Or.inl hnil)]
    refine ⟨rfl, hnil, fun o _ => rfl, ?_⟩
    rw [omni_requires_delegation_noDomain c _ rcvr mask2 (by simpa [record] using hlevel) hobj
      (Or.inl (by simpa [record] using hnil))]
    exact ⟨rfl, by simp [record]⟩
  · rw [omni_requires_delegation_sentinel c s rcvr mask hlevel hobj hdom hzero hne]
    refine ⟨rfl, by simp [set_domain, record], ?_, ?_⟩
    · intro o ho
      simp [set_domain, record, Function.update, ho]
    · rw [omni_requires_delegation_noDomain c _ rcvr mask2
        (by simpa [set_domain, record] using hlevel) hobj
        (Or.inl (by simp [set_domain, record]))]
      exact ⟨rfl, by simp [set_domain, record]⟩

/-- Witness of C4: the object at 104 of the concrete machine, at base level. -/
theorem sentinel_self_heals_at_baseLevel_witness :
    (demoInterpreter [] []).executionLevel = ExecutionLevel.baseLevel ∧
      isHeapObject demoConfig ⟨104⟩ ∧
      ((demoInterpreter [] []).memory ⟨104⟩).domain
        = Oop.from_bits demoConfig.Illegals_free_extra_preheader_words ∧
      (omni_requires_delegation demoConfig (demoInterpreter [] []) ⟨104⟩ 2).1 = false ∧
      ((omni_requires_delegation demoConfig (demoInterpreter [] []) ⟨104⟩ 2).2.memory
        ⟨104⟩).domain = demoNil :=
  ⟨rfl, by decide, by decide,
    (sentinel_self_heals_at_baseLevel demoConfig (demoInterpreter [] []) ⟨104⟩ 2 2 rfl
      (by decide) (by decide) (by decide)).1,
    (sentinel_self_heals_at_baseLevel demoConfig (demoInterpreter [] []) ⟨104⟩ 2 2 rfl
      (by decide) (by decide) (by decide)).2.1⟩

/-- C5. At base level, for a heap object whose domain slot holds a domain (not nil, not the
zero word, not the reserved pattern), the query answers exactly
`domain_customizes_selectors(get_domain_customization_encoding(domain), mask)`, and nothing
but the log changes: no object is modified. -/
theorem delegation_is_mask_test (c : Config) (s : Squeak_Interpreter) (rcvr : Oop)
    (mask : Int) (hlevel : s.executionLevel = ExecutionLevel.baseLevel)
    (hobj : isHeapObject c rcvr) (hdom : hasDomain c s rcvr) :
    (omni_requires_delegation c s rcvr mask).1
        = c.The_OstDomain.domain_customizes_selectors
            (c.The_OstDomain.get_domain_customization_encoding s.memory (s.memory rcvr).domain)
            mask ∧
      (omni_requires_delegation c s rcvr mask).2.memory = s.memory ∧
      (omni_requires_delegation c s rcvr mask).2
        = { s with log := (omni_requires_delegation c s rcvr mask).2.log } := by
  rw [omni_requires_delegation_domain c s rcvr mask hlevel hobj hdom]
  exact ⟨rfl, rfl, rfl⟩

/-- Witness of C5: the receiver 100, whose domain at 200 has encoding 255, asked for the
write-field mask 2 and for a mask 256 the encoding does not hold. -/
theorem delegation_is_mask_test_witness :
    ((demoInterpreter [] []).executionLevel = ExecutionLevel.baseLevel ∧
        isHeapObject demoConfig ⟨100⟩ ∧ hasDomain demoConfig (demoInterpreter [] []) ⟨100⟩) ∧
      (omni_requires_delegation demoConfig (demoInterpreter [] []) ⟨100⟩ 2).1
        = demoOstDomain.domain_customizes_selectors (Oop.from_int 255) 2 ∧
      (omni_requires_delegation demoConfig (demoInterpreter [] []) ⟨100⟩ 2).2.memory
        = demoMemory :=
  ⟨⟨rfl, by decide, by decide⟩,
    (delegation_is_mask_test demoConfig (demoInterpreter [] []) ⟨100⟩ 2 rfl (by decide)
      (by decide)).1,
    (delegation_is_mask_test demoConfig (demoInterpreter [] []) ⟨100⟩ 2 rfl (by decide)
      (by decide)).2.1⟩

/-- C6. The literal query is decided by the execution level, the domain of the executing
method and the mask: false at meta level, false when that domain is nil, and otherwise the
mask test against the encoding of that domain. Replacing `roots.receiver`, the operand
stack and the stack pointer does not change the answer, and the query changes nothing but
the log. -/
theorem literals_query_keyed_off_method_domain (c : Config) (s : Squeak_Interpreter)
    (mask : Int) :
    (omni_requires_delegation_for_literals c s mask).1
        = (if s.executionLevel = ExecutionLevel.metaLevel then false
           else if s.localDomain = s.roots.nilObj then false
           else c.The_OstDomain.domain_customizes_selectors
             (c.The_OstDomain.get_domain_customization_encoding s.memory s.localDomain) mask) ∧
      (∀ (r : Oop) (stk : Int → Oop) (sp : Int),
        (omni_requires_delegation_for_literals c
          { s with roots.receiver := r, stack := stk, localSP := sp } mask).1
          = (omni_requires_delegation_for_literals c s mask).1) ∧
      (omni_requires_delegation_for_literals c s mask).2
        = { s with log := (omni_requires_delegation_for_literals c s mask).2.log } := by
  unfold omni_requires_delegation_for_literals
  by_cases hm : s.executionLevel = ExecutionLevel.metaLevel
  · simp [executes_on_metalevel, record, hm]
  · by_cases hn : s.localDomain = s.roots.nilObj
    · simp [executes_on_metalevel, record, hm, hn]
    · simp [executes_on_metalevel, record, hm, hn]

/-! ## Delegated field writes -/

/-- The three-operand field-write rewrite: what it leaves in the send registers, the heap and
the log. -/
theorem omni_internal_write_field_prepares (c : Config) (s : Squeak_Interpreter)
    (obj : Oop) (idx : Int) (value : Oop) :
    (omni_internal_write_field c s obj idx value).roots.messageSelector
        = c.The_OstDomain.write_field ∧
      (omni_internal_write_field c s obj idx value).argumentCount = 3 ∧
      (omni_internal_write_field c s obj idx value).memory = s.memory ∧
      (omni_internal_write_field c s obj idx value).log
        = s.log ++ ([Event.domain_oop obj,
            Event.internalFindNewMethod c.The_OstDomain.write_field
              (c.fetchClass s.memory (s.memory obj).domain),
            Event.internalExecuteNewMethod 3
              [(s.memory obj).domain, value, Oop.from_int (idx + 1), obj]] ++
          (if s.process_is_scheduled_and_executing then [Event.fetchNextBytecode] else [])) := by
  cases hp : s.process_is_scheduled_and_executing <;>
    simp [omni_internal_write_field, omni_commonInternalSend, internalFindNewMethod,
      internalExecuteNewMethod, fetchNextBytecode, record, frame, internalPush, domain_oop, hp,
      List.range_succ, Function.update_apply] <;>
    (refine ⟨?_, ?_, ?_⟩ <;> split_ifs <;> first | rfl | omega)

/-- The four-operand field-write rewrite: what it leaves in the send registers, the heap and
the log. -/
theorem omni_internal_write_field_newTop_prepares (c : Config) (s : Squeak_Interpreter)
    (obj : Oop) (idx : Int) (value newTop : Oop) :
    (omni_internal_write_field_newTop c s obj idx value newTop).roots.messageSelector
        = c.The_OstDomain.write_field_with_return ∧
      (omni_internal_write_field_newTop c s obj idx value newTop).argumentCount = 4 ∧
      (omni_internal_write_field_newTop c s obj idx value newTop).memory = s.memory ∧
      (omni_internal_write_field_newTop c s obj idx value newTop).log
        = s.log ++ ([Event.domain_oop obj,
            Event.internalFindNewMethod c.The_OstDomain.write_field_with_return
              (c.fetchClass s.memory (s.memory obj).domain),
            Event.internalExecuteNewMethod 4
              [(s.memory obj).domain, value, Oop.from_int (idx + 1), obj, newTop]] ++
          (if s.process_is_scheduled_and_executing then [Event.fetchNextBytecode] else [])) := by
  cases hp : s.process_is_scheduled_and_executing <;>
    simp [omni_internal_write_field_newTop, omni_commonInternalSend, internalFindNewMethod,
      internalExecuteNewMethod, fetchNextBytecode, record, frame, internalPush, domain_oop, hp,
      List.range_succ, Function.update_apply] <;>
    (refine ⟨?_, ?_, ?_, ?_⟩ <;> split_ifs <;> first | rfl | omega)

/-- The delegated arm of `storeAndPopReceiverVariableBytecode`. -/
theorem storeAndPopReceiverVariableBytecode_delegated (c : Config) (s : Squeak_Interpreter)
    (h : delegatesWriteField c s) :
    DelegatedWrite c s (storeAndPopReceiverVariableBytecode c s)
      c.The_OstDomain.write_field_with_return
      [(s.memory s.roots.receiver).domain, s.stack s.localSP,
        Oop.from_int (((s.currentBytecode &&& 7 : Nat) : Int) + 1), s.roots.receiver,
        s.stack (s.localSP - 1)] := by
  obtain ⟨hl, ho, hdm, hc⟩ := h
  have hq := omni_requires_delegation_domain c s s.roots.receiver
    c.masks.WriteToFieldMask hl ho hdm
  unfold storeAndPopReceiverVariableBytecode
  rw [hq]
  simp only [hc, if_true]
  refine ⟨(omni_internal_write_field_newTop_prepares c _ _ _ _ _).1,
    (omni_internal_write_field_newTop_prepares c _ _ _ _ _).2.1.trans (by simp),
    (omni_internal_write_field_newTop_prepares c _ _ _ _ _).2.2.1.trans rfl,
    (omni_internal_write_field_newTop_prepares c _ _ _ _ _).2.2.2.trans ?_⟩
  simp [delegatedWriteEvents, record, internalPop, internalStackTop, internalStackValue]

/-- The delegated arm of `extendedStoreAndPopBytecode`, target type 0. -/
theorem extendedStoreAndPopBytecode_delegated (c : Config) (s : Squeak_Interpreter)
    (h : delegatesWriteField c s) (hd : ((s.code (s.localIP + 1) % 256) >>> 6) &&& 3 = 0) :
    DelegatedWrite c s (extendedStoreAndPopBytecode c s)
      c.The_OstDomain.write_field_with_return
      [(s.memory s.roots.receiver).domain, s.stack s.localSP,
        Oop.from_int (((s.code (s.localIP + 1) % 256 &&& 63 : Nat) : Int) + 1),
        s.roots.receiver, s.stack (s.localSP - 1)] := by
  obtain ⟨hl, ho, hdm, hc⟩ := h
  have hq := omni_requires_delegation_domain c (fetchByte s).2 s.roots.receiver
    c.masks.WriteToFieldMask hl ho hdm
  unfold extendedStoreAndPopBytecode
  simp only [fetchByte] at hq ⊢
  rw [hd]
  simp only []
  rw [hq]
  simp only [domainCustomizes] at hc ⊢
  simp only [hc, if_true]
  refine ⟨(omni_internal_write_field_newTop_prepares c _ _ _ _ _).1,
    (omni_internal_write_field_newTop_prepares c _ _ _ _ _).2.1.trans (by simp),
    (omni_internal_write_field_newTop_prepares c _ _ _ _ _).2.2.1.trans rfl,
    (omni_internal_write_field_newTop_prepares c _ _ _ _ _).2.2.2.trans ?_⟩
  simp [delegatedWriteEvents, record, internalPop, internalStackTop, internalStackValue]

/-- The delegated arm of `extendedStoreBytecode`, target type 0. -/
theorem extendedStoreBytecode_delegated (c : Config) (s : Squeak_Interpreter)
    (h : delegatesWriteField c s) (hd : ((s.code (s.localIP + 1) % 256) >>> 6) &&& 3 = 0) :
    DelegatedWrite c s (extendedStoreBytecode c s) c.The_OstDomain.write_field
      [(s.memory s.roots.receiver).domain, s.stack s.localSP,
        Oop.from_int (((s.code (s.localIP + 1) % 256 &&& 63 : Nat) : Int) + 1),
        s.roots.receiver] := by
  obtain ⟨hl, ho, hdm, hc⟩ := h
  have hq := omni_requires_delegation_domain c (fetchByte s).2 s.roots.receiver
    c.masks.WriteToFieldMask hl ho hdm
  unfold extendedStoreBytecode
  simp only [fetchByte] at hq ⊢
  rw [hd]
  simp only []
  rw [hq]
  simp only [domainCustomizes] at hc ⊢
  simp only [hc, if_true]
  refine ⟨(omni_internal_write_field_prepares c _ _ _ _).1,
    (omni_internal_write_field_prepares c _ _ _ _).2.1.trans (by simp),
    (omni_internal_write_field_prepares c _ _ _ _).2.2.1.trans rfl,
    (omni_internal_write_field_prepares c _ _ _ _).2.2.2.trans ?_⟩
  simp [delegatedWriteEvents, record, internalPop, internalStackTop]

/-- The delegated arm of `doubleExtendedDoAnythingBytecode`, operation 5. -/
theorem doubleExtendedDoAnythingBytecode_store_delegated (c : Config) (s : Squeak_Interpreter)
    (h : delegatesWriteField c s) (hop : (s.code (s.localIP + 1) % 256) >>> 5 = 5) :
    DelegatedWrite c s (doubleExtendedDoAnythingBytecode c s) c.The_OstDomain.write_field
      [(s.memory s.roots.receiver).domain, s.stack s.localSP,
        Oop.from_int (((s.code (s.localIP + 2) % 256 : Nat) : Int) + 1),
        s.roots.receiver] := by
  obtain ⟨hl, ho, hdm, hc⟩ := h
  have hq := omni_requires_delegation_domain c (fetchByte (fetchByte s).2).2 s.roots.receiver
    c.masks.WriteToFieldMask hl ho hdm
  have hip : s.localIP + 1 + 1 = s.localIP + 2 := by ring
  unfold doubleExtendedDoAnythingBytecode
  simp only [fetchByte] at hq ⊢
  rw [hop]
  simp only []
  rw [hq]
  simp only [domainCustomizes] at hc ⊢
  simp only [hc, if_true]
  refine ⟨(omni_internal_write_field_prepares c _ _ _ _).1,
    (omni_internal_write_field_prepares c _ _ _ _).2.1.trans (by simp),
    (omni_internal_write_field_prepares c _ _ _ _).2.2.1.trans rfl,
    (omni_internal_write_field_prepares c _ _ _ _).2.2.2.trans ?_⟩
  simp [delegatedWriteEvents, record, internalPop, internalStackTop, hip]

/-- The delegated arm of `doubleExtendedDoAnythingBytecode`, operation 6. -/
theorem doubleExtendedDoAnythingBytecode_storeAndPop_delegated (c : Config)
    (s : Squeak_Interpreter) (h : delegatesWriteField c s)
    (hop : (s.code (s.localIP + 1) % 256) >>> 5 = 6) :
    DelegatedWrite c s (doubleExtendedDoAnythingBytecode c s)
      c.The_OstDomain.write_field_with_return
      [(s.memory s.roots.receiver).domain, s.stack s.localSP,
        Oop.from_int (((s.code (s.localIP + 2) % 256 : Nat) : Int) + 1),
        s.roots.receiver, s.stack (s.localSP - 1)] := by
  obtain ⟨hl, ho, hdm, hc⟩ := h
  have hq := omni_requires_delegation_domain c (fetchByte (fetchByte s).2).2 s.roots.receiver
    c.masks.WriteToFieldMask hl ho hdm
  have hip : s.localIP + 1 + 1 = s.localIP + 2 := by ring
  unfold doubleExtendedDoAnythingBytecode
  simp only [fetchByte] at hq ⊢
  rw [hop]
  simp only []
  rw [hq]
  simp only [domainCustomizes] at hc ⊢
  simp only [hc, if_true]
  refine ⟨(omni_internal_write_field_newTop_prepares c _ _ _ _ _).1,
    (omni_internal_write_field_newTop_prepares c _ _ _ _ _).2.1.trans (by simp),
    (omni_internal_write_field_newTop_prepares c _ _ _ _ _).2.2.1.trans rfl,
    (omni_internal_write_field_newTop_prepares c _ _ _ _ _).2.2.2.trans ?_⟩
  simp [delegatedWriteEvents, record, internalPop, internalStackTop, internalStackValue, hip]

/-- C7 as stated fails in two ways. In the concrete machine the receiver's domain customizes
write-field. At base level `storeAndPopReceiverVariableBytecode` (bytecode 97, field 1, value
7 on top of the slot holding 900) sends write-field-with-return, not write-field, with four
arguments: the operands are (domain, 7, 2, receiver, 900). At meta level
`extendedStoreBytecode` (descriptor 1) prepares no send at all and performs the
`storePointer` on the receiver. -/
theorem storeAndPop_sends_write_field_with_return :
    delegatesWriteField demoConfig demoStoreInterpreter ∧
      (storeAndPopReceiverVariableBytecode demoConfig demoStoreInterpreter).roots.messageSelector
        ≠ demoConfig.The_OstDomain.write_field ∧
      (storeAndPopReceiverVariableBytecode demoConfig demoStoreInterpreter).roots.messageSelector
        = demoConfig.The_OstDomain.write_field_with_return ∧
      (storeAndPopReceiverVariableBytecode demoConfig demoStoreInterpreter).argumentCount = 4 ∧
      (storeAndPopReceiverVariableBytecode demoConfig demoStoreInterpreter).log
        = [Event.omni_requires_delegation ⟨100⟩ 2, Event.domain_oop ⟨100⟩,
           Event.get_domain_customization_encoding ⟨200⟩, Event.domain_oop ⟨100⟩,
           Event.internalFindNewMethod ⟨2008⟩ ⟨400⟩,
           Event.internalExecuteNewMethod 4
             [⟨200⟩, Oop.from_int 7, Oop.from_int 2, ⟨100⟩, ⟨900⟩],
           Event.fetchNextBytecode] ∧
      domainCustomizes demoConfig demoMetaExtendedStoreInterpreter ⟨100⟩ 2 = true ∧
      (extendedStoreBytecode demoConfig demoMetaExtendedStoreInterpreter).log
        = [Event.omni_requires_delegation ⟨100⟩ 2, Event.fetchNextBytecode,
           Event.storePointer ⟨100⟩ 1 (Oop.from_int 7)] := by
  decide

/-- C7, amended. When delegation of write-field applies to the receiver (base level, heap
object, domain customizing write-field), the stores that keep the value on the stack
(`extendedStoreBytecode` type 0, `doubleExtendedDoAnythingBytecode` operation 5) prepare a
send of write-field with operands (domain, v, i+1, receiver), and the store-and-pop handlers
(`storeAndPopReceiverVariableBytecode`, `extendedStoreAndPopBytecode` type 0,
`doubleExtendedDoAnythingBytecode` operation 6) prepare a send of write-field-with-return
with operands (domain, v, i+1, receiver, t), where v is the stack top and t the slot beneath
it. In every case the heap is left as it is and no `storePointer` on the receiver is
recorded. -/
theorem write_field_delegation_rewrite (c : Config) (s : Squeak_Interpreter)
    (h : delegatesWriteField c s) :
    (((s.code (s.localIP + 1) % 256) >>> 6) &&& 3 = 0 →
        DelegatedWrite c s (extendedStoreBytecode c s) c.The_OstDomain.write_field
          [(s.memory s.roots.receiver).domain, s.stack s.localSP,
            Oop.from_int (((s.code (s.localIP + 1) % 256 &&& 63 : Nat) : Int) + 1),
            s.roots.receiver]) ∧
      ((s.code (s.localIP + 1) % 256) >>> 5 = 5 →
        DelegatedWrite c s (doubleExtendedDoAnythingBytecode c s) c.The_OstDomain.write_field
          [(s.memory s.roots.receiver).domain, s.stack s.localSP,
            Oop.from_int (((s.code (s.localIP + 2) % 256 : Nat) : Int) + 1),
            s.roots.receiver]) ∧
      DelegatedWrite c s (storeAndPopReceiverVariableBytecode c s)
        c.The_OstDomain.write_field_with_return
        [(s.memory s.roots.receiver).domain, s.stack s.localSP,
          Oop.from_int (((s.currentBytecode &&& 7 : Nat) : Int) + 1), s.roots.receiver,
          s.stack (s.localSP - 1)] ∧
      (((s.code (s.localIP + 1) % 256) >>> 6) &&& 3 = 0 →
        DelegatedWrite c s (extendedStoreAndPopBytecode c s)
          c.The_OstDomain.write_field_with_return
          [(s.memory s.roots.receiver).domain, s.stack s.localSP,
            Oop.from_int (((s.code (s.localIP + 1) % 256 &&& 63 : Nat) : Int) + 1),
            s.roots.receiver, s.stack (s.localSP - 1)]) ∧
      ((s.code (s.localIP + 1) % 256) >>> 5 = 6 →
        DelegatedWrite c s (doubleExtendedDoAnythingBytecode c s)
          c.The_OstDomain.write_field_with_return
          [(s.memory s.roots.receiver).domain, s.stack s.localSP,
            Oop.from_int (((s.code (s.localIP + 2) % 256 : Nat) : Int) + 1),
            s.roots.receiver, s.stack (s.localSP - 1)]) ∧
      ∀ (selector : Oop) (operands : List Oop) (i : Int) (v : Oop),
        Event.storePointer s.roots.receiver i v ∉ delegatedWriteEvents c s selector operands :=
  ⟨extendedStoreBytecode_delegated c s h,
    doubleExtendedDoAnythingBytecode_store_delegated c s h,
    storeAndPopReceiverVariableBytecode_delegated c s h,
    extendedStoreAndPopBytecode_delegated c s h,
    doubleExtendedDoAnythingBytecode_storeAndPop_delegated c s h,
    fun selector operands i v => by
      unfold delegatedWriteEvents
      split_ifs <;> simp⟩

/-- Witness of C7: `extendedStoreBytecode` with descriptor 1 (receiver field 1) in the concrete
machine sends write-field with operands (domain, 7, 2, receiver). -/
theorem write_field_delegation_rewrite_witness :
    delegatesWriteField demoConfig demoExtendedStoreInterpreter ∧
      DelegatedWrite demoConfig demoExtendedStoreInterpreter
        (extendedStoreBytecode demoConfig demoExtendedStoreInterpreter) ⟨2004⟩
        [⟨200⟩, Oop.from_int 7, Oop.from_int 2, ⟨100⟩] :=
  ⟨by decide,
    (write_field_delegation_rewrite demoConfig demoExtendedStoreInterpreter (by decide)).1
      (by decide)⟩

/-! ## Integer addition -/

/-- A small-integer value lies in the 31-bit signed range. -/
theorem integerValue_range (o : Oop) :
    -1073741824 ≤ o.integerValue ∧ o.integerValue < 1073741824 := by
  unfold Oop.integerValue toSigned32
  split_ifs <;> omega

/-- The sum of two small-integer values is not changed by its passage through `oop_int_t`. -/
theorem toSigned32_add_integerValue (a b : Oop) :
    toSigned32 (a.integerValue + b.integerValue) = a.integerValue + b.integerValue := by
  have ha := integerValue_range a
  have hb := integerValue_range b
  unfold toSigned32
  split_ifs <;> omega

/-- A representable value is encoded as a small integer and read back unchanged. -/
theorem from_int_integerValue (v : Int) (h : Oop.isIntegerValue v = true) :
    (Oop.from_int v).is_int = true ∧ (Oop.from_int v).integerValue = v := by
  simp only [Oop.isIntegerValue, Bool.and_eq_true, decide_eq_true_eq] at h
  obtain ⟨h1, h2⟩ := h
  constructor
  · simp only [Oop.is_int, Oop.from_int, beq_iff_eq]
    omega
  · simp only [Oop.integerValue, Oop.from_int, toSigned32]
    split_ifs <;> omega

/-- C8. When both operands of `bytecodePrimAdd` are small integers and their sum is not a
representable small integer, nothing is pushed: stack and stack pointer are unchanged, the
selector is `specialSelector(0)`, the argument count is 1, and the only thing recorded is the
generic send of the two operands as they were. -/
theorem bytecodePrimAdd_overflow_falls_back (c : Config) (s : Squeak_Interpreter)
    (hr : (s.stack (s.localSP - 1)).is_int = true) (ha : (s.stack s.localSP).is_int = true)
    (hov : Oop.isIntegerValue
      ((s.stack (s.localSP - 1)).integerValue + (s.stack s.localSP).integerValue) = false) :
    (bytecodePrimAdd c s).stack = s.stack ∧
      (bytecodePrimAdd c s).localSP = s.localSP ∧
      (bytecodePrimAdd c s).roots.messageSelector = c.specialSelector 0 ∧
      (bytecodePrimAdd c s).argumentCount = 1 ∧
      (bytecodePrimAdd c s).log
        = s.log ++ [Event.normalSend (c.specialSelector 0) 1
            [s.stack (s.localSP - 1), s.stack s.localSP]] ∧
      bytecodePrimAdd c s
        = { s with roots.messageSelector := c.specialSelector 0, argumentCount := 1,
                   log := (bytecodePrimAdd c s).log } := by
  have key : bytecodePrimAdd c s
      = normalSend { s with roots.messageSelector := c.specialSelector 0,
                            argumentCount := 1 } := by
    unfold bytecodePrimAdd
    simp [areIntegers, internalStackValue, hr, ha, toSigned32_add_integerValue, hov]
  rw [key]
  simp [normalSend, record, frame, List.range_succ]

/-- Witness of C8: 1073741823 + 1 is outside the small-integer range. -/
theorem bytecodePrimAdd_overflow_falls_back_witness :
    Oop.isIntegerValue ((Oop.from_int 1073741823).integerValue + (Oop.from_int 1).integerValue)
        = false ∧
      (bytecodePrimAdd demoConfig demoOverflowInterpreter).stack = demoOverflowInterpreter.stack ∧
      (bytecodePrimAdd demoConfig demoOverflowInterpreter).localSP = 2 ∧
      (bytecodePrimAdd demoConfig demoOverflowInterpreter).roots.messageSelector = ⟨3000⟩ ∧
      (bytecodePrimAdd demoConfig demoOverflowInterpreter).argumentCount = 1 ∧
      (bytecodePrimAdd demoConfig demoOverflowInterpreter).log
        = [Event.normalSend ⟨3000⟩ 1 [Oop.from_int 1073741823, Oop.from_int 1]] :=
  ⟨by decide,
    (bytecodePrimAdd_overflow_falls_back demoConfig demoOverflowInterpreter (by decide)
      (by decide) (by decide)).1,
    (bytecodePrimAdd_overflow_falls_back demoConfig demoOverflowInterpreter (by decide)
      (by decide) (by decide)).2.1,
    (bytecodePrimAdd_overflow_falls_back demoConfig demoOverflowInterpreter (by decide)
      (by decide) (by decide)).2.2.1,
    (bytecodePrimAdd_overflow_falls_back demoConfig demoOverflowInterpreter (by decide)
      (by decide) (by decide)).2.2.2.1,
    (bytecodePrimAdd_overflow_falls_back demoConfig demoOverflowInterpreter (by decide)
      (by decide) (by decide)).2.2.2.2.1⟩

/-- C9. When both operands of `bytecodePrimAdd` are small integers a and b and a+b is
representable, the two top slots are replaced by the one small integer whose value is a+b,
the next bytecode is fetched, and nothing else is recorded: no delegation query and no send,
whatever the execution level and the domains are. -/
theorem bytecodePrimAdd_fast_path (c : Config) (s : Squeak_Interpreter)
    (hr : (s.stack (s.localSP - 1)).is_int = true) (ha : (s.stack s.localSP).is_int = true)
    (hfit : Oop.isIntegerValue
      ((s.stack (s.localSP - 1)).integerValue + (s.stack s.localSP).integerValue) = true) :
    (bytecodePrimAdd c s).localSP = s.localSP - 1 ∧
      (bytecodePrimAdd c s).stack
        = Function.update s.stack (s.localSP - 1)
            (Oop.from_int
              ((s.stack (s.localSP - 1)).integerValue + (s.stack s.localSP).integerValue)) ∧
      ((bytecodePrimAdd c s).stack (bytecodePrimAdd c s).localSP).is_int = true ∧
      ((bytecodePrimAdd c s).stack (bytecodePrimAdd c s).localSP).integerValue
        = (s.stack (s.localSP - 1)).integerValue + (s.stack s.localSP).integerValue ∧
      (bytecodePrimAdd c s).log = s.log ++ [Event.fetchNextBytecode] ∧
      (bytecodePrimAdd c s).localIP = s.localIP + 1 ∧
      (bytecodePrimAdd c s).currentBytecode = s.code (s.localIP + 1) % 256 ∧
      (bytecodePrimAdd c s).memory = s.memory ∧
      (bytecodePrimAdd c s).roots = s.roots ∧
      (bytecodePrimAdd c s).argumentCount = s.argumentCount := by
  have key : bytecodePrimAdd c s
      = fetchNextBytecode (internalPopThenPush s 2 (Oop.from_int
          ((s.stack (s.localSP - 1)).integerValue + (s.stack s.localSP).integerValue))) := by
    unfold bytecodePrimAdd
    simp [areIntegers, internalStackValue, hr, ha, toSigned32_add_integerValue, hfit]
  obtain ⟨h1, h2⟩ := from_int_integerValue _ hfit
  rw [key]
  have e : s.localSP - (2 - 1) = s.localSP - 1 := by ring
  simp [fetchNextBytecode, internalPopThenPush, record, e, h1, h2]

/-- Witness of C9: 3 + 4 gives 7 in the concrete machine, whose receiver and executing
method both have a domain that customizes every operation. -/
theorem bytecodePrimAdd_fast_path_witness :
    Oop.isIntegerValue ((Oop.from_int 3).integerValue + (Oop.from_int 4).integerValue) = true ∧
      (bytecodePrimAdd demoConfig demoAddInterpreter).localSP = 1 ∧
      (bytecodePrimAdd demoConfig demoAddInterpreter).stack 1 = Oop.from_int 7 ∧
      (bytecodePrimAdd demoConfig demoAddInterpreter).log = [Event.fetchNextBytecode] := by
  have h := bytecodePrimAdd_fast_path demoConfig demoAddInterpreter (by decide) (by decide)
    (by decide)
  exact ⟨by decide, h.1, by rw [h.2.1]; decide, h.2.2.2.2.1⟩

/-! ## Closure construction -/

/-- The copying loop run for the first `m` indices: stack, stack pointer are untouched and
slot `i + ClosureFirstCopiedValueIndex` of the closure holds the operand at depth
`numCopied - i - 1`, for every `i < m`. -/
theorem copy_loop_prefix (c : Config) (newClosure : Oop) (numCopied : Nat)
    (s : Squeak_Interpreter) (m : Nat) :
    (List.foldl
        (fun (s : Squeak_Interpreter) (i : Nat) => storePointerUnchecked s newClosure
          ((i : Int) + c.ClosureFirstCopiedValueIndex)
          (internalStackValue s ((numCopied : Int) - (i : Int) - 1))) s (List.range m)).stack = s.stack ∧
      (List.foldl
        (fun (s : Squeak_Interpreter) (i : Nat) => storePointerUnchecked s newClosure
          ((i : Int) + c.ClosureFirstCopiedValueIndex)
          (internalStackValue s ((numCopied : Int) - (i : Int) - 1))) s (List.range m)).localSP = s.localSP ∧
      ∀ i : Nat, i < m →
        ((List.foldl
          (fun (s : Squeak_Interpreter) (i : Nat) => storePointerUnchecked s newClosure
            ((i : Int) + c.ClosureFirstCopiedValueIndex)
            (internalStackValue s ((numCopied : Int) - (i : Int) - 1))) s (List.range m)).memory
              newClosure).fields ((i : Int) + c.ClosureFirstCopiedValueIndex)
          = s.stack (s.localSP - ((numCopied : Int) - (i : Int) - 1)) := by
  induction m with
  | zero => simp
  | succ m ih =>
    obtain ⟨ih1, ih2, ih3⟩ := ih
    rw [List.range_succ, List.foldl_append]
    simp only [List.foldl_cons, List.foldl_nil]
    generalize List.foldl
      (fun (s : Squeak_Interpreter) (i : Nat) => storePointerUnchecked s newClosure
        ((i : Int) + c.ClosureFirstCopiedValueIndex)
        (internalStackValue s ((numCopied : Int) - (i : Int) - 1))) s (List.range m) = S
      at ih1 ih2 ih3 ⊢
    refine ⟨?_, ?_, ?_⟩
    · simpa [storePointerUnchecked, record] using ih1
    · simpa [storePointerUnchecked, record] using ih2
    · intro i hi
      by_cases him : i = m
      · subst him
        simp [storePointerUnchecked, record, internalStackValue, ih1, ih2]
      · have hlt : i < m := by omega
        have hne : ((i : Int) + c.ClosureFirstCopiedValueIndex)
            ≠ ((m : Int) + c.ClosureFirstCopiedValueIndex) := by omega
        simp [storePointerUnchecked, record, Function.update_noteq hne, ih3 i hlt]

/-- The end of `pushClosureCopyCopiedValuesBytecode`, from the copying loop on, started in
any state `S0` with any closure reference: the copied values land in push order, `numCopied`
slots are popped and the closure is pushed. -/
theorem closure_copy_and_push (c : Config) (S0 : Squeak_Interpreter) (newClosure : Oop)
    (numCopied : Nat) (blockSize : Int) (S1 : Squeak_Interpreter)
    (hS1 : S1 = (if numCopied > 0 then
        internalPop (copyCopiedValues c newClosure numCopied S0) (numCopied : Int) else S0)) :
    (∀ i : Nat, i < numCopied →
        ((internalPush (fetchNextBytecode { S1 with localIP := S1.localIP + blockSize })
            newClosure).memory newClosure).fields ((i : Int) + c.ClosureFirstCopiedValueIndex)
          = S0.stack (S0.localSP - ((numCopied : Int) - 1 - (i : Int)))) ∧
      (internalPush (fetchNextBytecode { S1 with localIP := S1.localIP + blockSize })
          newClosure).localSP = S0.localSP - (numCopied : Int) + 1 ∧
      (internalPush (fetchNextBytecode { S1 with localIP := S1.localIP + blockSize })
          newClosure).stack
        = Function.update S0.stack (S0.localSP - (numCopied : Int) + 1) newClosure := by
  obtain ⟨l1, l2, l3⟩ := copy_loop_prefix c newClosure numCopied S0 numCopied
  have hstack : S1.stack = S0.stack := by
    rw [hS1]; split_ifs
    · simpa [internalPop, copyCopiedValues] using l1
    · rfl
  have hsp : S1.localSP = S0.localSP - (numCopied : Int) := by
    rw [hS1]; split_ifs with h
    · simpa [internalPop, copyCopiedValues] using l2
    · have : numCopied = 0 := by omega
      simp [this]
  have hmem : ∀ i : Nat, i < numCopied →
      (S1.memory newClosure).fields ((i : Int) + c.ClosureFirstCopiedValueIndex)
        = S0.stack (S0.localSP - ((numCopied : Int) - 1 - (i : Int))) := by
    intro i hi
    have hpos : numCopied > 0 := by omega
    rw [hS1, if_pos hpos]
    have e : (numCopied : Int) - 1 - (i : Int) = (numCopied : Int) - (i : Int) - 1 := by ring
    rw [e]
    simpa [internalPop, copyCopiedValues] using l3 i hi
  refine ⟨?_, ?_, ?_⟩
  · intro i hi
    simpa [internalPush, fetchNextBytecode, record] using hmem i hi
  · simp [internalPush, fetchNextBytecode, record, hsp]
  · simp [internalPush, fetchNextBytecode, record, hsp, hstack]

/-- C10. `pushClosureCopyCopiedValuesBytecode` with numCopied = N (the high four bits of the
first operand byte): for every i < N the copied-value slot i of the new closure holds the
operand that was at stack depth N-1-i, the stack pointer ends at its old value minus N plus
one, the slot it points to holds the new closure, and no other stack slot is changed. -/
theorem closure_captures_in_push_order (c : Config) (s : Squeak_Interpreter) :
    (∀ i : Nat, i < (s.code (s.localIP + 1) % 256) >>> 4 →
        ((pushClosureCopyCopiedValuesBytecode c s).memory
          (c.instantiateSmallClass s.memory c.ClassBlockClosure
            ((c.ClosureFirstCopiedValueIndex + (((s.code (s.localIP + 1) % 256) >>> 4 : Nat) : Int))
              * c.sizeof_Oop + c.BaseHeaderSize)).1).fields
            ((i : Int) + c.ClosureFirstCopiedValueIndex)
          = internalStackValue s
              ((((s.code (s.localIP + 1) % 256) >>> 4 : Nat) : Int) - 1 - (i : Int))) ∧
      (pushClosureCopyCopiedValuesBytecode c s).localSP
        = s.localSP - (((s.code (s.localIP + 1) % 256) >>> 4 : Nat) : Int) + 1 ∧
      (pushClosureCopyCopiedValuesBytecode c s).stack
        = Function.update s.stack
            (s.localSP - (((s.code (s.localIP + 1) % 256) >>> 4 : Nat) : Int) + 1)
            (c.instantiateSmallClass s.memory c.ClassBlockClosure
              ((c.ClosureFirstCopiedValueIndex +
                  (((s.code (s.localIP + 1) % 256) >>> 4 : Nat) : Int))
                * c.sizeof_Oop + c.BaseHeaderSize)).1 := by
  have hcl : ∀ (x : Squeak_Interpreter) (a ip n : Int),
      (closureCopy c x a ip n).1 = (c.instantiateSmallClass x.memory c.ClassBlockClosure
        ((c.ClosureFirstCopiedValueIndex + n) * c.sizeof_Oop + c.BaseHeaderSize)).1 :=
    fun _ _ _ _ => rfl
  have hext : ∀ x : Squeak_Interpreter, (externalizeExecutionState x).memory = x.memory :=
    fun _ => rfl
  unfold pushClosureCopyCopiedValuesBytecode
  simp only [fetchByte, hcl, hext]
  generalize hS0 : ({ storePointerUnchecked _ _ c.ClosureOuterContextIndex _ with
    reclaimableContextCount := (0 : Int) } : Squeak_Interpreter) = S0
  have h0 : S0.stack = s.stack := by
    rw [← hS0]
    simp [storePointerUnchecked, record, internalizeExecutionState, closureCopy,
      omni_set_domain_for_new_object, externalizeExecutionState]
  have h1 : S0.localSP = s.localSP := by
    rw [← hS0]
    simp [storePointerUnchecked, record, internalizeExecutionState, closureCopy,
      omni_set_domain_for_new_object, externalizeExecutionState]
  simp only [internalStackValue, ← h0, ← h1]
  exact closure_copy_and_push c S0 _ _ _ _ rfl

/-! ## Frame of the queries and of the send mechanism -/

/-- The receiver query changes nothing but the heap and the log. -/
theorem omni_requires_delegation_frame (c : Config) (s : Squeak_Interpreter) (rcvr : Oop)
    (mask : Int) :
    (omni_requires_delegation c s rcvr mask).2
      = { s with memory := (omni_requires_delegation c s rcvr mask).2.memory,
                 log := (omni_requires_delegation c s rcvr mask).2.log } := by
  unfold omni_requires_delegation
  simp only [domain_oop, set_domain, record]
  split_ifs <;> rfl

/-- The literal query changes nothing but the log. -/
theorem omni_requires_delegation_for_literals_frame (c : Config) (s : Squeak_Interpreter)
    (mask : Int) :
    (omni_requires_delegation_for_literals c s mask).2
      = { s with log := (omni_requires_delegation_for_literals c s mask).2.log } := by
  unfold omni_requires_delegation_for_literals
  simp only [record]
  split_ifs <;> rfl

/-- The answer of the receiver query depends on the state only through the execution level,
the heap and nil. -/
theorem omni_requires_delegation_fst_congr (c : Config) (s s' : Squeak_Interpreter)
    (rcvr : Oop) (mask : Int) (hl : s'.executionLevel = s.executionLevel)
    (hm : s'.memory = s.memory) (hn : s'.roots.nilObj = s.roots.nilObj) :
    (omni_requires_delegation c s' rcvr mask).1 = (omni_requires_delegation c s rcvr mask).1 := by
  unfold omni_requires_delegation
  simp only [domain_oop, set_domain, record, executes_on_metalevel, hl, hm, hn]
  split_ifs <;> rfl

/-- The answer of the literal query depends on the state only through the execution level,
the domain of the executing method, the heap and nil. -/
theorem omni_requires_delegation_for_literals_fst_congr (c : Config)
    (s s' : Squeak_Interpreter) (mask : Int) (hl : s'.executionLevel = s.executionLevel)
    (hd : s'.localDomain = s.localDomain) (hm : s'.memory = s.memory)
    (hn : s'.roots.nilObj = s.roots.nilObj) :
    (omni_requires_delegation_for_literals c s' mask).1
      = (omni_requires_delegation_for_literals c s mask).1 := by
  unfold omni_requires_delegation_for_literals
  simp only [record, executes_on_metalevel, hl, hd, hm, hn]
  split_ifs <;> rfl

/-- The stack pointer after the receiver query. -/
theorem omni_requires_delegation_localSP (c : Config) (s : Squeak_Interpreter) (rcvr : Oop)
    (mask : Int) : (omni_requires_delegation c s rcvr mask).2.localSP = s.localSP := by
  rw [omni_requires_delegation_frame]

/-- The stack pointer after the literal query. -/
theorem omni_requires_delegation_for_literals_localSP (c : Config) (s : Squeak_Interpreter)
    (mask : Int) : (omni_requires_delegation_for_literals c s mask).2.localSP = s.localSP := by
  rw [omni_requires_delegation_for_literals_frame]

/-- The send mechanism leaves the operand stack, the send registers and the heap as they
are. -/
theorem omni_commonInternalSend_frame (s : Squeak_Interpreter) :
    (omni_commonInternalSend s).localSP = s.localSP ∧
      (omni_commonInternalSend s).stack = s.stack ∧
      (omni_commonInternalSend s).argumentCount = s.argumentCount ∧
      (omni_commonInternalSend s).roots = s.roots ∧
      (omni_commonInternalSend s).memory = s.memory := by
  unfold omni_commonInternalSend
  simp only [internalFindNewMethod, internalExecuteNewMethod, fetchNextBytecode, record]
  split_ifs <;> exact ⟨rfl, rfl, rfl, rfl, rfl⟩

/-- What the send mechanism records: the lookup, the execution, and then the advance to the
next bytecode when the process is still scheduled. -/
theorem omni_commonInternalSend_log (s : Squeak_Interpreter) :
    (omni_commonInternalSend s).log
      = s.log ++ ([Event.internalFindNewMethod s.roots.messageSelector s.roots.lkupClass,
          Event.internalExecuteNewMethod s.argumentCount (frame s s.argumentCount)] ++
        (if s.process_is_scheduled_and_executing then [Event.fetchNextBytecode] else [])) := by
  unfold omni_commonInternalSend
  cases hp : s.process_is_scheduled_and_executing <;>
    simp [internalFindNewMethod, internalExecuteNewMethod, fetchNextBytecode, record, frame, hp]

/-- The field-read rewrite: what it leaves on the stack, in the send registers, in the heap
and in the log. -/
theorem omni_internal_read_field_prepares (c : Config) (s : Squeak_Interpreter)
    (obj : Oop) (idx : Int) :
    (omni_internal_read_field c s obj idx).localSP = s.localSP + 3 ∧
      (omni_internal_read_field c s obj idx).stack
        = Function.update (Function.update (Function.update s.stack
            (s.localSP + 1) (s.memory obj).domain)
            (s.localSP + 2) (Oop.from_int (idx + 1)))
            (s.localSP + 3) obj ∧
      (omni_internal_read_field c s obj idx).argumentCount = 2 ∧
      (omni_internal_read_field c s obj idx).roots.messageSelector
        = c.The_OstDomain.read_field ∧
      (omni_internal_read_field c s obj idx).roots.lkupClass
        = c.fetchClass s.memory (s.memory obj).domain ∧
      (omni_internal_read_field c s obj idx).memory = s.memory ∧
      (omni_internal_read_field c s obj idx).log
        = s.log ++ ([Event.domain_oop obj,
            Event.internalFindNewMethod c.The_OstDomain.read_field
              (c.fetchClass s.memory (s.memory obj).domain),
            Event.internalExecuteNewMethod 2
              [(s.memory obj).domain, Oop.from_int (idx + 1), obj]] ++
          (if s.process_is_scheduled_and_executing then [Event.fetchNextBytecode] else [])) := by
  have e2 : s.localSP + 1 + 1 = s.localSP + 2 := by ring
  have e3 : s.localSP + 2 + 1 = s.localSP + 3 := by ring
  unfold omni_internal_read_field
  simp only [domain_oop]
  refine ⟨?_, ?_, ?_, ?_, ?_, ?_, ?_⟩
  · rw [(omni_commonInternalSend_frame _).1]; simp [internalPush, record, e2, e3]
  · rw [(omni_commonInternalSend_frame _).2.1]; simp [internalPush, record, e2, e3]
  · rw [(omni_commonInternalSend_frame _).2.2.1]
  · rw [(omni_commonInternalSend_frame _).2.2.2.1]
  · rw [(omni_commonInternalSend_frame _).2.2.2.1]; simp [internalPush, record]
  · rw [(omni_commonInternalSend_frame _).2.2.2.2]; simp [internalPush, record]
  · rw [omni_commonInternalSend_log]
    cases hp : s.process_is_scheduled_and_executing <;>
      simp [internalPush, record, frame, hp, List.range_succ, Function.update_apply] <;>
      (refine ⟨?_, ?_⟩ <;> split_ifs <;> first | rfl | omega)

/-- The literal-read rewrite: what it leaves on the stack, in the send registers, in the heap
and in the log. -/
theorem omni_internal_read_literal_prepares (c : Config) (s : Squeak_Interpreter)
    (idx : Int) :
    (omni_internal_read_literal c s idx).localSP = s.localSP + 2 ∧
      (omni_internal_read_literal c s idx).stack
        = Function.update (Function.update s.stack (s.localSP + 1) s.localDomain)
            (s.localSP + 2) (literal s idx) ∧
      (omni_internal_read_literal c s idx).argumentCount = 1 ∧
      (omni_internal_read_literal c s idx).roots.messageSelector
        = c.The_OstDomain.read_literal ∧
      (omni_internal_read_literal c s idx).roots.lkupClass
        = c.fetchClass s.memory s.localDomain ∧
      (omni_internal_read_literal c s idx).memory = s.memory ∧
      (omni_internal_read_literal c s idx).log
        = s.log ++ ([Event.internalFindNewMethod c.The_OstDomain.read_literal
              (c.fetchClass s.memory s.localDomain),
            Event.internalExecuteNewMethod 1 [s.localDomain, literal s idx]] ++
          (if s.process_is_scheduled_and_executing then [Event.fetchNextBytecode] else [])) := by
  have e2 : s.localSP + 1 + 1 = s.localSP + 2 := by ring
  unfold omni_internal_read_literal
  refine ⟨?_, ?_, ?_, ?_, ?_, ?_, ?_⟩
  · rw [(omni_commonInternalSend_frame _).1]; simp [internalPush, e2]
  · rw [(omni_commonInternalSend_frame _).2.1]; simp [internalPush, e2, literal]
  · rw [(omni_commonInternalSend_frame _).2.2.1]
  · rw [(omni_commonInternalSend_frame _).2.2.2.1]
  · rw [(omni_commonInternalSend_frame _).2.2.2.1]; simp [internalPush]
  · rw [(omni_commonInternalSend_frame _).2.2.2.2]; simp [internalPush]
  · rw [omni_commonInternalSend_log]
    cases hp : s.process_is_scheduled_and_executing <;>
      simp [internalPush, frame, hp, List.range_succ, Function.update_apply, literal]

/-- The literal-write rewrite: what it leaves on the stack, in the send registers, in the
heap and in the log. -/
theorem omni_internal_write_literal_prepares (c : Config) (s : Squeak_Interpreter)
    (lit value : Oop) :
    (omni_internal_write_literal c s lit value).localSP = s.localSP + 3 ∧
      (omni_internal_write_literal c s lit value).stack
        = Function.update (Function.update (Function.update s.stack
            (s.localSP + 1) s.localDomain) (s.localSP + 2) value) (s.localSP + 3) lit ∧
      (omni_internal_write_literal c s lit value).argumentCount = 2 ∧
      (omni_internal_write_literal c s lit value).roots.messageSelector
        = c.The_OstDomain.write_literal ∧
      (omni_internal_write_literal c s lit value).roots.lkupClass
        = c.fetchClass s.memory s.localDomain ∧
      (omni_internal_write_literal c s lit value).memory = s.memory ∧
      (omni_internal_write_literal c s lit value).log
        = s.log ++ ([Event.internalFindNewMethod c.The_OstDomain.write_literal
              (c.fetchClass s.memory s.localDomain),
            Event.internalExecuteNewMethod 2 [s.localDomain, value, lit]] ++
          (if s.process_is_scheduled_and_executing then [Event.fetchNextBytecode] else [])) := by
  have e2 : s.localSP + 1 + 1 = s.localSP + 2 := by ring
  have e3 : s.localSP + 2 + 1 = s.localSP + 3 := by ring
  unfold omni_internal_write_literal
  refine ⟨?_, ?_, ?_, ?_, ?_, ?_, ?_⟩
  · rw [(omni_commonInternalSend_frame _).1]; simp [internalPush, e2, e3]
  · rw [(omni_commonInternalSend_frame _).2.1]; simp [internalPush, e2, e3]
  · rw [(omni_commonInternalSend_frame _).2.2.1]
  · rw [(omni_commonInternalSend_frame _).2.2.2.1]
  · rw [(omni_commonInternalSend_frame _).2.2.2.1]; simp [internalPush]
  · rw [(omni_commonInternalSend_frame _).2.2.2.2]; simp [internalPush]
  · rw [omni_commonInternalSend_log]
    cases hp : s.process_is_scheduled_and_executing <;>
      simp [internalPush, frame, hp, List.range_succ, Function.update_apply] <;>
      (refine ⟨?_, ?_⟩ <;> split_ifs <;> first | rfl | omega)

/-- The stack pointer after the three-operand field-write rewrite. -/
theorem omni_internal_write_field_localSP (c : Config) (s : Squeak_Interpreter)
    (obj : Oop) (idx : Int) (value : Oop) :
    (omni_internal_write_field c s obj idx value).localSP = s.localSP + 4 := by
  unfold omni_internal_write_field
  simp only [domain_oop]
  rw [(omni_commonInternalSend_frame _).1]
  simp [internalPush, record]
  ring

/-- The stack pointer after the four-operand field-write rewrite. -/
theorem omni_internal_write_field_newTop_localSP (c : Config) (s : Squeak_Interpreter)
    (obj : Oop) (idx : Int) (value newTop : Oop) :
    (omni_internal_write_field_newTop c s obj idx value newTop).localSP = s.localSP + 5 := by
  unfold omni_internal_write_field_newTop
  simp only [domain_oop]
  show (omni_commonInternalSend _).localSP = _
  rw [(omni_commonInternalSend_frame _).1]
  simp [internalPush, record]
  ring

/-! ## Stack effects of the interceptable handlers -/

/-- The fetch of the next bytecode touches only the bytecode registers, the instruction
pointer and the log. -/
theorem fetchNextBytecode_frame (s : Squeak_Interpreter) :
    (fetchNextBytecode s).roots = s.roots ∧
      (fetchNextBytecode s).localSP = s.localSP ∧
      (fetchNextBytecode s).stack = s.stack ∧
      (fetchNextBytecode s).memory = s.memory ∧
      (fetchNextBytecode s).executionLevel = s.executionLevel ∧
      (fetchNextBytecode s).localDomain = s.localDomain ∧
      (fetchNextBytecode s).argumentCount = s.argumentCount :=
  ⟨rfl, rfl, rfl, rfl, rfl, rfl, rfl⟩

/-- Both arms of `pushReceiverVariableBytecode` have net stack effect +1. -/
theorem pushReceiverVariableBytecode_effect (c : Config) (s : Squeak_Interpreter) :
    StackEffect (omni_requires_delegation c s s.roots.receiver c.masks.ReadField_Of__Mask).1 s
      (pushReceiverVariableBytecode c s) 1 := by
  have hsp := omni_requires_delegation_localSP c s s.roots.receiver c.masks.ReadField_Of__Mask
  unfold pushReceiverVariableBytecode StackEffect
  generalize omni_requires_delegation c s s.roots.receiver c.masks.ReadField_Of__Mask = q at hsp
  obtain ⟨b, s1⟩ := q
  cases b
  · simpa [fetchNextBytecode, pushReceiverVariable, fetchPointer, internalPush, record] using hsp
  · simp only [if_true, depthAfterSend]
    rw [(omni_internal_read_field_prepares c _ _ _).1,
      (omni_internal_read_field_prepares c _ _ _).2.2.1]
    simp only at hsp
    omega

/-- Both arms of `pushLiteralVariableBytecode` have net stack effect +1. -/
theorem pushLiteralVariableBytecode_effect (c : Config) (s : Squeak_Interpreter) :
    StackEffect (omni_requires_delegation_for_literals c s c.masks.ReadLiteral__Mask).1 s
      (pushLiteralVariableBytecode c s) 1 := by
  have hsp := omni_requires_delegation_for_literals_localSP c s c.masks.ReadLiteral__Mask
  unfold pushLiteralVariableBytecode StackEffect
  generalize omni_requires_delegation_for_literals c s c.masks.ReadLiteral__Mask = q at hsp
  obtain ⟨b, s1⟩ := q
  cases b
  · simpa [fetchNextBytecode, pushLiteralVariable, fetchPointer, internalPush, record] using hsp
  · simp only [if_true, depthAfterSend]
    rw [(omni_internal_read_literal_prepares c _ _).1,
      (omni_internal_read_literal_prepares c _ _).2.2.1]
    simp only at hsp
    omega

/-- Both arms of `extendedPushBytecode`, target type 0, have net stack effect +1. -/
theorem extendedPushBytecode_field_effect (c : Config) (s : Squeak_Interpreter)
    (hd : ((s.code (s.localIP + 1) % 256) >>> 6) &&& 3 = 0) :
    StackEffect (omni_requires_delegation c s s.roots.receiver c.masks.ReadField_Of__Mask).1 s
      (extendedPushBytecode c s) 1 := by
  have hsp := omni_requires_delegation_localSP c (fetchNextBytecode (fetchByte s).2)
    s.roots.receiver c.masks.ReadField_Of__Mask
  rw [← omni_requires_delegation_fst_congr c s (fetchNextBytecode (fetchByte s).2)
    s.roots.receiver c.masks.ReadField_Of__Mask rfl rfl rfl]
  unfold extendedPushBytecode StackEffect
  simp only [fetchByte, (fetchNextBytecode_frame _).1, (fetchNextBytecode_frame _).2.1]
    at hsp ⊢
  rw [hd]
  simp only []
  generalize omni_requires_delegation c _ s.roots.receiver c.masks.ReadField_Of__Mask = q
    at hsp ⊢
  obtain ⟨b, s1⟩ := q
  cases b
  · simpa [pushReceiverVariable, fetchPointer, internalPush, record] using hsp
  · simp only [if_true, depthAfterSend]
    rw [(omni_internal_read_field_prepares c _ _ _).1,
      (omni_internal_read_field_prepares c _ _ _).2.2.1]
    simp only at hsp
    omega
/-- Both arms of `extendedPushBytecode`, target type 3, have net stack effect +1. -/
theorem extendedPushBytecode_literal_effect (c : Config) (s : Squeak_Interpreter)
    (hd : ((s.code (s.localIP + 1) % 256) >>> 6) &&& 3 = 3) :
    StackEffect (omni_requires_delegation_for_literals c s c.masks.ReadLiteral__Mask).1 s
      (extendedPushBytecode c s) 1 := by
  have hsp := omni_requires_delegation_for_literals_localSP c
    (fetchNextBytecode (fetchByte s).2) c.masks.ReadLiteral__Mask
  rw [← omni_requires_delegation_for_literals_fst_congr c s (fetchNextBytecode (fetchByte s).2)
    c.masks.ReadLiteral__Mask rfl rfl rfl rfl]
  unfold extendedPushBytecode StackEffect
  simp only [fetchByte, (fetchNextBytecode_frame _).2.1] at hsp ⊢
  rw [hd]
  simp only []
  generalize omni_requires_delegation_for_literals c _ c.masks.ReadLiteral__Mask = q at hsp ⊢
  obtain ⟨b, s1⟩ := q
  cases b
  · simpa [pushLiteralVariable, fetchPointer, internalPush, record] using hsp
  · simp only [if_true, depthAfterSend]
    rw [(omni_internal_read_literal_prepares c _ _).1,
      (omni_internal_read_literal_prepares c _ _).2.2.1]
    simp only at hsp
    omega

/-- Both arms of `doubleExtendedDoAnythingBytecode`, operation 2, have net stack effect +1. -/
theorem doubleExtendedDoAnythingBytecode_pushField_effect (c : Config)
    (s : Squeak_Interpreter) (hop : (s.code (s.localIP + 1) % 256) >>> 5 = 2) :
    StackEffect (omni_requires_delegation c s s.roots.receiver c.masks.ReadField_Of__Mask).1 s
      (doubleExtendedDoAnythingBytecode c s) 1 := by
  have hsp := omni_requires_delegation_localSP c
    (fetchNextBytecode (fetchByte (fetchByte s).2).2) s.roots.receiver
    c.masks.ReadField_Of__Mask
  rw [← omni_requires_delegation_fst_congr c s (fetchNextBytecode (fetchByte (fetchByte s).2).2)
    s.roots.receiver c.masks.ReadField_Of__Mask rfl rfl rfl]
  unfold doubleExtendedDoAnythingBytecode StackEffect
  simp only [fetchByte, (fetchNextBytecode_frame _).1, (fetchNextBytecode_frame _).2.1]
    at hsp ⊢
  rw [hop]
  simp only []
  generalize omni_requires_delegation c _ s.roots.receiver c.masks.ReadField_Of__Mask = q
    at hsp ⊢
  obtain ⟨b, s1⟩ := q
  cases b
  · simpa [pushReceiverVariable, fetchPointer, internalPush, record] using hsp
  · simp only [if_true, depthAfterSend]
    rw [(omni_internal_read_field_prepares c _ _ _).1,
      (omni_internal_read_field_prepares c _ _ _).2.2.1]
    simp only at hsp
    omega

/-- Both arms of `doubleExtendedDoAnythingBytecode`, operation 4, have net stack effect +1. -/
theorem doubleExtendedDoAnythingBytecode_pushLiteral_effect (c : Config)
    (s : Squeak_Interpreter) (hop : (s.code (s.localIP + 1) % 256) >>> 5 = 4) :
    StackEffect (omni_requires_delegation_for_literals c s c.masks.ReadLiteral__Mask).1 s
      (doubleExtendedDoAnythingBytecode c s) 1 := by
  have hsp := omni_requires_delegation_for_literals_localSP c
    (fetchByte (fetchByte s).2).2 c.masks.ReadLiteral__Mask
  rw [← omni_requires_delegation_for_literals_fst_congr c s (fetchByte (fetchByte s).2).2
    c.masks.ReadLiteral__Mask rfl rfl rfl rfl]
  unfold doubleExtendedDoAnythingBytecode StackEffect
  simp only [fetchByte] at hsp ⊢
  rw [hop]
  simp only []
  generalize omni_requires_delegation_for_literals c _ c.masks.ReadLiteral__Mask = q at hsp ⊢
  obtain ⟨b, s1⟩ := q
  cases b
  · simpa [fetchNextBytecode, pushLiteralVariable, fetchPointer, internalPush, record]
      using hsp
  · simp only [if_true, depthAfterSend]
    rw [(omni_internal_read_literal_prepares c _ _).1,
      (omni_internal_read_literal_prepares c _ _).2.2.1]
    simp only at hsp
    omega

/-- C11. Every interceptable push handler has net operand-stack effect +1 on both arms: on
the native arm the handler leaves the stack one slot deeper, and on the delegated arm the
prepared send, once it has replaced its receiver and arguments by one result, leaves the
stack one slot deeper than at entry. -/
theorem push_handlers_stack_effect (c : Config) (s : Squeak_Interpreter) :
    StackEffect (omni_requires_delegation c s s.roots.receiver c.masks.ReadField_Of__Mask).1 s
        (pushReceiverVariableBytecode c s) 1 ∧
      StackEffect (omni_requires_delegation_for_literals c s c.masks.ReadLiteral__Mask).1 s
        (pushLiteralVariableBytecode c s) 1 ∧
      (((s.code (s.localIP + 1) % 256) >>> 6) &&& 3 = 0 →
        StackEffect
          (omni_requires_delegation c s s.roots.receiver c.masks.ReadField_Of__Mask).1 s
          (extendedPushBytecode c s) 1) ∧
      (((s.code (s.localIP + 1) % 256) >>> 6) &&& 3 = 3 →
        StackEffect (omni_requires_delegation_for_literals c s c.masks.ReadLiteral__Mask).1 s
          (extendedPushBytecode c s) 1) ∧
      ((s.code (s.localIP + 1) % 256) >>> 5 = 2 →
        StackEffect
          (omni_requires_delegation c s s.roots.receiver c.masks.ReadField_Of__Mask).1 s
          (doubleExtendedDoAnythingBytecode c s) 1) ∧
      ((s.code (s.localIP + 1) % 256) >>> 5 = 4 →
        StackEffect (omni_requires_delegation_for_literals c s c.masks.ReadLiteral__Mask).1 s
          (doubleExtendedDoAnythingBytecode c s) 1) :=
  ⟨pushReceiverVariableBytecode_effect c s, pushLiteralVariableBytecode_effect c s,
    extendedPushBytecode_field_effect c s, extendedPushBytecode_literal_effect c s,
    doubleExtendedDoAnythingBytecode_pushField_effect c s,
    doubleExtendedDoAnythingBytecode_pushLiteral_effect c s⟩

/-- Both arms of `extendedStoreBytecode`, target type 0, have net stack effect 0. -/
theorem extendedStoreBytecode_field_effect (c : Config) (s : Squeak_Interpreter)
    (hd : ((s.code (s.localIP + 1) % 256) >>> 6) &&& 3 = 0) :
    StackEffect (omni_requires_delegation c s s.roots.receiver c.masks.WriteToFieldMask).1 s
      (extendedStoreBytecode c s) 0 := by
  have hsp := omni_requires_delegation_localSP c (fetchByte s).2 s.roots.receiver
    c.masks.WriteToFieldMask
  rw [← omni_requires_delegation_fst_congr c s (fetchByte s).2 s.roots.receiver
    c.masks.WriteToFieldMask rfl rfl rfl]
  unfold extendedStoreBytecode StackEffect
  simp only [fetchByte] at hsp ⊢
  rw [hd]
  simp only []
  generalize omni_requires_delegation c _ s.roots.receiver c.masks.WriteToFieldMask = q
    at hsp ⊢
  obtain ⟨b, s1⟩ := q
  cases b
  · simpa [fetchNextBytecode, storePointer, record] using hsp
  · simp only [if_true, depthAfterSend]
    rw [omni_internal_write_field_localSP, (omni_internal_write_field_prepares c _ _ _ _).2.1]
    simp only [internalPop] at hsp ⊢
    omega

/-- Both arms of `extendedStoreBytecode`, target type 3, have net stack effect 0. -/
theorem extendedStoreBytecode_literal_effect (c : Config) (s : Squeak_Interpreter)
    (hd : ((s.code (s.localIP + 1) % 256) >>> 6) &&& 3 = 3) :
    StackEffect (omni_requires_delegation_for_literals c s c.masks.Write_ToLiteral__Mask).1 s
      (extendedStoreBytecode c s) 0 := by
  have hsp := omni_requires_delegation_for_literals_localSP c (fetchByte s).2
    c.masks.Write_ToLiteral__Mask
  rw [← omni_requires_delegation_for_literals_fst_congr c s (fetchByte s).2
    c.masks.Write_ToLiteral__Mask rfl rfl rfl rfl]
  unfold extendedStoreBytecode StackEffect
  simp only [fetchByte] at hsp ⊢
  rw [hd]
  simp only []
  generalize omni_requires_delegation_for_literals c _ c.masks.Write_ToLiteral__Mask = q
    at hsp ⊢
  obtain ⟨b, s1⟩ := q
  cases b
  · simpa [fetchNextBytecode, storePointer, record] using hsp
  · simp only [if_true, depthAfterSend]
    rw [(omni_internal_write_literal_prepares c _ _ _).1,
      (omni_internal_write_literal_prepares c _ _ _).2.2.1]
    simp only [internalPop] at hsp ⊢
    omega

/-- Both arms of `doubleExtendedDoAnythingBytecode`, operation 5, have net stack effect 0. -/
theorem doubleExtendedDoAnythingBytecode_storeField_effect (c : Config)
    (s : Squeak_Interpreter) (hop : (s.code (s.localIP + 1) % 256) >>> 5 = 5) :
    StackEffect (omni_requires_delegation c s s.roots.receiver c.masks.WriteToFieldMask).1 s
      (doubleExtendedDoAnythingBytecode c s) 0 := by
  have hsp := omni_requires_delegation_localSP c (fetchByte (fetchByte s).2).2 s.roots.receiver
    c.masks.WriteToFieldMask
  rw [← omni_requires_delegation_fst_congr c s (fetchByte (fetchByte s).2).2 s.roots.receiver
    c.masks.WriteToFieldMask rfl rfl rfl]
  unfold doubleExtendedDoAnythingBytecode StackEffect
  simp only [fetchByte] at hsp ⊢
  rw [hop]
  simp only []
  generalize omni_requires_delegation c _ s.roots.receiver c.masks.WriteToFieldMask = q
    at hsp ⊢
  obtain ⟨b, s1⟩ := q
  cases b
  · simpa [fetchNextBytecode, storePointer, record] using hsp
  · simp only [if_true, depthAfterSend]
    rw [omni_internal_write_field_localSP, (omni_internal_write_field_prepares c _ _ _ _).2.1]
    simp only [internalPop] at hsp ⊢
    omega

/-- Both arms of `doubleExtendedDoAnythingBytecode`, operation 7, have net stack effect 0. -/
theorem doubleExtendedDoAnythingBytecode_storeLiteral_effect (c : Config)
    (s : Squeak_Interpreter) (hop : (s.code (s.localIP + 1) % 256) >>> 5 = 7) :
    StackEffect (omni_requires_delegation_for_literals c s c.masks.Write_ToLiteral__Mask).1 s
      (doubleExtendedDoAnythingBytecode c s) 0 := by
  have hsp := omni_requires_delegation_for_literals_localSP c (fetchByte (fetchByte s).2).2
    c.masks.Write_ToLiteral__Mask
  rw [← omni_requires_delegation_for_literals_fst_congr c s (fetchByte (fetchByte s).2).2
    c.masks.Write_ToLiteral__Mask rfl rfl rfl rfl]
  unfold doubleExtendedDoAnythingBytecode StackEffect
  simp only [fetchByte] at hsp ⊢
  rw [hop]
  simp only []
  generalize omni_requires_delegation_for_literals c _ c.masks.Write_ToLiteral__Mask = q
    at hsp ⊢
  obtain ⟨b, s1⟩ := q
  cases b
  · simpa [fetchNextBytecode, storePointer, record] using hsp
  · simp only [if_true, depthAfterSend]
    rw [(omni_internal_write_literal_prepares c _ _ _).1,
      (omni_internal_write_literal_prepares c _ _ _).2.2.1]
    simp only [internalPop] at hsp ⊢
    omega

/-- C13. Every interceptable store handler that keeps the value on the stack has net
operand-stack effect 0 on both arms: the native arm leaves the stack pointer where it was,
and on the delegated arm the prepared send, once it has replaced its receiver and arguments
by one result, leaves the stack as deep as at entry. -/
theorem store_handlers_stack_effect (c : Config) (s : Squeak_Interpreter) :
    (((s.code (s.localIP + 1) % 256) >>> 6) &&& 3 = 0 →
        StackEffect
          (omni_requires_delegation c s s.roots.receiver c.masks.WriteToFieldMask).1 s
          (extendedStoreBytecode c s) 0) ∧
      (((s.code (s.localIP + 1) % 256) >>> 6) &&& 3 = 3 →
        StackEffect
          (omni_requires_delegation_for_literals c s c.masks.Write_ToLiteral__Mask).1 s
          (extendedStoreBytecode c s) 0) ∧
      ((s.code (s.localIP + 1) % 256) >>> 5 = 5 →
        StackEffect
          (omni_requires_delegation c s s.roots.receiver c.masks.WriteToFieldMask).1 s
          (doubleExtendedDoAnythingBytecode c s) 0) ∧
      ((s.code (s.localIP + 1) % 256) >>> 5 = 7 →
        StackEffect
          (omni_requires_delegation_for_literals c s c.masks.Write_ToLiteral__Mask).1 s
          (doubleExtendedDoAnythingBytecode c s) 0) :=
  ⟨extendedStoreBytecode_field_effect c s, extendedStoreBytecode_literal_effect c s,
    doubleExtendedDoAnythingBytecode_storeField_effect c s,
    doubleExtendedDoAnythingBytecode_storeLiteral_effect c s⟩

/-- The arms of `extendedStoreAndPopBytecode`, target type 3, differ: the native arm has net
stack effect -1, the delegated arm, once the prepared send has returned its result, has net
stack effect 0. -/
theorem extendedStoreAndPopBytecode_literal_effect (c : Config) (s : Squeak_Interpreter)
    (hd : ((s.code (s.localIP + 1) % 256) >>> 6) &&& 3 = 3) :
    ((omni_requires_delegation_for_literals c s c.masks.Write_ToLiteral__Mask).1 = true →
        depthAfterSend (extendedStoreAndPopBytecode c s) = s.localSP) ∧
      ((omni_requires_delegation_for_literals c s c.masks.Write_ToLiteral__Mask).1 = false →
        (extendedStoreAndPopBytecode c s).localSP = s.localSP - 1) := by
  have hsp := omni_requires_delegation_for_literals_localSP c (fetchByte s).2
    c.masks.Write_ToLiteral__Mask
  rw [← omni_requires_delegation_for_literals_fst_congr c s (fetchByte s).2
    c.masks.Write_ToLiteral__Mask rfl rfl rfl rfl]
  unfold extendedStoreAndPopBytecode
  simp only [fetchByte] at hsp ⊢
  rw [hd]
  simp only []
  generalize omni_requires_delegation_for_literals c _ c.masks.Write_ToLiteral__Mask = q
    at hsp ⊢
  obtain ⟨b, s1⟩ := q
  cases b
  · simpa [fetchNextBytecode, storePointer, record, internalPop] using hsp
  · simp only [if_true, depthAfterSend]
    rw [(omni_internal_write_literal_prepares c _ _ _).1,
      (omni_internal_write_literal_prepares c _ _ _).2.2.1]
    simp only [internalPop] at hsp ⊢
    refine ⟨fun _ => ?_, fun h => absurd h (by simp)⟩
    omega

/-- The store-and-pop handlers of a receiver field have net stack effect -1 on both arms. -/
theorem storeAndPop_field_effect (c : Config) (s : Squeak_Interpreter) :
    StackEffect (omni_requires_delegation c s s.roots.receiver c.masks.WriteToFieldMask).1 s
        (storeAndPopReceiverVariableBytecode c s) (-1) ∧
      (((s.code (s.localIP + 1) % 256) >>> 6) &&& 3 = 0 →
        StackEffect
          (omni_requires_delegation c s s.roots.receiver c.masks.WriteToFieldMask).1 s
          (extendedStoreAndPopBytecode c s) (-1)) ∧
      ((s.code (s.localIP + 1) % 256) >>> 5 = 6 →
        StackEffect
          (omni_requires_delegation c s s.roots.receiver c.masks.WriteToFieldMask).1 s
          (doubleExtendedDoAnythingBytecode c s) (-1)) := by
  refine ⟨?_, ?_, ?_⟩
  · have hsp := omni_requires_delegation_localSP c s s.roots.receiver c.masks.WriteToFieldMask
    unfold storeAndPopReceiverVariableBytecode StackEffect
    generalize omni_requires_delegation c s s.roots.receiver c.masks.WriteToFieldMask = q
      at hsp ⊢
    obtain ⟨b, s1⟩ := q
    cases b
    · simp [fetchNextBytecode, storePointer, record, internalPop] at hsp ⊢
      omega
    · simp only [if_true, depthAfterSend]
      rw [omni_internal_write_field_newTop_localSP,
        (omni_internal_write_field_newTop_prepares c _ _ _ _ _).2.1]
      simp only [internalPop] at hsp ⊢
      omega
  · intro hd
    have hsp := omni_requires_delegation_localSP c (fetchByte s).2 s.roots.receiver
      c.masks.WriteToFieldMask
    rw [← omni_requires_delegation_fst_congr c s (fetchByte s).2 s.roots.receiver
      c.masks.WriteToFieldMask rfl rfl rfl]
    unfold extendedStoreAndPopBytecode StackEffect
    simp only [fetchByte] at hsp ⊢
    rw [hd]
    simp only []
    generalize omni_requires_delegation c _ s.roots.receiver c.masks.WriteToFieldMask = q
      at hsp ⊢
    obtain ⟨b, s1⟩ := q
    cases b
    · simp [fetchNextBytecode, storePointer, record, internalPop] at hsp ⊢
      omega
    · simp only [if_true, depthAfterSend]
      rw [omni_internal_write_field_newTop_localSP,
        (omni_internal_write_field_newTop_prepares c _ _ _ _ _).2.1]
      simp only [internalPop] at hsp ⊢
      omega
  · intro hop
    have hsp := omni_requires_delegation_localSP c (fetchByte (fetchByte s).2).2
      s.roots.receiver c.masks.WriteToFieldMask
    rw [← omni_requires_delegation_fst_congr c s (fetchByte (fetchByte s).2).2
      s.roots.receiver c.masks.WriteToFieldMask rfl rfl rfl]
    unfold doubleExtendedDoAnythingBytecode StackEffect
    simp only [fetchByte] at hsp ⊢
    rw [hop]
    simp only []
    generalize omni_requires_delegation c _ s.roots.receiver c.masks.WriteToFieldMask = q
      at hsp ⊢
    obtain ⟨b, s1⟩ := q
    cases b
    · simp [fetchNextBytecode, storePointer, record, internalPop] at hsp ⊢
      omega
    · simp only [if_true, depthAfterSend]
      rw [omni_internal_write_field_newTop_localSP,
        (omni_internal_write_field_newTop_prepares c _ _ _ _ _).2.1]
      simp only [internalPop] at hsp ⊢
      omega

/-- C12, evaluation at the failing input. `extendedStoreAndPopBytecode` with descriptor 193
(target type 3, literal 1) in the concrete machine, whose executing method's domain
customizes write-literal, with 7 on top of a stack of depth 2: the delegated arm pops one
slot and pushes (domain, 7, literal) with argument count 2, so that once the send has
returned its result the depth is 2 again, a net effect of 0; the native arm (the same
machine at meta level) leaves depth 1, a net effect of -1. -/
theorem storeAndPop_literal_delegated_effect_is_zero :
    (demoStoreLiteralInterpreter.code (demoStoreLiteralInterpreter.localIP + 1) % 256) >>> 6
        &&& 3 = 3 ∧
      (omni_requires_delegation_for_literals demoConfig demoStoreLiteralInterpreter
        demoConfig.masks.Write_ToLiteral__Mask).1 = true ∧
      demoStoreLiteralInterpreter.localSP = 2 ∧
      (extendedStoreAndPopBytecode demoConfig demoStoreLiteralInterpreter).log
        = [Event.omni_requires_delegation_for_literals 8,
           Event.get_domain_customization_encoding ⟨200⟩,
           Event.internalFindNewMethod ⟨2016⟩ ⟨400⟩,
           Event.internalExecuteNewMethod 2 [⟨200⟩, Oop.from_int 7, ⟨804⟩],
           Event.fetchNextBytecode] ∧
      (extendedStoreAndPopBytecode demoConfig demoStoreLiteralInterpreter).localSP = 4 ∧
      (extendedStoreAndPopBytecode demoConfig demoStoreLiteralInterpreter).argumentCount = 2 ∧
      depthAfterSend (extendedStoreAndPopBytecode demoConfig demoStoreLiteralInterpreter) = 2 ∧
      (omni_requires_delegation_for_literals demoConfig demoMetaStoreLiteralInterpreter
        demoConfig.masks.Write_ToLiteral__Mask).1 = false ∧
      (extendedStoreAndPopBytecode demoConfig demoMetaStoreLiteralInterpreter).localSP = 1 := by
  decide

/-- C14, evaluation at the failing inputs. In the concrete machine the receiver's domain
customizes read-field. `extendedPushBytecode` (descriptor 1) and
`doubleExtendedDoAnythingBytecode` operation 2 record a `fetchNextBytecode` of their own
before the query and the delegated send, and the send mechanism records a second one: the
instruction pointer ends two bytes after the operand bytes. `pushReceiverVariableBytecode`
on the same machine records only the advance made by the send mechanism. -/
theorem extended_push_fetches_before_delegating :
    (omni_requires_delegation demoConfig demoExtendedPushInterpreter ⟨100⟩
        demoConfig.masks.ReadField_Of__Mask).1 = true ∧
      (extendedPushBytecode demoConfig demoExtendedPushInterpreter).log
        = [Event.fetchNextBytecode,
           Event.omni_requires_delegation ⟨100⟩ 1, Event.domain_oop ⟨100⟩,
           Event.get_domain_customization_encoding ⟨200⟩, Event.domain_oop ⟨100⟩,
           Event.internalFindNewMethod ⟨2000⟩ ⟨400⟩,
           Event.internalExecuteNewMethod 2 [⟨200⟩, Oop.from_int 2, ⟨100⟩],
           Event.fetchNextBytecode] ∧
      (extendedPushBytecode demoConfig demoExtendedPushInterpreter).localIP
        = demoExtendedPushInterpreter.localIP + 1 + 2 ∧
      (doubleExtendedDoAnythingBytecode demoConfig demoDoubleExtendedPushInterpreter).log
        = [Event.fetchNextBytecode,
           Event.omni_requires_delegation ⟨100⟩ 1, Event.domain_oop ⟨100⟩,
           Event.get_domain_customization_encoding ⟨200⟩, Event.domain_oop ⟨100⟩,
           Event.internalFindNewMethod ⟨2000⟩ ⟨400⟩,
           Event.internalExecuteNewMethod 2 [⟨200⟩, Oop.from_int 2, ⟨100⟩],
           Event.fetchNextBytecode] ∧
      (doubleExtendedDoAnythingBytecode demoConfig demoDoubleExtendedPushInterpreter).localIP
        = demoDoubleExtendedPushInterpreter.localIP + 2 + 2 ∧
      (pushReceiverVariableBytecode demoConfig demoPushInterpreter).log
        = [Event.omni_requires_delegation ⟨100⟩ 1, Event.domain_oop ⟨100⟩,
           Event.get_domain_customization_encoding ⟨200⟩, Event.domain_oop ⟨100⟩,
           Event.internalFindNewMethod ⟨2000⟩ ⟨400⟩,
           Event.internalExecuteNewMethod 2 [⟨200⟩, Oop.from_int 2, ⟨100⟩],
           Event.fetchNextBytecode] ∧
      (pushReceiverVariableBytecode demoConfig demoPushInterpreter).localIP
        = demoPushInterpreter.localIP + 1 := by
  decide

/-! ## The rewrites of the domain protocol -/

/-- C17. `omni_request_execution` on a prepared send with n ≥ 0 arguments: the slot of the
receiver now holds the domain of the receiver, the n argument slots above it are unchanged,
the original selector and the receiver are pushed above them in that order, the argument
count is n+2, the selector is `request_exec(n)`, no slot below the former receiver slot is
changed, and the heap is unchanged. -/
theorem omni_request_execution_rewrite (c : Config) (s : Squeak_Interpreter)
    (hn : 0 ≤ s.argumentCount) :
    (omni_request_execution c s).localSP = s.localSP + 2 ∧
      (omni_request_execution c s).stack (s.localSP - s.argumentCount)
        = (s.memory (internalStackValue s s.argumentCount)).domain ∧
      (∀ k : Int, 1 ≤ k → k ≤ s.argumentCount →
        (omni_request_execution c s).stack (s.localSP - s.argumentCount + k)
          = s.stack (s.localSP - s.argumentCount + k)) ∧
      (omni_request_execution c s).stack (s.localSP + 1) = s.roots.messageSelector ∧
      (omni_request_execution c s).stack (s.localSP + 2)
        = internalStackValue s s.argumentCount ∧
      (omni_request_execution c s).argumentCount = s.argumentCount + 2 ∧
      (omni_request_execution c s).roots.messageSelector
        = c.The_OstDomain.request_exec s.argumentCount ∧
      (∀ j : Int, j < s.localSP - s.argumentCount →
        (omni_request_execution c s).stack j = s.stack j) ∧
      (omni_request_execution c s).memory = s.memory := by
  have e2 : s.localSP + 1 + 1 = s.localSP + 2 := by ring
  unfold omni_request_execution
  simp only [domain_oop, internalPush, record, internalStackValue, e2]
  refine ⟨trivial, ?_, ?_, ?_, ?_, trivial, trivial, ?_, trivial⟩
  · simp only [Function.update_apply]
    split_ifs <;> first | rfl | omega
  · intro k hk1 hk2
    simp only [Function.update_apply]
    split_ifs <;> first | rfl | omega
  · simp only [Function.update_apply]
    split_ifs <;> first | rfl | omega
  · simp only [Function.update_apply]
    split_ifs <;> rfl
  · intro j hj
    simp only [Function.update_apply]
    split_ifs <;> first | rfl | omega

/-- Witness of C17: the prepared send of selector 1234 to the receiver 100 with arguments 3
and 4 becomes the send of `request_exec(2)` with operands (domain, 3, 4, 1234, receiver). -/
theorem omni_request_execution_rewrite_witness :
    0 ≤ demoSendInterpreter.argumentCount ∧
      frame (omni_request_execution demoConfig demoSendInterpreter) 4
        = [⟨200⟩, Oop.from_int 3, Oop.from_int 4, ⟨1234⟩, ⟨100⟩] ∧
      (omni_request_execution demoConfig demoSendInterpreter).localSP
        = demoSendInterpreter.localSP + 2 ∧
      (omni_request_execution demoConfig demoSendInterpreter).argumentCount = 4 ∧
      (omni_request_execution demoConfig demoSendInterpreter).roots.messageSelector
        = demoOstDomain.request_exec 2 :=
  ⟨by decide, by decide,
    (omni_request_execution_rewrite demoConfig demoSendInterpreter (by decide)).1,
    (omni_request_execution_rewrite demoConfig demoSendInterpreter (by decide)).2.2.2.2.2.1,
    (omni_request_execution_rewrite demoConfig demoSendInterpreter (by decide)).2.2.2.2.2.2.1⟩

/-- C18. `omni_internal_read_field(obj, idx)` pushes exactly the domain of `obj`, the small
integer idx+1 and `obj`, in that order, sets the argument count to 2, the selector to
read-field and the lookup class to the class of the domain, and sends exactly these three
operands; for every index a bytecode can encode (0 to 255) the pushed index is a small
integer of value idx+1. -/
theorem omni_internal_read_field_rewrite (c : Config) (s : Squeak_Interpreter)
    (obj : Oop) (idx : Int) :
    (omni_internal_read_field c s obj idx).localSP = s.localSP + 3 ∧
      (omni_internal_read_field c s obj idx).stack
        = Function.update (Function.update (Function.update s.stack
            (s.localSP + 1) (s.memory obj).domain)
            (s.localSP + 2) (Oop.from_int (idx + 1)))
            (s.localSP + 3) obj ∧
      (omni_internal_read_field c s obj idx).argumentCount = 2 ∧
      (omni_internal_read_field c s obj idx).roots.messageSelector
        = c.The_OstDomain.read_field ∧
      (omni_internal_read_field c s obj idx).roots.lkupClass
        = c.fetchClass s.memory (s.memory obj).domain ∧
      (omni_internal_read_field c s obj idx).log
        = s.log ++ ([Event.domain_oop obj,
            Event.internalFindNewMethod c.The_OstDomain.read_field
              (c.fetchClass s.memory (s.memory obj).domain),
            Event.internalExecuteNewMethod 2
              [(s.memory obj).domain, Oop.from_int (idx + 1), obj]] ++
          (if s.process_is_scheduled_and_executing then [Event.fetchNextBytecode] else [])) ∧
      (∀ i : Int, 0 ≤ i → i ≤ 255 →
        (Oop.from_int (i + 1)).is_int = true ∧ (Oop.from_int (i + 1)).integerValue = i + 1) := by
  obtain ⟨h1, h2, h3, h4, h5, _, h7⟩ := omni_internal_read_field_prepares c s obj idx
  refine ⟨h1, h2, h3, h4, h5, h7, ?_⟩
  intro i h0 h255
  apply from_int_integerValue
  simp only [Oop.isIntegerValue, Bool.and_eq_true, decide_eq_true_eq]
  omega

/-- C19. Literal delegation sends to the domain of the executing method:
`omni_internal_read_literal(idx)` pushes (`_localDomain`, `literal(idx)`) with argument count
1 and selector read-literal, `omni_internal_write_literal(lit, v)` pushes (`_localDomain`, v,
lit) with argument count 2 and selector write-literal; in both the lookup class is the class
of `_localDomain` and the heap, hence the literal association, is unchanged. -/
theorem literal_delegation_rewrite (c : Config) (s : Squeak_Interpreter) (idx : Int)
    (lit value : Oop) :
    ((omni_internal_read_literal c s idx).localSP = s.localSP + 2 ∧
        (omni_internal_read_literal c s idx).stack
          = Function.update (Function.update s.stack (s.localSP + 1) s.localDomain)
              (s.localSP + 2) (literal s idx) ∧
        (omni_internal_read_literal c s idx).argumentCount = 1 ∧
        (omni_internal_read_literal c s idx).roots.messageSelector
          = c.The_OstDomain.read_literal ∧
        (omni_internal_read_literal c s idx).roots.lkupClass
          = c.fetchClass s.memory s.localDomain ∧
        (omni_internal_read_literal c s idx).memory = s.memory ∧
        (omni_internal_read_literal c s idx).log
          = s.log ++ ([Event.internalFindNewMethod c.The_OstDomain.read_literal
                (c.fetchClass s.memory s.localDomain),
              Event.internalExecuteNewMethod 1 [s.localDomain, literal s idx]] ++
            (if s.process_is_scheduled_and_executing then [Event.fetchNextBytecode]
             else []))) ∧
      ((omni_internal_write_literal c s lit value).localSP = s.localSP + 3 ∧
        (omni_internal_write_literal c s lit value).stack
          = Function.update (Function.update (Function.update s.stack
              (s.localSP + 1) s.localDomain) (s.localSP + 2) value) (s.localSP + 3) lit ∧
        (omni_internal_write_literal c s lit value).argumentCount = 2 ∧
        (omni_internal_write_literal c s lit value).roots.messageSelector
          = c.The_OstDomain.write_literal ∧
        (omni_internal_write_literal c s lit value).roots.lkupClass
          = c.fetchClass s.memory s.localDomain ∧
        (omni_internal_write_literal c s lit value).memory = s.memory ∧
        (omni_internal_write_literal c s lit value).log
          = s.log ++ ([Event.internalFindNewMethod c.The_OstDomain.write_literal
                (c.fetchClass s.memory s.localDomain),
              Event.internalExecuteNewMethod 2 [s.localDomain, value, lit]] ++
            (if s.process_is_scheduled_and_executing then [Event.fetchNextBytecode]
             else []))) :=
  ⟨omni_internal_read_literal_prepares c s idx,
    omni_internal_write_literal_prepares c s lit value⟩

/-! ## Delegated special sends -/

/-- When the receiver query answers true, the conditions of delegation hold. -/
theorem omni_requires_delegation_true (c : Config) (s : Squeak_Interpreter) (rcvr : Oop)
    (mask : Int) (h : (omni_requires_delegation c s rcvr mask).1 = true) :
    s.executionLevel = ExecutionLevel.baseLevel ∧ isHeapObject c rcvr ∧ hasDomain c s rcvr ∧
      domainCustomizes c s rcvr mask = true := by
  unfold omni_requires_delegation at h
  simp only [domain_oop, set_domain, record, executes_on_metalevel] at h
  split_ifs at h with h1 h2 h3 h4
  simp only [Bool.or_eq_true, decide_eq_true_eq, not_or, beq_iff_eq] at h1 h2 h3
  refine ⟨?_, ⟨by simpa using h2.1, h2.2⟩, ⟨h3.1, h3.2, h4⟩, h⟩
  cases hl : s.executionLevel
  · rfl
  · exact absurd hl h1

/-- The request-execution rewrite of a one-argument send followed by the generic send. -/
theorem normalSend_request_execution (c : Config) (x : Squeak_Interpreter)
    (h : x.argumentCount = 1) :
    (normalSend (omni_request_execution c x)).roots.messageSelector
        = c.The_OstDomain.request_exec 1 ∧
      (normalSend (omni_request_execution c x)).argumentCount = 3 ∧
      (normalSend (omni_request_execution c x)).localSP = x.localSP + 2 ∧
      (normalSend (omni_request_execution c x)).memory = x.memory ∧
      (normalSend (omni_request_execution c x)).log
        = x.log ++ [Event.domain_oop (internalStackValue x 1),
            Event.normalSend (c.The_OstDomain.request_exec 1) 3
              [(x.memory (internalStackValue x 1)).domain, internalStackValue x 0,
               x.roots.messageSelector, internalStackValue x 1]] := by
  have e2 : x.localSP + 1 + 1 = x.localSP + 2 := by ring
  unfold omni_request_execution normalSend
  simp only [domain_oop, internalPush, record, internalStackValue, h]
  refine ⟨trivial, by norm_num, e2, trivial, ?_⟩
  simp [frame, List.range_succ, Function.update_apply]
  refine ⟨?_, ?_, ?_⟩ <;> split_ifs <;> first | rfl | omega | (congr 1; omega)

/-- The common end of the special-selector handlers on the delegated arm: the state `s1` left
by the query, with the special selector `k` and argument count 1 set, rewritten and sent. -/
theorem delegated_special_send (c : Config) (s : Squeak_Interpreter) (k : Nat)
    (flag : Bool) (x : Squeak_Interpreter)
    (hx : x = { ({ (record (record (record ({ s with successFlag := flag })
        (Event.omni_requires_delegation (internalStackValue s 1) c.masks.RequestExecutionMask))
        (Event.domain_oop (internalStackValue s 1)))
        (Event.get_domain_customization_encoding (s.memory (internalStackValue s 1)).domain))
        with roots.messageSelector := c.specialSelector k } : Squeak_Interpreter) with
        argumentCount := 1 }) :
    DelegatedSpecialSend c s (normalSend (omni_request_execution c x)) k := by
  obtain ⟨h1, h2, h3, h4, h5⟩ := normalSend_request_execution c x (by rw [hx])
  refine ⟨h1, h2, ?_, ?_, ?_⟩
  · rw [h3, hx]; rfl
  · rw [h4, hx]; rfl
  · rw [h5, hx]
    simp [delegatedSpecialSendEvents, record, internalStackValue]

/-- The delegated arm of `bytecodePrimAdd`. -/
theorem bytecodePrimAdd_delegated (c : Config) (s : Squeak_Interpreter)
    (hq : (omni_requires_delegation c s (internalStackValue s 1)
      c.masks.RequestExecutionMask).1 = true) :
    DelegatedSpecialSend c s (bytecodePrimAdd c s) 0 := by
  obtain ⟨hl, ho, hd, hc⟩ := omni_requires_delegation_true c s _ _ hq
  have hint : areIntegers (internalStackValue s 1) (internalStackValue s 0) = false := by
    simp [areIntegers, ho.1]
  have hqq := omni_requires_delegation_domain c s (internalStackValue s 1)
    c.masks.RequestExecutionMask hl ho hd
  unfold bytecodePrimAdd
  simp only [hint, hqq, hc, Bool.false_eq_true, if_false, Bool.not_true, if_true]
  exact delegated_special_send c s 0 s.successFlag _ rfl

/-- The delegated arm of `bytecodePrimSubtract`. -/
theorem bytecodePrimSubtract_delegated (c : Config) (s : Squeak_Interpreter)
    (hq : (omni_requires_delegation c s (internalStackValue s 1)
      c.masks.RequestExecutionMask).1 = true) :
    DelegatedSpecialSend c s (bytecodePrimSubtract c s) 1 := by
  obtain ⟨hl, ho, hd, hc⟩ := omni_requires_delegation_true c s _ _ hq
  have hint : areIntegers (internalStackValue s 1) (internalStackValue s 0) = false := by
    simp [areIntegers, ho.1]
  have hqq := omni_requires_delegation_domain c s (internalStackValue s 1)
    c.masks.RequestExecutionMask hl ho hd
  unfold bytecodePrimSubtract
  simp only [hint, hqq, hc, Bool.false_eq_true, if_false, Bool.not_true, if_true]
  exact delegated_special_send c s 1 s.successFlag _ rfl

/-- The delegated arm of `bytecodePrimMultiply`. -/
theorem bytecodePrimMultiply_delegated (c : Config) (s : Squeak_Interpreter)
    (hq : (omni_requires_delegation c s (internalStackValue s 1)
      c.masks.RequestExecutionMask).1 = true) :
    DelegatedSpecialSend c s (bytecodePrimMultiply c s) 8 := by
  obtain ⟨hl, ho, hd, hc⟩ := omni_requires_delegation_true c s _ _ hq
  have hint : areIntegers (internalStackValue s 1) (internalStackValue s 0) = false := by
    simp [areIntegers, ho.1]
  have hqq := omni_requires_delegation_domain c s (internalStackValue s 1)
    c.masks.RequestExecutionMask hl ho hd
  unfold bytecodePrimMultiply
  simp only [hint, hqq, hc, Bool.false_eq_true, if_false, Bool.not_true, if_true]
  exact delegated_special_send c s 8 s.successFlag _ rfl

/-- The delegated arm of `bytecodePrimDivide`. -/
theorem bytecodePrimDivide_delegated (c : Config) (s : Squeak_Interpreter)
    (hq : (omni_requires_delegation c s (internalStackValue s 1)
      c.masks.RequestExecutionMask).1 = true) :
    DelegatedSpecialSend c s (bytecodePrimDivide c s) 9 := by
  obtain ⟨hl, ho, hd, hc⟩ := omni_requires_delegation_true c s _ _ hq
  have hint : areIntegers (internalStackValue s 1) (internalStackValue s 0) = false := by
    simp [areIntegers, ho.1]
  have hqq := omni_requires_delegation_domain c s (internalStackValue s 1)
    c.masks.RequestExecutionMask hl ho hd
  unfold bytecodePrimDivide
  simp only [hint, hqq, hc, Bool.false_eq_true, if_false, Bool.not_true, if_true]
  exact delegated_special_send c s 9 s.successFlag _ rfl

/-- The delegated arm of `bytecodePrimGreaterOrEqual`. -/
theorem bytecodePrimGreaterOrEqual_delegated (c : Config) (s : Squeak_Interpreter)
    (hq : (omni_requires_delegation c s (internalStackValue s 1)
      c.masks.RequestExecutionMask).1 = true) :
    DelegatedSpecialSend c s (bytecodePrimGreaterOrEqual c s) 5 := by
  obtain ⟨hl, ho, hd, hc⟩ := omni_requires_delegation_true c s _ _ hq
  have hint : areIntegers (internalStackValue s 1) (internalStackValue s 0) = false := by
    simp [areIntegers, ho.1]
  have hqq := omni_requires_delegation_domain c s (internalStackValue s 1)
    c.masks.RequestExecutionMask hl ho hd
  unfold bytecodePrimGreaterOrEqual
  simp only [hint, hqq, hc, Bool.false_eq_true, if_false, Bool.not_true, if_true]
  exact delegated_special_send c s 5 s.successFlag _ rfl

/-- The delegated arm of `bytecodePrimEqual`. -/
theorem bytecodePrimEqual_delegated (c : Config) (s : Squeak_Interpreter)
    (hq : (omni_requires_delegation c s (internalStackValue s 1)
      c.masks.RequestExecutionMask).1 = true) :
    DelegatedSpecialSend c s (bytecodePrimEqual c s) 6 := by
  obtain ⟨hl, ho, hd, hc⟩ := omni_requires_delegation_true c s _ _ hq
  have hint : areIntegers (internalStackValue s 1) (internalStackValue s 0) = false := by
    simp [areIntegers, ho.1]
  have hqq := omni_requires_delegation_domain c s (internalStackValue s 1)
    c.masks.RequestExecutionMask hl ho hd
  unfold bytecodePrimEqual
  simp only [hint, hqq, hc, Bool.false_eq_true, if_false, Bool.not_true, if_true]
  exact delegated_special_send c s 6 s.successFlag _ rfl

/-- The delegated arm of `bytecodePrimNotEqual`. -/
theorem bytecodePrimNotEqual_delegated (c : Config) (s : Squeak_Interpreter)
    (hq : (omni_requires_delegation c s (internalStackValue s 1)
      c.masks.RequestExecutionMask).1 = true) :
    DelegatedSpecialSend c s (bytecodePrimNotEqual c s) 7 := by
  obtain ⟨hl, ho, hd, hc⟩ := omni_requires_delegation_true c s _ _ hq
  have hint : areIntegers (internalStackValue s 1) (internalStackValue s 0) = false := by
    simp [areIntegers, ho.1]
  have hqq := omni_requires_delegation_domain c s (internalStackValue s 1)
    c.masks.RequestExecutionMask hl ho hd
  unfold bytecodePrimNotEqual
  simp only [hint, hqq, hc, Bool.false_eq_true, if_false, Bool.not_true, if_true]
  exact delegated_special_send c s 7 s.successFlag _ rfl

/-- The delegated arm of `bytecodePrimLessThan`. -/
theorem bytecodePrimLessThan_delegated (c : Config) (s : Squeak_Interpreter)
    (hq : (omni_requires_delegation c s (internalStackValue s 1)
      c.masks.RequestExecutionMask).1 = true) :
    DelegatedSpecialSend c s (bytecodePrimLessThan c s) 2 := by
  obtain ⟨hl, ho, hd, hc⟩ := omni_requires_delegation_true c s _ _ hq
  have hint : areIntegers (internalStackValue s 1) (internalStackValue s 0) = false := by
    simp [areIntegers, ho.1]
  have hqq := omni_requires_delegation_domain c { s with successFlag := true }
    (internalStackValue s 1) c.masks.RequestExecutionMask hl ho hd
  have hc' : domainCustomizes c { s with successFlag := true } (internalStackValue s 1)
      c.masks.RequestExecutionMask = true := hc
  unfold bytecodePrimLessThan
  simp only [hint, hqq, hc', Bool.false_eq_true, if_false, Bool.not_true, if_true]
  exact delegated_special_send c s 2 true _ rfl

/-- The delegated arm of `bytecodePrimGreaterThan`. -/
theorem bytecodePrimGreaterThan_delegated (c : Config) (s : Squeak_Interpreter)
    (hq : (omni_requires_delegation c s (internalStackValue s 1)
      c.masks.RequestExecutionMask).1 = true) :
    DelegatedSpecialSend c s (bytecodePrimGreaterThan c s) 3 := by
  obtain ⟨hl, ho, hd, hc⟩ := omni_requires_delegation_true c s _ _ hq
  have hint : areIntegers (internalStackValue s 1) (internalStackValue s 0) = false := by
    simp [areIntegers, ho.1]
  have hqq := omni_requires_delegation_domain c { s with successFlag := true }
    (internalStackValue s 1) c.masks.RequestExecutionMask hl ho hd
  have hc' : domainCustomizes c { s with successFlag := true } (internalStackValue s 1)
      c.masks.RequestExecutionMask = true := hc
  unfold bytecodePrimGreaterThan
  simp only [hint, hqq, hc', Bool.false_eq_true, if_false, Bool.not_true, if_true]
  exact delegated_special_send c s 3 true _ rfl

/-- The delegated arm of `bytecodePrimLessOrEqual`. -/
theorem bytecodePrimLessOrEqual_delegated (c : Config) (s : Squeak_Interpreter)
    (hq : (omni_requires_delegation c s (internalStackValue s 1)
      c.masks.RequestExecutionMask).1 = true) :
    DelegatedSpecialSend c s (bytecodePrimLessOrEqual c s) 4 := by
  obtain ⟨hl, ho, hd, hc⟩ := omni_requires_delegation_true c s _ _ hq
  have hint : areIntegers (internalStackValue s 1) (internalStackValue s 0) = false := by
    simp [areIntegers, ho.1]
  have hqq := omni_requires_delegation_domain c { s with successFlag := true }
    (internalStackValue s 1) c.masks.RequestExecutionMask hl ho hd
  have hc' : domainCustomizes c { s with successFlag := true } (internalStackValue s 1)
      c.masks.RequestExecutionMask = true := hc
  unfold bytecodePrimLessOrEqual
  simp only [hint, hqq, hc', Bool.false_eq_true, if_false, Bool.not_true, if_true]
  exact delegated_special_send c s 4 true _ rfl

/-- C15. When the receiver of an arithmetic or comparison special-selector bytecode requires
request-execution delegation (the operands are then not both small integers), each of the ten
handlers records exactly the query, the reads it makes, the request-execution rewrite and the
generic send of `request_exec(1)` with operands (domain, argument, the operation's special
selector, receiver): no floating-point primitive is called. -/
theorem arithmetic_delegation_skips_float_primitive (c : Config) (s : Squeak_Interpreter)
    (hq : (omni_requires_delegation c s (internalStackValue s 1)
      c.masks.RequestExecutionMask).1 = true) :
    areIntegers (internalStackValue s 1) (internalStackValue s 0) = false ∧
      DelegatedSpecialSend c s (bytecodePrimAdd c s) 0 ∧
      DelegatedSpecialSend c s (bytecodePrimSubtract c s) 1 ∧
      DelegatedSpecialSend c s (bytecodePrimMultiply c s) 8 ∧
      DelegatedSpecialSend c s (bytecodePrimDivide c s) 9 ∧
      DelegatedSpecialSend c s (bytecodePrimLessThan c s) 2 ∧
      DelegatedSpecialSend c s (bytecodePrimGreaterThan c s) 3 ∧
      DelegatedSpecialSend c s (bytecodePrimLessOrEqual c s) 4 ∧
      DelegatedSpecialSend c s (bytecodePrimGreaterOrEqual c s) 5 ∧
      DelegatedSpecialSend c s (bytecodePrimEqual c s) 6 ∧
      DelegatedSpecialSend c s (bytecodePrimNotEqual c s) 7 ∧
      ∀ (k : Nat) (e : Event), e ∈ delegatedSpecialSendEvents c s k →
        isFloatPrimitive e = false := by
  refine ⟨?_, bytecodePrimAdd_delegated c s hq, bytecodePrimSubtract_delegated c s hq,
    bytecodePrimMultiply_delegated c s hq, bytecodePrimDivide_delegated c s hq,
    bytecodePrimLessThan_delegated c s hq, bytecodePrimGreaterThan_delegated c s hq,
    bytecodePrimLessOrEqual_delegated c s hq, bytecodePrimGreaterOrEqual_delegated c s hq,
    bytecodePrimEqual_delegated c s hq, bytecodePrimNotEqual_delegated c s hq, ?_⟩
  · have ho := (omni_requires_delegation_true c s _ _ hq).2.1
    simp [areIntegers, ho.1]
  · intro k e he
    simp only [delegatedSpecialSendEvents, List.mem_cons, List.mem_singleton,
      List.not_mem_nil, or_false] at he
    rcases he with rfl | rfl | rfl | rfl | rfl <;> rfl

/-- Witness of C15: the receiver 100, whose domain customizes request-execution, added to 4
and compared with 4. -/
theorem arithmetic_delegation_skips_float_primitive_witness :
    (omni_requires_delegation demoConfig demoDelegatedAddInterpreter
        (internalStackValue demoDelegatedAddInterpreter 1)
        demoConfig.masks.RequestExecutionMask).1 = true ∧
      DelegatedSpecialSend demoConfig demoDelegatedAddInterpreter
        (bytecodePrimAdd demoConfig demoDelegatedAddInterpreter) 0 ∧
      (bytecodePrimLessThan demoConfig demoDelegatedAddInterpreter).log
        = [Event.omni_requires_delegation ⟨100⟩ 16, Event.domain_oop ⟨100⟩,
           Event.get_domain_customization_encoding ⟨200⟩, Event.domain_oop ⟨100⟩,
           Event.normalSend (demoOstDomain.request_exec 1) 3
             [⟨200⟩, Oop.from_int 4, ⟨3008⟩, ⟨100⟩]] :=
  ⟨by decide,
    (arithmetic_delegation_skips_float_primitive demoConfig demoDelegatedAddInterpreter
      (by decide)).2.1,
    by decide⟩

/-! ## Primitive first, delegation after its failure -/

/-- The first thing the receiver query records is the query itself. -/
theorem omni_requires_delegation_log_head (c : Config) (s : Squeak_Interpreter) (rcvr : Oop)
    (mask : Int) (q : Bool × Squeak_Interpreter)
    (hq : omni_requires_delegation c s rcvr mask = q) :
    ∃ rest, q.2.log = s.log ++ Event.omni_requires_delegation rcvr mask :: rest := by
  subst hq
  unfold omni_requires_delegation
  simp only [domain_oop, set_domain, record]
  split_ifs
  · exact ⟨[], rfl⟩
  · exact ⟨[], rfl⟩
  · exact ⟨[Event.domain_oop rcvr], by simp⟩
  · exact ⟨[Event.domain_oop rcvr, Event.set_domain rcvr s.roots.nilObj], by simp⟩
  · exact ⟨[Event.domain_oop rcvr,
      Event.get_domain_customization_encoding (s.memory rcvr).domain], by simp⟩

/-- The rewrite (when asked for) and the generic send only add to the log. -/
theorem normalSend_rewrite_log (c : Config) (y : Squeak_Interpreter) (d : Bool) :
    ∃ more, (normalSend (if d then omni_request_execution c y else y)).log = y.log ++ more := by
  cases d
  · exact ⟨_, rfl⟩
  · refine ⟨[Event.domain_oop (internalStackValue y y.argumentCount),
      Event.normalSend (omni_request_execution c y).roots.messageSelector
        (omni_request_execution c y).argumentCount
        (frame (omni_request_execution c y) (omni_request_execution c y).argumentCount)], ?_⟩
    have h : (omni_request_execution c y).log
        = y.log ++ [Event.domain_oop (internalStackValue y y.argumentCount)] := rfl
    simp only [if_true, normalSend, record, h, List.append_assoc, List.singleton_append]

/-- After a failed primitive left `s1` and the handler prepared `y` from it, the query on the
receiver is the next thing recorded, whatever it answers. -/
theorem special_send_query_first (c : Config) (s1 y : Squeak_Interpreter) (rcvr : Oop)
    (q : Bool × Squeak_Interpreter)
    (hq : omni_requires_delegation c y rcvr c.masks.RequestExecutionMask = q)
    (hr : rcvr = internalStackValue s1 1) (hlog : y.log = s1.log) :
    ∃ rest, (normalSend (if q.1 then omni_request_execution c q.2 else q.2)).log
      = s1.log ++ Event.omni_requires_delegation (internalStackValue s1 1)
          c.masks.RequestExecutionMask :: rest := by
  obtain ⟨rest, hrest⟩ := omni_requires_delegation_log_head c _ _ _ _ hq
  obtain ⟨more, hmore⟩ := normalSend_rewrite_log c q.2 q.1
  exact ⟨rest ++ more, by rw [hmore, hrest, hlog, hr]; simp⟩

/-- After a failed primitive left `s1` and the handler prepared `y` from it with the special
selector `k` and argument count 1, a query that answers true ends in the delegated send. -/
theorem special_send_delegated (c : Config) (s1 y : Squeak_Interpreter) (rcvr : Oop) (k : Nat)
    (q : Bool × Squeak_Interpreter)
    (hq : omni_requires_delegation c y rcvr c.masks.RequestExecutionMask = q)
    (hr : rcvr = internalStackValue s1 1) (hlog : y.log = s1.log)
    (hstack : y.stack = s1.stack) (hsp : y.localSP = s1.localSP) (hmem : y.memory = s1.memory)
    (hlev : y.executionLevel = s1.executionLevel) (hnil : y.roots.nilObj = s1.roots.nilObj)
    (hsel : y.roots.messageSelector = c.specialSelector k) (harg : y.argumentCount = 1)
    (h : (omni_requires_delegation c s1 (internalStackValue s1 1)
      c.masks.RequestExecutionMask).1 = true) :
    (normalSend (if q.1 then omni_request_execution c q.2 else q.2)).roots.messageSelector
        = c.The_OstDomain.request_exec 1 ∧
      (normalSend (if q.1 then omni_request_execution c q.2 else q.2)).argumentCount = 3 ∧
      (normalSend (if q.1 then omni_request_execution c q.2 else q.2)).log
        = s1.log ++ delegatedSpecialSendEvents c s1 k := by
  obtain ⟨hl, ho, hd, hc⟩ := omni_requires_delegation_true c s1 _ _ h
  rw [← hr] at ho hd hc
  have hl' : y.executionLevel = ExecutionLevel.baseLevel := hlev.trans hl
  have hd' : hasDomain c y rcvr := by
    unfold hasDomain at hd ⊢
    rw [hmem, hnil]
    exact hd
  have hc' : domainCustomizes c y rcvr c.masks.RequestExecutionMask = true := by
    unfold domainCustomizes at hc ⊢
    rw [hmem]
    exact hc
  rw [omni_requires_delegation_domain c y rcvr _ hl' ho hd'] at hq
  subst hq
  simp only [hc', if_true]
  have harg' : (record (record (record y
      (Event.omni_requires_delegation rcvr c.masks.RequestExecutionMask))
      (Event.domain_oop rcvr))
      (Event.get_domain_customization_encoding (y.memory rcvr).domain)).argumentCount = 1 :=
    harg
  obtain ⟨h1, h2, -, -, h5⟩ := normalSend_request_execution c _ harg'
  refine ⟨h1, h2, h5.trans ?_⟩
  simp [delegatedSpecialSendEvents, record, internalStackValue, hlog, hstack, hsp, hmem, hsel,
    hr]

/-- The order of `bytecodePrimBitAnd`: primitive first, delegation after its failure. -/
theorem bytecodePrimBitAnd_primitive_first (c : Config) (s : Squeak_Interpreter) :
    PrimitiveFirst c s (bytecodePrimBitAnd c s) Event.primitiveBitAnd
      (internalizeExecutionState (primitiveBitAnd c
        (externalizeExecutionState { s with successFlag := true }))).successFlag
      (internalizeExecutionState (primitiveBitAnd c
        (externalizeExecutionState { s with successFlag := true }))) 14 := by
  have hlog : (internalizeExecutionState (primitiveBitAnd c
      (externalizeExecutionState { s with successFlag := true }))).log
        = s.log ++ [Event.primitiveBitAnd] := rfl
  unfold bytecodePrimBitAnd PrimitiveFirst
  simp only []
  generalize internalizeExecutionState (primitiveBitAnd c
      (externalizeExecutionState { s with successFlag := true })) = s1 at hlog ⊢
  refine ⟨fun hok => ?_, fun hok => ?_, fun hok hq => ?_⟩
  · simp [hok, fetchNextBytecode, record, hlog]
  · simp only [hok, Bool.false_eq_true, if_false]
    generalize hq : omni_requires_delegation c _ _ c.masks.RequestExecutionMask = q
    obtain ⟨rest, hrest⟩ := special_send_query_first c s1 _ _ q hq (by rfl) (by rfl)
    exact ⟨rest, by rw [hrest, hlog]; simp⟩
  · simp only [hok, Bool.false_eq_true, if_false]
    generalize hq' : omni_requires_delegation c _ _ c.masks.RequestExecutionMask = q
    obtain ⟨h1, h2, h3⟩ := special_send_delegated c s1 _ _ 14 q hq' (by rfl) (by rfl) (by rfl)
      (by rfl) (by rfl) (by rfl) (by rfl) (by rfl) (by rfl) hq
    exact ⟨h1, h2, by rw [h3, hlog]; simp⟩

/-- The order of `bytecodePrimBitOr`: primitive first, delegation after its failure. -/
theorem bytecodePrimBitOr_primitive_first (c : Config) (s : Squeak_Interpreter) :
    PrimitiveFirst c s (bytecodePrimBitOr c s) Event.primitiveBitOr
      (internalizeExecutionState (primitiveBitOr c
        (externalizeExecutionState { s with successFlag := true }))).successFlag
      (internalizeExecutionState (primitiveBitOr c
        (externalizeExecutionState { s with successFlag := true }))) 15 := by
  have hlog : (internalizeExecutionState (primitiveBitOr c
      (externalizeExecutionState { s with successFlag := true }))).log
        = s.log ++ [Event.primitiveBitOr] := rfl
  unfold bytecodePrimBitOr PrimitiveFirst
  simp only []
  generalize internalizeExecutionState (primitiveBitOr c
      (externalizeExecutionState { s with successFlag := true })) = s1 at hlog ⊢
  refine ⟨fun hok => ?_, fun hok => ?_, fun hok hq => ?_⟩
  · simp [hok, fetchNextBytecode, record, hlog]
  · simp only [hok, Bool.false_eq_true, if_false]
    generalize hq : omni_requires_delegation c _ _ c.masks.RequestExecutionMask = q
    obtain ⟨rest, hrest⟩ := special_send_query_first c s1 _ _ q hq (by rfl) (by rfl)
    exact ⟨rest, by rw [hrest, hlog]; simp⟩
  · simp only [hok, Bool.false_eq_true, if_false]
    generalize hq' : omni_requires_delegation c _ _ c.masks.RequestExecutionMask = q
    obtain ⟨h1, h2, h3⟩ := special_send_delegated c s1 _ _ 15 q hq' (by rfl) (by rfl) (by rfl)
      (by rfl) (by rfl) (by rfl) (by rfl) (by rfl) (by rfl) hq
    exact ⟨h1, h2, by rw [h3, hlog]; simp⟩

/-- The order of `bytecodePrimBitShift`: primitive first, delegation after its failure. -/
theorem bytecodePrimBitShift_primitive_first (c : Config) (s : Squeak_Interpreter) :
    PrimitiveFirst c s (bytecodePrimBitShift c s) Event.primitiveBitShift
      (internalizeExecutionState (primitiveBitShift c
        (externalizeExecutionState { s with successFlag := true }))).successFlag
      (internalizeExecutionState (primitiveBitShift c
        (externalizeExecutionState { s with successFlag := true }))) 12 := by
  have hlog : (internalizeExecutionState (primitiveBitShift c
      (externalizeExecutionState { s with successFlag := true }))).log
        = s.log ++ [Event.primitiveBitShift] := rfl
  unfold bytecodePrimBitShift PrimitiveFirst
  simp only []
  generalize internalizeExecutionState (primitiveBitShift c
      (externalizeExecutionState { s with successFlag := true })) = s1 at hlog ⊢
  refine ⟨fun hok => ?_, fun hok => ?_, fun hok hq => ?_⟩
  · simp [hok, fetchNextBytecode, record, hlog]
  · simp only [hok, Bool.false_eq_true, if_false]
    generalize hq : omni_requires_delegation c _ _ c.masks.RequestExecutionMask = q
    obtain ⟨rest, hrest⟩ := special_send_query_first c s1 _ _ q hq (by rfl) (by rfl)
    exact ⟨rest, by rw [hrest, hlog]; simp⟩
  · simp only [hok, Bool.false_eq_true, if_false]
    generalize hq' : omni_requires_delegation c _ _ c.masks.RequestExecutionMask = q
    obtain ⟨h1, h2, h3⟩ := special_send_delegated c s1 _ _ 12 q hq' (by rfl) (by rfl) (by rfl)
      (by rfl) (by rfl) (by rfl) (by rfl) (by rfl) (by rfl) hq
    exact ⟨h1, h2, by rw [h3, hlog]; simp⟩

/-- The order of `bytecodePrimDiv`: primitive first, delegation after its failure. -/
theorem bytecodePrimDiv_primitive_first (c : Config) (s : Squeak_Interpreter) :
    PrimitiveFirst c s (bytecodePrimDiv c s)
      (Event.doPrimitiveDiv (internalStackValue s 1) (internalStackValue s 0))
      (doPrimitiveDiv c { s with successFlag := true } (internalStackValue s 1)
        (internalStackValue s 0)).2.successFlag
      (doPrimitiveDiv c { s with successFlag := true } (internalStackValue s 1)
        (internalStackValue s 0)).2 13 := by
  have hlog : (doPrimitiveDiv c { s with successFlag := true } (internalStackValue s 1)
      (internalStackValue s 0)).2.log
        = s.log ++ [Event.doPrimitiveDiv (internalStackValue s 1) (internalStackValue s 0)] :=
    rfl
  have hv : internalStackValue ({ s with successFlag := true } : Squeak_Interpreter) 1
      = internalStackValue s 1 := rfl
  have hw : internalStackValue ({ s with successFlag := true } : Squeak_Interpreter) 0
      = internalStackValue s 0 := rfl
  unfold bytecodePrimDiv PrimitiveFirst
  simp only [hv, hw]
  generalize doPrimitiveDiv c { s with successFlag := true } (internalStackValue s 1)
      (internalStackValue s 0) = p at hlog ⊢
  obtain ⟨quotient, s1⟩ := p
  simp only [] at hlog ⊢
  refine ⟨fun hok => ?_, fun hok => ?_, fun hok hq => ?_⟩
  · simp [hok, fetchNextBytecode, internalPopThenPush, record, hlog]
  · simp only [hok, Bool.false_eq_true, if_false]
    generalize hq : omni_requires_delegation c _ _ c.masks.RequestExecutionMask = q
    obtain ⟨rest, hrest⟩ := special_send_query_first c s1 _ _ q hq (by rfl) (by rfl)
    exact ⟨rest, by rw [hrest, hlog]; simp⟩
  · simp only [hok, Bool.false_eq_true, if_false]
    generalize hq' : omni_requires_delegation c _ _ c.masks.RequestExecutionMask = q
    obtain ⟨h1, h2, h3⟩ := special_send_delegated c s1 _ _ 13 q hq' (by rfl) (by rfl) (by rfl)
      (by rfl) (by rfl) (by rfl) (by rfl) (by rfl) (by rfl) hq
    exact ⟨h1, h2, by rw [h3, hlog]; simp⟩

/-- The order of `bytecodePrimMod`: primitive first, delegation after its failure. -/
theorem bytecodePrimMod_primitive_first (c : Config) (s : Squeak_Interpreter) :
    PrimitiveFirst c s (bytecodePrimMod c s)
      (Event.doPrimitiveMod (internalStackValue s 1) (internalStackValue s 0))
      (doPrimitiveMod c { s with successFlag := true } (internalStackValue s 1)
        (internalStackValue s 0)).2.successFlag
      (doPrimitiveMod c { s with successFlag := true } (internalStackValue s 1)
        (internalStackValue s 0)).2 10 := by
  have hlog : (doPrimitiveMod c { s with successFlag := true } (internalStackValue s 1)
      (internalStackValue s 0)).2.log
        = s.log ++ [Event.doPrimitiveMod (internalStackValue s 1) (internalStackValue s 0)] :=
    rfl
  have hr : internalStackValue s 1
      = internalStackValue (doPrimitiveMod c { s with successFlag := true }
          (internalStackValue s 1) (internalStackValue s 0)).2 1 := rfl
  have hw : internalStackValue ({ s with successFlag := true } : Squeak_Interpreter) 0
      = internalStackValue s 0 := rfl
  unfold bytecodePrimMod PrimitiveFirst
  simp only [hw]
  generalize doPrimitiveMod c { s with successFlag := true } (internalStackValue s 1)
      (internalStackValue s 0) = p at hlog hr ⊢
  obtain ⟨mod, s1⟩ := p
  simp only [] at hlog hr ⊢
  refine ⟨fun hok => ?_, fun hok => ?_, fun hok hq => ?_⟩
  · simp [hok, fetchNextBytecode, internalPopThenPush, record, hlog]
  · simp only [hok, Bool.false_eq_true, if_false]
    generalize hq : omni_requires_delegation c _ _ c.masks.RequestExecutionMask = q
    obtain ⟨rest, hrest⟩ := special_send_query_first c s1 _ _ q hq hr (by rfl)
    exact ⟨rest, by rw [hrest, hlog]; simp⟩
  · simp only [hok, Bool.false_eq_true, if_false]
    generalize hq' : omni_requires_delegation c _ _ c.masks.RequestExecutionMask = q
    obtain ⟨h1, h2, h3⟩ := special_send_delegated c s1 _ _ 10 q hq' hr (by rfl) (by rfl)
      (by rfl) (by rfl) (by rfl) (by rfl) (by rfl) (by rfl) hq
    exact ⟨h1, h2, by rw [h3, hlog]; simp⟩

/-- The order of `bytecodePrimMakePoint`: primitive first, delegation after its failure. -/
theorem bytecodePrimMakePoint_primitive_first (c : Config) (s : Squeak_Interpreter) :
    PrimitiveFirst c s (bytecodePrimMakePoint c s) Event.primitiveMakePoint
      (internalizeExecutionState (primitiveMakePoint c
        (externalizeExecutionState { s with successFlag := true }))).successFlag
      (internalizeExecutionState (primitiveMakePoint c
        (externalizeExecutionState { s with successFlag := true }))) 11 := by
  have hlog : (internalizeExecutionState (primitiveMakePoint c
      (externalizeExecutionState { s with successFlag := true }))).log
        = s.log ++ [Event.primitiveMakePoint] := rfl
  unfold bytecodePrimMakePoint PrimitiveFirst
  simp only []
  generalize internalizeExecutionState (primitiveMakePoint c
      (externalizeExecutionState { s with successFlag := true })) = s1 at hlog ⊢
  refine ⟨fun hok => ?_, fun hok => ?_, fun hok hq => ?_⟩
  · simp [hok, fetchNextBytecode, record, hlog]
  · simp only [hok, Bool.false_eq_true, if_false]
    generalize hq : omni_requires_delegation c _ _ c.masks.RequestExecutionMask = q
    obtain ⟨rest, hrest⟩ := omni_requires_delegation_log_head c _ _ _ _ hq
    obtain ⟨d, s2⟩ := q
    obtain ⟨more, hmore⟩ := normalSend_rewrite_log c
      ({ ({ s2 with roots.messageSelector := c.specialSelector 11 } : Squeak_Interpreter) with
        argumentCount := 1 }) d
    refine ⟨rest ++ more, ?_⟩
    simp only [] at hmore hrest ⊢
    rw [hmore, hrest, hlog]
    simp
  · obtain ⟨hl, ho, hd, hc⟩ := omni_requires_delegation_true c s1 _ _ hq
    have hqq := omni_requires_delegation_domain c s1 (internalStackValue s1 1)
      c.masks.RequestExecutionMask hl ho hd
    simp only [hok, hqq, hc, Bool.false_eq_true, if_false, if_true]
    obtain ⟨h1, h2, -, -, h5⟩ := delegated_special_send c s1 11 s1.successFlag _ rfl
    exact ⟨h1, h2, by rw [h5, hlog]; simp⟩

/-- C16, amended. Each of `bytecodePrimMod`, `bytecodePrimDiv`, `bytecodePrimBitShift`,
`bytecodePrimBitAnd`, `bytecodePrimBitOr` and `bytecodePrimMakePoint` attempts its native
primitive first, whatever the receiver is. When the primitive succeeds, the handler records
only the primitive and the fetch of the next bytecode: the delegation query is not made. When
it fails, the query on the receiver with the request-execution mask is the next thing
recorded, and if the query answers true the handler ends in the request-execution rewrite and
the send of `request_exec(1)` with operands (domain, argument, the operation's special
selector, receiver). -/
theorem remaining_arithmetic_primitive_first (c : Config) (s : Squeak_Interpreter) :
    PrimitiveFirst c s (bytecodePrimMod c s)
        (Event.doPrimitiveMod (internalStackValue s 1) (internalStackValue s 0))
        (doPrimitiveMod c { s with successFlag := true } (internalStackValue s 1)
          (internalStackValue s 0)).2.successFlag
        (doPrimitiveMod c { s with successFlag := true } (internalStackValue s 1)
          (internalStackValue s 0)).2 10 ∧
      PrimitiveFirst c s (bytecodePrimDiv c s)
        (Event.doPrimitiveDiv (internalStackValue s 1) (internalStackValue s 0))
        (doPrimitiveDiv c { s with successFlag := true } (internalStackValue s 1)
          (internalStackValue s 0)).2.successFlag
        (doPrimitiveDiv c { s with successFlag := true } (internalStackValue s 1)
          (internalStackValue s 0)).2 13 ∧
      PrimitiveFirst c s (bytecodePrimBitShift c s) Event.primitiveBitShift
        (internalizeExecutionState (primitiveBitShift c
          (externalizeExecutionState { s with successFlag := true }))).successFlag
        (internalizeExecutionState (primitiveBitShift c
          (externalizeExecutionState { s with successFlag := true }))) 12 ∧
      PrimitiveFirst c s (bytecodePrimBitAnd c s) Event.primitiveBitAnd
        (internalizeExecutionState (primitiveBitAnd c
          (externalizeExecutionState { s with successFlag := true }))).successFlag
        (internalizeExecutionState (primitiveBitAnd c
          (externalizeExecutionState { s with successFlag := true }))) 14 ∧
      PrimitiveFirst c s (bytecodePrimBitOr c s) Event.primitiveBitOr
        (internalizeExecutionState (primitiveBitOr c
          (externalizeExecutionState { s with successFlag := true }))).successFlag
        (internalizeExecutionState (primitiveBitOr c
          (externalizeExecutionState { s with successFlag := true }))) 15 ∧
      PrimitiveFirst c s (bytecodePrimMakePoint c s) Event.primitiveMakePoint
        (internalizeExecutionState (primitiveMakePoint c
          (externalizeExecutionState { s with successFlag := true }))).successFlag
        (internalizeExecutionState (primitiveMakePoint c
          (externalizeExecutionState { s with successFlag := true }))) 11 :=
  ⟨bytecodePrimMod_primitive_first c s, bytecodePrimDiv_primitive_first c s,
    bytecodePrimBitShift_primitive_first c s, bytecodePrimBitAnd_primitive_first c s,
    bytecodePrimBitOr_primitive_first c s, bytecodePrimMakePoint_primitive_first c s⟩

/-- C16 as stated fails. In the concrete machine the receiver 100 is a heap object whose
domain customizes request-execution, so the query on it answers true. Each of the six
handlers still records its native primitive first, before the query; and
`bytecodePrimMakePoint`, whose primitive succeeds in this machine, records no query and no
send at all. -/
theorem remaining_arithmetic_runs_primitive_before_query :
    internalStackValue demoDelegatedAddInterpreter 1 = ⟨100⟩ ∧
      isHeapObject demoConfig ⟨100⟩ ∧
      (omni_requires_delegation demoConfig demoDelegatedAddInterpreter ⟨100⟩
        demoConfig.masks.RequestExecutionMask).1 = true ∧
      (bytecodePrimMod demoConfig demoDelegatedAddInterpreter).log
        = [Event.doPrimitiveMod ⟨100⟩ (Oop.from_int 4),
           Event.omni_requires_delegation ⟨100⟩ 16, Event.domain_oop ⟨100⟩,
           Event.get_domain_customization_encoding ⟨200⟩, Event.domain_oop ⟨100⟩,
           Event.normalSend (demoOstDomain.request_exec 1) 3
             [⟨200⟩, Oop.from_int 4, ⟨3040⟩, ⟨100⟩]] ∧
      (bytecodePrimDiv demoConfig demoDelegatedAddInterpreter).log
        = [Event.doPrimitiveDiv ⟨100⟩ (Oop.from_int 4),
           Event.omni_requires_delegation ⟨100⟩ 16, Event.domain_oop ⟨100⟩,
           Event.get_domain_customization_encoding ⟨200⟩, Event.domain_oop ⟨100⟩,
           Event.normalSend (demoOstDomain.request_exec 1) 3
             [⟨200⟩, Oop.from_int 4, ⟨3052⟩, ⟨100⟩]] ∧
      (bytecodePrimBitShift demoConfig demoDelegatedAddInterpreter).log
        = [Event.primitiveBitShift,
           Event.omni_requires_delegation ⟨100⟩ 16, Event.domain_oop ⟨100⟩,
           Event.get_domain_customization_encoding ⟨200⟩, Event.domain_oop ⟨100⟩,
           Event.normalSend (demoOstDomain.request_exec 1) 3
             [⟨200⟩, Oop.from_int 4, ⟨3048⟩, ⟨100⟩]] ∧
      (bytecodePrimBitAnd demoConfig demoDelegatedAddInterpreter).log
        = [Event.primitiveBitAnd,
           Event.omni_requires_delegation ⟨100⟩ 16, Event.domain_oop ⟨100⟩,
           Event.get_domain_customization_encoding ⟨200⟩, Event.domain_oop ⟨100⟩,
           Event.normalSend (demoOstDomain.request_exec 1) 3
             [⟨200⟩, Oop.from_int 4, ⟨3056⟩, ⟨100⟩]] ∧
      (bytecodePrimBitOr demoConfig demoDelegatedAddInterpreter).log
        = [Event.primitiveBitOr,
           Event.omni_requires_delegation ⟨100⟩ 16, Event.domain_oop ⟨100⟩,
           Event.get_domain_customization_encoding ⟨200⟩, Event.domain_oop ⟨100⟩,
           Event.normalSend (demoOstDomain.request_exec 1) 3
             [⟨200⟩, Oop.from_int 4, ⟨3060⟩, ⟨100⟩]] ∧
      (bytecodePrimMakePoint demoConfig demoDelegatedAddInterpreter).log
        = [Event.primitiveMakePoint, Event.fetchNextBytecode] := by
  decide

/-! ## Delegation of the indexing primitives -/

/-- A query that answers true on `s` answers true on any state `y` with the same execution
level, heap and nil, and leaves `y` with its three events recorded. -/
theorem omni_requires_delegation_eq_of_true (c : Config) (s y : Squeak_Interpreter)
    (rcvr : Oop) (mask : Int) (q : Bool × Squeak_Interpreter)
    (hq : omni_requires_delegation c y rcvr mask = q)
    (hlev : y.executionLevel = s.executionLevel) (hmem : y.memory = s.memory)
    (hnil : y.roots.nilObj = s.roots.nilObj)
    (h : (omni_requires_delegation c s rcvr mask).1 = true) :
    q = (true, record (record (record y (Event.omni_requires_delegation rcvr mask))
      (Event.domain_oop rcvr))
      (Event.get_domain_customization_encoding (s.memory rcvr).domain)) := by
  obtain ⟨hl, ho, hd, hc⟩ := omni_requires_delegation_true c s _ _ h
  have hd' : hasDomain c y rcvr := by
    unfold hasDomain at hd ⊢
    rw [hmem, hnil]
    exact hd
  have hc' : domainCustomizes c y rcvr mask = true := by
    unfold domainCustomizes at hc ⊢
    rw [hmem]
    exact hc
  rw [omni_requires_delegation_domain c y rcvr mask (hlev.trans hl) ho hd', hc', hmem] at hq
  exact hq.symm

/-- The prim-at rewrite: what it leaves on the stack, in the send registers, in the heap and
in the log. -/
theorem omni_internal_request_primitive_at_prepares (c : Config) (s : Squeak_Interpreter)
    (primSelector : Oop) :
    (omni_internal_request_primitive_at c s primSelector).localSP = s.localSP + 1 ∧
      (omni_internal_request_primitive_at c s primSelector).stack
        = Function.update (Function.update (Function.update s.stack
            (s.localSP - 1) (s.memory (internalStackValue s 1)).domain)
            s.localSP (internalStackTop s))
            (s.localSP + 1) (internalStackValue s 1) ∧
      (omni_internal_request_primitive_at c s primSelector).argumentCount = 2 ∧
      (omni_internal_request_primitive_at c s primSelector).roots.messageSelector
        = primSelector ∧
      (omni_internal_request_primitive_at c s primSelector).roots.lkupClass
        = c.fetchClass s.memory (s.memory (internalStackValue s 1)).domain ∧
      (omni_internal_request_primitive_at c s primSelector).memory = s.memory ∧
      (omni_internal_request_primitive_at c s primSelector).log
        = s.log ++ ([Event.domain_oop (internalStackValue s 1),
            Event.internalFindNewMethod primSelector
              (c.fetchClass s.memory (s.memory (internalStackValue s 1)).domain),
            Event.internalExecuteNewMethod 2
              [(s.memory (internalStackValue s 1)).domain, internalStackTop s,
               internalStackValue s 1]] ++
          (if s.process_is_scheduled_and_executing then [Event.fetchNextBytecode] else [])) := by
  have e1 : s.localSP - (2 - 1) = s.localSP - 1 := by ring
  have e2 : s.localSP - 1 + 1 = s.localSP := by ring
  unfold omni_internal_request_primitive_at
  simp only [domain_oop]
  refine ⟨?_, ?_, ?_, ?_, ?_, ?_, ?_⟩
  · rw [(omni_commonInternalSend_frame _).1]
    simp [internalPush, internalPopThenPush, record]
  · rw [(omni_commonInternalSend_frame _).2.1]
    simp [internalPush, internalPopThenPush, record, e1, e2]
  · rw [(omni_commonInternalSend_frame _).2.2.1]
  · rw [(omni_commonInternalSend_frame _).2.2.2.1]
  · rw [(omni_commonInternalSend_frame _).2.2.2.1]
    simp [internalPush, internalPopThenPush, record]
  · rw [(omni_commonInternalSend_frame _).2.2.2.2]
    simp [internalPush, internalPopThenPush, record]
  · rw [omni_commonInternalSend_log]
    cases hp : s.process_is_scheduled_and_executing <;>
      simp [internalPush, internalPopThenPush, record, frame, hp, List.range_succ,
        Function.update_apply] <;>
      (refine ⟨?_, ?_⟩ <;> split_ifs <;> first | rfl | omega)

/-- The prim-at-put rewrite: what it leaves on the stack, in the send registers, in the heap
and in the log. -/
theorem omni_internal_request_primitive_atPut_prepares (c : Config) (s : Squeak_Interpreter)
    (primSelector : Oop) :
    (omni_internal_request_primitive_atPut c s primSelector).localSP = s.localSP + 1 ∧
      (omni_internal_request_primitive_atPut c s primSelector).stack
        = Function.update (Function.update (Function.update (Function.update s.stack
            (s.localSP - 2) (s.memory (internalStackValue s 2)).domain)
            (s.localSP - 1) (internalStackValue s 1))
            s.localSP (internalStackValue s 2))
            (s.localSP + 1) (internalStackTop s) ∧
      (omni_internal_request_primitive_atPut c s primSelector).argumentCount = 3 ∧
      (omni_internal_request_primitive_atPut c s primSelector).roots.messageSelector
        = primSelector ∧
      (omni_internal_request_primitive_atPut c s primSelector).roots.lkupClass
        = c.fetchClass s.memory (s.memory (internalStackValue s 2)).domain ∧
      (omni_internal_request_primitive_atPut c s primSelector).memory = s.memory ∧
      (omni_internal_request_primitive_atPut c s primSelector).log
        = s.log ++ ([Event.domain_oop (internalStackValue s 2),
            Event.internalFindNewMethod primSelector
              (c.fetchClass s.memory (s.memory (internalStackValue s 2)).domain),
            Event.internalExecuteNewMethod 3
              [(s.memory (internalStackValue s 2)).domain, internalStackValue s 1,
               internalStackValue s 2, internalStackTop s]] ++
          (if s.process_is_scheduled_and_executing then [Event.fetchNextBytecode] else [])) := by
  have e1 : s.localSP - (3 - 1) = s.localSP - 2 := by ring
  have e2 : s.localSP - 2 + 1 = s.localSP - 1 := by ring
  have e3 : s.localSP - 1 + 1 = s.localSP := by ring
  unfold omni_internal_request_primitive_atPut
  simp only [domain_oop]
  refine ⟨?_, ?_, ?_, ?_, ?_, ?_, ?_⟩
  · rw [(omni_commonInternalSend_frame _).1]
    simp [internalPush, internalPopThenPush, record]
    ring
  · rw [(omni_commonInternalSend_frame _).2.1]
    simp [internalPush, internalPopThenPush, record, e1, e2, e3]
  · rw [(omni_commonInternalSend_frame _).2.2.1]
  · rw [(omni_commonInternalSend_frame _).2.2.2.1]
  · rw [(omni_commonInternalSend_frame _).2.2.2.1]
    simp [internalPush, internalPopThenPush, record]
  · rw [(omni_commonInternalSend_frame _).2.2.2.2]
    simp [internalPush, internalPopThenPush, record]
  · rw [omni_commonInternalSend_log]
    cases hp : s.process_is_scheduled_and_executing <;>
      simp [internalPush, internalPopThenPush, record, frame, hp, List.range_succ,
        Function.update_apply] <;>
      (refine ⟨?_, ?_, ?_⟩ <;> split_ifs <;> first | rfl | omega)

/-- The delegated prim-at arm of `bytecodePrimAt`. -/
theorem bytecodePrimAt_delegates_primitive (c : Config) (s : Squeak_Interpreter)
    (hexec : (omni_requires_delegation c s (internalStackValue s 1)
      c.masks.RequestExecutionMask).1 = false)
    (hmem : (internalStackValue s 1).is_mem = true)
    (hint : (internalStackTop s).is_int = true)
    (hprim : (omni_requires_delegation c s (internalStackValue s 1)
      c.masks.PrimAt_On__Mask).1 = true) :
    (bytecodePrimAt c s).roots.messageSelector = c.The_OstDomain.prim_at_on ∧
      (bytecodePrimAt c s).argumentCount = 2 ∧
      (bytecodePrimAt c s).roots.lkupClass
        = c.fetchClass s.memory (s.memory (internalStackValue s 1)).domain ∧
      (bytecodePrimAt c s).localSP = s.localSP + 1 ∧
      (bytecodePrimAt c s).stack
        = Function.update (Function.update (Function.update s.stack
            (s.localSP - 1) (s.memory (internalStackValue s 1)).domain)
            s.localSP (internalStackTop s))
            (s.localSP + 1) (internalStackValue s 1) ∧
      (bytecodePrimAt c s).memory = s.memory ∧
      (bytecodePrimAt c s).log
        = s.log ++ ([Event.omni_requires_delegation (internalStackValue s 1)
              c.masks.RequestExecutionMask,
            Event.domain_oop (internalStackValue s 1),
            Event.get_domain_customization_encoding (s.memory (internalStackValue s 1)).domain,
            Event.omni_requires_delegation (internalStackValue s 1) c.masks.PrimAt_On__Mask,
            Event.domain_oop (internalStackValue s 1),
            Event.get_domain_customization_encoding (s.memory (internalStackValue s 1)).domain,
            Event.domain_oop (internalStackValue s 1),
            Event.internalFindNewMethod c.The_OstDomain.prim_at_on
              (c.fetchClass s.memory (s.memory (internalStackValue s 1)).domain),
            Event.internalExecuteNewMethod 2
              [(s.memory (internalStackValue s 1)).domain, internalStackTop s,
               internalStackValue s 1]] ++
          (if s.process_is_scheduled_and_executing then [Event.fetchNextBytecode] else [])) := by
  obtain ⟨hl, ho, hd, -⟩ := omni_requires_delegation_true c s _ _ hprim
  have hqq := omni_requires_delegation_domain c s (internalStackValue s 1)
    c.masks.RequestExecutionMask hl ho hd
  have hf : domainCustomizes c s (internalStackValue s 1) c.masks.RequestExecutionMask
      = false := by
    rw [hqq] at hexec
    exact hexec
  unfold bytecodePrimAt
  simp only [hqq, hf, hmem, hint, Bool.not_false, Bool.and_self, if_true, Bool.false_eq_true,
    if_false]
  generalize hq : omni_requires_delegation c _ _ c.masks.PrimAt_On__Mask = q
  have hqe := omni_requires_delegation_eq_of_true c s _ _ _ q hq (by rfl) (by rfl) (by rfl) hprim
  subst hqe
  simp only [if_true]
  generalize hx : record (record (record _ _) _) _ = x
  have x1 : x.stack = s.stack := by simp [← hx, record]
  have x2 : x.localSP = s.localSP := by simp [← hx, record]
  have x3 : x.memory = s.memory := by simp [← hx, record]
  have x4 : x.process_is_scheduled_and_executing = s.process_is_scheduled_and_executing := by
    simp [← hx, record]
  have x5 : x.log = s.log ++ [Event.omni_requires_delegation (internalStackValue s 1)
        c.masks.RequestExecutionMask,
      Event.domain_oop (internalStackValue s 1),
      Event.get_domain_customization_encoding (s.memory (internalStackValue s 1)).domain,
      Event.omni_requires_delegation (internalStackValue s 1) c.masks.PrimAt_On__Mask,
      Event.domain_oop (internalStackValue s 1),
      Event.get_domain_customization_encoding
        (s.memory (internalStackValue s 1)).domain] := by
    simp [← hx, record]
  have y1 : internalStackValue x 1 = internalStackValue s 1 := by
    simp [internalStackValue, x1, x2]
  have y0 : internalStackTop x = internalStackTop s := by
    simp [internalStackTop, x1, x2]
  obtain ⟨p1, p2, p3, p4, p5, p6, p7⟩ :=
    omni_internal_request_primitive_at_prepares c x c.The_OstDomain.prim_at_on
  rw [y1, y0, x1, x2, x3] at p2
  rw [y1, x3] at p5
  rw [y1, y0, x3, x4, x5] at p7
  refine ⟨p4, p3, p5, p1.trans (by rw [x2]), p2, p6.trans x3, p7.trans ?_⟩
  simp

/-- The delegated prim-at-put arm of `bytecodePrimAtPut`. -/
theorem bytecodePrimAtPut_delegates_primitive (c : Config) (s : Squeak_Interpreter)
    (hexec : (omni_requires_delegation c s (internalStackValue s 2)
      c.masks.RequestExecutionMask).1 = false)
    (hmem : (internalStackValue s 2).is_mem = true)
    (hint : (internalStackValue s 1).is_int = true)
    (hprim : (omni_requires_delegation c s (internalStackValue s 2)
      c.masks.PrimAt_On_Put__Mask).1 = true) :
    (bytecodePrimAtPut c s).roots.messageSelector = c.The_OstDomain.prim_at_put_on ∧
      (bytecodePrimAtPut c s).argumentCount = 3 ∧
      (bytecodePrimAtPut c s).roots.lkupClass
        = c.fetchClass s.memory (s.memory (internalStackValue s 2)).domain ∧
      (bytecodePrimAtPut c s).localSP = s.localSP + 1 ∧
      (bytecodePrimAtPut c s).stack
        = Function.update (Function.update (Function.update (Function.update s.stack
            (s.localSP - 2) (s.memory (internalStackValue s 2)).domain)
            (s.localSP - 1) (internalStackValue s 1))
            s.localSP (internalStackValue s 2))
            (s.localSP + 1) (internalStackTop s) ∧
      (bytecodePrimAtPut c s).memory = s.memory ∧
      (bytecodePrimAtPut c s).log
        = s.log ++ ([Event.omni_requires_delegation (internalStackValue s 2)
              c.masks.RequestExecutionMask,
            Event.domain_oop (internalStackValue s 2),
            Event.get_domain_customization_encoding (s.memory (internalStackValue s 2)).domain,
            Event.omni_requires_delegation (internalStackValue s 2)
              c.masks.PrimAt_On_Put__Mask,
            Event.domain_oop (internalStackValue s 2),
            Event.get_domain_customization_encoding (s.memory (internalStackValue s 2)).domain,
            Event.domain_oop (internalStackValue s 2),
            Event.internalFindNewMethod c.The_OstDomain.prim_at_put_on
              (c.fetchClass s.memory (s.memory (internalStackValue s 2)).domain),
            Event.internalExecuteNewMethod 3
              [(s.memory (internalStackValue s 2)).domain, internalStackValue s 1,
               internalStackValue s 2, internalStackTop s]] ++
          (if s.process_is_scheduled_and_executing then [Event.fetchNextBytecode] else [])) := by
  obtain ⟨hl, ho, hd, -⟩ := omni_requires_delegation_true c s _ _ hprim
  have hqq := omni_requires_delegation_domain c s (internalStackValue s 2)
    c.masks.RequestExecutionMask hl ho hd
  have hf : domainCustomizes c s (internalStackValue s 2) c.masks.RequestExecutionMask
      = false := by
    rw [hqq] at hexec
    exact hexec
  unfold bytecodePrimAtPut
  simp only [hqq, hf, hmem, hint, Bool.not_false, Bool.and_self, if_true, Bool.false_eq_true,
    if_false]
  generalize hq : omni_requires_delegation c _ _ c.masks.PrimAt_On_Put__Mask = q
  have hqe := omni_requires_delegation_eq_of_true c s _ _ _ q hq (by rfl) (by rfl) (by rfl) hprim
  subst hqe
  simp only [if_true]
  generalize hx : record (record (record _ _) _) _ = x
  have x1 : x.stack = s.stack := by simp [← hx, record]
  have x2 : x.localSP = s.localSP := by simp [← hx, record]
  have x3 : x.memory = s.memory := by simp [← hx, record]
  have x4 : x.process_is_scheduled_and_executing = s.process_is_scheduled_and_executing := by
    simp [← hx, record]
  have x5 : x.log = s.log ++ [Event.omni_requires_delegation (internalStackValue s 2)
        c.masks.RequestExecutionMask,
      Event.domain_oop (internalStackValue s 2),
      Event.get_domain_customization_encoding (s.memory (internalStackValue s 2)).domain,
      Event.omni_requires_delegation (internalStackValue s 2) c.masks.PrimAt_On_Put__Mask,
      Event.domain_oop (internalStackValue s 2),
      Event.get_domain_customization_encoding
        (s.memory (internalStackValue s 2)).domain] := by
    simp [← hx, record]
  have y2 : internalStackValue x 2 = internalStackValue s 2 := by
    simp [internalStackValue, x1, x2]
  have y1 : internalStackValue x 1 = internalStackValue s 1 := by
    simp [internalStackValue, x1, x2]
  have y0 : internalStackTop x = internalStackTop s := by
    simp [internalStackTop, x1, x2]
  obtain ⟨p1, p2, p3, p4, p5, p6, p7⟩ :=
    omni_internal_request_primitive_atPut_prepares c x c.The_OstDomain.prim_at_put_on
  rw [y2, y1, y0, x1, x2, x3] at p2
  rw [y2, x3] at p5
  rw [y2, y1, y0, x3, x4, x5] at p7
  refine ⟨p4, p3, p5, p1.trans (by rw [x2]), p2, p6.trans x3, p7.trans ?_⟩
  simp

/-- C20. `bytecodePrimAt` on `s` and `bytecodePrimAtPut` on `t`: when the request-execution
query on the receiver answers false, the receiver is a heap object (`is_mem`), the index is a
small integer and the query with the prim-at (resp. prim-at-put) mask answers true, the handler
reshapes (rcvr, index) into (domain, index, rcvr) with argument count 2 (resp. (rcvr, index,
value) into (domain, index, rcvr, value) with argument count 3), sets the prim-at (resp.
prim-at-put) selector and the lookup class to the class of the domain, and sends; it records
neither a consultation of the at-cache nor an access to the elements of the receiver. -/
theorem index_primitive_delegation (c : Config) (s t : Squeak_Interpreter)
    (hexec : (omni_requires_delegation c s (internalStackValue s 1)
      c.masks.RequestExecutionMask).1 = false)
    (hmem : (internalStackValue s 1).is_mem = true)
    (hint : (internalStackTop s).is_int = true)
    (hprim : (omni_requires_delegation c s (internalStackValue s 1)
      c.masks.PrimAt_On__Mask).1 = true)
    (hexecPut : (omni_requires_delegation c t (internalStackValue t 2)
      c.masks.RequestExecutionMask).1 = false)
    (hmemPut : (internalStackValue t 2).is_mem = true)
    (hintPut : (internalStackValue t 1).is_int = true)
    (hprimPut : (omni_requires_delegation c t (internalStackValue t 2)
      c.masks.PrimAt_On_Put__Mask).1 = true) :
    IndexSendDelegated c s (bytecodePrimAt c s) (internalStackValue s 1)
        c.masks.PrimAt_On__Mask c.The_OstDomain.prim_at_on 2
        [(s.memory (internalStackValue s 1)).domain, internalStackTop s,
         internalStackValue s 1] ∧
      IndexSendDelegated c t (bytecodePrimAtPut c t) (internalStackValue t 2)
        c.masks.PrimAt_On_Put__Mask c.The_OstDomain.prim_at_put_on 3
        [(t.memory (internalStackValue t 2)).domain, internalStackValue t 1,
         internalStackValue t 2, internalStackTop t] := by
  constructor
  · obtain ⟨a1, a2, a3, a4, a5, a6, a7⟩ :=
      bytecodePrimAt_delegates_primitive c s hexec hmem hint hprim
    refine ⟨a1, a2, a3, a4, ?_, ?_, a6, a7, ?_⟩
    · simp only [frame, a4, a5, internalStackValue, internalStackTop]
      simp [List.range_succ, Function.update_apply]
      split_ands <;> split_ifs <;> first | rfl | omega
    · intro i hi
      rw [a4] at hi
      rw [a5]
      simp only [Function.update_apply]
      split_ifs <;> first | rfl | omega
    · unfold eventsSince
      rw [a7, List.drop_left]
      cases s.process_is_scheduled_and_executing <;> rfl
  · obtain ⟨a1, a2, a3, a4, a5, a6, a7⟩ :=
      bytecodePrimAtPut_delegates_primitive c t hexecPut hmemPut hintPut hprimPut
    refine ⟨a1, a2, a3, a4, ?_, ?_, a6, a7, ?_⟩
    · simp only [frame, a4, a5, internalStackValue, internalStackTop]
      simp [List.range_succ, Function.update_apply]
      split_ands <;> split_ifs <;> first | rfl | omega
    · intro i hi
      rw [a4] at hi
      rw [a5]
      simp only [Function.update_apply]
      split_ifs <;> first | rfl | omega
    · unfold eventsSince
      rw [a7, List.drop_left]
      cases t.process_is_scheduled_and_executing <;> rfl

/-- Witness of C20: `bytecodePrimAt` on the object 108 with index 1, and `bytecodePrimAtPut`
on the same object with index 1 and value 7; the domain 204 of the object customizes the two
indexing primitives only. -/
theorem index_primitive_delegation_witness :
    (omni_requires_delegation demoConfig demoAtInterpreter
        (internalStackValue demoAtInterpreter 1) demoConfig.masks.RequestExecutionMask).1
        = false ∧
      (omni_requires_delegation demoConfig demoAtInterpreter
        (internalStackValue demoAtInterpreter 1) demoConfig.masks.PrimAt_On__Mask).1 = true ∧
      (omni_requires_delegation demoConfig demoAtPutInterpreter
        (internalStackValue demoAtPutInterpreter 2) demoConfig.masks.RequestExecutionMask).1
        = false ∧
      (omni_requires_delegation demoConfig demoAtPutInterpreter
        (internalStackValue demoAtPutInterpreter 2) demoConfig.masks.PrimAt_On_Put__Mask).1
        = true ∧
      frame (bytecodePrimAt demoConfig demoAtInterpreter) 2
        = [⟨204⟩, Oop.from_int 1, ⟨108⟩] ∧
      frame (bytecodePrimAtPut demoConfig demoAtPutInterpreter) 3
        = [⟨204⟩, Oop.from_int 1, ⟨108⟩, Oop.from_int 7] ∧
      (eventsSince demoAtInterpreter (bytecodePrimAt demoConfig demoAtInterpreter)).any
        consultsElements = false ∧
      (eventsSince demoAtPutInterpreter
        (bytecodePrimAtPut demoConfig demoAtPutInterpreter)).any consultsElements = false :=
  ⟨by decide, by decide, by decide, by decide,
    (index_primitive_delegation demoConfig demoAtInterpreter demoAtPutInterpreter
      (by decide) (by decide) (by decide) (by decide) (by decide) (by decide) (by decide)
      (by decide)).1.2.2.2.2.1,
    (index_primitive_delegation demoConfig demoAtInterpreter demoAtPutInterpreter
      (by decide) (by decide) (by decide) (by decide) (by decide) (by decide) (by decide)
      (by decide)).2.2.2.2.2.1,
    (index_primitive_delegation demoConfig demoAtInterpreter demoAtPutInterpreter
      (by decide) (by decide) (by decide) (by decide) (by decide) (by decide) (by decide)
      (by decide)).1.2.2.2.2.2.2.2.2,
    (index_primitive_delegation demoConfig demoAtInterpreter demoAtPutInterpreter
      (by decide) (by decide) (by decide) (by decide) (by decide) (by decide) (by decide)
      (by decide)).2.2.2.2.2.2.2.2.2⟩

/-! ## External and internal variants of the delegated sends -/

/-- The lookups of a concatenation. -/
theorem lookupsOf_append (a b : List Event) :
    lookupsOf (a ++ b) = lookupsOf a ++ lookupsOf b := by
  induction a with
  | nil => rfl
  | cons e a ih => cases e <;> simp [lookupsOf, ih]

/-- What `omni_commonSend` leaves untouched, and what it records: the lookup, and then the
execution of the resolved method when the success flag stands after the argument-count test
of a compiled method, the fatal condition otherwise. -/
theorem omni_commonSend_frame (c : Config) (x : Squeak_Interpreter) (lookupClass : Oop) :
    (omni_commonSend c x lookupClass).stack = x.stack ∧
      (omni_commonSend c x lookupClass).stackPointer = x.stackPointer ∧
      (omni_commonSend c x lookupClass).argumentCount = x.argumentCount ∧
      (omni_commonSend c x lookupClass).roots.messageSelector = x.roots.messageSelector ∧
      (omni_commonSend c x lookupClass).log
        = x.log ++ [Event.findNewMethodInClass x.roots.messageSelector lookupClass,
            if (if c.isCompiledMethod x.memory
                  (c.lookupMethod x.memory x.roots.messageSelector lookupClass) then
                x.successFlag &&
                  (c.methodArgumentCount x.memory
                    (c.lookupMethod x.memory x.roots.messageSelector lookupClass)
                      == x.argumentCount)
              else x.successFlag) then
              Event.executeNewMethodFromCache
                (c.lookupMethod x.memory x.roots.messageSelector lookupClass) x.argumentCount
                (externalFrame x x.argumentCount)
            else Event.fatal "not yet implemented"] := by
  cases h1 : c.isCompiledMethod x.memory
      (c.lookupMethod x.memory x.roots.messageSelector lookupClass) <;>
    cases h2 : x.successFlag <;>
    cases h3 : (c.methodArgumentCount x.memory
      (c.lookupMethod x.memory x.roots.messageSelector lookupClass) == x.argumentCount) <;>
    simp [omni_commonSend, findNewMethodInClass, success, executeNewMethodFromCache, fatal,
      record, externalFrame, h1, h2, h3]

/-- The lookups of an external send that recorded `pre` before `omni_commonSend`. -/
theorem omni_commonSend_lookups (c : Config) (s x : Squeak_Interpreter) (lookupClass : Oop)
    (pre : List Event) (hx : x.log = s.log ++ pre) (hpre : lookupsOf pre = []) :
    lookupsOf (eventsSince s (omni_commonSend c x lookupClass))
      = [(x.roots.messageSelector, lookupClass)] := by
  obtain ⟨-, -, -, -, hlog⟩ := omni_commonSend_frame c x lookupClass
  unfold eventsSince
  rw [hlog, hx, List.append_assoc, List.drop_left, lookupsOf_append, hpre]
  split_ifs <;> rfl

/-- The lookups of an internal send that recorded `pre` before `omni_commonInternalSend`. -/
theorem omni_commonInternalSend_lookups (s x : Squeak_Interpreter) (pre : List Event)
    (hx : x.log = s.log ++ pre) (hpre : lookupsOf pre = []) :
    lookupsOf (eventsSince s (omni_commonInternalSend x))
      = [(x.roots.messageSelector, x.roots.lkupClass)] := by
  unfold eventsSince
  rw [omni_commonInternalSend_log, hx, List.append_assoc, List.drop_left, lookupsOf_append, hpre]
  cases x.process_is_scheduled_and_executing <;> rfl

/-- The pair `omni_read_field` / `omni_internal_read_field`. -/
theorem read_field_variants_agree (c : Config) (s : Squeak_Interpreter) (obj : Oop)
    (idx : Int) (h : s.stackPointer = s.localSP) :
    SamePreparedSend s (omni_read_field c s obj idx) (omni_internal_read_field c s obj idx) 2
      c.The_OstDomain.read_field (c.fetchClass s.memory (s.memory obj).domain) := by
  obtain ⟨i1, i2, i3, i4, -, -, i7⟩ := omni_internal_read_field_prepares c s obj idx
  have e2 : s.localSP + 1 + 1 = s.localSP + 2 := by ring
  have e3 : s.localSP + 2 + 1 = s.localSP + 3 := by ring
  refine ⟨?_, ?_, ?_, i3, ?_, i4, ?_, ?_⟩
  · rw [i2]
    unfold omni_read_field
    simp only [domain_oop]
    rw [(omni_commonSend_frame c _ _).1]
    simp [push, pushInteger, record, h, e2, e3]
  · rw [i1]
    unfold omni_read_field
    simp only [domain_oop]
    rw [(omni_commonSend_frame c _ _).2.1]
    simp [push, pushInteger, record, h]
    ring
  · unfold omni_read_field
    simp only [domain_oop]
    rw [(omni_commonSend_frame c _ _).2.2.1]
  · unfold omni_read_field
    simp only [domain_oop]
    rw [(omni_commonSend_frame c _ _).2.2.2.1]
  · unfold omni_read_field
    simp only [domain_oop]
    exact omni_commonSend_lookups c s _ _ [Event.domain_oop obj] rfl rfl
  · unfold eventsSince
    rw [i7, List.drop_left]
    cases s.process_is_scheduled_and_executing <;> rfl

/-- The pair `omni_write_field` / `omni_internal_write_field` (three arguments). -/
theorem write_field_variants_agree (c : Config) (s : Squeak_Interpreter) (obj : Oop)
    (idx : Int) (value : Oop) (h : s.stackPointer = s.localSP) :
    SamePreparedSend s (omni_write_field c s obj idx value)
      (omni_internal_write_field c s obj idx value) 3
      c.The_OstDomain.write_field (c.fetchClass s.memory (s.memory obj).domain) := by
  obtain ⟨i1, i2, -, i4⟩ := omni_internal_write_field_prepares c s obj idx value
  refine ⟨?_, ?_, ?_, i2, ?_, i1, ?_, ?_⟩
  · unfold omni_write_field omni_internal_write_field
    simp only [domain_oop]
    rw [(omni_commonSend_frame c _ _).1, (omni_commonInternalSend_frame _).2.1]
    simp [push, pushInteger, internalPush, record, h]
  · unfold omni_write_field omni_internal_write_field
    simp only [domain_oop]
    rw [(omni_commonSend_frame c _ _).2.1, (omni_commonInternalSend_frame _).1]
    simp [push, pushInteger, internalPush, record, h]
  · unfold omni_write_field
    simp only [domain_oop]
    rw [(omni_commonSend_frame c _ _).2.2.1]
  · unfold omni_write_field
    simp only [domain_oop]
    rw [(omni_commonSend_frame c _ _).2.2.2.1]
  · unfold omni_write_field
    simp only [domain_oop]
    exact omni_commonSend_lookups c s _ _ [Event.domain_oop obj] rfl rfl
  · unfold eventsSince
    rw [i4, List.drop_left]
    cases s.process_is_scheduled_and_executing <;> rfl

/-- The pair `omni_request_primitive_at` / `omni_internal_request_primitive_at`. -/
theorem request_primitive_at_variants_agree (c : Config) (s : Squeak_Interpreter)
    (primSelector : Oop) (h : s.stackPointer = s.localSP) :
    SamePreparedSend s (omni_request_primitive_at c s primSelector)
      (omni_internal_request_primitive_at c s primSelector) 2 primSelector
      (c.fetchClass s.memory (s.memory (internalStackValue s 1)).domain) := by
  obtain ⟨i1, i2, i3, i4, -, -, i7⟩ := omni_internal_request_primitive_at_prepares c s primSelector
  have hv1 : stackValue s 1 = internalStackValue s 1 := by
    simp [stackValue, internalStackValue, h]
  have hv0 : stackTop s = internalStackTop s := by simp [stackTop, internalStackTop, h]
  have e1 : s.localSP - (2 - 1) = s.localSP - 1 := by ring
  have e2 : s.localSP - 1 + 1 = s.localSP := by ring
  refine ⟨?_, ?_, ?_, i3, ?_, i4, ?_, ?_⟩
  · rw [i2]
    unfold omni_request_primitive_at
    simp only [domain_oop, hv1, hv0]
    rw [(omni_commonSend_frame c _ _).1]
    simp [push, popThenPush, record, h, e1, e2]
  · rw [i1]
    unfold omni_request_primitive_at
    simp only [domain_oop, hv1, hv0]
    rw [(omni_commonSend_frame c _ _).2.1]
    simp [push, popThenPush, record, h]
  · unfold omni_request_primitive_at
    simp only [domain_oop]
    rw [(omni_commonSend_frame c _ _).2.2.1]
  · unfold omni_request_primitive_at
    simp only [domain_oop]
    rw [(omni_commonSend_frame c _ _).2.2.2.1]
  · unfold omni_request_primitive_at
    simp only [domain_oop, hv1, hv0]
    exact omni_commonSend_lookups c s _ _ [Event.domain_oop (internalStackValue s 1)] rfl rfl
  · unfold eventsSince
    rw [i7, List.drop_left]
    cases s.process_is_scheduled_and_executing <;> rfl

/-- The pair `omni_request_primitive_atPut` / `omni_internal_request_primitive_atPut`. -/
theorem request_primitive_atPut_variants_agree (c : Config) (s : Squeak_Interpreter)
    (primSelector : Oop) (h : s.stackPointer = s.localSP) :
    SamePreparedSend s (omni_request_primitive_atPut c s primSelector)
      (omni_internal_request_primitive_atPut c s primSelector) 3 primSelector
      (c.fetchClass s.memory (s.memory (internalStackValue s 2)).domain) := by
  obtain ⟨i1, i2, i3, i4, -, -, i7⟩ :=
    omni_internal_request_primitive_atPut_prepares c s primSelector
  have hv2 : stackValue s 2 = internalStackValue s 2 := by
    simp [stackValue, internalStackValue, h]
  have hv1 : stackValue s 1 = internalStackValue s 1 := by
    simp [stackValue, internalStackValue, h]
  have hv0 : stackTop s = internalStackTop s := by simp [stackTop, internalStackTop, h]
  have e1 : s.localSP - (3 - 1) = s.localSP - 2 := by ring
  have e2 : s.localSP - 2 + 1 = s.localSP - 1 := by ring
  have e3 : s.localSP - 1 + 1 = s.localSP := by ring
  refine ⟨?_, ?_, ?_, i3, ?_, i4, ?_, ?_⟩
  · rw [i2]
    unfold omni_request_primitive_atPut
    simp only [domain_oop, hv2, hv1, hv0]
    rw [(omni_commonSend_frame c _ _).1]
    simp [push, popThenPush, record, h, e1, e2, e3]
  · rw [i1]
    unfold omni_request_primitive_atPut
    simp only [domain_oop, hv2, hv1, hv0]
    rw [(omni_commonSend_frame c _ _).2.1]
    simp [push, popThenPush, record, h]
    ring
  · unfold omni_request_primitive_atPut
    simp only [domain_oop]
    rw [(omni_commonSend_frame c _ _).2.2.1]
  · unfold omni_request_primitive_atPut
    simp only [domain_oop]
    rw [(omni_commonSend_frame c _ _).2.2.2.1]
  · unfold omni_request_primitive_atPut
    simp only [domain_oop, hv2, hv1, hv0]
    exact omni_commonSend_lookups c s _ _ [Event.domain_oop (internalStackValue s 2)] rfl rfl
  · unfold eventsSince
    rw [i7, List.drop_left]
    cases s.process_is_scheduled_and_executing <;> rfl

/-- C21. Started in the same state, with the external stack pointer equal to the internal
one, the external and the internal variant of each delegated send agree on the send they
prepare: same operand-stack contents and top, same argument count, same selector, and one
lookup of that selector in the class of the domain of the receiver. This holds for
`omni_read_field` / `omni_internal_read_field`, `omni_write_field` /
`omni_internal_write_field` (three arguments), `omni_request_primitive_at` /
`omni_internal_request_primitive_at` and `omni_request_primitive_atPut` /
`omni_internal_request_primitive_atPut`. -/
theorem external_internal_variants_agree (c : Config) (s : Squeak_Interpreter) (obj : Oop)
    (idx : Int) (value primSelector : Oop) (h : s.stackPointer = s.localSP) :
    SamePreparedSend s (omni_read_field c s obj idx) (omni_internal_read_field c s obj idx) 2
        c.The_OstDomain.read_field (c.fetchClass s.memory (s.memory obj).domain) ∧
      SamePreparedSend s (omni_write_field c s obj idx value)
        (omni_internal_write_field c s obj idx value) 3
        c.The_OstDomain.write_field (c.fetchClass s.memory (s.memory obj).domain) ∧
      SamePreparedSend s (omni_request_primitive_at c s primSelector)
        (omni_internal_request_primitive_at c s primSelector) 2 primSelector
        (c.fetchClass s.memory (s.memory (internalStackValue s 1)).domain) ∧
      SamePreparedSend s (omni_request_primitive_atPut c s primSelector)
        (omni_internal_request_primitive_atPut c s primSelector) 3 primSelector
        (c.fetchClass s.memory (s.memory (internalStackValue s 2)).domain) :=
  ⟨read_field_variants_agree c s obj idx h, write_field_variants_agree c s obj idx value h,
    request_primitive_at_variants_agree c s primSelector h,
    request_primitive_atPut_variants_agree c s primSelector h⟩

/-- Witness of C21: in the concrete machine with externalized registers, both variants of the
field read of field 0 of the object 100 leave (domain 200, 1, object 100) on the stack, and
both variants of prim-at leave (domain 200, 1, object 100). -/
theorem external_internal_variants_agree_witness :
    demoExternalInterpreter.stackPointer = demoExternalInterpreter.localSP ∧
      externalFrame (omni_read_field demoConfig demoExternalInterpreter ⟨100⟩ 0) 2
        = [⟨200⟩, Oop.from_int 1, ⟨100⟩] ∧
      frame (omni_internal_read_field demoConfig demoExternalInterpreter ⟨100⟩ 0) 2
        = [⟨200⟩, Oop.from_int 1, ⟨100⟩] ∧
      externalFrame (omni_request_primitive_at demoConfig demoExternalInterpreter ⟨2020⟩) 2
        = [⟨200⟩, Oop.from_int 1, ⟨100⟩] ∧
      SamePreparedSend demoExternalInterpreter
        (omni_request_primitive_at demoConfig demoExternalInterpreter ⟨2020⟩)
        (omni_internal_request_primitive_at demoConfig demoExternalInterpreter ⟨2020⟩) 2
        ⟨2020⟩ ⟨400⟩ :=
  ⟨by decide, by decide, by decide, by decide,
    (external_internal_variants_agree demoConfig demoExternalInterpreter ⟨100⟩ 0
      (Oop.from_int 7) ⟨2020⟩ (by decide)).2.2.1⟩

/-! ## The argument-count test of the external send -/

/-- C22, amended. `omni_commonSend`, for every state whose success flag is true on entry and
in which the lookup in the given class resolves to a compiled method: after the lookup the
resolved method is executed, and the success flag is true afterwards, if the argument count
the method declares equals the prepared one; otherwise the fatal condition "not yet
implemented" is signalled and the method is not executed. -/
theorem omni_commonSend_checks_argument_count (c : Config) (s : Squeak_Interpreter)
    (lookupClass : Oop) (hflag : s.successFlag = true)
    (hcm : c.isCompiledMethod s.memory
      (c.lookupMethod s.memory s.roots.messageSelector lookupClass) = true) :
    eventsSince s (omni_commonSend c s lookupClass)
        = [Event.findNewMethodInClass s.roots.messageSelector lookupClass,
           if c.methodArgumentCount s.memory
               (c.lookupMethod s.memory s.roots.messageSelector lookupClass)
                 = s.argumentCount then
             Event.executeNewMethodFromCache
               (c.lookupMethod s.memory s.roots.messageSelector lookupClass) s.argumentCount
               (externalFrame s s.argumentCount)
           else Event.fatal "not yet implemented"] ∧
      (c.methodArgumentCount s.memory
          (c.lookupMethod s.memory s.roots.messageSelector lookupClass) = s.argumentCount →
        (omni_commonSend c s lookupClass).successFlag = true) := by
  constructor
  · unfold eventsSince
    rw [(omni_commonSend_frame c s lookupClass).2.2.2.2, List.drop_left]
    simp [hflag, hcm]
  · intro heq
    simp [omni_commonSend, findNewMethodInClass, success, executeNewMethodFromCache, record,
      hflag, hcm, heq]

/-- Witness of C22: in the concrete machine the read-field selector resolves to a method
declaring two arguments; with two arguments prepared it is executed, with three the fatal
condition is signalled. -/
theorem omni_commonSend_checks_argument_count_witness :
    eventsSince { demoFailedSendInterpreter with successFlag := true }
        (omni_commonSend demoConfig { demoFailedSendInterpreter with successFlag := true }
          ⟨400⟩)
        = [Event.findNewMethodInClass ⟨2000⟩ ⟨400⟩,
           Event.executeNewMethodFromCache ⟨12000⟩ 2 [⟨900⟩, ⟨100⟩, Oop.from_int 1]] ∧
      eventsSince { demoFailedSendInterpreter with successFlag := true, argumentCount := 3 }
        (omni_commonSend demoConfig
          { demoFailedSendInterpreter with successFlag := true, argumentCount := 3 } ⟨400⟩)
        = [Event.findNewMethodInClass ⟨2000⟩ ⟨400⟩, Event.fatal "not yet implemented"] :=
  ⟨(omni_commonSend_checks_argument_count demoConfig
      { demoFailedSendInterpreter with successFlag := true } ⟨400⟩ rfl rfl).1,
    (omni_commonSend_checks_argument_count demoConfig
      { demoFailedSendInterpreter with successFlag := true, argumentCount := 3 } ⟨400⟩
      rfl rfl).1⟩

/-- C22 as stated fails. In the concrete machine the lookup resolves to a compiled method
whose declared argument count, 2, equals the prepared one, but the success flag is false on
entry: `success` keeps it false, the method is not executed and the fatal condition is
signalled. -/
theorem omni_commonSend_keeps_earlier_failure :
    demoConfig.isCompiledMethod demoFailedSendInterpreter.memory
        (demoConfig.lookupMethod demoFailedSendInterpreter.memory
          demoFailedSendInterpreter.roots.messageSelector ⟨400⟩) = true ∧
      demoConfig.methodArgumentCount demoFailedSendInterpreter.memory
        (demoConfig.lookupMethod demoFailedSendInterpreter.memory
          demoFailedSendInterpreter.roots.messageSelector ⟨400⟩)
        = demoFailedSendInterpreter.argumentCount ∧
      demoFailedSendInterpreter.successFlag = false ∧
      (omni_commonSend demoConfig demoFailedSendInterpreter ⟨400⟩).log
        = [Event.findNewMethodInClass ⟨2000⟩ ⟨400⟩, Event.fatal "not yet implemented"] := by
  decide

/-! ## Fatal conditions -/

/-- C23. `unknownBytecode` signals the fatal condition "unknown bytecode" in every state, as
the last thing it does, and changes nothing else. `extendedStoreBytecode` and
`extendedStoreAndPopBytecode` with a descriptor of target type 2 fetch the next bytecode and
signal the fatal condition "illegal store" as the last thing they do: the heap (objects,
literal variables and temporaries) is unchanged, and so are the stack and the stack
pointer. -/
theorem fatal_conditions_abort (c : Config) (s : Squeak_Interpreter) :
    ((unknownBytecode s).log = s.log ++ [Event.untested, Event.fatal "unknown bytecode"] ∧
      unknownBytecode s
        = { s with log := s.log ++ [Event.untested, Event.fatal "unknown bytecode"] }) ∧
    (((s.code (s.localIP + 1) % 256) >>> 6) &&& 3 = 2 →
      (extendedStoreBytecode c s).log
        = s.log ++ [Event.fetchNextBytecode, Event.fatal "illegal store"] ∧
      (extendedStoreBytecode c s).memory = s.memory ∧
      (extendedStoreBytecode c s).stack = s.stack ∧
      (extendedStoreBytecode c s).localSP = s.localSP ∧
      (extendedStoreAndPopBytecode c s).log
        = s.log ++ [Event.fetchNextBytecode, Event.fatal "illegal store"] ∧
      (extendedStoreAndPopBytecode c s).memory = s.memory ∧
      (extendedStoreAndPopBytecode c s).stack = s.stack ∧
      (extendedStoreAndPopBytecode c s).localSP = s.localSP) := by
  refine ⟨⟨by simp [unknownBytecode, untested, fatal, record],
    by simp [unknownBytecode, untested, fatal, record]⟩, ?_⟩
  intro hd
  refine ⟨?_, ?_, ?_, ?_, ?_, ?_, ?_, ?_⟩ <;>
    first
    | (unfold extendedStoreBytecode
       simp only [fetchByte]
       rw [hd]
       simp [fatal, fetchNextBytecode, record])
    | (unfold extendedStoreAndPopBytecode
       simp only [fetchByte]
       rw [hd]
       simp [fatal, fetchNextBytecode, record])

/-- Witness of C23: the descriptor 128 in the concrete machine, with 7 on top of a stack of
depth 2, and `unknownBytecode` in a machine whose next byte is not a type-2 descriptor. -/
theorem fatal_conditions_abort_witness :
    ((demoIllegalStoreInterpreter.code (demoIllegalStoreInterpreter.localIP + 1) % 256) >>> 6)
        &&& 3 = 2 ∧
      (extendedStoreAndPopBytecode demoConfig demoIllegalStoreInterpreter).log
        = [Event.fetchNextBytecode, Event.fatal "illegal store"] ∧
      (extendedStoreAndPopBytecode demoConfig demoIllegalStoreInterpreter).localSP = 2 ∧
      ((demoStoreInterpreter.code (demoStoreInterpreter.localIP + 1) % 256) >>> 6) &&& 3 ≠ 2 ∧
      (unknownBytecode demoStoreInterpreter).log
        = demoStoreInterpreter.log ++ [Event.untested, Event.fatal "unknown bytecode"] :=
  ⟨by decide,
    ((fatal_conditions_abort demoConfig demoIllegalStoreInterpreter).2
      (by decide)).2.2.2.2.1,
    ((fatal_conditions_abort demoConfig demoIllegalStoreInterpreter).2
      (by decide)).2.2.2.2.2.2.2,
    by decide,
    (fatal_conditions_abort demoConfig demoStoreInterpreter).1.1⟩

/-! ## Jumps -/

/-- C25. `longUnconditionalJump` adds the decoded offset to the instruction pointer left by
the decoding, and records the interrupt check if and only if the offset is negative, before
it fetches the next bytecode. `shortUnconditionalJump` and `shortConditionalJump` decode the offset
(currentBytecode & 7) + 1, which lies in 1..8: the unconditional jump moves the instruction
pointer forward. -/
theorem jump_offsets (c : Config) (s : Squeak_Interpreter) :
    (longUnconditionalJump c s).localIP
        = (long_jump_offset c s).2.localIP + (long_jump_offset c s).1 + 1 ∧
      eventsSince s (longUnconditionalJump c s)
        = (if (long_jump_offset c s).1 < 0 then [Event.internalQuickCheckForInterrupts]
            else []) ++ [Event.fetchNextBytecode] ∧
      (Event.internalQuickCheckForInterrupts ∈ eventsSince s (longUnconditionalJump c s) ↔
        (long_jump_offset c s).1 < 0) ∧
      shortUnconditionalJump s = jump s (((s.currentBytecode &&& 7 : Nat) : Int) + 1) ∧
      shortConditionalJump c s
        = c.jumpIfFalseBy s (((s.currentBytecode &&& 7 : Nat) : Int) + 1) ∧
      1 ≤ ((s.currentBytecode &&& 7 : Nat) : Int) + 1 ∧
      ((s.currentBytecode &&& 7 : Nat) : Int) + 1 ≤ 8 ∧
      s.localIP < (shortUnconditionalJump s).localIP := by
  have hlog : eventsSince s (longUnconditionalJump c s)
      = (if (long_jump_offset c s).1 < 0 then [Event.internalQuickCheckForInterrupts]
          else []) ++ [Event.fetchNextBytecode] := by
    unfold eventsSince longUnconditionalJump
    simp only [long_jump_offset, fetchByte]
    split_ifs <;>
      simp [fetchNextBytecode, internalQuickCheckForInterrupts, record]
  have hand : s.currentBytecode &&& 7 ≤ 7 := Nat.and_le_right
  refine ⟨?_, hlog, ?_, rfl, rfl, by omega, by omega, ?_⟩
  · unfold longUnconditionalJump
    simp only [long_jump_offset, fetchByte]
    split_ifs <;> simp [fetchNextBytecode, internalQuickCheckForInterrupts, record]
  · rw [hlog]
    split_ifs with h <;> simp [h]
  · simp only [shortUnconditionalJump, jump, fetchNextBytecode, record]
    omega

/-! ## The reclaimable-context counter -/

/-- The copying loop touches neither the counter of reclaimable contexts nor the slots of the
closure below the copied values. -/
theorem copy_loop_frame (c : Config) (newClosure : Oop) (numCopied : Nat)
    (s : Squeak_Interpreter) (j : Int) (hj : j < c.ClosureFirstCopiedValueIndex) (m : Nat) :
    (List.foldl
        (fun (s : Squeak_Interpreter) (i : Nat) => storePointerUnchecked s newClosure
          ((i : Int) + c.ClosureFirstCopiedValueIndex)
          (internalStackValue s ((numCopied : Int) - (i : Int) - 1))) s
        (List.range m)).reclaimableContextCount = s.reclaimableContextCount ∧
      ((List.foldl
        (fun (s : Squeak_Interpreter) (i : Nat) => storePointerUnchecked s newClosure
          ((i : Int) + c.ClosureFirstCopiedValueIndex)
          (internalStackValue s ((numCopied : Int) - (i : Int) - 1))) s
        (List.range m)).memory newClosure).fields j = (s.memory newClosure).fields j ∧
      (List.foldl
        (fun (s : Squeak_Interpreter) (i : Nat) => storePointerUnchecked s newClosure
          ((i : Int) + c.ClosureFirstCopiedValueIndex)
          (internalStackValue s ((numCopied : Int) - (i : Int) - 1))) s
        (List.range m)).activeContext = s.activeContext := by
  induction m with
  | zero => simp
  | succ m ih =>
    obtain ⟨ih1, ih2, ih3⟩ := ih
    rw [List.range_succ, List.foldl_append]
    simp only [List.foldl_cons, List.foldl_nil]
    generalize List.foldl
      (fun (s : Squeak_Interpreter) (i : Nat) => storePointerUnchecked s newClosure
        ((i : Int) + c.ClosureFirstCopiedValueIndex)
        (internalStackValue s ((numCopied : Int) - (i : Int) - 1))) s (List.range m) = S
      at ih1 ih2 ih3 ⊢
    have hne : j ≠ (m : Int) + c.ClosureFirstCopiedValueIndex := by omega
    refine ⟨?_, ?_, ?_⟩
    · simpa [storePointerUnchecked, record] using ih1
    · simp [storePointerUnchecked, record, Function.update_noteq hne, ih2]
    · simpa [storePointerUnchecked, record] using ih3

/-- The end of `pushClosureCopyCopiedValuesBytecode`, from the copying loop on: the counter
and the slots of the closure below the copied values are as the loop found them, and the
closure is on top of the stack. -/
theorem closure_copy_and_push_frame (c : Config) (S0 : Squeak_Interpreter) (newClosure : Oop)
    (numCopied : Nat) (blockSize : Int) (S1 : Squeak_Interpreter) (j : Int)
    (hj : j < c.ClosureFirstCopiedValueIndex)
    (hS1 : S1 = (if numCopied > 0 then
        internalPop (copyCopiedValues c newClosure numCopied S0) (numCopied : Int) else S0)) :
    (internalPush (fetchNextBytecode { S1 with localIP := S1.localIP + blockSize })
        newClosure).reclaimableContextCount = S0.reclaimableContextCount ∧
      ((internalPush (fetchNextBytecode { S1 with localIP := S1.localIP + blockSize })
        newClosure).memory newClosure).fields j = (S0.memory newClosure).fields j ∧
      internalStackTop (internalPush
        (fetchNextBytecode { S1 with localIP := S1.localIP + blockSize }) newClosure)
        = newClosure ∧
      (internalPush (fetchNextBytecode { S1 with localIP := S1.localIP + blockSize })
        newClosure).activeContext = S0.activeContext := by
  obtain ⟨l1, l2, l3⟩ := copy_loop_frame c newClosure numCopied S0 j hj numCopied
  have h3 : S1.activeContext = S0.activeContext := by
    rw [hS1]; split_ifs
    · simpa [internalPop, copyCopiedValues] using l3
    · rfl
  have h1 : S1.reclaimableContextCount = S0.reclaimableContextCount := by
    rw [hS1]; split_ifs
    · simpa [internalPop, copyCopiedValues] using l1
    · rfl
  have h2 : (S1.memory newClosure).fields j = (S0.memory newClosure).fields j := by
    rw [hS1]; split_ifs
    · simpa [internalPop, copyCopiedValues] using l2
    · rfl
  refine ⟨?_, ?_, ?_, ?_⟩
  · simpa [internalPush, fetchNextBytecode, record] using h1
  · simpa [internalPush, fetchNextBytecode, record] using h2
  · simp [internalStackTop, internalPush]
  · simpa [internalPush, fetchNextBytecode, record] using h3

/-- C24. After `pushClosureCopyCopiedValuesBytecode` the counter of reclaimable contexts is
0 whatever it was before, the outer-context slot of the new closure holds the active context,
and the closure is on top of the stack (the outer-context slot lies below the copied values
in the layout of a closure). After `pushActiveContextBytecode` the counter is 0 as well and
the pushed value is the active context. -/
theorem context_capture_resets_reclaimable (c : Config) (s : Squeak_Interpreter)
    (hlayout : c.ClosureOuterContextIndex < c.ClosureFirstCopiedValueIndex) :
    (pushClosureCopyCopiedValuesBytecode c s).reclaimableContextCount = 0 ∧
      ((pushClosureCopyCopiedValuesBytecode c s).memory
        (internalStackTop (pushClosureCopyCopiedValuesBytecode c s))).fields
          c.ClosureOuterContextIndex = s.activeContext ∧
      internalStackTop (pushClosureCopyCopiedValuesBytecode c s)
        = (c.instantiateSmallClass s.memory c.ClassBlockClosure
            ((c.ClosureFirstCopiedValueIndex +
                (((s.code (s.localIP + 1) % 256) >>> 4 : Nat) : Int))
              * c.sizeof_Oop + c.BaseHeaderSize)).1 ∧
      (pushClosureCopyCopiedValuesBytecode c s).activeContext = s.activeContext ∧
      (pushActiveContextBytecode s).reclaimableContextCount = 0 ∧
      internalStackTop (pushActiveContextBytecode s) = s.activeContext ∧
      (pushActiveContextBytecode s).localSP = s.localSP + 1 := by
  have hcl : ∀ (x : Squeak_Interpreter) (a ip n : Int),
      (closureCopy c x a ip n).1 = (c.instantiateSmallClass x.memory c.ClassBlockClosure
        ((c.ClosureFirstCopiedValueIndex + n) * c.sizeof_Oop + c.BaseHeaderSize)).1 :=
    fun _ _ _ _ => rfl
  have hext : ∀ x : Squeak_Interpreter, (externalizeExecutionState x).memory = x.memory :=
    fun _ => rfl
  have main : (pushClosureCopyCopiedValuesBytecode c s).reclaimableContextCount = 0 ∧
      ((pushClosureCopyCopiedValuesBytecode c s).memory
        (c.instantiateSmallClass s.memory c.ClassBlockClosure
            ((c.ClosureFirstCopiedValueIndex +
                (((s.code (s.localIP + 1) % 256) >>> 4 : Nat) : Int))
              * c.sizeof_Oop + c.BaseHeaderSize)).1).fields
          c.ClosureOuterContextIndex = s.activeContext ∧
      internalStackTop (pushClosureCopyCopiedValuesBytecode c s)
        = (c.instantiateSmallClass s.memory c.ClassBlockClosure
            ((c.ClosureFirstCopiedValueIndex +
                (((s.code (s.localIP + 1) % 256) >>> 4 : Nat) : Int))
              * c.sizeof_Oop + c.BaseHeaderSize)).1 ∧
      (pushClosureCopyCopiedValuesBytecode c s).activeContext = s.activeContext := by
    unfold pushClosureCopyCopiedValuesBytecode
    simp only [fetchByte, hcl, hext]
    generalize hS0 : ({ storePointerUnchecked _ _ c.ClosureOuterContextIndex _ with
      reclaimableContextCount := (0 : Int) } : Squeak_Interpreter) = S0
    have h0 : S0.reclaimableContextCount = 0 := by rw [← hS0]
    have h1 : (S0.memory (c.instantiateSmallClass s.memory c.ClassBlockClosure
            ((c.ClosureFirstCopiedValueIndex +
                (((s.code (s.localIP + 1) % 256) >>> 4 : Nat) : Int))
              * c.sizeof_Oop + c.BaseHeaderSize)).1).fields c.ClosureOuterContextIndex
        = s.activeContext := by
      rw [← hS0]
      simp [storePointerUnchecked, record, internalizeExecutionState, closureCopy,
        omni_set_domain_for_new_object, externalizeExecutionState]
    have h2 : S0.activeContext = s.activeContext := by
      rw [← hS0]
      simp [storePointerUnchecked, record, internalizeExecutionState, closureCopy,
        omni_set_domain_for_new_object, externalizeExecutionState]
    obtain ⟨k1, k2, k3, k4⟩ := closure_copy_and_push_frame c S0 _ _ _ _ _ hlayout rfl
    exact ⟨k1.trans h0, k2.trans h1, k3, k4.trans h2⟩
  obtain ⟨m1, m2, m3, m4⟩ := main
  refine ⟨m1, ?_, m3, m4, ?_, ?_, ?_⟩
  · rw [m3]; exact m2
  · simp [pushActiveContextBytecode, internalPush, fetchNextBytecode, record]
  · simp [pushActiveContextBytecode, internalStackTop, internalPush, fetchNextBytecode, record]
  · simp [pushActiveContextBytecode, internalPush, fetchNextBytecode, record]

/-- Witness of C24: in the concrete machine, whose counter is 5 and whose active context is
the object 700, after either bytecode the counter is 0; the closure 600 refers to 700 in its
outer-context slot, and `pushActiveContextBytecode` pushes 700. -/
theorem context_capture_resets_reclaimable_witness :
    demoConfig.ClosureOuterContextIndex < demoConfig.ClosureFirstCopiedValueIndex ∧
      (demoInterpreter [33, 0, 4] [Oop.from_int 3, Oop.from_int 4]).reclaimableContextCount
        = 5 ∧
      (pushClosureCopyCopiedValuesBytecode demoConfig
        (demoInterpreter [33, 0, 4] [Oop.from_int 3, Oop.from_int 4])).reclaimableContextCount
        = 0 ∧
      ((pushClosureCopyCopiedValuesBytecode demoConfig
        (demoInterpreter [33, 0, 4] [Oop.from_int 3, Oop.from_int 4])).memory
          (internalStackTop (pushClosureCopyCopiedValuesBytecode demoConfig
            (demoInterpreter [33, 0, 4] [Oop.from_int 3, Oop.from_int 4])))).fields 0
        = ⟨700⟩ ∧
      internalStackTop (pushActiveContextBytecode
        (demoInterpreter [33, 0, 4] [Oop.from_int 3, Oop.from_int 4])) = ⟨700⟩ :=
  ⟨by decide, by decide,
    (context_capture_resets_reclaimable demoConfig
      (demoInterpreter [33, 0, 4] [Oop.from_int 3, Oop.from_int 4]) (by decide)).1,
    (context_capture_resets_reclaimable demoConfig
      (demoInterpreter [33, 0, 4] [Oop.from_int 3, Oop.from_int 4]) (by decide)).2.1,
    (context_capture_resets_reclaimable demoConfig
      (demoInterpreter [33, 0, 4] [Oop.from_int 3, Oop.from_int 4]) (by decide)).2.2.2.2.2.1⟩

/-! ## Heap map -/

/-- Setting bit `k` of a byte makes the test of bit `k` non-zero. -/
theorem byte_bit_set (b k : Nat) (hk : k < 8) :
    ((b ||| (1 <<< k)) % 256) &&& (1 <<< k) ≠ 0 := by
  intro h
  have h2 := congrArg (fun n => Nat.testBit n k) h
  have h3 : ((b ||| 2 ^ k) % 2 ^ 8).testBit k = true := by
    rw [Nat.testBit_mod_two_pow]
    simp [hk]
  simp only [Nat.one_shiftLeft, Nat.testBit_and, Nat.testBit_two_pow_self, Bool.and_true,
    Nat.zero_testBit] at h2
  have h4 : ((b ||| 2 ^ k) % 256).testBit k = true := h3
  rw [h2] at h4
  exact Bool.noConfusion h4

/-- Clearing bit `k` of a byte makes the test of bit `k` zero. -/
theorem byte_bit_clear (b k : Nat) (hk : k < 8) :
    ((b &&& (255 ^^^ (1 <<< k))) % 256) &&& (1 <<< k) = 0 := by
  apply Nat.eq_of_testBit_eq
  intro i
  have e : (256 : Nat) = 2 ^ 8 := rfl
  have e2 : (255 : Nat) = 2 ^ 8 - 1 := rfl
  simp only [Nat.one_shiftLeft, e, e2, Nat.testBit_and, Nat.testBit_mod_two_pow,
    Nat.testBit_xor, Nat.testBit_two_pow_sub_one, Nat.testBit_two_pow, Nat.zero_testBit]
  by_cases hik : k = i
  · subst hik
    simp [hk]
  · simp [hik]

/-- The bit index of an address is below 8. -/
theorem BITINDEX_lt (a : Nat) : BITINDEX a < 8 := by
  unfold BITINDEX LOGBITSPERBYTE
  have : (1 <<< 3 - 1 : Nat) = 7 := rfl
  rw [this]
  have := @Nat.and_le_right (a >>> LOGWORDSIZE) 7
  omega

/-- The byte index of an address lies inside a page. -/
theorem BYTEINDEX_lt (a : Nat) : BYTEINDEX a < PAGESIZE := by
  unfold BYTEINDEX PAGESIZE PAGEMASK LOGWORDSIZE LOGBITSPERBYTE
  have h := @Nat.and_le_right a 0xFFFFFF
  rw [Nat.shiftRight_eq_div_pow]
  have : (2 : Nat) ^ (2 + 3) = 32 := rfl
  rw [this]
  omega

/-- The page index of a 32-bit address is one of the `NUMPAGES` pages. -/
theorem PAGEINDEX_lt (a : Nat) (h : a < 4294967296) : PAGEINDEX a < NUMPAGES := by
  unfold PAGEINDEX NUMPAGES PAGESHIFT
  rw [Nat.shiftRight_eq_div_pow]
  have : (2 : Nat) ^ 24 = 16777216 := rfl
  rw [this]
  omega

/-- A word-aligned address passes the alignment test of the heap map. -/
theorem aligned_test (a : Nat) (h : a % 4 = 0) : a &&& ((1 <<< LOGWORDSIZE) - 1) = 0 := by
  have e : ((1 <<< LOGWORDSIZE) - 1 : Nat) = 2 ^ 2 - 1 := rfl
  rw [e, Nat.and_pow_two_sub_one_eq_mod]
  exact h

/-- One put followed by one read at the same aligned address: the put returns when the page
exists or can be allocated, the page exists afterwards, and the read answers non-zero exactly
for a non-zero bit. -/
theorem heapMapAtWordPut_read (malloc : Nat → Option (Nat → Nat)) (m : HeapMap) (a : Nat)
    (bit : Int) (halign : a % 4 = 0)
    (hpage : (m.mapPages (PAGEINDEX a)).isSome ∨ (malloc PAGESIZE).isSome) :
    ∃ m' v, heapMapAtWordPut malloc m a bit = Except.ok m' ∧
      (m'.mapPages (PAGEINDEX a)).isSome ∧
      heapMapAtWord m' a = Except.ok v ∧ (v ≠ 0 ↔ bit ≠ 0) := by
  have hal := aligned_test a halign
  have hk := BITINDEX_lt a
  have key : ∀ p : Nat → Nat,
      ((if bit ≠ 0 then (p (BYTEINDEX a) ||| (1 <<< BITINDEX a)) % 256
        else (p (BYTEINDEX a) &&& (255 ^^^ (1 <<< BITINDEX a))) % 256) &&& (1 <<< BITINDEX a)
        ≠ 0 ↔ bit ≠ 0) := by
    intro p
    by_cases hb : bit = 0
    · simp [hb, byte_bit_clear _ _ hk]
    · simp [hb, byte_bit_set _ _ hk]
  unfold heapMapAtWordPut heapMapAtWord
  simp only [hal, ne_eq, not_true_eq_false, if_false]
  cases hp : m.mapPages (PAGEINDEX a) with
  | some p =>
    refine ⟨_, (if bit ≠ 0 then (p (BYTEINDEX a) ||| (1 <<< BITINDEX a)) % 256
        else (p (BYTEINDEX a) &&& (255 ^^^ (1 <<< BITINDEX a))) % 256) &&& (1 <<< BITINDEX a),
      rfl, ?_, ?_, key p⟩
    · simp
    · simp
  | none =>
    rw [hp] at hpage
    simp only [Option.isSome_none, Bool.false_eq_true, false_or] at hpage
    obtain ⟨q, hq⟩ := Option.isSome_iff_exists.mp hpage
    rw [hq]
    refine ⟨_, (if bit ≠ 0 then (memset q 0 PAGESIZE (BYTEINDEX a) ||| (1 <<< BITINDEX a)) % 256
        else (memset q 0 PAGESIZE (BYTEINDEX a) &&& (255 ^^^ (1 <<< BITINDEX a))) % 256)
          &&& (1 <<< BITINDEX a),
      rfl, ?_, ?_, key (memset q 0 PAGESIZE)⟩
    · simp
    · simp

/-- C26. Heap-map round trip. For every word-aligned 32-bit address `a` and every `bit`,
when the page of `a` exists or `malloc` answers a page, `heapMapAtWordPut(a, bit)` returns
and `heapMapAtWord(a)` then answers non-zero if and only if `bit` is non-zero; in
particular a put of 1 followed by a put of 0 reads back 0. -/
theorem heapMap_round_trip (malloc : Nat → Option (Nat → Nat)) (m : HeapMap) (a : Nat)
    (bit : Int) (h32 : a < 4294967296) (halign : a % 4 = 0)
    (hpage : (m.mapPages (PAGEINDEX a)).isSome ∨ (malloc PAGESIZE).isSome) :
    PAGEINDEX a < NUMPAGES ∧
      (∃ m' v, heapMapAtWordPut malloc m a bit = Except.ok m' ∧
        heapMapAtWord m' a = Except.ok v ∧ (v ≠ 0 ↔ bit ≠ 0)) ∧
      (∃ m1 m2, heapMapAtWordPut malloc m a 1 = Except.ok m1 ∧
        heapMapAtWordPut malloc m1 a 0 = Except.ok m2 ∧
        heapMapAtWord m2 a = Except.ok 0) := by
  refine ⟨PAGEINDEX_lt a h32, ?_, ?_⟩
  · obtain ⟨m', v, h1, -, h3, h4⟩ := heapMapAtWordPut_read malloc m a bit halign hpage
    exact ⟨m', v, h1, h3, h4⟩
  · obtain ⟨m1, _, h1, hs, -, -⟩ := heapMapAtWordPut_read malloc m a 1 halign hpage
    obtain ⟨m2, v, h2, -, h3, h4⟩ := heapMapAtWordPut_read malloc m1 a 0 halign (Or.inl hs)
    have hv : v = 0 := by
      by_contra hne
      exact (h4.mp hne) rfl
    rw [hv] at h3
    exact ⟨m1, m2, h1, h2, h3⟩

/-- The clearing loop run over the first `n` page indices: every page that exists among them
is zeroed, no page is created, and the other entries are untouched. -/
theorem clear_loop_pages (m : HeapMap) (n : Nat) :
    ∀ i : Nat, (List.foldl
        (fun (m : HeapMap) (i : Nat) =>
          match m.mapPages i with
          | some page =>
            let page := memset page 0 PAGESIZE
            { m with mapPages := Function.update m.mapPages i (some page) }
          | none => m)
        m (List.range n)).mapPages i
      = if i < n then (m.mapPages i).map (fun page => memset page 0 PAGESIZE)
        else m.mapPages i := by
  induction n with
  | zero => simp
  | succ n ih =>
    intro i
    rw [List.range_succ, List.foldl_append]
    simp only [List.foldl_cons, List.foldl_nil]
    generalize List.foldl
      (fun (m : HeapMap) (i : Nat) =>
        match m.mapPages i with
        | some page =>
          let page := memset page 0 PAGESIZE
          { m with mapPages := Function.update m.mapPages i (some page) }
        | none => m)
      m (List.range n) = M at ih ⊢
    have ihn : M.mapPages n = m.mapPages n := by simpa using ih n
    have ihi := ih i
    have hlt : i ≠ n → ((i < n + 1) = (i < n)) := fun hin => propext (by omega)
    cases hp : m.mapPages n with
    | none =>
      rw [hp] at ihn
      simp only [ihn]
      rw [ihi]
      by_cases hin : i = n
      · subst hin
        simp [hp]
      · simp only [hlt hin]
    | some p =>
      rw [hp] at ihn
      simp only [ihn]
      by_cases hin : i = n
      · subst hin
        simp [hp]
      · rw [Function.update_noteq hin, ihi]
        simp only [hlt hin]

/-- The read at a word-aligned address passes the alignment test. -/
theorem heapMapAtWord_aligned (m : HeapMap) (a : Nat) (halign : a % 4 = 0) :
    heapMapAtWord m a
      = match m.mapPages (PAGEINDEX a) with
        | some page => Except.ok (page (BYTEINDEX a) &&& (1 <<< BITINDEX a))
        | none => Except.ok 0 := by
  have hal := aligned_test a halign
  unfold heapMapAtWord
  simp only [hal, ne_eq, not_true_eq_false, if_false]

/-- C27. After `clearHeapMap()`, `heapMapAtWord(a)` answers 0 for every word-aligned 32-bit
address `a`, whatever the map was before, in particular after any run of `heapMapAtWordPut`
calls; the initial map answers 0 as well. -/
theorem heapMap_clear_reads_zero (m : HeapMap) (a : Nat) (h32 : a < 4294967296)
    (halign : a % 4 = 0) :
    heapMapAtWord (clearHeapMap m) a = Except.ok 0 ∧
      heapMapAtWord initialHeapMap a = Except.ok 0 ∧
      ∀ (malloc : Nat → Option (Nat → Nat)) (puts : List (Nat × Int)) (m' : HeapMap),
        heapMapPuts malloc initialHeapMap puts = Except.ok m' →
        heapMapAtWord (clearHeapMap m') a = Except.ok 0 := by
  have hpi := PAGEINDEX_lt a h32
  have hbi := BYTEINDEX_lt a
  have hread := heapMapAtWord_aligned
  have key : ∀ m : HeapMap, heapMapAtWord (clearHeapMap m) a = Except.ok 0 := by
    intro m
    rw [hread _ a halign]
    unfold clearHeapMap
    rw [clear_loop_pages m NUMPAGES (PAGEINDEX a), if_pos hpi]
    cases m.mapPages (PAGEINDEX a) with
    | none => rfl
    | some p => simp [memset, hbi]
  refine ⟨key m, ?_, fun _ _ m' _ => key m'⟩
  rw [hread _ a halign]
  rfl

/-- Witness of C26: the word at address 16777220 of the initial map, with an allocator whose
fresh pages are all ones. -/
theorem heapMap_round_trip_witness :
    (16777220 : Nat) < 4294967296 ∧ 16777220 % 4 = 0 ∧ PAGEINDEX 16777220 = 1 ∧
      ∃ m1 m2, heapMapAtWordPut demoMalloc initialHeapMap 16777220 1 = Except.ok m1 ∧
        heapMapAtWordPut demoMalloc m1 16777220 0 = Except.ok m2 ∧
        heapMapAtWord m2 16777220 = Except.ok 0 :=
  ⟨by decide, by decide, by decide,
    (heapMap_round_trip demoMalloc initialHeapMap 16777220 1 (by decide) (by decide)
      (Or.inr rfl)).2.2⟩

/-- Witness of C27: after a put of 1 at address 16777220 of the initial map the word reads
non-zero, and after a clear it reads 0. -/
theorem heapMap_clear_reads_zero_witness :
    (16777220 : Nat) < 4294967296 ∧ 16777220 % 4 = 0 ∧
      ∃ m' : HeapMap, heapMapPuts demoMalloc initialHeapMap [(16777220, 1)] = Except.ok m' ∧
        heapMapAtWord m' 16777220 = Except.ok 2 ∧
        heapMapAtWord (clearHeapMap m') 16777220 = Except.ok 0 :=
  ⟨by decide, by decide, _, rfl, rfl,
    (heapMap_clear_reads_zero _ 16777220 (by decide) (by decide)).1⟩

/-! ## Integer multiplication and division -/

/-- A committed fast path and a fall-back differ in what they record. -/
theorem fastPath_excludes_fallBack (c : Config) (s s' : Squeak_Interpreter) (v : Int)
    (k : Nat) (h1 : FastPathCommitted s s' v) (h2 : FallsBackToSend c s s' k) : False := by
  have e1 := h1.2.2.2.2
  have e2 := h2.2.2.2.2
  rw [e1] at e2
  simp at e2

/-- The product of two small-integer values fits a 64-bit intermediate. -/
theorem integerValue_mul_range (a b : Oop) :
    -9223372036854775808 ≤ a.integerValue * b.integerValue ∧
      a.integerValue * b.integerValue < 9223372036854775808 := by
  have ha := integerValue_range a
  have hb := integerValue_range b
  constructor <;> nlinarith [mul_nonneg (by omega : (0 : Int) ≤ a.integerValue + 1073741824)
    (by omega : (0 : Int) ≤ b.integerValue + 1073741824),
    mul_nonneg (by omega : (0 : Int) ≤ 1073741824 - a.integerValue)
    (by omega : (0 : Int) ≤ 1073741824 - b.integerValue),
    mul_nonneg (by omega : (0 : Int) ≤ a.integerValue + 1073741824)
    (by omega : (0 : Int) ≤ 1073741824 - b.integerValue),
    mul_nonneg (by omega : (0 : Int) ≤ 1073741824 - a.integerValue)
    (by omega : (0 : Int) ≤ b.integerValue + 1073741824)]

/-- The fast path of `bytecodePrimMultiply`. -/
theorem bytecodePrimMultiply_fast_path (c : Config) (s : Squeak_Interpreter)
    (hr : (internalStackValue s 1).is_int = true) (ha : (internalStackValue s 0).is_int = true)
    (hfit : Oop.isIntegerValue
      ((internalStackValue s 1).integerValue * (internalStackValue s 0).integerValue) = true) :
    FastPathCommitted s (bytecodePrimMultiply c s)
      ((internalStackValue s 1).integerValue * (internalStackValue s 0).integerValue) := by
  have key : bytecodePrimMultiply c s
      = fetchNextBytecode (internalPopThenPush s 2 (Oop.from_int
          ((internalStackValue s 1).integerValue * (internalStackValue s 0).integerValue))) := by
    unfold bytecodePrimMultiply
    simp [areIntegers, hr, ha, hfit]
  obtain ⟨h1, h2⟩ := from_int_integerValue _ hfit
  rw [key]
  have e : s.localSP - (2 - 1) = s.localSP - 1 := by ring
  unfold FastPathCommitted
  simp [fetchNextBytecode, internalPopThenPush, internalStackTop, record, e, h1, h2]

/-- The fall-back of `bytecodePrimMultiply` on two small integers. -/
theorem bytecodePrimMultiply_falls_back (c : Config) (s : Squeak_Interpreter)
    (hr : (internalStackValue s 1).is_int = true) (ha : (internalStackValue s 0).is_int = true)
    (hov : Oop.isIntegerValue
      ((internalStackValue s 1).integerValue * (internalStackValue s 0).integerValue) = false) :
    FallsBackToSend c s (bytecodePrimMultiply c s) 8 := by
  have hne : (internalStackValue s 0).integerValue ≠ 0 := by
    intro h0
    rw [h0, mul_zero] at hov
    exact Bool.noConfusion hov
  have key : bytecodePrimMultiply c s
      = normalSend { s with roots.messageSelector := c.specialSelector 8,
                            argumentCount := 1 } := by
    unfold bytecodePrimMultiply
    simp [areIntegers, hr, ha, hov, hne]
  rw [key]
  unfold FallsBackToSend
  simp [normalSend, record, frame, List.range_succ, internalStackValue]

/-- C28. `bytecodePrimMultiply` on two small integers a and b: the product fits the 64-bit
intermediate; the fast path is committed if and only if a*b is a representable small
integer, and then the pushed Oop is a small integer of value a*b; otherwise the stack is
unchanged and the generic send with `specialSelector(8)` and argument count 1 is made. -/
theorem bytecodePrimMultiply_small_integers (c : Config) (s : Squeak_Interpreter)
    (hr : (internalStackValue s 1).is_int = true)
    (ha : (internalStackValue s 0).is_int = true) :
    (-9223372036854775808
        ≤ (internalStackValue s 1).integerValue * (internalStackValue s 0).integerValue ∧
      (internalStackValue s 1).integerValue * (internalStackValue s 0).integerValue
        < 9223372036854775808) ∧
      (FastPathCommitted s (bytecodePrimMultiply c s)
          ((internalStackValue s 1).integerValue * (internalStackValue s 0).integerValue) ↔
        Oop.isIntegerValue
          ((internalStackValue s 1).integerValue * (internalStackValue s 0).integerValue)
            = true) ∧
      (Oop.isIntegerValue
          ((internalStackValue s 1).integerValue * (internalStackValue s 0).integerValue)
            = false →
        FallsBackToSend c s (bytecodePrimMultiply c s) 8) := by
  refine ⟨integerValue_mul_range _ _, ⟨fun hfast => ?_, bytecodePrimMultiply_fast_path c s hr ha⟩,
    bytecodePrimMultiply_falls_back c s hr ha⟩
  by_contra hne
  have hov := Bool.eq_false_iff.mpr hne
  exact fastPath_excludes_fallBack c s _ _ 8 hfast (bytecodePrimMultiply_falls_back c s hr ha hov)

/-- Witness of C28: 65536 * 65536 = 4294967296 is not a small integer (and is 0 modulo
2^32): the generic send is made and nothing is pushed; 3 * 4 commits the fast path. -/
theorem bytecodePrimMultiply_small_integers_witness :
    (internalStackValue demoMultiplyOverflowInterpreter 1).is_int = true ∧
      (internalStackValue demoMultiplyOverflowInterpreter 0).is_int = true ∧
      (internalStackValue demoMultiplyOverflowInterpreter 1).integerValue
        * (internalStackValue demoMultiplyOverflowInterpreter 0).integerValue = 4294967296 ∧
      FallsBackToSend demoConfig demoMultiplyOverflowInterpreter
        (bytecodePrimMultiply demoConfig demoMultiplyOverflowInterpreter) 8 ∧
      FastPathCommitted demoAddInterpreter (bytecodePrimMultiply demoConfig demoAddInterpreter)
        12 :=
  ⟨by decide, by decide, by decide,
    (bytecodePrimMultiply_small_integers demoConfig demoMultiplyOverflowInterpreter
      (by decide) (by decide)).2.2 (by decide),
    (bytecodePrimMultiply_small_integers demoConfig demoAddInterpreter
      (by decide) (by decide)).2.1.mpr (by decide)⟩

/-- The quotient of an exact division of small-integer values is not changed by its passage
through `oop_int_t`. -/
theorem toSigned32_tdiv_integerValue (a b : Oop) :
    toSigned32 (Int.tdiv a.integerValue b.integerValue)
      = Int.tdiv a.integerValue b.integerValue := by
  have ha := integerValue_range a
  have hq : (Int.tdiv a.integerValue b.integerValue).natAbs ≤ a.integerValue.natAbs := by
    rw [Int.natAbs_tdiv]
    exact Nat.div_le_self _ _
  unfold toSigned32
  split_ifs <;> omega

/-- The fast path of `bytecodePrimDivide`. -/
theorem bytecodePrimDivide_fast_path (c : Config) (s : Squeak_Interpreter)
    (hr : (internalStackValue s 1).is_int = true) (ha : (internalStackValue s 0).is_int = true)
    (hnz : (internalStackValue s 0).integerValue ≠ 0)
    (hex : Int.tmod (internalStackValue s 1).integerValue
      (internalStackValue s 0).integerValue = 0)
    (hfit : Oop.isIntegerValue (Int.tdiv (internalStackValue s 1).integerValue
      (internalStackValue s 0).integerValue) = true) :
    FastPathCommitted s (bytecodePrimDivide c s)
      (Int.tdiv (internalStackValue s 1).integerValue
        (internalStackValue s 0).integerValue) := by
  have key : bytecodePrimDivide c s
      = fetchNextBytecode (internalPopThenPush s 2 (Oop.from_int
          (Int.tdiv (internalStackValue s 1).integerValue
            (internalStackValue s 0).integerValue))) := by
    unfold bytecodePrimDivide
    simp [areIntegers, hr, ha, hnz, hex, toSigned32_tdiv_integerValue, hfit]
  obtain ⟨h1, h2⟩ := from_int_integerValue _ hfit
  rw [key]
  have e : s.localSP - (2 - 1) = s.localSP - 1 := by ring
  unfold FastPathCommitted
  simp [fetchNextBytecode, internalPopThenPush, internalStackTop, record, e, h1, h2]

/-- The fall-back of `bytecodePrimDivide` on two small integers. -/
theorem bytecodePrimDivide_falls_back (c : Config) (s : Squeak_Interpreter)
    (hr : (internalStackValue s 1).is_int = true) (ha : (internalStackValue s 0).is_int = true)
    (hno : ¬ ((internalStackValue s 0).integerValue ≠ 0 ∧
      Int.tmod (internalStackValue s 1).integerValue
        (internalStackValue s 0).integerValue = 0 ∧
      Oop.isIntegerValue (Int.tdiv (internalStackValue s 1).integerValue
        (internalStackValue s 0).integerValue) = true)) :
    FallsBackToSend c s (bytecodePrimDivide c s) 9 := by
  have key : bytecodePrimDivide c s
      = normalSend { s with roots.messageSelector := c.specialSelector 9,
                            argumentCount := 1 } := by
    unfold bytecodePrimDivide
    simp only [areIntegers, hr, ha, Bool.and_self, if_true, toSigned32_tdiv_integerValue]
    by_cases hnz : (internalStackValue s 0).integerValue = 0
    · simp [hnz]
    · by_cases hex : Int.tmod (internalStackValue s 1).integerValue
          (internalStackValue s 0).integerValue = 0
      · have hov : Oop.isIntegerValue (Int.tdiv (internalStackValue s 1).integerValue
            (internalStackValue s 0).integerValue) = false := by
          apply Bool.eq_false_iff.mpr
          intro hfit
          exact hno ⟨hnz, hex, hfit⟩
        simp [hnz, hex, hov]
      · simp [hnz, hex]
  rw [key]
  unfold FallsBackToSend
  simp [normalSend, record, frame, List.range_succ, internalStackValue]

/-- C29. `bytecodePrimDivide` on two small integers r and a commits the fast path if and
only if a is non-zero, r % a is 0 (then a divides r and the quotient times a is r) and the
quotient is a representable small integer, and then pushes the small integer r / a; in
every other both-integer case nothing is pushed, the stack is unchanged, and the generic send
with `specialSelector(9)` is made without any delegation query or rewrite. -/
theorem bytecodePrimDivide_small_integers (c : Config) (s : Squeak_Interpreter)
    (hr : (internalStackValue s 1).is_int = true)
    (ha : (internalStackValue s 0).is_int = true) :
    (FastPathCommitted s (bytecodePrimDivide c s)
          (Int.tdiv (internalStackValue s 1).integerValue
            (internalStackValue s 0).integerValue) ↔
        ((internalStackValue s 0).integerValue ≠ 0 ∧
          Int.tmod (internalStackValue s 1).integerValue
            (internalStackValue s 0).integerValue = 0 ∧
          Oop.isIntegerValue (Int.tdiv (internalStackValue s 1).integerValue
            (internalStackValue s 0).integerValue) = true)) ∧
      (¬ ((internalStackValue s 0).integerValue ≠ 0 ∧
          Int.tmod (internalStackValue s 1).integerValue
            (internalStackValue s 0).integerValue = 0 ∧
          Oop.isIntegerValue (Int.tdiv (internalStackValue s 1).integerValue
            (internalStackValue s 0).integerValue) = true) →
        FallsBackToSend c s (bytecodePrimDivide c s) 9) ∧
      (Int.tmod (internalStackValue s 1).integerValue
          (internalStackValue s 0).integerValue = 0 →
        (internalStackValue s 0).integerValue ∣ (internalStackValue s 1).integerValue ∧
        Int.tdiv (internalStackValue s 1).integerValue (internalStackValue s 0).integerValue
          * (internalStackValue s 0).integerValue = (internalStackValue s 1).integerValue ∧
        Int.tdiv (internalStackValue s 1).integerValue (internalStackValue s 0).integerValue
          = (internalStackValue s 1).integerValue / (internalStackValue s 0).integerValue) := by
  refine ⟨⟨fun hfast => ?_, fun h => bytecodePrimDivide_fast_path c s hr ha h.1 h.2.1 h.2.2⟩,
    bytecodePrimDivide_falls_back c s hr ha, fun hex => ?_⟩
  · by_contra hno
    exact fastPath_excludes_fallBack c s _ _ 9 hfast (bytecodePrimDivide_falls_back c s hr ha hno)
  · have hdvd := Int.dvd_of_tmod_eq_zero hex
    exact ⟨hdvd, Int.tdiv_mul_cancel_of_tmod_eq_zero hex, Int.tdiv_eq_ediv_of_dvd hdvd⟩

/-- Witness of C29: the most negative small integer divided by -1 gives 1073741824, which is
not a small integer: nothing is pushed and the generic send is made; 12 / 4 commits the fast
path with 3. -/
theorem bytecodePrimDivide_small_integers_witness :
    (internalStackValue demoDivideOverflowInterpreter 1).is_int = true ∧
      (internalStackValue demoDivideOverflowInterpreter 0).is_int = true ∧
      Int.tdiv (internalStackValue demoDivideOverflowInterpreter 1).integerValue
        (internalStackValue demoDivideOverflowInterpreter 0).integerValue = 1073741824 ∧
      FallsBackToSend demoConfig demoDivideOverflowInterpreter
        (bytecodePrimDivide demoConfig demoDivideOverflowInterpreter) 9 ∧
      FastPathCommitted
        { demoInterpreter [] [Oop.from_int 12, Oop.from_int 4] with currentBytecode := 185 }
        (bytecodePrimDivide demoConfig
          { demoInterpreter [] [Oop.from_int 12, Oop.from_int 4] with currentBytecode := 185 })
        3 :=
  ⟨by decide, by decide, by decide,
    (bytecodePrimDivide_small_integers demoConfig demoDivideOverflowInterpreter
      (by decide) (by decide)).2.1 (by decide),
    (bytecodePrimDivide_small_integers demoConfig
      { demoInterpreter [] [Oop.from_int 12, Oop.from_int 4] with currentBytecode := 185 }
      (by decide) (by decide)).1.mpr (by decide)⟩

/-! ## Point accessors -/

/-- C30, evaluation at the failing input. In the concrete machine the receiver 100 is an
instance of the point class whose domain customizes request-execution, so the query answers
true. `bytecodePrimPointX` makes the request-execution rewrite and sends `request_exec(0)`
with operands (domain, `specialSelector(30)`, receiver). `bytecodePrimPointY` makes the same
query and then reads the y field natively: it records the field read and the fetch of the
next bytecode, replaces the receiver by the field, and sends nothing. -/
theorem bytecodePrimPointY_reads_delegating_receiver :
    internalStackTop demoPointInterpreter = ⟨100⟩ ∧
      demoConfig.fetchClass demoPointInterpreter.memory ⟨100⟩ = demoConfig.ClassPoint ∧
      (omni_requires_delegation demoConfig demoPointInterpreter ⟨100⟩
        demoConfig.masks.RequestExecutionMask).1 = true ∧
      (bytecodePrimPointX demoConfig demoPointInterpreter).log
        = [Event.omni_requires_delegation ⟨100⟩ 16, Event.domain_oop ⟨100⟩,
           Event.get_domain_customization_encoding ⟨200⟩, Event.domain_oop ⟨100⟩,
           Event.normalSend (demoOstDomain.request_exec 0) 2 [⟨200⟩, ⟨3120⟩, ⟨100⟩]] ∧
      (bytecodePrimPointY demoConfig demoPointInterpreter).log
        = [Event.omni_requires_delegation ⟨100⟩ 16, Event.domain_oop ⟨100⟩,
           Event.get_domain_customization_encoding ⟨200⟩,
           Event.fetchPointer ⟨100⟩ demoConfig.YIndex, Event.fetchNextBytecode] ∧
      (bytecodePrimPointY demoConfig demoPointInterpreter).localSP = 2 ∧
      internalStackTop (bytecodePrimPointY demoConfig demoPointInterpreter)
        = (demoPointInterpreter.memory ⟨100⟩).fields demoConfig.YIndex := by
  decide

/-! ## Heap map: indices and frame -/

/-- Setting bit `k` of a byte leaves the test of another bit `j` as it was. -/
theorem byte_bit_set_other (x k j : Nat) (hj : j < 8) (hjk : j ≠ k) :
    ((x ||| (1 <<< k)) % 256) &&& (1 <<< j) = x &&& (1 <<< j) := by
  apply Nat.eq_of_testBit_eq
  intro i
  have e : (256 : Nat) = 2 ^ 8 := rfl
  simp only [Nat.one_shiftLeft, e, Nat.testBit_and, Nat.testBit_mod_two_pow, Nat.testBit_or,
    Nat.testBit_two_pow]
  by_cases hji : j = i
  · subst hji
    have : ¬ k = j := fun h => hjk h.symm
    simp [hj, this]
  · simp [hji]

/-- Clearing bit `k` of a byte leaves the test of another bit `j` as it was. -/
theorem byte_bit_clear_other (x k j : Nat) (hj : j < 8) (hjk : j ≠ k) :
    ((x &&& (255 ^^^ (1 <<< k))) % 256) &&& (1 <<< j) = x &&& (1 <<< j) := by
  apply Nat.eq_of_testBit_eq
  intro i
  have e : (256 : Nat) = 2 ^ 8 := rfl
  have e2 : (255 : Nat) = 2 ^ 8 - 1 := rfl
  simp only [Nat.one_shiftLeft, e, e2, Nat.testBit_and, Nat.testBit_mod_two_pow,
    Nat.testBit_xor, Nat.testBit_two_pow_sub_one, Nat.testBit_two_pow]
  by_cases hji : j = i
  · subst hji
    have : ¬ k = j := fun h => hjk h.symm
    simp [hj, this]
  · simp [hji]

/-- The three indices of a 32-bit word-aligned address, as quotients and remainders. -/
theorem heapMap_indices (a : Nat) :
    PAGEINDEX a = a / 16777216 ∧ BYTEINDEX a = a % 16777216 / 32 ∧ BITINDEX a = a / 4 % 8 := by
  refine ⟨?_, ?_, ?_⟩
  · unfold PAGEINDEX PAGESHIFT
    rw [Nat.shiftRight_eq_div_pow]
  · unfold BYTEINDEX PAGEMASK LOGWORDSIZE LOGBITSPERBYTE
    have e : (0xFFFFFF : Nat) = 2 ^ 24 - 1 := rfl
    rw [e, Nat.and_pow_two_sub_one_eq_mod, Nat.shiftRight_eq_div_pow]
  · unfold BITINDEX LOGWORDSIZE LOGBITSPERBYTE
    have e : ((1 <<< 3) - 1 : Nat) = 2 ^ 3 - 1 := rfl
    rw [e, Nat.and_pow_two_sub_one_eq_mod, Nat.shiftRight_eq_div_pow]

/-- The map from a word-aligned address to its three indices is injective. -/
theorem heapMap_indices_injective (a b : Nat) (ha : a % 4 = 0) (hb : b % 4 = 0)
    (h1 : PAGEINDEX a = PAGEINDEX b) (h2 : BYTEINDEX a = BYTEINDEX b)
    (h3 : BITINDEX a = BITINDEX b) : a = b := by
  obtain ⟨a1, a2, a3⟩ := heapMap_indices a
  obtain ⟨b1, b2, b3⟩ := heapMap_indices b
  rw [a1, b1] at h1
  rw [a2, b2] at h2
  rw [a3, b3] at h3
  omega

/-- The alignment test of the heap map, as a remainder. -/
theorem aligned_test_iff (a : Nat) : a &&& ((1 <<< LOGWORDSIZE) - 1) ≠ 0 ↔ a % 4 ≠ 0 := by
  have e : ((1 <<< LOGWORDSIZE) - 1 : Nat) = 2 ^ 2 - 1 := rfl
  rw [e, Nat.and_pow_two_sub_one_eq_mod]

/-- C39. Heap-map index safety: for every 32-bit address the page index is below `NUMPAGES`
(256), the byte index below `PAGESIZE` (512*1024) and the bit index below 8; `heapMapAtWord`
and `heapMapAtWordPut` report the error "misaligned word" exactly when the low two bits of
the address are not zero. -/
theorem heapMap_index_safety (malloc : Nat → Option (Nat → Nat)) (m : HeapMap) (a : Nat)
    (bit : Int) (h32 : a < 4294967296) :
    PAGEINDEX a < NUMPAGES ∧ NUMPAGES = 256 ∧
      BYTEINDEX a < PAGESIZE ∧ PAGESIZE = 512 * 1024 ∧
      BITINDEX a < 8 ∧
      (heapMapAtWord m a = Except.error "misaligned word" ↔ a &&& 3 ≠ 0) ∧
      (heapMapAtWordPut malloc m a bit = Except.error "misaligned word" ↔ a &&& 3 ≠ 0) := by
  have hiff : a &&& 3 ≠ 0 ↔ a % 4 ≠ 0 := aligned_test_iff a
  refine ⟨PAGEINDEX_lt a h32, rfl, BYTEINDEX_lt a, rfl, BITINDEX_lt a, ?_, ?_⟩
  · by_cases hal : a % 4 = 0
    · rw [heapMapAtWord_aligned m a hal]
      have : ¬ (a &&& 3 ≠ 0) := fun h => hiff.mp h hal
      cases m.mapPages (PAGEINDEX a) <;> simp [this]
    · have h3 : a &&& 3 ≠ 0 := hiff.mpr hal
      have ht : a &&& ((1 <<< LOGWORDSIZE) - 1) ≠ 0 := h3
      unfold heapMapAtWord
      simp only [ht, ne_eq, not_false_eq_true, if_true]
      simp [h3]
  · by_cases hal : a % 4 = 0
    · have ht := aligned_test a hal
      have : ¬ (a &&& 3 ≠ 0) := fun h => hiff.mp h hal
      unfold heapMapAtWordPut
      simp only [ht, ne_eq, not_true_eq_false, if_false]
      cases m.mapPages (PAGEINDEX a) with
      | some p => simp [this]
      | none => cases malloc PAGESIZE <;> simp [this]
    · have h3 : a &&& 3 ≠ 0 := hiff.mpr hal
      have ht : a &&& ((1 <<< LOGWORDSIZE) - 1) ≠ 0 := h3
      unfold heapMapAtWordPut
      simp only [ht, ne_eq, not_false_eq_true, if_true]
      simp [h3]

/-- Witness of C39: the address 16777222 has index triple (1, 0, 1) and is misaligned. -/
theorem heapMap_index_safety_witness :
    (16777222 : Nat) < 4294967296 ∧ PAGEINDEX 16777222 = 1 ∧ BYTEINDEX 16777222 = 0 ∧
      BITINDEX 16777222 = 1 ∧
      (heapMapAtWord initialHeapMap 16777222 = Except.error "misaligned word" ↔
        16777222 &&& 3 ≠ 0) ∧
      heapMapAtWord initialHeapMap 16777222 = Except.error "misaligned word" :=
  ⟨by decide, by decide, by decide, by decide,
    (heapMap_index_safety demoMalloc initialHeapMap 16777222 1 (by decide)).2.2.2.2.2.1,
    rfl⟩

/-- The byte a put writes, read at another bit of the same byte. -/
theorem put_byte_other_bit (x k j : Nat) (bit : Int) (hj : j < 8) (hjk : j ≠ k) :
    (if bit ≠ 0 then (x ||| (1 <<< k)) % 256 else (x &&& (255 ^^^ (1 <<< k))) % 256)
      &&& (1 <<< j) = x &&& (1 <<< j) := by
  split_ifs
  · exact byte_bit_set_other x k j hj hjk
  · exact byte_bit_clear_other x k j hj hjk

/-- A page after a put at `a`, read at the byte and bit of another address `b` of the same
page. -/
theorem put_page_other_word (p : Nat → Nat) (a b : Nat) (bit : Int)
    (hne : ¬ (BYTEINDEX a = BYTEINDEX b ∧ BITINDEX a = BITINDEX b)) :
    Function.update p (BYTEINDEX a)
        (if bit ≠ 0 then (p (BYTEINDEX a) ||| (1 <<< BITINDEX a)) % 256
          else (p (BYTEINDEX a) &&& (255 ^^^ (1 <<< BITINDEX a))) % 256) (BYTEINDEX b)
        &&& (1 <<< BITINDEX b)
      = p (BYTEINDEX b) &&& (1 <<< BITINDEX b) := by
  by_cases hby : BYTEINDEX b = BYTEINDEX a
  · have hbit : BITINDEX b ≠ BITINDEX a := fun h => hne ⟨hby.symm, h.symm⟩
    rw [hby, Function.update_same]
    exact put_byte_other_bit _ _ _ bit (BITINDEX_lt b) hbit
  · rw [Function.update_noteq hby]

/-- C38. Heap-map frame property. Two distinct word-aligned 32-bit addresses differ in their
index triple (PAGEINDEX, BYTEINDEX, BITINDEX); and when the page of `a` exists or `malloc`
answers a page, `heapMapAtWordPut(a, bit)` returns and does not change the answer of
`heapMapAtWord(b)` for any other such address `b`. -/
theorem heapMap_put_frame (malloc : Nat → Option (Nat → Nat)) (m : HeapMap) (a b : Nat)
    (bit : Int) (ha32 : a < 4294967296) (hb32 : b < 4294967296) (ha : a % 4 = 0)
    (hb : b % 4 = 0) (hne : a ≠ b)
    (hpage : (m.mapPages (PAGEINDEX a)).isSome ∨ (malloc PAGESIZE).isSome) :
    (PAGEINDEX a < NUMPAGES ∧ PAGEINDEX b < NUMPAGES) ∧
      ¬ (PAGEINDEX a = PAGEINDEX b ∧ BYTEINDEX a = BYTEINDEX b ∧ BITINDEX a = BITINDEX b) ∧
      ∃ m', heapMapAtWordPut malloc m a bit = Except.ok m' ∧
        heapMapAtWord m' b = heapMapAtWord m b := by
  have hinj : ¬ (PAGEINDEX a = PAGEINDEX b ∧ BYTEINDEX a = BYTEINDEX b ∧
      BITINDEX a = BITINDEX b) :=
    fun h => hne (heapMap_indices_injective a b ha hb h.1 h.2.1 h.2.2)
  refine ⟨⟨PAGEINDEX_lt a ha32, PAGEINDEX_lt b hb32⟩, hinj, ?_⟩
  have hal := aligned_test a ha
  have hread := heapMapAtWord_aligned
  unfold heapMapAtWordPut
  simp only [hal, ne_eq, not_true_eq_false, if_false]
  by_cases hpg : PAGEINDEX b = PAGEINDEX a
  · have hword : ¬ (BYTEINDEX a = BYTEINDEX b ∧ BITINDEX a = BITINDEX b) :=
      fun h => hinj ⟨hpg.symm, h.1, h.2⟩
    cases hp : m.mapPages (PAGEINDEX a) with
    | some p =>
      refine ⟨_, rfl, ?_⟩
      rw [hread _ b hb, hread _ b hb, hpg, hp]
      simp only [Function.update_same]
      exact congrArg Except.ok (put_page_other_word p a b bit hword)
    | none =>
      rw [hp] at hpage
      simp only [Option.isSome_none, Bool.false_eq_true, false_or] at hpage
      obtain ⟨q, hq⟩ := Option.isSome_iff_exists.mp hpage
      rw [hq]
      refine ⟨_, rfl, ?_⟩
      rw [hread _ b hb, hread _ b hb, hpg, hp]
      simp only [Function.update_same]
      have h0 : memset q 0 PAGESIZE (BYTEINDEX b) = 0 := by simp [memset, BYTEINDEX_lt b]
      have := put_page_other_word (memset q 0 PAGESIZE) a b bit hword
      simp only [ne_eq] at this
      rw [this, h0]
      simp
  · cases hp : m.mapPages (PAGEINDEX a) with
    | some p =>
      refine ⟨_, rfl, ?_⟩
      rw [hread _ b hb, hread _ b hb]
      simp only [Function.update_noteq hpg]
    | none =>
      rw [hp] at hpage
      simp only [Option.isSome_none, Bool.false_eq_true, false_or] at hpage
      obtain ⟨q, hq⟩ := Option.isSome_iff_exists.mp hpage
      rw [hq]
      refine ⟨_, rfl, ?_⟩
      rw [hread _ b hb, hread _ b hb]
      simp only [Function.update_noteq hpg]

/-- Witness of C38: after bit 1 was set at address 16777220, a put at the next word 16777224
(same page, same byte, next bit) leaves the answer at 16777220 as it was. -/
theorem heapMap_put_frame_witness :
    (16777224 : Nat) ≠ 16777220 ∧
      (PAGEINDEX 16777224, BYTEINDEX 16777224, BITINDEX 16777224) = (1, 0, 2) ∧
      (PAGEINDEX 16777220, BYTEINDEX 16777220, BITINDEX 16777220) = (1, 0, 1) ∧
      ∃ m1 m2, heapMapAtWordPut demoMalloc initialHeapMap 16777220 1 = Except.ok m1 ∧
        heapMapAtWordPut demoMalloc m1 16777224 1 = Except.ok m2 ∧
        heapMapAtWord m2 16777220 = heapMapAtWord m1 16777220 ∧
        heapMapAtWord m1 16777220 = Except.ok 2 :=
  ⟨by decide, by decide, by decide, _, _, rfl,
    (heapMap_put_frame demoMalloc _ 16777224 16777220 1 (by decide) (by decide) (by decide)
      (by decide) (by decide) (Or.inr rfl)).2.2.choose_spec.1,
    (heapMap_put_frame demoMalloc _ 16777224 16777220 1 (by decide) (by decide) (by decide)
      (by decide) (by decide) (Or.inr rfl)).2.2.choose_spec.2, rfl⟩

/-! ## UUID plugin -/

/-- C40. `primitiveMakeUUID` calls `MakeUUID`, on the first indexable field of the stack-top
object, if and only if the method argument count is 0, the stack-top object is fetched
without failure (the failure flag is clear after the fetch), it is a byte object and its byte
size is exactly 16. In every other case `MakeUUID` is not called, and the primitive has
failed: it called `primitiveFail`, or it returned null with the failure flag set after the
fetch. -/
theorem primitiveMakeUUID_guards (vm : VirtualMachine) (st : PluginState) :
    ((vm.methodArgumentCount = 0 ∧ (stackObjectValue vm st 0).2.failed = false ∧
        vm.isBytes (stackObjectValue vm st 0).1 = true ∧
        vm.byteSizeOf (stackObjectValue vm st 0).1 = 16) →
      (primitiveMakeUUID vm st).2.log
        = st.log ++ [PluginEvent.MakeUUID
            (vm.firstIndexableField (stackObjectValue vm st 0).1)] ∧
      (primitiveMakeUUID vm st).1
        = vm.MakeUUID (vm.firstIndexableField (stackObjectValue vm st 0).1)) ∧
      (¬ (vm.methodArgumentCount = 0 ∧ (stackObjectValue vm st 0).2.failed = false ∧
        vm.isBytes (stackObjectValue vm st 0).1 = true ∧
        vm.byteSizeOf (stackObjectValue vm st 0).1 = 16) →
      (∀ location, PluginEvent.MakeUUID location ∉ (primitiveMakeUUID vm st).2.log.drop
        st.log.length) ∧
      (primitiveMakeUUID vm st).2.failed = true ∧
      ((primitiveMakeUUID vm st).2.log = st.log ++ [PluginEvent.primitiveFail] ∨
        ((primitiveMakeUUID vm st).1 = 0 ∧ (primitiveMakeUUID vm st).2.log = st.log ∧
          vm.methodArgumentCount = 0 ∧ (stackObjectValue vm st 0).2.failed = true))) ∧
      ((∃ location, PluginEvent.MakeUUID location ∈ (primitiveMakeUUID vm st).2.log.drop
          st.log.length) ↔
        (vm.methodArgumentCount = 0 ∧ (stackObjectValue vm st 0).2.failed = false ∧
          vm.isBytes (stackObjectValue vm st 0).1 = true ∧
          vm.byteSizeOf (stackObjectValue vm st 0).1 = 16)) := by
  have hlog : (stackObjectValue vm st 0).2.log = st.log := by
    unfold stackObjectValue
    cases vm.stackObjectValue 0 <;> rfl
  by_cases h1 : vm.methodArgumentCount = 0
  · generalize hq : stackObjectValue vm st 0 = q at hlog
    obtain ⟨oop, st1⟩ := q
    simp only at hlog
    cases hf : st1.failed
    · cases hb : vm.isBytes oop
      · simp [primitiveMakeUUID, primitiveFail, MakeUUID, h1, hq, hf, hb, hlog]
      · by_cases hs : vm.byteSizeOf oop = 16
        · simp [primitiveMakeUUID, primitiveFail, MakeUUID, h1, hq, hf, hb, hs, hlog]
        · simp [primitiveMakeUUID, primitiveFail, MakeUUID, h1, hq, hf, hb, hs, hlog]
    · simp [primitiveMakeUUID, primitiveFail, MakeUUID, h1, hq, hf, hlog]
  · simp [primitiveMakeUUID, primitiveFail, MakeUUID, h1]

/-- Witness of C40: with no argument and a 16-byte object on top of the stack, `MakeUUID` is
called on its first indexable field. -/
theorem primitiveMakeUUID_guards_witness :
    (demoVirtualMachine.methodArgumentCount = 0 ∧
        (stackObjectValue demoVirtualMachine ⟨false, []⟩ 0).2.failed = false ∧
        demoVirtualMachine.isBytes (stackObjectValue demoVirtualMachine ⟨false, []⟩ 0).1
          = true ∧
        demoVirtualMachine.byteSizeOf (stackObjectValue demoVirtualMachine ⟨false, []⟩ 0).1
          = 16) ∧
      (primitiveMakeUUID demoVirtualMachine ⟨false, []⟩).2.log
        = (⟨false, []⟩ : PluginState).log ++ [PluginEvent.MakeUUID
            (demoVirtualMachine.firstIndexableField
              (stackObjectValue demoVirtualMachine ⟨false, []⟩ 0).1)] :=
  ⟨by decide, ((primitiveMakeUUID_guards demoVirtualMachine ⟨false, []⟩).1 (by decide)).1⟩

/-! ## Frame of the receiver query -/

/-- The heap after the receiver query. -/
theorem omni_requires_delegation_memory (c : Config) (s : Squeak_Interpreter) (rcvr : Oop)
    (mask : Int) :
    (omni_requires_delegation c s rcvr mask).2.memory
      = if holdsSentinel c s rcvr then
          Function.update s.memory rcvr { s.memory rcvr with domain := s.roots.nilObj }
        else s.memory := by
  by_cases hl : s.executionLevel = ExecutionLevel.baseLevel
  · by_cases ho : isHeapObject c rcvr
    · by_cases hz : (s.memory rcvr).domain.bits = 0
      · rw [omni_requires_delegation_noDomain c s rcvr mask hl ho (Or.inr hz),
          if_neg (fun h => h.2.2.1 hz)]
        rfl
      · by_cases hn : (s.memory rcvr).domain = s.roots.nilObj
        · rw [omni_requires_delegation_noDomain c s rcvr mask hl ho (Or.inl hn),
            if_neg (fun h => h.2.2.2.1 hn)]
          rfl
        · by_cases hd :
              (s.memory rcvr).domain = Oop.from_bits c.Illegals_free_extra_preheader_words
          · have hne :
                s.roots.nilObj ≠ Oop.from_bits c.Illegals_free_extra_preheader_words := by
              rw [← hd]; exact fun h => hn h.symm
            have hz2 : c.Illegals_free_extra_preheader_words ≠ 0 := by
              rw [hd] at hz; exact hz
            rw [omni_requires_delegation_sentinel c s rcvr mask hl ho hd hz2 hne,
              if_pos ⟨hl, ho, hz, hn, hd⟩]
            rfl
          · rw [omni_requires_delegation_domain c s rcvr mask hl ho ⟨hz, hn, hd⟩,
              if_neg (fun h => hd h.2.2.2.2)]
            rfl
    · have hi : rcvr.is_int = true ∨ rcvr = Oop.from_bits c.Illegals_allocated := by
        unfold isHeapObject at ho
        by_cases h1 : rcvr.is_int = true
        · exact Or.inl h1
        · right
          by_contra h2
          exact ho ⟨by simpa using h1, h2⟩
      rw [omni_requires_delegation_immediate c s rcvr mask hi, if_neg (fun h => ho h.2.1)]
      rfl
  · have hm : s.executionLevel = ExecutionLevel.metaLevel := by
      cases h : s.executionLevel
      · exact absurd h hl
      · rfl
    rw [omni_requires_delegation_metaLevel c s rcvr mask hm, if_neg (fun h => hl h.1)]
    rfl

/-- C33. The receiver query changes no register, no stack slot and no object field: its
result state is the entry state with a longer log and, only when at base level the domain slot
of the heap object `rcvr` holds the reserved pattern, with that one domain slot set to nil
(class and fields of `rcvr` and every other object are kept). A second query with the same
arguments, made on the state left by the first, returns the same answer. -/
theorem omni_requires_delegation_frame_effect (c : Config) (s : Squeak_Interpreter)
    (rcvr : Oop) (mask : Int) :
    (omni_requires_delegation c s rcvr mask).2
        = { s with
            memory :=
              if holdsSentinel c s rcvr then
                Function.update s.memory rcvr { s.memory rcvr with domain := s.roots.nilObj }
              else s.memory,
            log := (omni_requires_delegation c s rcvr mask).2.log } ∧
      (∃ events, (omni_requires_delegation c s rcvr mask).2.log = s.log ++ events) ∧
      (holdsSentinel c s rcvr →
        (omni_requires_delegation c s rcvr mask).1 = false ∧
        ((omni_requires_delegation c s rcvr mask).2.memory rcvr).domain = s.roots.nilObj ∧
        ((omni_requires_delegation c s rcvr mask).2.memory rcvr).klass = (s.memory rcvr).klass ∧
        ((omni_requires_delegation c s rcvr mask).2.memory rcvr).fields
          = (s.memory rcvr).fields ∧
        ∀ other, other ≠ rcvr →
          (omni_requires_delegation c s rcvr mask).2.memory other = s.memory other) ∧
      (omni_requires_delegation c (omni_requires_delegation c s rcvr mask).2 rcvr mask).1
        = (omni_requires_delegation c s rcvr mask).1 := by
  have hmem := omni_requires_delegation_memory c s rcvr mask
  have hframe := omni_requires_delegation_frame c s rcvr mask
  refine ⟨?_, ?_, ?_, ?_⟩
  · rw [← hmem]; exact hframe
  · unfold omni_requires_delegation
    simp only [domain_oop, set_domain, record]
    split_ifs <;> simp [List.append_assoc]
  · intro hs
    rw [hmem, if_pos hs]
    obtain ⟨hl, ho, hz, hn, hd⟩ := hs
    have hne : s.roots.nilObj ≠ Oop.from_bits c.Illegals_free_extra_preheader_words := by
      rw [← hd]; exact fun h => hn h.symm
    have hz2 : c.Illegals_free_extra_preheader_words ≠ 0 := by
      rw [hd] at hz; exact hz
    refine ⟨?_, ?_, ?_, ?_, ?_⟩
    · rw [omni_requires_delegation_sentinel c s rcvr mask hl ho hd hz2 hne]
    · simp
    · simp
    · simp
    · intro other ho2; simp [Function.update_apply, ho2]
  · by_cases hs : holdsSentinel c s rcvr
    · obtain ⟨hl, ho, hz, hn, hd⟩ := hs
      have hne : s.roots.nilObj ≠ Oop.from_bits c.Illegals_free_extra_preheader_words := by
        rw [← hd]; exact fun h => hn h.symm
      have hz2 : c.Illegals_free_extra_preheader_words ≠ 0 := by
        rw [hd] at hz; exact hz
      rw [omni_requires_delegation_sentinel c s rcvr mask hl ho hd hz2 hne]
      rw [omni_requires_delegation_noDomain c _ rcvr mask (by simp [set_domain, record, hl]) ho
        (Or.inl (by simp [set_domain, record]))]
    · apply omni_requires_delegation_fst_congr
      · rw [hframe]
      · rw [hmem, if_neg hs]
      · rw [hframe]

/-- Witness of C33: the domain slot of the object 104 holds the reserved pattern; the query
answers false and leaves nil in that slot and the object 100 as it was. -/
theorem omni_requires_delegation_frame_effect_witness :
    holdsSentinel demoConfig (demoInterpreter [] []) ⟨104⟩ ∧
      (omni_requires_delegation demoConfig (demoInterpreter [] []) ⟨104⟩ 2).1 = false ∧
      ((omni_requires_delegation demoConfig (demoInterpreter [] []) ⟨104⟩ 2).2.memory
        ⟨104⟩).domain = (demoInterpreter [] []).roots.nilObj ∧
      (omni_requires_delegation demoConfig
        (omni_requires_delegation demoConfig (demoInterpreter [] []) ⟨104⟩ 2).2 ⟨104⟩ 2).1
        = (omni_requires_delegation demoConfig (demoInterpreter [] []) ⟨104⟩ 2).1 :=
  ⟨by decide,
    ((omni_requires_delegation_frame_effect demoConfig (demoInterpreter [] []) ⟨104⟩ 2).2.2.1
      (by decide)).1,
    ((omni_requires_delegation_frame_effect demoConfig (demoInterpreter [] []) ⟨104⟩ 2).2.2.1
      (by decide)).2.1,
    (omni_requires_delegation_frame_effect demoConfig (demoInterpreter [] []) ⟨104⟩ 2).2.2.2⟩

/-! ## Literal sends -/

/-- What a prepared send records and leaves: the first event is the query on the receiver at
the depth of the argument count; without delegation the send carries the prepared selector and
argument count and the operands from the receiver up; with delegation the prepared selector
and the receiver are the two operands pushed for the `request_exec` send. -/
theorem sendPrepared_effect (c : Config) (x : Squeak_Interpreter) :
    (∃ rest, (sendPrepared c x).log
        = x.log ++ Event.omni_requires_delegation (x.stack (x.localSP - x.argumentCount))
            c.masks.RequestExecutionMask :: rest) ∧
      ((omni_requires_delegation c x (x.stack (x.localSP - x.argumentCount))
          c.masks.RequestExecutionMask).1 = false →
        ∃ pre, (sendPrepared c x).log
          = pre ++ [Event.normalSend x.roots.messageSelector x.argumentCount
              (frame x x.argumentCount)]) ∧
      ((omni_requires_delegation c x (x.stack (x.localSP - x.argumentCount))
          c.masks.RequestExecutionMask).1 = true →
        (sendPrepared c x).roots.messageSelector
            = c.The_OstDomain.request_exec x.argumentCount ∧
          (sendPrepared c x).argumentCount = x.argumentCount + 2 ∧
          (sendPrepared c x).localSP = x.localSP + 2 ∧
          (sendPrepared c x).stack (x.localSP + 1) = x.roots.messageSelector ∧
          (sendPrepared c x).stack (x.localSP + 2)
            = x.stack (x.localSP - x.argumentCount)) := by
  unfold sendPrepared
  simp only [internalStackValue]
  generalize hq : omni_requires_delegation c x _ c.masks.RequestExecutionMask = q
  obtain ⟨rest, hrest⟩ := omni_requires_delegation_log_head c x _ _ q hq
  have hframe : q.2 = { x with memory := q.2.memory, log := q.2.log } := by
    rw [← hq]; exact omni_requires_delegation_frame c x _ _
  have key : ∀ (l : List Event), q.2.log ++ l
      = x.log ++ Event.omni_requires_delegation (x.stack (x.localSP - x.argumentCount))
          c.masks.RequestExecutionMask :: (rest ++ l) := by
    intro l; rw [hrest, List.append_assoc]; rfl
  refine ⟨?_, ?_, ?_⟩
  · cases hd : q.1
    · simp only [normalSend, record, Bool.false_eq_true, if_false]
      exact ⟨_, key _⟩
    · simp only [normalSend, record, omni_request_execution, domain_oop, internalPush,
        if_true]
      rw [List.append_assoc]
      exact ⟨_, key _⟩
  · intro hfalse
    refine ⟨q.2.log, ?_⟩
    simp only [hfalse, normalSend, record]
    rw [hframe]
    simp [frame]
  · intro htrue
    simp only [htrue, normalSend, record, omni_request_execution, domain_oop, internalPush,
      internalStackValue, if_true]
    rw [hframe]
    simp [Function.update_apply]
    omega

/-- The low four bits and the argument field of a bytecode in 208..255. -/
theorem sendLiteralSelector_fields (b : Nat) (hlo : 208 ≤ b) (hhi : b ≤ 255) :
    b &&& 15 = (b - 208) % 16 ∧ (b >>> 4) &&& 3 = (b - 208) / 16 + 1 := by
  have h1 : b &&& 15 = b % 16 := Nat.and_pow_two_sub_one_eq_mod b 4
  have h2 : (b >>> 4) &&& 3 = (b >>> 4) % 4 := Nat.and_pow_two_sub_one_eq_mod (b >>> 4) 2
  have h3 : b >>> 4 = b / 16 := Nat.shiftRight_eq_div_pow b 4
  rw [h1, h2, h3]
  omega

/-- The handler of the literal sends is the prepared send of its decoded selector and
argument count. -/
theorem sendLiteralSelectorBytecode_eq (c : Config) (s : Squeak_Interpreter) :
    sendLiteralSelectorBytecode c s
      = sendPrepared c
          { s with roots.messageSelector := s.literals ((s.currentBytecode &&& 15 : Nat) : Int),
                   argumentCount := (((s.currentBytecode >>> 4) &&& 3 : Nat) : Int) - 1 } := by
  unfold sendLiteralSelectorBytecode sendPrepared
  simp only [literal, internalStackValue]

/-- C36. For a bytecode in 208..255, `sendLiteralSelectorBytecode` takes the literal with
index `currentBytecode & 0xf` (below 16) as selector and the argument count
`((currentBytecode >> 4) & 3) - 1` (between 0 and 2); the receiver it queries is the stack
entry at the depth of that argument count. Without delegation the send carries that selector,
that argument count and the operands from that receiver up to the stack top; with delegation
the selector and the receiver are the two operands pushed for the request-execution send. -/
theorem sendLiteralSelectorBytecode_decoding (c : Config) (s : Squeak_Interpreter)
    (hlo : 208 ≤ s.currentBytecode) (hhi : s.currentBytecode ≤ 255) :
    (s.currentBytecode &&& 15 < 16 ∧ s.currentBytecode &&& 15 = (s.currentBytecode - 208) % 16) ∧
      (0 ≤ (((s.currentBytecode >>> 4) &&& 3 : Nat) : Int) - 1 ∧
        (((s.currentBytecode >>> 4) &&& 3 : Nat) : Int) - 1 ≤ 2 ∧
        (((s.currentBytecode >>> 4) &&& 3 : Nat) : Int) - 1
          = (((s.currentBytecode - 208) / 16 : Nat) : Int)) ∧
      (∃ rest, (sendLiteralSelectorBytecode c s).log
        = s.log ++ Event.omni_requires_delegation
            (s.stack (s.localSP - ((((s.currentBytecode >>> 4) &&& 3 : Nat) : Int) - 1)))
            c.masks.RequestExecutionMask :: rest) ∧
      ((omni_requires_delegation c
          { s with roots.messageSelector := s.literals ((s.currentBytecode &&& 15 : Nat) : Int),
                   argumentCount := (((s.currentBytecode >>> 4) &&& 3 : Nat) : Int) - 1 }
          (s.stack (s.localSP - ((((s.currentBytecode >>> 4) &&& 3 : Nat) : Int) - 1)))
          c.masks.RequestExecutionMask).1 = false →
        ∃ pre, (sendLiteralSelectorBytecode c s).log
          = pre ++ [Event.normalSend (s.literals ((s.currentBytecode &&& 15 : Nat) : Int))
              ((((s.currentBytecode >>> 4) &&& 3 : Nat) : Int) - 1)
              (frame s ((((s.currentBytecode >>> 4) &&& 3 : Nat) : Int) - 1))]) ∧
      ((omni_requires_delegation c
          { s with roots.messageSelector := s.literals ((s.currentBytecode &&& 15 : Nat) : Int),
                   argumentCount := (((s.currentBytecode >>> 4) &&& 3 : Nat) : Int) - 1 }
          (s.stack (s.localSP - ((((s.currentBytecode >>> 4) &&& 3 : Nat) : Int) - 1)))
          c.masks.RequestExecutionMask).1 = true →
        (sendLiteralSelectorBytecode c s).roots.messageSelector
            = c.The_OstDomain.request_exec ((((s.currentBytecode >>> 4) &&& 3 : Nat) : Int) - 1) ∧
          (sendLiteralSelectorBytecode c s).argumentCount
            = (((s.currentBytecode >>> 4) &&& 3 : Nat) : Int) - 1 + 2 ∧
          (sendLiteralSelectorBytecode c s).localSP = s.localSP + 2 ∧
          (sendLiteralSelectorBytecode c s).stack (s.localSP + 1)
            = s.literals ((s.currentBytecode &&& 15 : Nat) : Int) ∧
          (sendLiteralSelectorBytecode c s).stack (s.localSP + 2)
            = s.stack (s.localSP - ((((s.currentBytecode >>> 4) &&& 3 : Nat) : Int) - 1))) := by
  obtain ⟨f1, f2⟩ := sendLiteralSelector_fields s.currentBytecode hlo hhi
  refine ⟨⟨by omega, f1⟩, ⟨by omega, by omega, by omega⟩, ?_⟩
  rw [sendLiteralSelectorBytecode_eq]
  exact sendPrepared_effect c _

/-- Witness of C36: bytecode 225 names literal 1 and one argument; the receiver 100 at depth 1
delegates, and the literal 1 is pushed above the argument. -/
theorem sendLiteralSelectorBytecode_decoding_witness :
    208 ≤ demoLiteralSendInterpreter.currentBytecode ∧
      demoLiteralSendInterpreter.currentBytecode ≤ 255 ∧
      demoLiteralSendInterpreter.currentBytecode &&& 15 = 1 ∧
      demoLiteralSendInterpreter.stack (demoLiteralSendInterpreter.localSP - 1) = ⟨100⟩ ∧
      (sendLiteralSelectorBytecode demoConfig demoLiteralSendInterpreter).stack
          (demoLiteralSendInterpreter.localSP + 1)
        = demoLiteralSendInterpreter.literals
            ((demoLiteralSendInterpreter.currentBytecode &&& 15 : Nat) : Int) :=
  ⟨by decide, by decide, by decide, by decide,
    ((sendLiteralSelectorBytecode_decoding demoConfig demoLiteralSendInterpreter
      (by decide) (by decide)).2.2.2.2 (by decide)).2.2.2.1⟩

/-! ## Literal indices of the send and store bytecodes -/

/-- C37. With `bcp` the bytes of the method from the current bytecode on, each send handler
obtains its selector as the literal whose index its `_literal_index` helper returns: the handler
is the prepared send (resp. the superclass send) of `literal(helper(bcp))`. The indices are
`d & 0x1f`, `d & 0x1f`, `d & 0x3f` of the operand byte `d` and `bytecode & 0xf`.
`extendedStoreBytecode_literal_index` returns `d & 63` when the target type `(d >> 6) & 3`
is 3 and -1 otherwise, and -1 is returned for no descriptor of type 3; for type 3 that index is
the literal the store handler writes to. -/
theorem literal_index_helpers_agree (c : Config) (s : Squeak_Interpreter) (bcp : Nat → Nat)
    (hcur : s.currentBytecode = bcp 0) (hnext : s.code (s.localIP + 1) = bcp 1) :
    (singleExtendedSendBytecode c s
        = sendPrepared c
            { (fetchByte s).2 with
              roots.messageSelector := literal s (singleExtendedSendBytecode_literal_index bcp),
              argumentCount := (((bcp 1 % 256) >>> 5 : Nat) : Int) } ∧
      singleExtendedSendBytecode_literal_index bcp = (((bcp 1 % 256) &&& 31 : Nat) : Int)) ∧
    (singleExtendedSuperBytecode s
        = superclassSend
            { (fetchByte s).2 with
              roots.messageSelector := literal s (singleExtendedSuperBytecode_literal_index bcp),
              argumentCount := (((bcp 1 % 256) >>> 5 : Nat) : Int) } ∧
      singleExtendedSuperBytecode_literal_index bcp = (((bcp 1 % 256) &&& 31 : Nat) : Int)) ∧
    (secondExtendedSendBytecode c s
        = sendPrepared c
            { (fetchByte s).2 with
              roots.messageSelector := literal s (secondExtendedSendBytecode_literal_index bcp),
              argumentCount := (((bcp 1 % 256) >>> 6 : Nat) : Int) } ∧
      secondExtendedSendBytecode_literal_index bcp = (((bcp 1 % 256) &&& 63 : Nat) : Int)) ∧
    (sendLiteralSelectorBytecode c s
        = sendPrepared c
            { s with
              roots.messageSelector := literal s (sendLiteralSelectorBytecode_literal_index bcp),
              argumentCount := (((s.currentBytecode >>> 4) &&& 3 : Nat) : Int) - 1 } ∧
      sendLiteralSelectorBytecode_literal_index bcp = ((bcp 0 &&& 15 : Nat) : Int)) ∧
    (((bcp 1 % 256) >>> 6) &&& 3 = 3 →
      extendedStoreBytecode_literal_index bcp = (((bcp 1 % 256) &&& 63 : Nat) : Int)) ∧
    (((bcp 1 % 256) >>> 6) &&& 3 ≠ 3 → extendedStoreBytecode_literal_index bcp = -1) ∧
    (extendedStoreBytecode_literal_index bcp = -1 ↔ ((bcp 1 % 256) >>> 6) &&& 3 ≠ 3) ∧
    (((bcp 1 % 256) >>> 6) &&& 3 = 3 →
      extendedStoreBytecode c s
        = if (omni_requires_delegation_for_literals c (fetchByte s).2
              c.masks.Write_ToLiteral__Mask).1 then
            omni_internal_write_literal c
              (internalPop (omni_requires_delegation_for_literals c (fetchByte s).2
                c.masks.Write_ToLiteral__Mask).2 1)
              (literal s (extendedStoreBytecode_literal_index bcp))
              (internalStackTop s)
          else
            storePointer
              (fetchNextBytecode (omni_requires_delegation_for_literals c (fetchByte s).2
                c.masks.Write_ToLiteral__Mask).2)
              (literal s (extendedStoreBytecode_literal_index bcp)) c.ValueIndex
              (internalStackTop s)) := by
  have hlow : (bcp 0 % 256) &&& 15 = bcp 0 &&& 15 := by
    have h1 : (bcp 0 % 256) &&& 15 = bcp 0 % 256 % 16 :=
      Nat.and_pow_two_sub_one_eq_mod (bcp 0 % 256) 4
    have h2 : bcp 0 &&& 15 = bcp 0 % 16 := Nat.and_pow_two_sub_one_eq_mod (bcp 0) 4
    omega
  refine ⟨⟨?_, rfl⟩, ⟨?_, rfl⟩, ⟨?_, rfl⟩, ⟨?_, ?_⟩, ?_, ?_, ?_, ?_⟩
  · unfold singleExtendedSendBytecode sendPrepared singleExtendedSendBytecode_literal_index
    simp only [fetchByte, literal, internalStackValue, hnext]
  · unfold singleExtendedSuperBytecode singleExtendedSuperBytecode_literal_index
    simp only [fetchByte, literal, hnext]
  · unfold secondExtendedSendBytecode sendPrepared secondExtendedSendBytecode_literal_index
    simp only [fetchByte, literal, internalStackValue, hnext]
  · unfold sendLiteralSelectorBytecode sendPrepared sendLiteralSelectorBytecode_literal_index
    simp only [literal, internalStackValue, hcur, hlow]
  · unfold sendLiteralSelectorBytecode_literal_index
    rw [hlow]
  · intro h
    unfold extendedStoreBytecode_literal_index
    simp only [h, if_true]
  · intro h
    unfold extendedStoreBytecode_literal_index
    simp only [h, if_false]
  · unfold extendedStoreBytecode_literal_index
    simp only []
    split_ifs with h
    · constructor
      · intro h2; exact h2.elim
      · intro h2; exact absurd h h2
    · simp [h]
  · intro h
    unfold extendedStoreBytecode extendedStoreBytecode_literal_index
    simp only [fetchByte, hnext, h, if_true]
    have hf := omni_requires_delegation_for_literals_frame c
      { s with localIP := s.localIP + 1 } c.masks.Write_ToLiteral__Mask
    generalize omni_requires_delegation_for_literals c _ c.masks.Write_ToLiteral__Mask = q at hf ⊢
    rw [hf]
    cases q.1 <;> simp [literal, internalStackTop, internalPop, fetchNextBytecode, record]

/-- Witness of C37: the bytes 131, 33 name literal 1 with one argument. -/
theorem literal_index_helpers_agree_witness :
    demoExtendedSendInterpreter.currentBytecode = demoExtendedSendBytes 0 ∧
      demoExtendedSendInterpreter.code (demoExtendedSendInterpreter.localIP + 1)
        = demoExtendedSendBytes 1 ∧
      singleExtendedSendBytecode_literal_index demoExtendedSendBytes = 1 ∧
      singleExtendedSendBytecode demoConfig demoExtendedSendInterpreter
        = sendPrepared demoConfig
            { (fetchByte demoExtendedSendInterpreter).2 with
              roots.messageSelector :=
                literal demoExtendedSendInterpreter
                  (singleExtendedSendBytecode_literal_index demoExtendedSendBytes),
              argumentCount := (((demoExtendedSendBytes 1 % 256) >>> 5 : Nat) : Int) } :=
  ⟨by decide, by decide, by decide,
    (literal_index_helpers_agree demoConfig demoExtendedSendInterpreter demoExtendedSendBytes
      (by decide) (by decide)).1.1⟩

/-! ## Delegated store-and-pop of a receiver field -/

/-- The operand stack after the four-operand field-write rewrite: the slot above the entry
stack pointer, which received the domain for the send, holds `newTop` again; the four slots
above it hold the value, the index, the object and `newTop`; the slots up to the entry stack
pointer are untouched. -/
theorem omni_internal_write_field_newTop_stack (c : Config) (s : Squeak_Interpreter)
    (obj : Oop) (idx : Int) (value newTop : Oop) :
    (omni_internal_write_field_newTop c s obj idx value newTop).stack (s.localSP + 1) = newTop ∧
      (omni_internal_write_field_newTop c s obj idx value newTop).stack (s.localSP + 2)
        = value ∧
      (omni_internal_write_field_newTop c s obj idx value newTop).stack (s.localSP + 3)
        = Oop.from_int (idx + 1) ∧
      (omni_internal_write_field_newTop c s obj idx value newTop).stack (s.localSP + 4) = obj ∧
      (omni_internal_write_field_newTop c s obj idx value newTop).stack (s.localSP + 5)
        = newTop ∧
      ∀ k, k ≤ s.localSP →
        (omni_internal_write_field_newTop c s obj idx value newTop).stack k = s.stack k := by
  unfold omni_internal_write_field_newTop
  simp only [domain_oop]
  simp only [(omni_commonInternalSend_frame _).2.1]
  simp only [internalPush, record, Function.update_apply]
  refine ⟨?_, ?_, ?_, ?_, ?_, ?_⟩
  · simp
  · split_ifs <;> first | rfl | omega
  · split_ifs <;> first | rfl | omega
  · split_ifs <;> first | rfl | omega
  · split_ifs <;> first | rfl | omega
  · intro k hk
    split_ifs <;> first | rfl | omega

/-- The four-operand rewrite entered with two slots popped from `s` restores the slot beneath
the stored value. -/
theorem omni_internal_write_field_newTop_restores (c : Config) (s x : Squeak_Interpreter)
    (obj : Oop) (idx : Int) (value newTop : Oop) (hsp : x.localSP = s.localSP - 2)
    (hst : x.stack = s.stack) (hnt : newTop = s.stack (s.localSP - 1)) :
    RestoredBeneath s (omni_internal_write_field_newTop c x obj idx value newTop) := by
  obtain ⟨h1, -, -, -, -, h6⟩ := omni_internal_write_field_newTop_stack c x obj idx value newTop
  have e1 : s.localSP - 2 + 1 = s.localSP - 1 := by ring
  refine ⟨?_, ?_, ?_⟩
  · rw [omni_internal_write_field_newTop_localSP, hsp]
  · rw [hsp, e1] at h1
    rw [h1, hnt]
  · intro k hk
    rw [h6 k (by rw [hsp]; omega), hst]

/-- The operand stack after the delegated arm of `storeAndPopReceiverVariableBytecode`. -/
theorem storeAndPopReceiverVariableBytecode_restores (c : Config) (s : Squeak_Interpreter)
    (h : delegatesWriteField c s) :
    RestoredBeneath s (storeAndPopReceiverVariableBytecode c s) := by
  obtain ⟨hl, ho, hdm, hc⟩ := h
  have hq := omni_requires_delegation_domain c s s.roots.receiver
    c.masks.WriteToFieldMask hl ho hdm
  unfold storeAndPopReceiverVariableBytecode
  rw [hq]
  simp only [hc, if_true]
  exact omni_internal_write_field_newTop_restores c s _ _ _ _ _ (by rfl) (by rfl) (by rfl)

/-- The operand stack after the delegated arm of `extendedStoreAndPopBytecode`, target
type 0. -/
theorem extendedStoreAndPopBytecode_restores (c : Config) (s : Squeak_Interpreter)
    (h : delegatesWriteField c s) (hd : ((s.code (s.localIP + 1) % 256) >>> 6) &&& 3 = 0) :
    RestoredBeneath s (extendedStoreAndPopBytecode c s) := by
  obtain ⟨hl, ho, hdm, hc⟩ := h
  have hq := omni_requires_delegation_domain c (fetchByte s).2 s.roots.receiver
    c.masks.WriteToFieldMask hl ho hdm
  unfold extendedStoreAndPopBytecode
  simp only [fetchByte] at hq ⊢
  rw [hd]
  simp only []
  rw [hq]
  simp only [domainCustomizes] at hc ⊢
  simp only [hc, if_true]
  exact omni_internal_write_field_newTop_restores c s _ _ _ _ _ (by rfl) (by rfl) (by rfl)

/-- The operand stack after the delegated arm of `doubleExtendedDoAnythingBytecode`,
operation 6. -/
theorem doubleExtendedDoAnythingBytecode_restores (c : Config) (s : Squeak_Interpreter)
    (h : delegatesWriteField c s) (hop : (s.code (s.localIP + 1) % 256) >>> 5 = 6) :
    RestoredBeneath s (doubleExtendedDoAnythingBytecode c s) := by
  obtain ⟨hl, ho, hdm, hc⟩ := h
  have hq := omni_requires_delegation_domain c (fetchByte (fetchByte s).2).2 s.roots.receiver
    c.masks.WriteToFieldMask hl ho hdm
  unfold doubleExtendedDoAnythingBytecode
  simp only [fetchByte] at hq ⊢
  rw [hop]
  simp only []
  rw [hq]
  simp only [domainCustomizes] at hc ⊢
  simp only [hc, if_true]
  exact omni_internal_write_field_newTop_restores c s _ _ _ _ _ (by rfl) (by rfl) (by rfl)

/-- C31. When delegation of write-field applies to the receiver, each store-and-pop of a
receiver field (`storeAndPopReceiverVariableBytecode`, `extendedStoreAndPopBytecode` target
type 0, `doubleExtendedDoAnythingBytecode` operation 6), entered with v on top of the stack
and t beneath it, pops both and sends write-field-with-return with argument count 4 on the
operands (domain, v, i+1, receiver, t), the domain standing in the slot that held t. After the
send that slot holds t again, and the slots below it are untouched. -/
theorem delegated_store_and_pop_restores_beneath (c : Config) (s : Squeak_Interpreter)
    (h : delegatesWriteField c s) :
    (DelegatedWrite c s (storeAndPopReceiverVariableBytecode c s)
        c.The_OstDomain.write_field_with_return
        [(s.memory s.roots.receiver).domain, s.stack s.localSP,
          Oop.from_int (((s.currentBytecode &&& 7 : Nat) : Int) + 1), s.roots.receiver,
          s.stack (s.localSP - 1)] ∧
      (storeAndPopReceiverVariableBytecode c s).argumentCount = 4 ∧
      RestoredBeneath s (storeAndPopReceiverVariableBytecode c s)) ∧
    (((s.code (s.localIP + 1) % 256) >>> 6) &&& 3 = 0 →
      DelegatedWrite c s (extendedStoreAndPopBytecode c s)
        c.The_OstDomain.write_field_with_return
        [(s.memory s.roots.receiver).domain, s.stack s.localSP,
          Oop.from_int (((s.code (s.localIP + 1) % 256 &&& 63 : Nat) : Int) + 1),
          s.roots.receiver, s.stack (s.localSP - 1)] ∧
      (extendedStoreAndPopBytecode c s).argumentCount = 4 ∧
      RestoredBeneath s (extendedStoreAndPopBytecode c s)) ∧
    ((s.code (s.localIP + 1) % 256) >>> 5 = 6 →
      DelegatedWrite c s (doubleExtendedDoAnythingBytecode c s)
        c.The_OstDomain.write_field_with_return
        [(s.memory s.roots.receiver).domain, s.stack s.localSP,
          Oop.from_int (((s.code (s.localIP + 2) % 256 : Nat) : Int) + 1),
          s.roots.receiver, s.stack (s.localSP - 1)] ∧
      (doubleExtendedDoAnythingBytecode c s).argumentCount = 4 ∧
      RestoredBeneath s (doubleExtendedDoAnythingBytecode c s)) :=
  ⟨⟨storeAndPopReceiverVariableBytecode_delegated c s h,
      (storeAndPopReceiverVariableBytecode_delegated c s h).2.1.trans (by simp),
      storeAndPopReceiverVariableBytecode_restores c s h⟩,
    fun hd => ⟨extendedStoreAndPopBytecode_delegated c s h hd,
      (extendedStoreAndPopBytecode_delegated c s h hd).2.1.trans (by simp),
      extendedStoreAndPopBytecode_restores c s h hd⟩,
    fun hop => ⟨doubleExtendedDoAnythingBytecode_storeAndPop_delegated c s h hop,
      (doubleExtendedDoAnythingBytecode_storeAndPop_delegated c s h hop).2.1.trans (by simp),
      doubleExtendedDoAnythingBytecode_restores c s h hop⟩⟩

/-- Witness of C31: in the concrete machine bytecode 97 stores 7 into field 1 with 900
beneath; the send has the operands (domain, 7, 2, receiver, 900) and the slot 1 holds 900
afterwards. -/
theorem delegated_store_and_pop_restores_beneath_witness :
    delegatesWriteField demoConfig demoStoreInterpreter ∧
      demoStoreInterpreter.stack (demoStoreInterpreter.localSP - 1) = ⟨900⟩ ∧
      DelegatedWrite demoConfig demoStoreInterpreter
        (storeAndPopReceiverVariableBytecode demoConfig demoStoreInterpreter) ⟨2008⟩
        [⟨200⟩, Oop.from_int 7, Oop.from_int 2, ⟨100⟩, ⟨900⟩] ∧
      RestoredBeneath demoStoreInterpreter
        (storeAndPopReceiverVariableBytecode demoConfig demoStoreInterpreter) :=
  ⟨by decide, by decide,
    (delegated_store_and_pop_restores_beneath demoConfig demoStoreInterpreter
      (by decide)).1.1,
    (delegated_store_and_pop_restores_beneath demoConfig demoStoreInterpreter
      (by decide)).1.2.2⟩

/-! ## Request-execution delegation before the indexing primitives -/

/-- The request-execution rewrite of a two-argument send followed by the generic send. -/
theorem normalSend_request_execution_two (c : Config) (x : Squeak_Interpreter)
    (h : x.argumentCount = 2) :
    (normalSend (omni_request_execution c x)).roots.messageSelector
        = c.The_OstDomain.request_exec 2 ∧
      (normalSend (omni_request_execution c x)).argumentCount = 4 ∧
      (normalSend (omni_request_execution c x)).localSP = x.localSP + 2 ∧
      (normalSend (omni_request_execution c x)).memory = x.memory ∧
      (normalSend (omni_request_execution c x)).log
        = x.log ++ [Event.domain_oop (internalStackValue x 2),
            Event.normalSend (c.The_OstDomain.request_exec 2) 4
              [(x.memory (internalStackValue x 2)).domain, internalStackValue x 1,
               internalStackValue x 0, x.roots.messageSelector, internalStackValue x 2]] := by
  have e2 : x.localSP + 1 + 1 = x.localSP + 2 := by ring
  unfold omni_request_execution normalSend
  simp only [domain_oop, internalPush, record, internalStackValue, h]
  refine ⟨trivial, by norm_num, e2, trivial, ?_⟩
  simp [frame, List.range_succ, Function.update_apply]
  split_ands <;> split_ifs <;> first | rfl | omega | (congr 1; omega)

/-- The delegated arm of `bytecodePrimAt`. -/
theorem bytecodePrimAt_request_execution (c : Config) (s : Squeak_Interpreter)
    (hq : (omni_requires_delegation c s (internalStackValue s 1)
      c.masks.RequestExecutionMask).1 = true) :
    DelegatedSpecialSend c s (bytecodePrimAt c s) 16 := by
  obtain ⟨hl, ho, hd, hc⟩ := omni_requires_delegation_true c s _ _ hq
  have hqq := omni_requires_delegation_domain c s (internalStackValue s 1)
    c.masks.RequestExecutionMask hl ho hd
  unfold bytecodePrimAt
  simp only [hqq, hc, Bool.not_true, Bool.false_and, Bool.false_eq_true, if_false, if_true]
  exact delegated_special_send c s 16
    ((internalStackValue s 1).is_mem && (internalStackTop s).is_int) _ rfl

/-- The end of `bytecodePrimAtPut` on the delegated arm: the state left by the query, with
the special selector 17 and argument count 2 set, rewritten and sent. -/
theorem delegated_atPut_send (c : Config) (s : Squeak_Interpreter) (flag : Bool)
    (x : Squeak_Interpreter)
    (hx : x = { ({ (record (record (record ({ s with successFlag := flag })
        (Event.omni_requires_delegation (internalStackValue s 2) c.masks.RequestExecutionMask))
        (Event.domain_oop (internalStackValue s 2)))
        (Event.get_domain_customization_encoding (s.memory (internalStackValue s 2)).domain))
        with roots.messageSelector := c.specialSelector 17 } : Squeak_Interpreter) with
        argumentCount := 2 }) :
    (normalSend (omni_request_execution c x)).roots.messageSelector
        = c.The_OstDomain.request_exec 2 ∧
      (normalSend (omni_request_execution c x)).argumentCount = 4 ∧
      (normalSend (omni_request_execution c x)).localSP = s.localSP + 2 ∧
      (normalSend (omni_request_execution c x)).memory = s.memory ∧
      (normalSend (omni_request_execution c x)).log = s.log ++ delegatedAtPutEvents c s := by
  obtain ⟨h1, h2, h3, h4, h5⟩ := normalSend_request_execution_two c x (by rw [hx])
  refine ⟨h1, h2, ?_, ?_, ?_⟩
  · rw [h3, hx]; rfl
  · rw [h4, hx]; rfl
  · rw [h5, hx]
    simp [delegatedAtPutEvents, record, internalStackValue]

/-- The delegated arm of `bytecodePrimAtPut`. -/
theorem bytecodePrimAtPut_request_execution (c : Config) (s : Squeak_Interpreter)
    (hq : (omni_requires_delegation c s (internalStackValue s 2)
      c.masks.RequestExecutionMask).1 = true) :
    (bytecodePrimAtPut c s).roots.messageSelector = c.The_OstDomain.request_exec 2 ∧
      (bytecodePrimAtPut c s).argumentCount = 4 ∧
      (bytecodePrimAtPut c s).localSP = s.localSP + 2 ∧
      (bytecodePrimAtPut c s).memory = s.memory ∧
      (bytecodePrimAtPut c s).log = s.log ++ delegatedAtPutEvents c s := by
  obtain ⟨hl, ho, hd, hc⟩ := omni_requires_delegation_true c s _ _ hq
  have hqq := omni_requires_delegation_domain c s (internalStackValue s 2)
    c.masks.RequestExecutionMask hl ho hd
  unfold bytecodePrimAtPut
  simp only [hqq, hc, Bool.not_true, Bool.false_and, Bool.false_eq_true, if_false, if_true]
  exact delegated_atPut_send c s
    ((internalStackValue s 2).is_mem && (internalStackValue s 1).is_int) _ rfl

/-- C32. In `bytecodePrimAt` and `bytecodePrimAtPut` request-execution delegation comes first:
when the query on the receiver with the request-execution mask answers true, that query is
the only one recorded (the prim-at resp. prim-at-put mask is not queried), no event consults
the at-cache or the elements of the receiver, and the handler ends in the request-execution
rewrite of the send: for at: selector `request_exec(1)`, argument count 3 and operands
(domain, index, special selector 16, receiver); for at:put: selector `request_exec(2)`,
argument count 4 and operands (domain, index, value, special selector 17, receiver). -/
theorem request_execution_precedes_index_primitives (c : Config) (s : Squeak_Interpreter) :
    ((omni_requires_delegation c s (internalStackValue s 1)
        c.masks.RequestExecutionMask).1 = true →
      DelegatedSpecialSend c s (bytecodePrimAt c s) 16 ∧
        queriesOf (eventsSince s (bytecodePrimAt c s))
          = [(internalStackValue s 1, c.masks.RequestExecutionMask)] ∧
        (eventsSince s (bytecodePrimAt c s)).any consultsElements = false) ∧
    ((omni_requires_delegation c s (internalStackValue s 2)
        c.masks.RequestExecutionMask).1 = true →
      (bytecodePrimAtPut c s).roots.messageSelector = c.The_OstDomain.request_exec 2 ∧
        (bytecodePrimAtPut c s).argumentCount = 4 ∧
        (bytecodePrimAtPut c s).localSP = s.localSP + 2 ∧
        (bytecodePrimAtPut c s).memory = s.memory ∧
        (bytecodePrimAtPut c s).log = s.log ++ delegatedAtPutEvents c s ∧
        queriesOf (eventsSince s (bytecodePrimAtPut c s))
          = [(internalStackValue s 2, c.masks.RequestExecutionMask)] ∧
        (eventsSince s (bytecodePrimAtPut c s)).any consultsElements = false) := by
  constructor
  · intro hq
    have h := bytecodePrimAt_request_execution c s hq
    have hlog := h.2.2.2.2
    refine ⟨h, ?_, ?_⟩
    · unfold eventsSince
      rw [hlog, List.drop_left]
      rfl
    · unfold eventsSince
      rw [hlog, List.drop_left]
      rfl
  · intro hq
    obtain ⟨h1, h2, h3, h4, h5⟩ := bytecodePrimAtPut_request_execution c s hq
    refine ⟨h1, h2, h3, h4, h5, ?_, ?_⟩
    · unfold eventsSince
      rw [h5, List.drop_left]
      rfl
    · unfold eventsSince
      rw [h5, List.drop_left]
      rfl

/-- Witness of C32: the object 100 requires request-execution delegation; `bytecodePrimAt`
sends `request_exec(1)` on (domain, 1, special selector 16, receiver) and `bytecodePrimAtPut`
sends `request_exec(2)` on (domain, 1, 7, special selector 17, receiver), each after a single
query. -/
theorem request_execution_precedes_index_primitives_witness :
    (omni_requires_delegation demoConfig demoDelegatedAtInterpreter
        (internalStackValue demoDelegatedAtInterpreter 1)
        demoConfig.masks.RequestExecutionMask).1 = true ∧
      (omni_requires_delegation demoConfig demoDelegatedAtPutInterpreter
        (internalStackValue demoDelegatedAtPutInterpreter 2)
        demoConfig.masks.RequestExecutionMask).1 = true ∧
      DelegatedSpecialSend demoConfig demoDelegatedAtInterpreter
        (bytecodePrimAt demoConfig demoDelegatedAtInterpreter) 16 ∧
      queriesOf (eventsSince demoDelegatedAtPutInterpreter
          (bytecodePrimAtPut demoConfig demoDelegatedAtPutInterpreter))
        = [(internalStackValue demoDelegatedAtPutInterpreter 2,
            demoConfig.masks.RequestExecutionMask)] ∧
      (bytecodePrimAtPut demoConfig demoDelegatedAtPutInterpreter).log
        = demoDelegatedAtPutInterpreter.log
          ++ delegatedAtPutEvents demoConfig demoDelegatedAtPutInterpreter :=
  ⟨by decide, by decide,
    ((request_execution_precedes_index_primitives demoConfig demoDelegatedAtInterpreter).1
      (by decide)).1,
    ((request_execution_precedes_index_primitives demoConfig demoDelegatedAtPutInterpreter).2
      (by decide)).2.2.2.2.2.1,
    ((request_execution_precedes_index_primitives demoConfig demoDelegatedAtPutInterpreter).2
      (by decide)).2.2.2.2.1⟩

/-! ## Operand decoding of the closure bytecode -/

/-- The encoding of any value as a small integer carries the tag. -/
theorem from_int_is_int (v : Int) : (Oop.from_int v).is_int = true := by
  simp only [Oop.is_int, Oop.from_int, beq_iff_eq]
  omega

/-- What `closureCopy` leaves in the new closure: the numArgs slot holds `numArgs` and, the
two slots being distinct, the startpc slot holds `initialIP`, both as small integers. -/
theorem closureCopy_slots (c : Config) (x : Squeak_Interpreter) (numArgs initialIP : Int)
    (numCopied : Int) :
    (closureCopy c x numArgs initialIP numCopied).1
        = (c.instantiateSmallClass x.memory c.ClassBlockClosure
            ((c.ClosureFirstCopiedValueIndex + numCopied) * c.sizeof_Oop
              + c.BaseHeaderSize)).1 ∧
      (((closureCopy c x numArgs initialIP numCopied).2.memory
          (closureCopy c x numArgs initialIP numCopied).1).fields c.ClosureNumArgsIndex
        = Oop.from_int numArgs) ∧
      (c.ClosureStartPCIndex ≠ c.ClosureNumArgsIndex →
        ((closureCopy c x numArgs initialIP numCopied).2.memory
          (closureCopy c x numArgs initialIP numCopied).1).fields c.ClosureStartPCIndex
        = Oop.from_int initialIP) := by
  refine ⟨rfl, ?_, ?_⟩
  · simp [closureCopy, storePointerUnchecked, record, omni_set_domain_for_new_object]
  · intro hne
    simp [closureCopy, storePointerUnchecked, record, omni_set_domain_for_new_object,
      Function.update_noteq hne]

/-- The copying loop touches neither the instruction pointer nor the bytes of the method. -/
theorem copy_loop_registers (c : Config) (newClosure : Oop) (numCopied : Nat)
    (s : Squeak_Interpreter) (m : Nat) :
    (List.foldl
        (fun (s : Squeak_Interpreter) (i : Nat) => storePointerUnchecked s newClosure
          ((i : Int) + c.ClosureFirstCopiedValueIndex)
          (internalStackValue s ((numCopied : Int) - (i : Int) - 1))) s
        (List.range m)).localIP = s.localIP ∧
      (List.foldl
        (fun (s : Squeak_Interpreter) (i : Nat) => storePointerUnchecked s newClosure
          ((i : Int) + c.ClosureFirstCopiedValueIndex)
          (internalStackValue s ((numCopied : Int) - (i : Int) - 1))) s
        (List.range m)).code = s.code := by
  induction m with
  | zero => simp
  | succ m ih =>
    obtain ⟨ih1, ih2⟩ := ih
    rw [List.range_succ, List.foldl_append]
    simp only [List.foldl_cons, List.foldl_nil]
    generalize List.foldl
      (fun (s : Squeak_Interpreter) (i : Nat) => storePointerUnchecked s newClosure
        ((i : Int) + c.ClosureFirstCopiedValueIndex)
        (internalStackValue s ((numCopied : Int) - (i : Int) - 1))) s (List.range m) = S
      at ih1 ih2 ⊢
    exact ⟨by simpa [storePointerUnchecked, record] using ih1,
      by simpa [storePointerUnchecked, record] using ih2⟩

/-- The end of `pushClosureCopyCopiedValuesBytecode`, from the copying loop on: the
instruction pointer has moved by the block size and one more byte, and the byte it points to
is the current bytecode. -/
theorem closure_copy_and_push_ip (c : Config) (S0 : Squeak_Interpreter) (newClosure : Oop)
    (numCopied : Nat) (blockSize : Int) (S1 : Squeak_Interpreter)
    (hS1 : S1 = (if numCopied > 0 then
        internalPop (copyCopiedValues c newClosure numCopied S0) (numCopied : Int) else S0)) :
    (internalPush (fetchNextBytecode { S1 with localIP := S1.localIP + blockSize })
        newClosure).localIP = S0.localIP + blockSize + 1 ∧
      (internalPush (fetchNextBytecode { S1 with localIP := S1.localIP + blockSize })
        newClosure).currentBytecode = S0.code (S0.localIP + blockSize + 1) % 256 := by
  obtain ⟨l1, l2⟩ := copy_loop_registers c newClosure numCopied S0 numCopied
  have h1 : S1.localIP = S0.localIP := by
    rw [hS1]; split_ifs
    · simpa [internalPop, copyCopiedValues] using l1
    · rfl
  have h2 : S1.code = S0.code := by
    rw [hS1]; split_ifs
    · simpa [internalPop, copyCopiedValues] using l2
    · rfl
  constructor
  · simp [internalPush, fetchNextBytecode, record, h1]
  · simp [internalPush, fetchNextBytecode, record, h1, h2]

/-- C34. `pushClosureCopyCopiedValuesBytecode` reads three operand bytes `b`, `hi`, `lo`:
numArgs is `b & 0xf` (the low four bits), numCopied is `b >> 4` (the high four bits) and the
block size is `hi * 256 + lo`. The instruction pointer ends the block size and one bytecode
fetch past the operands, on the byte after the block body, which is the current bytecode.
The new closure, sized for numCopied copied values, holds numArgs in its numArgs slot and
the start pc `instructionPointer + 2 - (method bytes + BaseHeaderSize)` in its startpc slot,
both tagged as small integers; `closureCopy` itself stores its two arguments there. The slots
are those of the closure layout: numArgs and startpc are distinct, differ from the
outer-context slot and lie below the copied values. -/
theorem closure_operand_decoding (c : Config) (s : Squeak_Interpreter)
    (hNP : c.ClosureStartPCIndex ≠ c.ClosureNumArgsIndex)
    (hNO : c.ClosureNumArgsIndex ≠ c.ClosureOuterContextIndex)
    (hPO : c.ClosureStartPCIndex ≠ c.ClosureOuterContextIndex)
    (hN : c.ClosureNumArgsIndex < c.ClosureFirstCopiedValueIndex)
    (hP : c.ClosureStartPCIndex < c.ClosureFirstCopiedValueIndex) :
    ((s.code (s.localIP + 1) % 256) &&& 15 = s.code (s.localIP + 1) % 256 % 16 ∧
      (s.code (s.localIP + 1) % 256) >>> 4 = s.code (s.localIP + 1) % 256 / 16 ∧
      ((s.code (s.localIP + 1 + 1) % 256) <<< 8) + s.code (s.localIP + 1 + 1 + 1) % 256
        = 256 * (s.code (s.localIP + 1 + 1) % 256) + s.code (s.localIP + 1 + 1 + 1) % 256) ∧
    ((pushClosureCopyCopiedValuesBytecode c s).localIP
        = s.localIP + (3 : Int) + ((((s.code (s.localIP + 1 + 1) % 256) <<< 8)
            + s.code (s.localIP + 1 + 1 + 1) % 256 : Nat) : Int) + (1 : Int) ∧
      (pushClosureCopyCopiedValuesBytecode c s).currentBytecode
        = s.code (s.localIP + (3 : Int) + ((((s.code (s.localIP + 1 + 1) % 256) <<< 8)
            + s.code (s.localIP + 1 + 1 + 1) % 256 : Nat) : Int) + (1 : Int)) % 256) ∧
    (internalStackTop (pushClosureCopyCopiedValuesBytecode c s)
        = (c.instantiateSmallClass s.memory c.ClassBlockClosure
            ((c.ClosureFirstCopiedValueIndex +
                (((s.code (s.localIP + 1) % 256) >>> 4 : Nat) : Int))
              * c.sizeof_Oop + c.BaseHeaderSize)).1 ∧
      (pushClosureCopyCopiedValuesBytecode c s).localSP
        = s.localSP - (((s.code (s.localIP + 1) % 256) >>> 4 : Nat) : Int) + 1) ∧
    (((pushClosureCopyCopiedValuesBytecode c s).memory
        (internalStackTop (pushClosureCopyCopiedValuesBytecode c s))).fields
          c.ClosureNumArgsIndex
        = Oop.from_int (((s.code (s.localIP + 1) % 256) &&& 15 : Nat) : Int) ∧
      (Oop.from_int (((s.code (s.localIP + 1) % 256) &&& 15 : Nat) : Int)).is_int = true ∧
      (Oop.from_int (((s.code (s.localIP + 1) % 256) &&& 15 : Nat) : Int)).integerValue
        = (((s.code (s.localIP + 1) % 256) &&& 15 : Nat) : Int)) ∧
    (((pushClosureCopyCopiedValuesBytecode c s).memory
        (internalStackTop (pushClosureCopyCopiedValuesBytecode c s))).fields
          c.ClosureStartPCIndex
        = Oop.from_int (s.localIP + 3 + 2 - (c.method_as_u_char_p + c.BaseHeaderSize)) ∧
      (Oop.from_int (s.localIP + 3 + 2 - (c.method_as_u_char_p + c.BaseHeaderSize))).is_int
        = true) ∧
    (∀ (x : Squeak_Interpreter) (numArgs initialIP numCopied : Int),
      ((closureCopy c x numArgs initialIP numCopied).2.memory
          (closureCopy c x numArgs initialIP numCopied).1).fields c.ClosureNumArgsIndex
        = Oop.from_int numArgs ∧
      ((closureCopy c x numArgs initialIP numCopied).2.memory
          (closureCopy c x numArgs initialIP numCopied).1).fields c.ClosureStartPCIndex
        = Oop.from_int initialIP) := by
  have hand : (s.code (s.localIP + 1) % 256) &&& 15 = s.code (s.localIP + 1) % 256 % 16 :=
    Nat.and_pow_two_sub_one_eq_mod _ 4
  have hcl : ∀ (x : Squeak_Interpreter) (a ip n : Int),
      (closureCopy c x a ip n).1 = (c.instantiateSmallClass x.memory c.ClassBlockClosure
        ((c.ClosureFirstCopiedValueIndex + n) * c.sizeof_Oop + c.BaseHeaderSize)).1 :=
    fun _ _ _ _ => rfl
  have hext : ∀ x : Squeak_Interpreter, (externalizeExecutionState x).memory = x.memory :=
    fun _ => rfl
  have main :
      ((pushClosureCopyCopiedValuesBytecode c s).localIP
          = s.localIP + (3 : Int) + ((((s.code (s.localIP + 1 + 1) % 256) <<< 8)
              + s.code (s.localIP + 1 + 1 + 1) % 256 : Nat) : Int) + (1 : Int) ∧
        (pushClosureCopyCopiedValuesBytecode c s).currentBytecode
          = s.code (s.localIP + (3 : Int) + ((((s.code (s.localIP + 1 + 1) % 256) <<< 8)
              + s.code (s.localIP + 1 + 1 + 1) % 256 : Nat) : Int) + (1 : Int)) % 256) ∧
      (internalStackTop (pushClosureCopyCopiedValuesBytecode c s)
          = (c.instantiateSmallClass s.memory c.ClassBlockClosure
              ((c.ClosureFirstCopiedValueIndex +
                  (((s.code (s.localIP + 1) % 256) >>> 4 : Nat) : Int))
                * c.sizeof_Oop + c.BaseHeaderSize)).1 ∧
        (pushClosureCopyCopiedValuesBytecode c s).localSP
          = s.localSP - (((s.code (s.localIP + 1) % 256) >>> 4 : Nat) : Int) + 1) ∧
      ((pushClosureCopyCopiedValuesBytecode c s).memory
          (c.instantiateSmallClass s.memory c.ClassBlockClosure
              ((c.ClosureFirstCopiedValueIndex +
                  (((s.code (s.localIP + 1) % 256) >>> 4 : Nat) : Int))
                * c.sizeof_Oop + c.BaseHeaderSize)).1).fields c.ClosureNumArgsIndex
          = Oop.from_int (((s.code (s.localIP + 1) % 256) &&& 15 : Nat) : Int) ∧
      ((pushClosureCopyCopiedValuesBytecode c s).memory
          (c.instantiateSmallClass s.memory c.ClassBlockClosure
              ((c.ClosureFirstCopiedValueIndex +
                  (((s.code (s.localIP + 1) % 256) >>> 4 : Nat) : Int))
                * c.sizeof_Oop + c.BaseHeaderSize)).1).fields c.ClosureStartPCIndex
          = Oop.from_int (s.localIP + 3 + 2 - (c.method_as_u_char_p + c.BaseHeaderSize)) := by
    unfold pushClosureCopyCopiedValuesBytecode
    simp only [fetchByte, hcl, hext]
    generalize hS0 : ({ storePointerUnchecked _ _ c.ClosureOuterContextIndex _ with
      reclaimableContextCount := (0 : Int) } : Squeak_Interpreter) = S0
    have e3 : s.localIP + 1 + 1 + 1 = s.localIP + 3 := by ring
    have h0 : S0.localIP = s.localIP + 3 := by
      rw [← hS0]
      simp [storePointerUnchecked, record, internalizeExecutionState, closureCopy,
        omni_set_domain_for_new_object, externalizeExecutionState, e3]
    have h1 : S0.code = s.code := by
      rw [← hS0]
      simp [storePointerUnchecked, record, internalizeExecutionState, closureCopy,
        omni_set_domain_for_new_object, externalizeExecutionState]
    have h2 : S0.localSP = s.localSP := by
      rw [← hS0]
      simp [storePointerUnchecked, record, internalizeExecutionState, closureCopy,
        omni_set_domain_for_new_object, externalizeExecutionState]
    have h3 : (S0.memory (c.instantiateSmallClass s.memory c.ClassBlockClosure
              ((c.ClosureFirstCopiedValueIndex +
                  (((s.code (s.localIP + 1) % 256) >>> 4 : Nat) : Int))
                * c.sizeof_Oop + c.BaseHeaderSize)).1).fields c.ClosureNumArgsIndex
          = Oop.from_int (((s.code (s.localIP + 1) % 256) &&& 15 : Nat) : Int) := by
      rw [← hS0]
      simp [storePointerUnchecked, record, internalizeExecutionState, closureCopy,
        omni_set_domain_for_new_object, externalizeExecutionState,
        Function.update_noteq hNO]
    have h4 : (S0.memory (c.instantiateSmallClass s.memory c.ClassBlockClosure
              ((c.ClosureFirstCopiedValueIndex +
                  (((s.code (s.localIP + 1) % 256) >>> 4 : Nat) : Int))
                * c.sizeof_Oop + c.BaseHeaderSize)).1).fields c.ClosureStartPCIndex
          = Oop.from_int (s.localIP + 3 + 2 - (c.method_as_u_char_p + c.BaseHeaderSize)) := by
      rw [← hS0]
      simp [storePointerUnchecked, record, internalizeExecutionState, closureCopy,
        omni_set_domain_for_new_object, externalizeExecutionState,
        Function.update_noteq hPO, Function.update_noteq hNP, e3]
    obtain ⟨i1, i2⟩ := closure_copy_and_push_ip c S0 _ _ _ _ rfl
    obtain ⟨-, p2, -⟩ := closure_copy_and_push c S0 _ _ _ _ rfl
    obtain ⟨-, n2, n3, -⟩ := closure_copy_and_push_frame c S0 _ _ _ _ _ hN rfl
    obtain ⟨-, q2, -, -⟩ := closure_copy_and_push_frame c S0 _ _ _ _ _ hP rfl
    refine ⟨⟨?_, ?_⟩, ⟨n3, ?_⟩, n2.trans h3, q2.trans h4⟩
    · rw [i1, h0]
    · rw [i2, h0, h1]
    · rw [p2, h2]
  obtain ⟨m1, m2, m3, m4⟩ := main
  refine ⟨⟨hand, Nat.shiftRight_eq_div_pow _ 4, ?_⟩, m1, m2, ⟨?_, from_int_is_int _, ?_⟩,
    ⟨?_, from_int_is_int _⟩, ?_⟩
  · rw [Nat.shiftLeft_eq]; ring
  · rw [m2.1]; exact m3
  · refine (from_int_integerValue _ ?_).2
    simp only [Oop.isIntegerValue, Bool.and_eq_true, decide_eq_true_eq]
    rw [hand]; omega
  · rw [m2.1]; exact m4
  · intro x numArgs initialIP numCopied
    exact ⟨(closureCopy_slots c x numArgs initialIP numCopied).2.1,
      (closureCopy_slots c x numArgs initialIP numCopied).2.2 hNP⟩

/-- Witness of C34: the operand bytes 33, 0, 4 give one argument, two copied values and a
block of four bytes; the instruction pointer ends at 8 and the closure holds 1 in its numArgs
slot. -/
theorem closure_operand_decoding_witness :
    demoConfig.ClosureStartPCIndex ≠ demoConfig.ClosureNumArgsIndex ∧
      demoConfig.ClosureNumArgsIndex ≠ demoConfig.ClosureOuterContextIndex ∧
      demoConfig.ClosureStartPCIndex ≠ demoConfig.ClosureOuterContextIndex ∧
      demoConfig.ClosureNumArgsIndex < demoConfig.ClosureFirstCopiedValueIndex ∧
      demoConfig.ClosureStartPCIndex < demoConfig.ClosureFirstCopiedValueIndex ∧
      (pushClosureCopyCopiedValuesBytecode demoConfig
        (demoInterpreter [33, 0, 4] [Oop.from_int 3, Oop.from_int 4])).localIP = 8 ∧
      ((pushClosureCopyCopiedValuesBytecode demoConfig
        (demoInterpreter [33, 0, 4] [Oop.from_int 3, Oop.from_int 4])).memory
          (internalStackTop (pushClosureCopyCopiedValuesBytecode demoConfig
            (demoInterpreter [33, 0, 4] [Oop.from_int 3, Oop.from_int 4])))).fields
              demoConfig.ClosureNumArgsIndex = Oop.from_int 1 :=
  ⟨by decide, by decide, by decide, by decide, by decide,
    (closure_operand_decoding demoConfig
      (demoInterpreter [33, 0, 4] [Oop.from_int 3, Oop.from_int 4])
      (by decide) (by decide) (by decide) (by decide) (by decide)).2.1.1,
    (closure_operand_decoding demoConfig
      (demoInterpreter [33, 0, 4] [Oop.from_int 3, Oop.from_int 4])
      (by decide) (by decide) (by decide) (by decide) (by decide)).2.2.2.1.1⟩

/-! ## Array creation -/

/-- The storing loop run for the first `m` indices: stack and stack pointer are untouched and
element `i` of the array holds the operand at depth `size - i - 1`, for every `i < m`. -/
theorem store_loop_elements (array_obj : Oop) (size : Nat) (s : Squeak_Interpreter) (m : Nat) :
    (List.foldl
        (fun (s : Squeak_Interpreter) (i : Nat) => storePointerUnchecked s array_obj (i : Int)
          (internalStackValue s ((size : Int) - (i : Int) - 1))) s (List.range m)).stack
        = s.stack ∧
      (List.foldl
        (fun (s : Squeak_Interpreter) (i : Nat) => storePointerUnchecked s array_obj (i : Int)
          (internalStackValue s ((size : Int) - (i : Int) - 1))) s (List.range m)).localSP
        = s.localSP ∧
      ∀ i : Nat, i < m →
        ((List.foldl
          (fun (s : Squeak_Interpreter) (i : Nat) => storePointerUnchecked s array_obj (i : Int)
            (internalStackValue s ((size : Int) - (i : Int) - 1))) s (List.range m)).memory
              array_obj).fields (i : Int)
          = s.stack (s.localSP - ((size : Int) - (i : Int) - 1)) := by
  induction m with
  | zero => simp
  | succ m ih =>
    obtain ⟨ih1, ih2, ih3⟩ := ih
    rw [List.range_succ, List.foldl_append]
    simp only [List.foldl_cons, List.foldl_nil]
    generalize List.foldl
      (fun (s : Squeak_Interpreter) (i : Nat) => storePointerUnchecked s array_obj (i : Int)
        (internalStackValue s ((size : Int) - (i : Int) - 1))) s (List.range m) = S
      at ih1 ih2 ih3 ⊢
    refine ⟨?_, ?_, ?_⟩
    · simpa [storePointerUnchecked, record] using ih1
    · simpa [storePointerUnchecked, record] using ih2
    · intro i hi
      by_cases him : i = m
      · subst him
        simp [storePointerUnchecked, record, internalStackValue, ih1, ih2]
      · have hlt : i < m := by omega
        have hne : (i : Int) ≠ (m : Int) := by omega
        simp [storePointerUnchecked, record, Function.update_noteq hne, ih3 i hlt]

/-- The storing loop only appends to the log. -/
theorem store_loop_log (array_obj : Oop) (size : Nat) (s : Squeak_Interpreter) (m : Nat) :
    ∃ rest, (List.foldl
        (fun (s : Squeak_Interpreter) (i : Nat) => storePointerUnchecked s array_obj (i : Int)
          (internalStackValue s ((size : Int) - (i : Int) - 1))) s (List.range m)).log
        = s.log ++ rest := by
  induction m with
  | zero => exact ⟨[], by simp⟩
  | succ m ih =>
    obtain ⟨rest, ih⟩ := ih
    rw [List.range_succ, List.foldl_append]
    simp only [List.foldl_cons, List.foldl_nil]
    generalize List.foldl
      (fun (s : Squeak_Interpreter) (i : Nat) => storePointerUnchecked s array_obj (i : Int)
        (internalStackValue s ((size : Int) - (i : Int) - 1))) s (List.range m) = S
      at ih ⊢
    exact ⟨rest ++ [Event.storePointerUnchecked array_obj (m : Int)
      (internalStackValue S ((size : Int) - (m : Int) - 1))], by
      simp [storePointerUnchecked, record, ih]⟩

/-- The end of `pushNewArrayBytecode` when the elements are taken from the stack, started in
any state `S0` with any array reference: the elements land in push order, `size` slots are
popped and the array is pushed. -/
theorem array_store_and_push (c : Config) (S0 : Squeak_Interpreter) (array_obj : Oop)
    (size : Nat) :
    (∀ i : Nat, i < size →
        ((internalPush (omni_set_domain_for_new_object c
            (internalPop (storeArrayValues array_obj size S0) (size : Int)) array_obj)
            array_obj).memory array_obj).fields (i : Int)
          = S0.stack (S0.localSP - ((size : Int) - 1 - (i : Int)))) ∧
      (internalPush (omni_set_domain_for_new_object c
          (internalPop (storeArrayValues array_obj size S0) (size : Int)) array_obj)
          array_obj).localSP = S0.localSP - (size : Int) + 1 ∧
      (internalPush (omni_set_domain_for_new_object c
          (internalPop (storeArrayValues array_obj size S0) (size : Int)) array_obj)
          array_obj).stack
        = Function.update S0.stack (S0.localSP - (size : Int) + 1) array_obj := by
  obtain ⟨l1, l2, l3⟩ := store_loop_elements array_obj size S0 size
  refine ⟨?_, ?_, ?_⟩
  · intro i hi
    have e : (size : Int) - 1 - (i : Int) = (size : Int) - (i : Int) - 1 := by ring
    rw [e]
    simpa [internalPush, omni_set_domain_for_new_object, record, internalPop,
      storeArrayValues] using l3 i hi
  · simpa [internalPush, omni_set_domain_for_new_object, record, internalPop,
      storeArrayValues] using l2
  · have h1 : (storeArrayValues array_obj size S0).stack = S0.stack := l1
    have h2 : (storeArrayValues array_obj size S0).localSP = S0.localSP := l2
    simp [internalPush, omni_set_domain_for_new_object, record, internalPop, h1, h2]

/-- The end of `pushNewArrayBytecode` when no element is taken from the stack: the array is
pushed above the untouched stack and only its domain slot is written. -/
theorem array_push_only (c : Config) (S0 : Squeak_Interpreter) (array_obj : Oop) :
    (internalPush (omni_set_domain_for_new_object c S0 array_obj) array_obj).localSP
        = S0.localSP + 1 ∧
      (internalPush (omni_set_domain_for_new_object c S0 array_obj) array_obj).stack
        = Function.update S0.stack (S0.localSP + 1) array_obj ∧
      ((internalPush (omni_set_domain_for_new_object c S0 array_obj) array_obj).memory
          array_obj).fields = (S0.memory array_obj).fields := by
  simp [internalPush, omni_set_domain_for_new_object, record]

/-- The two arms of `pushNewArrayBytecode`, after the allocation. -/
theorem pushNewArrayBytecode_eq (c : Config) (s : Squeak_Interpreter) (S0 : Squeak_Interpreter)
    (hS0 : S0 = internalizeExecutionState (record
      { externalizeExecutionState (fetchNextBytecode { s with localIP := s.localIP + 1 })
        with memory := (c.instantiateClass s.memory c.ClassArray
          (((s.code (s.localIP + 1) % 256) &&& 127 : Nat) : Int)).2 }
      (Event.instantiateClass c.ClassArray
        (((s.code (s.localIP + 1) % 256) &&& 127 : Nat) : Int)))) :
    (s.code (s.localIP + 1) % 256 > 127 →
      pushNewArrayBytecode c s
        = internalPush (omni_set_domain_for_new_object c
            (internalPop (storeArrayValues
              (c.instantiateClass s.memory c.ClassArray
                (((s.code (s.localIP + 1) % 256) &&& 127 : Nat) : Int)).1
              ((s.code (s.localIP + 1) % 256) &&& 127) S0)
              (((s.code (s.localIP + 1) % 256) &&& 127 : Nat) : Int))
            (c.instantiateClass s.memory c.ClassArray
              (((s.code (s.localIP + 1) % 256) &&& 127 : Nat) : Int)).1)
          (c.instantiateClass s.memory c.ClassArray
            (((s.code (s.localIP + 1) % 256) &&& 127 : Nat) : Int)).1) ∧
    (¬ s.code (s.localIP + 1) % 256 > 127 →
      pushNewArrayBytecode c s
        = internalPush (omni_set_domain_for_new_object c S0
            (c.instantiateClass s.memory c.ClassArray
              (((s.code (s.localIP + 1) % 256) &&& 127 : Nat) : Int)).1)
          (c.instantiateClass s.memory c.ClassArray
            (((s.code (s.localIP + 1) % 256) &&& 127 : Nat) : Int)).1) := by
  have hext : ∀ x : Squeak_Interpreter, (externalizeExecutionState x).memory = x.memory :=
    fun _ => rfl
  have hfetch : ∀ x : Squeak_Interpreter, (fetchNextBytecode x).memory = x.memory :=
    fun _ => rfl
  constructor
  · intro hb
    unfold pushNewArrayBytecode
    simp only [fetchByte, hext, hfetch, hb, decide_True, if_true, hS0]
  · intro hb
    unfold pushNewArrayBytecode
    simp only [fetchByte, hext, hfetch, hb, decide_False, Bool.false_eq_true, if_false, hS0]

/-- C35. `pushNewArrayBytecode` with operand byte `b` instantiates the array class with size
`n = b & 127` and ends with that array on top of the stack. If `b > 127` (bit 7 set), element
`i` of the array is, for every `i < n`, the operand that was at stack depth `n - 1 - i`, and
the stack pointer ends at its old value minus `n` plus one, the array standing in the slot it
points to and no other slot changed. Otherwise the stack pointer ends one above its old
value, the array stands in the new slot, no other slot is changed and the elements of the
array are as the instantiation left them. -/
theorem pushNewArrayBytecode_elements (c : Config) (s : Squeak_Interpreter) :
    ((s.code (s.localIP + 1) % 256) &&& 127 = s.code (s.localIP + 1) % 256 % 128 ∧
      (s.code (s.localIP + 1) % 256 > 127 ↔ (s.code (s.localIP + 1) % 256).testBit 7 = true)) ∧
    ((∃ rest, (pushNewArrayBytecode c s).log
        = s.log ++ Event.fetchNextBytecode ::
            Event.instantiateClass c.ClassArray
              (((s.code (s.localIP + 1) % 256) &&& 127 : Nat) : Int) :: rest) ∧
      internalStackTop (pushNewArrayBytecode c s)
        = (c.instantiateClass s.memory c.ClassArray
            (((s.code (s.localIP + 1) % 256) &&& 127 : Nat) : Int)).1) ∧
    (s.code (s.localIP + 1) % 256 > 127 →
      (∀ i : Nat, i < (s.code (s.localIP + 1) % 256) &&& 127 →
        ((pushNewArrayBytecode c s).memory
            (c.instantiateClass s.memory c.ClassArray
              (((s.code (s.localIP + 1) % 256) &&& 127 : Nat) : Int)).1).fields (i : Int)
          = internalStackValue s
              ((((s.code (s.localIP + 1) % 256) &&& 127 : Nat) : Int) - 1 - (i : Int))) ∧
      (pushNewArrayBytecode c s).localSP
        = s.localSP - (((s.code (s.localIP + 1) % 256) &&& 127 : Nat) : Int) + 1 ∧
      (pushNewArrayBytecode c s).stack
        = Function.update s.stack
            (s.localSP - (((s.code (s.localIP + 1) % 256) &&& 127 : Nat) : Int) + 1)
            (c.instantiateClass s.memory c.ClassArray
              (((s.code (s.localIP + 1) % 256) &&& 127 : Nat) : Int)).1) ∧
    (¬ s.code (s.localIP + 1) % 256 > 127 →
      (pushNewArrayBytecode c s).localSP = s.localSP + 1 ∧
      (pushNewArrayBytecode c s).stack
        = Function.update s.stack (s.localSP + 1)
            (c.instantiateClass s.memory c.ClassArray
              (((s.code (s.localIP + 1) % 256) &&& 127 : Nat) : Int)).1 ∧
      ((pushNewArrayBytecode c s).memory
          (c.instantiateClass s.memory c.ClassArray
            (((s.code (s.localIP + 1) % 256) &&& 127 : Nat) : Int)).1).fields
        = ((c.instantiateClass s.memory c.ClassArray
            (((s.code (s.localIP + 1) % 256) &&& 127 : Nat) : Int)).2
          (c.instantiateClass s.memory c.ClassArray
            (((s.code (s.localIP + 1) % 256) &&& 127 : Nat) : Int)).1).fields) := by
  have hmask : (s.code (s.localIP + 1) % 256) &&& 127 = s.code (s.localIP + 1) % 256 % 128 :=
    Nat.and_pow_two_sub_one_eq_mod _ 7
  have hbit : s.code (s.localIP + 1) % 256 > 127
      ↔ (s.code (s.localIP + 1) % 256).testBit 7 = true := by
    have hlt : s.code (s.localIP + 1) % 256 < 256 := Nat.mod_lt _ (by decide)
    rw [Nat.testBit_to_div_mod, decide_eq_true_eq]
    have h128 : (2 : Nat) ^ 7 = 128 := by norm_num
    rw [h128]
    omega
  have hext : ∀ x : Squeak_Interpreter, (externalizeExecutionState x).memory = x.memory :=
    fun _ => rfl
  have hfetch : ∀ x : Squeak_Interpreter, (fetchNextBytecode x).memory = x.memory :=
    fun _ => rfl
  generalize hS0 : internalizeExecutionState (record
      { externalizeExecutionState (fetchNextBytecode { s with localIP := s.localIP + 1 })
        with memory := (c.instantiateClass s.memory c.ClassArray
          (((s.code (s.localIP + 1) % 256) &&& 127 : Nat) : Int)).2 }
      (Event.instantiateClass c.ClassArray
        (((s.code (s.localIP + 1) % 256) &&& 127 : Nat) : Int))) = S0
  obtain ⟨hpop, hpush⟩ := pushNewArrayBytecode_eq c s S0 hS0.symm
  have h1 : S0.stack = s.stack := by
    rw [← hS0]
    simp [internalizeExecutionState, record, externalizeExecutionState, fetchNextBytecode]
  have h2 : S0.localSP = s.localSP := by
    rw [← hS0]
    simp [internalizeExecutionState, record, externalizeExecutionState, fetchNextBytecode]
  have h3 : S0.memory = (c.instantiateClass s.memory c.ClassArray
      (((s.code (s.localIP + 1) % 256) &&& 127 : Nat) : Int)).2 := by
    rw [← hS0]
    simp [internalizeExecutionState, record, externalizeExecutionState, fetchNextBytecode]
  have h4 : S0.log = s.log ++ [Event.fetchNextBytecode,
      Event.instantiateClass c.ClassArray
        (((s.code (s.localIP + 1) % 256) &&& 127 : Nat) : Int)] := by
    rw [← hS0]
    simp [internalizeExecutionState, record, externalizeExecutionState, fetchNextBytecode]
  obtain ⟨a1, a2, a3⟩ := array_store_and_push c S0
    (c.instantiateClass s.memory c.ClassArray
      (((s.code (s.localIP + 1) % 256) &&& 127 : Nat) : Int)).1
    ((s.code (s.localIP + 1) % 256) &&& 127)
  obtain ⟨b1, b2, b3⟩ := array_push_only c S0
    (c.instantiateClass s.memory c.ClassArray
      (((s.code (s.localIP + 1) % 256) &&& 127 : Nat) : Int)).1
  refine ⟨⟨hmask, hbit⟩, ⟨?_, ?_⟩, ?_, ?_⟩
  · have key : ∀ (l : List Event), S0.log ++ l
        = s.log ++ Event.fetchNextBytecode ::
            Event.instantiateClass c.ClassArray
              (((s.code (s.localIP + 1) % 256) &&& 127 : Nat) : Int) :: l := by
      intro l; rw [h4, List.append_assoc]; rfl
    by_cases hb : s.code (s.localIP + 1) % 256 > 127
    · obtain ⟨rest, hrest⟩ := store_loop_log
        (c.instantiateClass s.memory c.ClassArray
          (((s.code (s.localIP + 1) % 256) &&& 127 : Nat) : Int)).1
        ((s.code (s.localIP + 1) % 256) &&& 127) S0 ((s.code (s.localIP + 1) % 256) &&& 127)
      have hlog : (storeArrayValues
          (c.instantiateClass s.memory c.ClassArray
            (((s.code (s.localIP + 1) % 256) &&& 127 : Nat) : Int)).1
          ((s.code (s.localIP + 1) % 256) &&& 127) S0).log = S0.log ++ rest := hrest
      rw [hpop hb]
      simp only [internalPush, omni_set_domain_for_new_object, record, internalPop, hlog]
      rw [List.append_assoc]
      exact ⟨_, key _⟩
    · rw [hpush hb]
      simp only [internalPush, omni_set_domain_for_new_object, record]
      exact ⟨_, key _⟩
  · by_cases hb : s.code (s.localIP + 1) % 256 > 127
    · rw [hpop hb]; simp [internalStackTop, internalPush]
    · rw [hpush hb]; simp [internalStackTop, internalPush]
  · intro hb
    rw [hpop hb]
    refine ⟨?_, ?_, ?_⟩
    · intro i hi
      rw [a1 i hi, h1, h2]
      rfl
    · rw [a2, h2]
    · rw [a3, h1, h2]
  · intro hb
    rw [hpush hb]
    refine ⟨?_, ?_, ?_⟩
    · rw [b1, h2]
    · rw [b2, h1, h2]
    · rw [b3, h3]

/-- Witness of C35: operand byte 130 takes the two operands 3 and 4 into a two-element array
in stack order and leaves the array on the slot that held 3; operand byte 2 pushes the array
above the untouched stack. -/
theorem pushNewArrayBytecode_elements_witness :
    demoArrayInterpreter.code (demoArrayInterpreter.localIP + 1) % 256 > 127 ∧
      ¬ demoEmptyArrayInterpreter.code (demoEmptyArrayInterpreter.localIP + 1) % 256 > 127 ∧
      (pushNewArrayBytecode demoConfig demoArrayInterpreter).localSP
        = demoArrayInterpreter.localSP
          - (((demoArrayInterpreter.code (demoArrayInterpreter.localIP + 1) % 256) &&& 127
              : Nat) : Int) + 1 ∧
      (pushNewArrayBytecode demoConfig demoEmptyArrayInterpreter).localSP
        = demoEmptyArrayInterpreter.localSP + 1 ∧
      ((pushNewArrayBytecode demoConfig demoArrayInterpreter).memory ⟨604⟩).fields 0
        = Oop.from_int 3 ∧
      ((pushNewArrayBytecode demoConfig demoArrayInterpreter).memory ⟨604⟩).fields 1
        = Oop.from_int 4 :=
  ⟨by decide, by decide,
    ((pushNewArrayBytecode_elements demoConfig demoArrayInterpreter).2.2.1 (by decide)).2.1,
    ((pushNewArrayBytecode_elements demoConfig demoEmptyArrayInterpreter).2.2.2
      (by decide)).1,
    ((pushNewArrayBytecode_elements demoConfig demoArrayInterpreter).2.2.1 (by decide)).1 0
      (by decide),
    ((pushNewArrayBytecode_elements demoConfig demoArrayInterpreter).2.2.1 (by decide)).1 1
      (by decide)⟩

end OmniVM
